import Mathlib

/-!
Splitly: the ledger reconciliation engine.

A shallow embedding of the Convex functions of `src/convex/expenses.js`,
`src/convex/settlements.js` and `src/convex/dashboard.js`.

Conventions of the embedding:

* a JavaScript `number` is an exact rational (`ℚ`); the tolerance `0.01` is `1/100`;
  where the rounding of doubles or the values NaN and Infinity decide a property, the
  handler is embedded a second time on doubles (the definitions whose names end in `Fp`,
  `createExpenseError`, `createSettlementError`), with every sum rounded and added in
  the order of the source;
* a Convex document id is a natural number; an optional field is an `Option`;
  `getSettlementDataDoc` reads `ctx.db.get(args.entityId)` over every table, as its
  validator `v.string()` allows;
* the record store is a record of lists, each list in creation order, which is the
  order in which `collect()` yields the rows of a table or of an index range;
* the ambient current user (`internal.users.getCurrentUser`) is an explicit argument,
  and so is the current time (`Date.now()`, `new Date()`);
* a mutation returns an `Outcome`: the value or the error message it raised, and the
  store it leaves behind; a read is a function of the store, and the bodies of the read
  handlers are given once more as effects on the database and the clock (`Effect`).
-/

namespace Splitly

abbrev Id := Nat

/-- One entry of `expense.splits`. -/
structure Split where
  userId : Id
  amount : ℚ
  paid : Bool
deriving DecidableEq, Repr

/-- A row of the `expenses` table. -/
structure Expense where
  _id : Id
  description : String
  amount : ℚ
  category : String
  date : ℚ
  paidByUserId : Id
  splitType : String
  splits : List Split
  groupId : Option Id
  createdBy : Id
deriving DecidableEq, Repr

/-- A row of the `settlements` table. -/
structure Settlement where
  _id : Id
  amount : ℚ
  note : Option String
  date : ℚ
  paidByUserId : Id
  receivedByUserId : Id
  groupId : Option Id
  relatedExpenseIds : Option (List Id)
  createdBy : Id
deriving DecidableEq, Repr

/-- One entry of `group.members`. -/
structure Member where
  userId : Id
  role : String
deriving DecidableEq, Repr

/-- A row of the `groups` table. -/
structure Group where
  _id : Id
  name : String
  description : Option String
  members : List Member
deriving DecidableEq, Repr

/-- A row of the `users` table. -/
structure User where
  _id : Id
  name : String
  email : String
  imageUrl : Option String
deriving DecidableEq, Repr

/-- The record store: the four tables, each in creation order, and the next fresh id. -/
structure Store where
  users : List User
  groups : List Group
  expenses : List Expense
  settlements : List Settlement
  nextId : Id
deriving DecidableEq, Repr

/-- What a mutation leaves behind: its value or error, and the store. -/
structure Outcome (α : Type) where
  result : Except String α
  store : Store

/-- The constant `tolerance = 0.01` of `createExpense`. -/
def tolerance : ℚ := 1 / 100

/-- `ctx.db.get(id)` on the `groups` table. -/
def Store.getGroup (st : Store) (gid : Id) : Option Group :=
  st.groups.find? (fun g => g._id == gid)

/-- `ctx.db.get(id)` on the `users` table. -/
def Store.getUser (st : Store) (uid : Id) : Option User :=
  st.users.find? (fun u => u._id == uid)

/-- `ctx.db.insert("expenses", doc)`: the row gets a fresh id and goes last. -/
def Store.insertExpense (st : Store) (doc : Id → Expense) : Id × Store :=
  (st.nextId, { st with expenses := st.expenses ++ [doc st.nextId], nextId := st.nextId + 1 })

/-- `ctx.db.insert("settlements", doc)`: the row gets a fresh id and goes last. -/
def Store.insertSettlement (st : Store) (doc : Id → Settlement) : Id × Store :=
  (st.nextId, { st with settlements := st.settlements ++ [doc st.nextId], nextId := st.nextId + 1 })

/-! ## `createExpense` (expenses.js) -/

/-- The arguments of `createExpense`. -/
structure ExpenseArgs where
  description : String
  amount : ℚ
  category : Option String
  date : ℚ
  paidByUserId : Id
  splitType : String
  splits : List Split
  groupId : Option Id
deriving DecidableEq, Repr

/-- The block `if (args.groupId) { ... }` of `createExpense`: the message of the first
membership check that throws, if any. -/
def expenseGroupCheck (st : Store) (user : Id) (args : ExpenseArgs) : Option String :=
  match args.groupId with
  | none => none
  | some gid =>
    match st.getGroup gid with
    | none => some "Group not found"
    | some group =>
      let memberIds := group.members.map (fun m => m.userId)
      if !memberIds.contains user then some "You are not a member of this group"
      else if !memberIds.contains args.paidByUserId then
        some "Payer must be a member of the group"
      else if args.splits.any (fun s => !memberIds.contains s.userId) then
        some "All split participants must be group members"
      else none

/-- `args.splits.reduce((sum, split) => sum + split.amount, 0)`. -/
def totalSplitAmount (splits : List Split) : ℚ :=
  splits.foldl (fun sum split => sum + split.amount) 0

/-- `args.category || "Other"`: an absent or empty category becomes `"Other"`. -/
def categoryOrOther (category : Option String) : String :=
  match category with
  | none => "Other"
  | some c => if c = "" then "Other" else c

/-- The document `createExpense` inserts. -/
def expenseDoc (user : Id) (args : ExpenseArgs) (newId : Id) : Expense :=
  { _id := newId
    description := args.description
    amount := args.amount
    category := categoryOrOther args.category
    date := args.date
    paidByUserId := args.paidByUserId
    splitType := args.splitType
    splits := args.splits
    groupId := args.groupId
    createdBy := user }

/-- The handler of `createExpense`, for the current user `user`. -/
def createExpense (st : Store) (user : Id) (args : ExpenseArgs) : Outcome Id :=
  if args.amount ≤ 0 then ⟨.error "Amount must be greater than zero", st⟩
  else if !(["equal", "percentage", "exact"].contains args.splitType) then
    ⟨.error "Invalid split type", st⟩
  else if args.splits.any (fun s => decide (s.amount ≤ 0)) then
    ⟨.error "Each split amount must be greater than zero", st⟩
  else
    match expenseGroupCheck st user args with
    | some msg => ⟨.error msg, st⟩
    | none =>
      let callerIsPayer := args.paidByUserId == user
      let callerInSplits := args.splits.any (fun s => s.userId == user)
      if !callerIsPayer && !callerInSplits then
        ⟨.error "You must be the payer or included in the splits", st⟩
      else if |totalSplitAmount args.splits - args.amount| > tolerance then
        ⟨.error "Split amounts must add up to the total expense amount", st⟩
      else
        let (expenseId, st') := st.insertExpense (expenseDoc user args)
        ⟨.ok expenseId, st'⟩

/-! ## Index ranges shared by the settlement validator and the pairwise view -/

/-- The index range `by_user_and_group` of `expenses` with `paidByUserId = uid` and
`groupId = undefined`. -/
def Store.expensesPaidBy (st : Store) (uid : Id) : List Expense :=
  st.expenses.filter (fun e => e.paidByUserId == uid && e.groupId.isNone)

/-- The index range `by_user_and_group` of `settlements` with `paidByUserId = uid` and
`groupId = undefined`. -/
def Store.settlementsPaidBy (st : Store) (uid : Id) : List Settlement :=
  st.settlements.filter (fun s => s.paidByUserId == uid && s.groupId.isNone)

/-- `splits.find((s) => s.userId === uid && !s.paid)`. -/
def findUnpaidSplit (splits : List Split) (uid : Id) : Option Split :=
  splits.find? (fun s => s.userId == uid && !s.paid)

/-! ## `createSettlement` (settlements.js) -/

/-- The arguments of `createSettlement`. -/
structure SettlementArgs where
  amount : ℚ
  note : Option String
  paidByUserId : Id
  receivedByUserId : Id
  groupId : Option Id
  relatedExpenseIds : Option (List Id)
deriving DecidableEq, Repr

/-- The first loop of `createSettlement`: `net` after replaying the expenses. -/
def netFromExpenses (payer receiver : Id) (expenses : List Expense) : ℚ :=
  expenses.foldl
    (fun net exp =>
      if exp.paidByUserId = payer then
        match findUnpaidSplit exp.splits receiver with
        | some split => net + split.amount
        | none => net
      else if exp.paidByUserId = receiver then
        match findUnpaidSplit exp.splits payer with
        | some split => net - split.amount
        | none => net
      else net)
    0

/-- The second loop of `createSettlement`: `net` after replaying the prior settlements. -/
def applyPriorSettlements (payer : Id) (net : ℚ) (priorSettlements : List Settlement) : ℚ :=
  priorSettlements.foldl
    (fun net st => if st.paidByUserId = payer then net - st.amount else net + st.amount)
    net

/-- The list `priorSettlements` of `createSettlement`. -/
def priorSettlements (st : Store) (payer receiver : Id) : List Settlement :=
  (st.settlementsPaidBy payer).filter (fun s => s.receivedByUserId == receiver)
    ++ (st.settlementsPaidBy receiver).filter (fun s => s.receivedByUserId == payer)

/-- The value of `net` when `createSettlement` reaches `Math.abs(net)`. -/
def settlementNet (st : Store) (payer receiver : Id) : ℚ :=
  let expenses := st.expensesPaidBy payer ++ st.expensesPaidBy receiver
  applyPriorSettlements payer (netFromExpenses payer receiver expenses)
    (priorSettlements st payer receiver)

/-- The block `if (!isGroup) { ... }` of `createSettlement`: the message it throws, if any. -/
def outstandingCheck (st : Store) (args : SettlementArgs) : Option String :=
  let isGroup := args.groupId.isSome
  if !isGroup then
    let availableToSettle := |settlementNet st args.paidByUserId args.receivedByUserId|
    if availableToSettle ≤ 0 then some "No outstanding balance to settle"
    else if args.amount > availableToSettle + 1 / 100 then
      some "Settlement amount exceeds outstanding balance"
    else none
  else none

/-- The block `if (args.groupId) { ... }` of `createSettlement`: the message it throws,
if any. -/
def settlementGroupCheck (st : Store) (args : SettlementArgs) : Option String :=
  match args.groupId with
  | none => none
  | some gid =>
    match st.getGroup gid with
    | none => some "Group not found"
    | some group =>
      let isMember := fun (uid : Id) => group.members.any (fun m => m.userId == uid)
      if !isMember args.paidByUserId || !isMember args.receivedByUserId then
        some "Both parties must be members of the group"
      else none

/-- The document `createSettlement` inserts; `now` is `Date.now()`. -/
def settlementDoc (caller : Id) (now : ℚ) (args : SettlementArgs) (newId : Id) : Settlement :=
  { _id := newId
    amount := args.amount
    note := args.note
    date := now
    paidByUserId := args.paidByUserId
    receivedByUserId := args.receivedByUserId
    groupId := args.groupId
    relatedExpenseIds := args.relatedExpenseIds
    createdBy := caller }

/-- The handler of `createSettlement`, for the current user `caller` at time `now`. -/
def createSettlement (st : Store) (caller : Id) (now : ℚ) (args : SettlementArgs) :
    Outcome Id :=
  if args.amount ≤ 0 then ⟨.error "Amount must be positive", st⟩
  else if args.paidByUserId = args.receivedByUserId then
    ⟨.error "Payer and receiver cannot be the same user", st⟩
  else if caller ≠ args.paidByUserId ∧ caller ≠ args.receivedByUserId then
    ⟨.error "You must be either the payer or the receiver", st⟩
  else
    match outstandingCheck st args with
    | some msg => ⟨.error msg, st⟩
    | none =>
      match settlementGroupCheck st args with
      | some msg => ⟨.error msg, st⟩
      | none =>
        let (settlementId, st') := st.insertSettlement (settlementDoc caller now args)
        ⟨.ok settlementId, st'⟩

/-! ## `getExpensesBetweenUsers` (expenses.js) -/

/-- `expenses.sort((a, b) => b.date - a.date)`: a stable sort, latest first. -/
def sortExpensesByDate (l : List Expense) : List Expense :=
  l.insertionSort (fun a b => b.date ≤ a.date)

/-- `settlements.sort((a, b) => b.date - a.date)`: a stable sort, latest first. -/
def sortSettlementsByDate (l : List Settlement) : List Settlement :=
  l.insertionSort (fun a b => b.date ≤ a.date)

/-- The filter of step 2 of `getExpensesBetweenUsers`: both users are involved. -/
def bothInvolved (me userId : Id) (e : Expense) : Bool :=
  let meInSplits := e.splits.any (fun s => s.userId == me)
  let themInSplits := e.splits.any (fun s => s.userId == userId)
  let meInvolved := e.paidByUserId == me || meInSplits
  let themInvolved := e.paidByUserId == userId || themInSplits
  meInvolved && themInvolved

/-- The list `expenses` of `getExpensesBetweenUsers`, after the sort. -/
def pairExpenses (st : Store) (me userId : Id) : List Expense :=
  let myPaid := st.expensesPaidBy me
  let theirPaid := st.expensesPaidBy userId
  let candidateExpenses := myPaid ++ theirPaid
  sortExpensesByDate (candidateExpenses.filter (bothInvolved me userId))

/-- The list `settlements` of `getExpensesBetweenUsers`, after the sort. -/
def pairSettlements (st : Store) (me userId : Id) : List Settlement :=
  sortSettlementsByDate
    (st.settlements.filter (fun s =>
      s.groupId.isNone &&
        ((s.paidByUserId == me && s.receivedByUserId == userId) ||
          (s.paidByUserId == userId && s.receivedByUserId == me))))

/-- The loop over `expenses` of step 4 of `getExpensesBetweenUsers`. -/
def balanceFromExpenses (me userId : Id) (balance : ℚ) (expenses : List Expense) : ℚ :=
  expenses.foldl
    (fun balance e =>
      if e.paidByUserId = me then
        match findUnpaidSplit e.splits userId with
        | some split => balance + split.amount
        | none => balance
      else
        match findUnpaidSplit e.splits me with
        | some split => balance - split.amount
        | none => balance)
    balance

/-- The loop over `settlements` of step 4 of `getExpensesBetweenUsers`. -/
def balanceFromSettlements (me : Id) (balance : ℚ) (settlements : List Settlement) : ℚ :=
  settlements.foldl
    (fun balance s => if s.paidByUserId = me then balance + s.amount else balance - s.amount)
    balance

/-- The value of `balance` at the end of step 4 of `getExpensesBetweenUsers`. -/
def pairBalance (st : Store) (me userId : Id) : ℚ :=
  balanceFromSettlements me (balanceFromExpenses me userId 0 (pairExpenses st me userId))
    (pairSettlements st me userId)

/-- The payload of `getExpensesBetweenUsers`. -/
structure PairView where
  expenses : List Expense
  settlements : List Settlement
  otherUser : User
  balance : ℚ
deriving DecidableEq, Repr

/-- The handler of `getExpensesBetweenUsers`, for the current user `me`. -/
def getExpensesBetweenUsers (st : Store) (me userId : Id) : Except String PairView :=
  if me = userId then .error "Cannot query yourself"
  else
    let expenses := pairExpenses st me userId
    let settlements := pairSettlements st me userId
    let balance := pairBalance st me userId
    match st.getUser userId with
    | none => .error "User not found"
    | some other =>
      .ok { expenses := expenses, settlements := settlements, otherUser := other,
            balance := balance }

/-! ## `getUserBalances` (dashboard.js) -/

/-- The object `balanceByUser`: its keys in insertion order, each with its running net. -/
abbrev Tally := List (Id × ℚ)

/-- `balanceByUser[uid]`, `none` standing for `undefined`. -/
def Tally.get (t : Tally) (uid : Id) : Option ℚ :=
  (t.find? (fun kv => kv.1 == uid)).map (fun kv => kv.2)

/-- `balanceByUser[uid] = v`: an existing key keeps its place, a new key goes last. -/
def Tally.set : Tally → Id → ℚ → Tally
  | [], uid, v => [(uid, v)]
  | (k, w) :: rest, uid, v =>
    if k = uid then (k, v) :: rest else (k, w) :: Tally.set rest uid v

/-- `x || 0` for a number or `undefined`. -/
def orZero (x : Option ℚ) : ℚ :=
  match x with
  | none => 0
  | some v => if v = 0 then 0 else v

/-- `balanceByUser[uid] = (balanceByUser[uid] || 0) + amount`. -/
def Tally.credit (t : Tally) (uid : Id) (amount : ℚ) : Tally :=
  t.set uid (orZero (t.get uid) + amount)

/-- `balanceByUser[uid] = (balanceByUser[uid] || 0) - amount`. -/
def Tally.debit (t : Tally) (uid : Id) (amount : ℚ) : Tally :=
  t.set uid (orZero (t.get uid) - amount)

/-- The filter that selects the expenses of `getUserBalances`. -/
def involvesUngrouped (user : Id) (e : Expense) : Bool :=
  e.groupId.isNone && (e.paidByUserId == user || e.splits.any (fun s => s.userId == user))

/-- One iteration of the loop `for (const e of expenses)` of `getUserBalances`. -/
def tallyExpense (user : Id) (balanceByUser : Tally) (e : Expense) : Tally :=
  let isPayer := e.paidByUserId == user
  let mySplit := e.splits.find? (fun s => s.userId == user)
  if isPayer then
    e.splits.foldl
      (fun t s => if s.userId == user || s.paid then t else t.credit s.userId s.amount)
      balanceByUser
  else
    match mySplit with
    | some ms => if !ms.paid then balanceByUser.debit e.paidByUserId ms.amount else balanceByUser
    | none => balanceByUser

/-- The filter that selects the settlements of `getUserBalances`. -/
def settlesUngrouped (user : Id) (s : Settlement) : Bool :=
  s.groupId.isNone && (s.paidByUserId == user || s.receivedByUserId == user)

/-- One iteration of the loop `for (const s of settlements)` of `getUserBalances`. -/
def tallySettlement (user : Id) (balanceByUser : Tally) (s : Settlement) : Tally :=
  if s.paidByUserId = user then balanceByUser.credit s.receivedByUserId s.amount
  else balanceByUser.debit s.paidByUserId s.amount

/-- The object `balanceByUser` when both loops of `getUserBalances` are done. -/
def balanceByUser (st : Store) (user : Id) : Tally :=
  let expenses := st.expenses.filter (involvesUngrouped user)
  let afterExpenses := expenses.foldl (tallyExpense user) []
  let settlements := st.settlements.filter (settlesUngrouped user)
  settlements.foldl (tallySettlement user) afterExpenses

/-- One entry of `oweDetails.youOwe` or `oweDetails.youAreOwedBy`. -/
structure OweEntry where
  userId : Id
  name : String
  imageUrl : Option String
  amount : ℚ
deriving DecidableEq, Repr

/-- The four accumulators of the loop over `Object.entries(balanceByUser)`. -/
structure Totals where
  youOwe : ℚ
  youAreOwed : ℚ
  youOweList : List OweEntry
  youAreOwedByList : List OweEntry
deriving DecidableEq, Repr

/-- The object `base` built for one entry of `balanceByUser`. -/
def baseEntry (st : Store) (entry : Id × ℚ) : OweEntry :=
  let counterpart := st.getUser entry.1
  { userId := entry.1
    name := (counterpart.map (fun u => u.name)).getD "Unknown"
    imageUrl := counterpart.bind (fun u => u.imageUrl)
    amount := |entry.2| }

/-- One iteration of the loop over `Object.entries(balanceByUser)`. -/
def classify (st : Store) (acc : Totals) (entry : Id × ℚ) : Totals :=
  let net := entry.2
  if |net| < 1 / 100 then acc
  else
    let base := baseEntry st entry
    if net > 0 then
      { acc with youAreOwed := acc.youAreOwed + net
                 youAreOwedByList := acc.youAreOwedByList ++ [base] }
    else
      { acc with youOwe := acc.youOwe + -net
                 youOweList := acc.youOweList ++ [base] }

/-- `list.sort((a, b) => b.amount - a.amount)`: a stable sort, largest first. -/
def sortByAmount (l : List OweEntry) : List OweEntry :=
  l.insertionSort (fun a b => b.amount ≤ a.amount)

/-- The result of `getUserBalances` (its `debugLog` trace left out); `youOweList` and
`youAreOwedByList` are `oweDetails.youOwe` and `oweDetails.youAreOwedBy`. -/
structure UserBalances where
  youOwe : ℚ
  youAreOwed : ℚ
  totalBalance : ℚ
  youOweList : List OweEntry
  youAreOwedByList : List OweEntry
deriving DecidableEq, Repr

/-- The handler of `getUserBalances`, for the current user `user`. -/
def getUserBalances (st : Store) (user : Id) : UserBalances :=
  let acc := (balanceByUser st user).foldl (classify st) ⟨0, 0, [], []⟩
  { youOwe := acc.youOwe
    youAreOwed := acc.youAreOwed
    totalBalance := acc.youAreOwed - acc.youOwe
    youOweList := sortByAmount acc.youOweList
    youAreOwedByList := sortByAmount acc.youAreOwedByList }

/-- The signed amount `getUserBalances` reports for a counterparty: its amount in
`youAreOwedBy`, or minus its amount in `youOwe`; `none` when it is in neither list. -/
def UserBalances.reported (r : UserBalances) (c : Id) : Option ℚ :=
  match r.youAreOwedByList.find? (fun b => b.userId == c) with
  | some b => some b.amount
  | none =>
    match r.youOweList.find? (fun b => b.userId == c) with
    | some b => some (-b.amount)
    | none => none

/-! ## Sample data -/

/-- Three users. -/
def sampleUsers : List User :=
  [⟨1, "U", "u@example.com", none⟩, ⟨2, "A", "a@example.com", none⟩,
   ⟨3, "B", "b@example.com", none⟩]

/-- An ungrouped expense of 20 paid by user 2, with an unpaid share of 10 for user 1. -/
def dinner : Expense :=
  { _id := 10, description := "dinner", amount := 20, category := "Food", date := 1,
    paidByUserId := 2, splitType := "equal",
    splits := [⟨1, 10, false⟩, ⟨2, 10, false⟩], groupId := none, createdBy := 2 }

/-- The store with the three users and nothing else. -/
def emptyStore : Store :=
  { users := sampleUsers, groups := [], expenses := [], settlements := [], nextId := 10 }

/-- The store after user 2 recorded `dinner`: user 1 owes user 2 the amount 10. -/
def dinnerStore : Store :=
  { users := sampleUsers, groups := [], expenses := [dinner], settlements := [],
    nextId := 11 }

/-- User 1 pays user 2 the amount 10, ungrouped. -/
def repay10 : SettlementArgs :=
  { amount := 10, note := none, paidByUserId := 1, receivedByUserId := 2, groupId := none,
    relatedExpenseIds := none }

/-- The store after user 1 repaid the 10 of `dinner` to user 2. -/
def settledStore : Store :=
  (createSettlement dinnerStore 1 2 repay10).store

/-- A draft of `dinner`, as user 2 submits it. -/
def dinnerArgs : ExpenseArgs :=
  { description := "dinner", amount := 20, category := some "Food", date := 1,
    paidByUserId := 2, splitType := "equal",
    splits := [⟨1, 10, false⟩, ⟨2, 10, false⟩], groupId := none }

/-- The same draft with no category. -/
def plainArgs : ExpenseArgs := { dinnerArgs with category := none }

/-- A draft whose amount is not positive. -/
def zeroArgs : ExpenseArgs := { dinnerArgs with amount := 0 }

/-- User 1 tries to pay user 2 the amount 15, ungrouped. -/
def repay15 : SettlementArgs := { repay10 with amount := 15 }

/-- User 1 pays user 2 the amount 20, ungrouped. -/
def repay20 : SettlementArgs := { repay10 with amount := 20 }

/-- User 2, who is owed 10 by user 1, pays user 1 the amount 10, ungrouped. -/
def wrongWay10 : SettlementArgs :=
  { amount := 10, note := none, paidByUserId := 2, receivedByUserId := 1, groupId := none,
    relatedExpenseIds := none }

/-! ## Auxiliary predicates and terms used by the statements -/

deriving instance DecidableEq for Except

/-- The draft passes every check of `createExpense`. -/
def ExpenseArgs.passes (st : Store) (user : Id) (args : ExpenseArgs) : Prop :=
  0 < args.amount ∧ args.splitType ∈ ["equal", "percentage", "exact"] ∧
    (∀ s ∈ args.splits, 0 < s.amount) ∧ expenseGroupCheck st user args = none ∧
    (args.paidByUserId = user ∨ ∃ s ∈ args.splits, s.userId = user) ∧
    |totalSplitAmount args.splits - args.amount| ≤ tolerance


/-- The amount of the first unpaid split of `uid` in `splits`, or 0 when there is none. -/
def owedBy (splits : List Split) (uid : Id) : ℚ :=
  match findUnpaidSplit splits uid with
  | some split => split.amount
  | none => 0

/-- What one stored expense adds to the pairwise balance of `me` against `userId`. -/
def pairShare (me userId : Id) (e : Expense) : ℚ :=
  if e.groupId = none then
    if e.paidByUserId = me then owedBy e.splits userId
    else if e.paidByUserId = userId then - owedBy e.splits me
    else 0
  else 0

/-- What one stored settlement adds to the pairwise balance of `me` against `userId`. -/
def pairPaid (me userId : Id) (s : Settlement) : ℚ :=
  if s.groupId = none then
    if s.paidByUserId = me ∧ s.receivedByUserId = userId then s.amount
    else if s.paidByUserId = userId ∧ s.receivedByUserId = me then - s.amount
    else 0
  else 0


/-- The running net of `uid` in `balanceByUser`, 0 for a key that is not there. -/
def Tally.net (t : Tally) (uid : Id) : ℚ := orZero (t.get uid)

/-- What one iteration of the expense loop of `getUserBalances` adds to the net of `c`. -/
def dashShare (user c : Id) (e : Expense) : ℚ :=
  if e.paidByUserId = user then
    (e.splits.map (fun s =>
      if s.userId = user ∨ s.paid = true then 0 else if s.userId = c then s.amount else 0)).sum
  else
    match e.splits.find? (fun s => s.userId == user) with
    | some ms => if ms.paid = false ∧ e.paidByUserId = c then - ms.amount else 0
    | none => 0

/-- What one iteration of the settlement loop of `getUserBalances` adds to the net
of `c`. -/
def dashPaid (user c : Id) (s : Settlement) : ℚ :=
  if s.paidByUserId = user then (if s.receivedByUserId = c then s.amount else 0)
  else (if s.paidByUserId = c then - s.amount else 0)

/-- An entry of `balanceByUser` that goes to `youAreOwedByList`. -/
def isOwedEntry (entry : Id × ℚ) : Bool :=
  !decide (|entry.2| < 1 / 100) && decide (entry.2 > 0)

/-- An entry of `balanceByUser` that goes to `youOweList`. -/
def isOweEntry (entry : Id × ℚ) : Bool :=
  !decide (|entry.2| < 1 / 100) && !decide (entry.2 > 0)

/-- An ungrouped expense of 1/200 paid by user 1, all of it the unpaid share of user 2. -/
def gum : Expense :=
  { _id := 10, description := "gum", amount := 1 / 200, category := "Other", date := 1,
    paidByUserId := 1, splitType := "exact",
    splits := [⟨2, 1 / 200, false⟩], groupId := none, createdBy := 1 }

/-- The store that holds `gum` and nothing else. -/
def gumStore : Store :=
  { users := sampleUsers, groups := [], expenses := [gum], settlements := [], nextId := 11 }

/-- The draft of `gum`, as user 1 submits it. -/
def gumArgs : ExpenseArgs :=
  { description := "gum", amount := 1 / 200, category := none, date := 1,
    paidByUserId := 1, splitType := "exact", splits := [⟨2, 1 / 200, false⟩],
    groupId := none }

/-- An ungrouped expense of 30 paid by user 1 that lists user 2 in two unpaid splits. -/
def twice : Expense :=
  { _id := 10, description := "twice", amount := 30, category := "Other", date := 1,
    paidByUserId := 1, splitType := "exact",
    splits := [⟨2, 10, false⟩, ⟨2, 20, false⟩], groupId := none, createdBy := 1 }

/-- The store that holds `twice` and nothing else. -/
def twiceStore : Store :=
  { users := sampleUsers, groups := [], expenses := [twice], settlements := [], nextId := 11 }

/-! ## `getSettlementData` (settlements.js) -/

/-- One iteration of the expense loop of the 'user' branch of `getSettlementData`. -/
def userModeExpenseStep (me other : Id) (netBalance : ℚ) (exp : Expense) : ℚ :=
  let involvesMe := exp.paidByUserId == me || exp.splits.any (fun s => s.userId == me)
  let involvesThem := exp.paidByUserId == other || exp.splits.any (fun s => s.userId == other)
  if !involvesMe || !involvesThem then netBalance
  else
    let afterCase1 :=
      if exp.paidByUserId = me then
        match findUnpaidSplit exp.splits other with
        | some split => netBalance + split.amount
        | none => netBalance
      else netBalance
    if exp.paidByUserId = other then
      match findUnpaidSplit exp.splits me with
      | some split => afterCase1 - split.amount
      | none => afterCase1
    else afterCase1

/-- One iteration of the settlement loop of the 'user' branch of `getSettlementData`. -/
def userModeSettlementStep (me : Id) (netBalance : ℚ) (st : Settlement) : ℚ :=
  if st.paidByUserId = me then netBalance + st.amount else netBalance - st.amount

/-- The value of `netBalance` at the end of the 'user' branch of `getSettlementData`. -/
def userModeNet (st : Store) (me other : Id) : ℚ :=
  let expenses := st.expensesPaidBy me ++ st.expensesPaidBy other
  let afterExpenses := expenses.foldl (userModeExpenseStep me other) 0
  let settlements := st.settlementsPaidBy me ++ st.settlementsPaidBy other
  settlements.foldl (userModeSettlementStep me) afterExpenses

/-- The statement `balances[uid] += amount`, which the 'group' branch only runs under the
guard `balances[uid] !== undefined`; an absent key leaves the object as it is. -/
def Tally.increase (t : Tally) (uid : Id) (amount : ℚ) : Tally :=
  match t.get uid with
  | some v => t.set uid (v + amount)
  | none => t

/-- The statement `balances[uid] -= amount`, which the 'group' branch only runs under the
guard `balances[uid] !== undefined`; an absent key leaves the object as it is. -/
def Tally.decrease (t : Tally) (uid : Id) (amount : ℚ) : Tally :=
  match t.get uid with
  | some v => t.set uid (v - amount)
  | none => t

/-- The object `balances` after `group.members.forEach(...)`: a zero for every member
other than the caller. -/
def initBalances (me : Id) (members : List Member) : Tally :=
  members.foldl (fun balances m => if m.userId ≠ me then balances.set m.userId 0 else balances) []

/-- One iteration of the expense loop of the 'group' branch of `getSettlementData`. -/
def groupExpenseStep (me : Id) (balances : Tally) (exp : Expense) : Tally :=
  if exp.paidByUserId = me then
    exp.splits.foldl
      (fun balances split =>
        if split.userId ≠ me ∧ split.paid = false then
          if (balances.get split.userId).isSome then balances.increase split.userId split.amount
          else balances
        else balances)
      balances
  else if (balances.get exp.paidByUserId).isSome then
    match findUnpaidSplit exp.splits me with
    | some split => balances.decrease exp.paidByUserId split.amount
    | none => balances
  else balances

/-- One iteration of the settlement loop of the 'group' branch of `getSettlementData`. -/
def groupSettlementStep (me : Id) (balances : Tally) (st : Settlement) : Tally :=
  let afterPaid :=
    if st.paidByUserId = me ∧ (balances.get st.receivedByUserId).isSome then
      balances.increase st.receivedByUserId st.amount
    else balances
  if st.receivedByUserId = me ∧ (afterPaid.get st.paidByUserId).isSome then
    afterPaid.decrease st.paidByUserId st.amount
  else afterPaid

/-- The index range `by_group` of `expenses` for one group. -/
def Store.expensesOfGroup (st : Store) (gid : Id) : List Expense :=
  st.expenses.filter (fun e => e.groupId == some gid)

/-- The settlements with `groupId` equal to the id of one group. -/
def Store.settlementsOfGroup (st : Store) (gid : Id) : List Settlement :=
  st.settlements.filter (fun s => s.groupId == some gid)

/-- The object `balances` when both loops of the 'group' branch are done. -/
def groupBalances (st : Store) (me : Id) (group : Group) : Tally :=
  let expenses := st.expensesOfGroup group._id
  let balances := initBalances me group.members
  let afterExpenses := expenses.foldl (groupExpenseStep me) balances
  let settlements := st.settlementsOfGroup group._id
  settlements.foldl (groupSettlementStep me) afterExpenses

/-- One record of the list `balances` returned by the 'group' branch. -/
structure MemberBalance where
  userId : Id
  name : String
  imageUrl : Option String
  youAreOwed : ℚ
  youOwe : ℚ
  netBalance : ℚ
deriving DecidableEq, Repr

/-- The record built for one key of `balances`; `m?.name || "Unknown"` turns a missing
user and an empty name into "Unknown". -/
def memberRecord (st : Store) (entry : Id × ℚ) : MemberBalance :=
  let m := st.getUser entry.1
  let net := entry.2
  { userId := entry.1
    name := match m with
      | some u => if u.name = "" then "Unknown" else u.name
      | none => "Unknown"
    imageUrl := m.bind (fun u => u.imageUrl)
    youAreOwed := max 0 net
    youOwe := max 0 (-net)
    netBalance := net }

/-- The field `group` of the result of the 'group' branch. -/
structure GroupInfo where
  id : Id
  name : String
  description : Option String
deriving DecidableEq, Repr

/-- The result of `getSettlementData`: the 'user' shape or the 'group' shape. -/
inductive SettlementData where
  | user (counterpart : User) (youAreOwed youOwe netBalance : ℚ)
  | group (group : GroupInfo) (balances : List MemberBalance)
deriving DecidableEq, Repr

/-- The handler of `getSettlementData`, for the current user `me`. -/
def getSettlementData (st : Store) (me : Id) (entityType : String) (entityId : Id) :
    Except String SettlementData :=
  if entityType = "user" then
    match st.getUser entityId with
    | none => .error "User not found"
    | some other =>
      let netBalance := userModeNet st me other._id
      .ok (.user other (max 0 netBalance) (max 0 (-netBalance)) netBalance)
  else if entityType = "group" then
    match st.getGroup entityId with
    | none => .error "Group not found"
    | some group =>
      let isMember := group.members.any (fun m => m.userId == me)
      if !isMember then .error "You are not a member of this group"
      else
        let list := (groupBalances st me group).map (memberRecord st)
        .ok (.group ⟨group._id, group.name, group.description⟩ list)
  else .error "Invalid entityType; expected 'user' or 'group'"

/-- The `netBalance` of a 'user' result. -/
def SettlementData.netBalance? : SettlementData → Option ℚ
  | .user _ _ _ netBalance => some netBalance
  | .group _ _ => none

/-- The list `balances` of a 'group' result. -/
def SettlementData.balances? : SettlementData → Option (List MemberBalance)
  | .user _ _ _ _ => none
  | .group _ balances => some balances

/-! ## `getUserGroups` (dashboard.js) -/

/-- One iteration of `expenses.forEach` of `getUserGroups`. -/
def groupScalarExpenseStep (user : Id) (balance : ℚ) (expense : Expense) : ℚ :=
  if expense.paidByUserId = user then
    expense.splits.foldl
      (fun balance split =>
        if split.userId ≠ user ∧ split.paid = false then balance + split.amount else balance)
      balance
  else
    match expense.splits.find? (fun split => split.userId == user) with
    | some userSplit => if userSplit.paid = false then balance - userSplit.amount else balance
    | none => balance

/-- One iteration of `settlements.forEach` of `getUserGroups`. -/
def groupScalarSettlementStep (user : Id) (balance : ℚ) (settlement : Settlement) : ℚ :=
  if settlement.paidByUserId = user then balance + settlement.amount
  else balance - settlement.amount

/-- The value of `balance` that `getUserGroups` computes for one group. -/
def groupScalarBalance (st : Store) (user : Id) (group : Group) : ℚ :=
  let expenses := st.expensesOfGroup group._id
  let afterExpenses := expenses.foldl (groupScalarExpenseStep user) 0
  let settlements := st.settlements.filter (fun s =>
    s.groupId == some group._id && (s.paidByUserId == user || s.receivedByUserId == user))
  settlements.foldl (groupScalarSettlementStep user) afterExpenses

/-- One element of the result of `getUserGroups`: the group, its `id` and its `balance`. -/
structure GroupSummary where
  group : Group
  id : Id
  balance : ℚ
deriving DecidableEq, Repr

/-- The handler of `getUserGroups`, for the current user `user`. -/
def getUserGroups (st : Store) (user : Id) : List GroupSummary :=
  let groups := st.groups.filter (fun group => group.members.any (fun m => m.userId == user))
  groups.map (fun group => ⟨group, group._id, groupScalarBalance st user group⟩)

/-! ## Sample data for the group views -/

/-- A group with the members 1, 2 and 3. -/
def trio : Group :=
  { _id := 100, name := "trio", description := none,
    members := [⟨1, "admin"⟩, ⟨2, "member"⟩, ⟨3, "member"⟩] }

/-- A group expense of 60 paid by user 1, split 20 each, all unpaid. -/
def hotel : Expense :=
  { _id := 10, description := "hotel", amount := 60, category := "Travel", date := 1,
    paidByUserId := 1, splitType := "equal",
    splits := [⟨1, 20, false⟩, ⟨2, 20, false⟩, ⟨3, 20, false⟩], groupId := some 100,
    createdBy := 1 }

/-- The store with the group `trio` and the expense `hotel`. -/
def hotelStore : Store :=
  { users := sampleUsers, groups := [trio], expenses := [hotel], settlements := [],
    nextId := 11 }

/-- An ungrouped expense of 30 paid by user 1, split 10 each; the shares of users 2 and 3
are unpaid. -/
def picnic : Expense :=
  { _id := 10, description := "picnic", amount := 30, category := "Food", date := 1,
    paidByUserId := 1, splitType := "equal",
    splits := [⟨1, 10, true⟩, ⟨2, 10, false⟩, ⟨3, 10, false⟩], groupId := none,
    createdBy := 1 }

/-- The store that holds `picnic` and nothing else. -/
def picnicStore : Store :=
  { users := sampleUsers, groups := [], expenses := [picnic], settlements := [],
    nextId := 11 }

/-- User 2 pays user 1 the amount 10, ungrouped. -/
def aPays10 : SettlementArgs :=
  { amount := 10, note := none, paidByUserId := 2, receivedByUserId := 1, groupId := none,
    relatedExpenseIds := none }

/-- An ungrouped expense of 20 paid by user 3, with an unpaid share of 10 for user 1. -/
def taxi : Expense :=
  { _id := 10, description := "taxi", amount := 20, category := "Travel", date := 1,
    paidByUserId := 3, splitType := "equal",
    splits := [⟨1, 10, false⟩, ⟨3, 10, false⟩], groupId := none, createdBy := 3 }

/-- The store that holds `taxi` and nothing else: user 1 owes user 3 the amount 10. -/
def taxiStore : Store :=
  { users := sampleUsers, groups := [], expenses := [taxi], settlements := [], nextId := 11 }

/-- User 1 pays user 3 the amount 10, ungrouped. -/
def repayTaxi : SettlementArgs :=
  { amount := 10, note := none, paidByUserId := 1, receivedByUserId := 3, groupId := none,
    relatedExpenseIds := none }

/-- The store after user 1 repaid the 10 of `taxi` to user 3. -/
def taxiPaidStore : Store :=
  (createSettlement taxiStore 1 2 repayTaxi).store

/-- The sum of `w k * v` over the entries `(k, v)` of a tally. -/
def Tally.weighted (w : Id → ℚ) (t : Tally) : ℚ :=
  (t.map (fun kv => w kv.1 * kv.2)).sum

/-- What one iteration of the expense loop of the 'group' branch adds to the weighted sum
of `balances`, whose keys are `ks`. -/
def groupShare (me : Id) (ks : List Id) (w : Id → ℚ) (e : Expense) : ℚ :=
  if e.paidByUserId = me then
    (e.splits.map (fun s =>
      if (s.userId ≠ me ∧ s.paid = false) ∧ s.userId ∈ ks then w s.userId * s.amount
      else 0)).sum
  else if e.paidByUserId ∈ ks then - (w e.paidByUserId * owedBy e.splits me)
  else 0

/-- What one iteration of the settlement loop of the 'group' branch adds to the weighted
sum of `balances`, whose keys are `ks`. -/
def groupPaid (me : Id) (ks : List Id) (w : Id → ℚ) (s : Settlement) : ℚ :=
  (if s.paidByUserId = me ∧ s.receivedByUserId ∈ ks then w s.receivedByUserId * s.amount
   else 0)
  - (if s.receivedByUserId = me ∧ s.paidByUserId ∈ ks then w s.paidByUserId * s.amount
     else 0)

/-! ## `deleteExpense` (expenses.js) -/

/-- `ctx.db.get(id)` on the `expenses` table. -/
def Store.getExpense (st : Store) (id : Id) : Option Expense :=
  st.expenses.find? (fun e => e._id == id)

/-- `ctx.db.delete(id)` on the `settlements` table: the row with that id is gone. -/
def Store.deleteSettlementDoc (st : Store) (id : Id) : Store :=
  { st with settlements := st.settlements.filter (fun s => s._id != id) }

/-- `ctx.db.patch(id, { relatedExpenseIds })` on the `settlements` table. -/
def Store.patchRelatedExpenseIds (st : Store) (id : Id) (ids : List Id) : Store :=
  { st with settlements := st.settlements.map (fun s =>
      if s._id = id then { s with relatedExpenseIds := some ids } else s) }

/-- `ctx.db.delete(id)` on the `expenses` table: the row with that id is gone. -/
def Store.deleteExpenseDoc (st : Store) (id : Id) : Store :=
  { st with expenses := st.expenses.filter (fun e => e._id != id) }

/-- The filter that selects `relatedSettlements` in `deleteExpense`. -/
def refersTo (expenseId : Id) (settlement : Settlement) : Bool :=
  match settlement.relatedExpenseIds with
  | some ids => ids.contains expenseId
  | none => false

/-- `settlement.relatedExpenseIds.filter((id) => id !== args.expenseId)`. -/
def updatedRelatedExpenseIds (expenseId : Id) (settlement : Settlement) : List Id :=
  (settlement.relatedExpenseIds.getD []).filter (fun id => id != expenseId)

/-- One iteration of the loop over `relatedSettlements` of `deleteExpense`. -/
def cascadeStep (expenseId : Id) (st : Store) (settlement : Settlement) : Store :=
  if (updatedRelatedExpenseIds expenseId settlement).length = 0 then
    st.deleteSettlementDoc settlement._id
  else
    st.patchRelatedExpenseIds settlement._id (updatedRelatedExpenseIds expenseId settlement)

/-- The handler of `deleteExpense`, for the current user `user`; the value `true` stands
for `{ success: true }`. -/
def deleteExpense (st : Store) (user : Id) (expenseId : Id) : Outcome Bool :=
  match st.getExpense expenseId with
  | none => ⟨.error "Expense not found", st⟩
  | some expense =>
    if expense.createdBy ≠ user ∧ expense.paidByUserId ≠ user then
      ⟨.error "You don't have permission to delete this expense", st⟩
    else
      let allSettlements := st.settlements
      let relatedSettlements := allSettlements.filter (refersTo expenseId)
      let afterCascade := relatedSettlements.foldl (cascadeStep expenseId) st
      ⟨.ok true, afterCascade.deleteExpenseDoc expenseId⟩

/-! ## `getRecentActivity` (dashboard.js) -/

/-- The index `by_date` read in descending order: latest date first and, among equal
dates, the row created last first. -/
def Store.expensesByDateDesc (st : Store) : List Expense :=
  st.expenses.reverse.insertionSort (fun a b => b.date ≤ a.date)

/-- The list `recentExpenses`: `.withIndex("by_date").order("desc").take(50)`. -/
def recentExpenses (st : Store) : List Expense :=
  st.expensesByDateDesc.take 50

/-- The filter of `getRecentActivity`: the user is the payer or a split participant. -/
def involvesUser (user : Id) (expense : Expense) : Bool :=
  expense.paidByUserId == user || expense.splits.any (fun split => split.userId == user)

/-- One element of the result of `getRecentActivity`: the expense, `payerName` and
`groupName` (`none` for `null` and for `undefined`). -/
structure Activity where
  expense : Expense
  payerName : String
  groupName : Option String
deriving DecidableEq, Repr

/-- The object built for one activity; `payer?.name || "Unknown"` turns a missing payer
and an empty name into "Unknown". -/
def enhance (st : Store) (activity : Expense) : Activity :=
  let payer := st.getUser activity.paidByUserId
  let groupName :=
    match activity.groupId with
    | some gid => (st.getGroup gid).map (fun group => group.name)
    | none => none
  { expense := activity
    payerName := match payer with
      | some p => if p.name = "" then "Unknown" else p.name
      | none => "Unknown"
    groupName := groupName }

/-- The handler of `getRecentActivity`, for the current user `user`. -/
def getRecentActivity (st : Store) (user : Id) : List Activity :=
  let activities := ((recentExpenses st).filter (involvesUser user)).take 20
  activities.map (enhance st)

/-! ## Sample data for the cascade -/

/-- A settlement that refers to the expense 10 alone. -/
def onlyDinner : Settlement :=
  { _id := 20, amount := 10, note := none, date := 2, paidByUserId := 1,
    receivedByUserId := 2, groupId := none, relatedExpenseIds := some [10], createdBy := 1 }

/-- A settlement that refers to the expenses 10 and 11. -/
def twoMeals : Settlement :=
  { _id := 21, amount := 5, note := none, date := 3, paidByUserId := 1,
    receivedByUserId := 2, groupId := none, relatedExpenseIds := some [10, 11],
    createdBy := 1 }

/-- A settlement that refers to no expense. -/
def looseChange : Settlement :=
  { _id := 22, amount := 1, note := none, date := 4, paidByUserId := 1,
    receivedByUserId := 2, groupId := none, relatedExpenseIds := none, createdBy := 1 }

/-- The store with `dinner` and the three settlements above. -/
def cascadeStore : Store :=
  { users := sampleUsers, groups := [], expenses := [dinner],
    settlements := [onlyDinner, twoMeals, looseChange], nextId := 30 }

/-- What the cascade of `deleteExpense` leaves of one settlement that refers to the
expense: nothing when no other reference remains, the settlement with the trimmed list
otherwise. -/
def cascadeDoc (expenseId : Id) (s : Settlement) : Option Settlement :=
  if (updatedRelatedExpenseIds expenseId s).length = 0 then none
  else some { s with relatedExpenseIds := some (updatedRelatedExpenseIds expenseId s) }

/-- User 1 pays user 2 the amount 1000 inside the group 100. -/
def groupPay : SettlementArgs :=
  { amount := 1000, note := none, paidByUserId := 1, receivedByUserId := 2,
    groupId := some 100, relatedExpenseIds := none }

/-- A store with `dinner` stored before `gum`. -/
def dinnerGumStore : Store :=
  { users := sampleUsers, groups := [], expenses := [dinner, gum], settlements := [],
    nextId := 12 }

/-- A store with `gum` stored before `dinner`. -/
def gumDinnerStore : Store :=
  { users := sampleUsers, groups := [], expenses := [gum, dinner], settlements := [],
    nextId := 12 }

/-- An ungrouped expense of 20 paid by user 2 whose splits are all marked paid. -/
def paidLunch : Expense :=
  { _id := 11, description := "lunch", amount := 20, category := "Food", date := 2,
    paidByUserId := 2, splitType := "equal",
    splits := [⟨1, 10, true⟩, ⟨2, 10, true⟩], groupId := none, createdBy := 2 }

/-! ## The checks of `createExpense`, listed one by one -/

/-- The draft names no group, or names a group that exists. -/
def draftGroupExists (st : Store) (args : ExpenseArgs) : Bool :=
  match args.groupId with
  | none => true
  | some gid => (st.getGroup gid).isSome

/-- The draft names no group, or `uid` is a member of the group it names. -/
def inDraftGroup (st : Store) (args : ExpenseArgs) (uid : Id) : Bool :=
  match args.groupId with
  | none => true
  | some gid =>
    match st.getGroup gid with
    | none => false
    | some group => group.members.any (fun m => m.userId == uid)

/-- The checks on a draft in the order the specification lists them, each with the
message of its failure; `true` says that the draft passes the check. -/
def checksInOrder (st : Store) (user : Id) (args : ExpenseArgs) : List (Bool × String) :=
  [ (decide (0 < args.amount), "Amount must be greater than zero"),
    (decide (args.splitType = "equal" ∨ args.splitType = "percentage" ∨
        args.splitType = "exact"), "Invalid split type"),
    (args.splits.all (fun s => decide (0 < s.amount)),
      "Each split amount must be greater than zero"),
    (draftGroupExists st args, "Group not found"),
    (inDraftGroup st args user, "You are not a member of this group"),
    (inDraftGroup st args args.paidByUserId, "Payer must be a member of the group"),
    (args.splits.all (fun s => inDraftGroup st args s.userId),
      "All split participants must be group members"),
    (args.paidByUserId == user || args.splits.any (fun s => s.userId == user),
      "You must be the payer or included in the splits"),
    (decide (|(args.splits.map (fun s => s.amount)).sum - args.amount| ≤ 1 / 100),
      "Split amounts must add up to the total expense amount") ]

/-- The message of the first check of `checksInOrder` that the draft fails, if any. -/
def firstFailure (st : Store) (user : Id) (args : ExpenseArgs) : Option String :=
  ((checksInOrder st user args).find? (fun c => !c.1)).map (fun c => c.2)

/-- A draft that fails every check that can fail together: amount 0, an unknown split
type, a split of 0, a group that does not exist, a caller who is not involved. -/
def hopelessArgs : ExpenseArgs :=
  { description := "none", amount := 0, category := none, date := 1, paidByUserId := 2,
    splitType := "thirds", splits := [⟨3, 0, false⟩], groupId := some 999 }

/-! ## Stores that differ in the `users` table only -/

/-- The store with another `users` table and the same groups, expenses and settlements. -/
def Store.withUsers (st : Store) (users : List User) : Store :=
  { st with users := users }

/-- The user id and the amount of an entry of `youOwe` or `youAreOwedBy`. -/
def OweEntry.figures (b : OweEntry) : Id × ℚ := (b.userId, b.amount)

/-- The user id and the three amounts of a record of the 'group' list. -/
def MemberBalance.figures (r : MemberBalance) : Id × ℚ × ℚ × ℚ :=
  (r.userId, r.youAreOwed, r.youOwe, r.netBalance)

/-- A store that knows user 1 only, with the group `trio`, the ungrouped expense `dinner`
and a copy of the group expense `hotel`: the records of users 2 and 3 are missing. -/
def strangerStore : Store :=
  { users := [⟨1, "U", "u@example.com", none⟩], groups := [trio],
    expenses := [dinner, { hotel with _id := 11 }], settlements := [], nextId := 12 }

/-- The draft with payer and receiver exchanged. -/
def SettlementArgs.reversed (args : SettlementArgs) : SettlementArgs :=
  { args with paidByUserId := args.receivedByUserId, receivedByUserId := args.paidByUserId }

/-! ## The calendar of `Date` (dashboard.js reads it through `new Date(...)`)

Time values are milliseconds since 1970-01-01T00:00:00Z, as in ECMA-262 (Time Values and
Time Range, Day Number, Year Number, Month Number, MakeDay and the `Date` constructor).
The time zone of the runtime is UTC, so local time is the time value itself; the bound
of 8.64e15 on the time values of `Date` is not modelled. -/

/-- The constant `msPerDay`. -/
def msPerDay : Int := 86400000

/-- The time value of `new Date(value)` for a number: its fraction is dropped
(`ToIntegerOrInfinity` truncates toward zero). -/
def toTimeValue (value : ℚ) : Int :=
  if 0 ≤ value then ⌊value⌋ else ⌈value⌉

/-- `Day(t) = floor(t / msPerDay)`. -/
def day (t : Int) : Int := t / msPerDay

/-- `DaysInYear(y) = 366`. -/
def inLeapYear (y : Int) : Bool :=
  if y % 4 ≠ 0 then false
  else if y % 100 ≠ 0 then true
  else if y % 400 ≠ 0 then false
  else true

/-- `DayFromYear(y)`: the day number of the first day of the year `y`. -/
def dayFromYear (y : Int) : Int :=
  365 * (y - 1970) + (y - 1969) / 4 - (y - 1901) / 100 + (y - 1601) / 400

/-- The year of a day number: the largest `y` with `DayFromYear(y) ≤ d`, found from
the mean length of a year and corrected by at most one. -/
def yearFromDay (d : Int) : Int :=
  let guess := 1970 + (d * 400) / 146097
  if dayFromYear (guess + 1) ≤ d then guess + 1
  else if dayFromYear guess ≤ d then guess
  else guess - 1

/-- `YearFromTime(t)`, which `getFullYear()` returns. -/
def getFullYear (t : Int) : Int := yearFromDay (day t)

/-- The number of days of a year that precede its month `m` (0 for January). -/
def daysBeforeMonth (leap : Bool) (m : Nat) : Int :=
  let l : Int := if leap then 1 else 0
  match m with
  | 0 => 0
  | 1 => 31
  | 2 => 59 + l
  | 3 => 90 + l
  | 4 => 120 + l
  | 5 => 151 + l
  | 6 => 181 + l
  | 7 => 212 + l
  | 8 => 243 + l
  | 9 => 273 + l
  | 10 => 304 + l
  | 11 => 334 + l
  | _ => 365 + l

/-- `MonthFromTime(t)`, which `getMonth()` returns: 0 for January up to 11 for December,
read off `DayWithinYear(t)`. -/
def getMonth (t : Int) : Nat :=
  let leap := inLeapYear (getFullYear t)
  let dayWithinYear := day t - dayFromYear (getFullYear t)
  if dayWithinYear < daysBeforeMonth leap 1 then 0
  else if dayWithinYear < daysBeforeMonth leap 2 then 1
  else if dayWithinYear < daysBeforeMonth leap 3 then 2
  else if dayWithinYear < daysBeforeMonth leap 4 then 3
  else if dayWithinYear < daysBeforeMonth leap 5 then 4
  else if dayWithinYear < daysBeforeMonth leap 6 then 5
  else if dayWithinYear < daysBeforeMonth leap 7 then 6
  else if dayWithinYear < daysBeforeMonth leap 8 then 7
  else if dayWithinYear < daysBeforeMonth leap 9 then 8
  else if dayWithinYear < daysBeforeMonth leap 10 then 9
  else if dayWithinYear < daysBeforeMonth leap 11 then 10
  else 11

/-- The year the `Date` constructor uses for its first argument: a year from 0 to 99
stands for 1900 to 1999. -/
def fullYear (year : Int) : Int :=
  if 0 ≤ year ∧ year ≤ 99 then 1900 + year else year

/-- `new Date(year, month, 1).getTime()`: midnight of the first day of a month; a month
number of 12 or more carries into the year, as in `MakeDay`. -/
def monthStartTime (year : Int) (month : Nat) : Int :=
  let ym := fullYear year + (month / 12 : Nat)
  let mn := month % 12
  msPerDay * (dayFromYear ym + daysBeforeMonth (inLeapYear ym) mn)

/-! ## `getTotalSpent` and `getMonthlySpending` (dashboard.js) -/

/-- The index range `by_date` of `expenses` with `date >= start`, in index order: earliest
date first and, among equal dates, the row created first. -/
def Store.expensesFrom (st : Store) (start : Int) : List Expense :=
  (st.expenses.insertionSort (fun a b => a.date ≤ b.date)).filter
    (fun e => decide ((start : ℚ) ≤ e.date))

/-- One iteration of `userExpenses.forEach` of `getTotalSpent`. -/
def totalSpentStep (user : Id) (totalSpent : ℚ) (expense : Expense) : ℚ :=
  match expense.splits.find? (fun split => split.userId == user) with
  | some userSplit => totalSpent + userSplit.amount
  | none => totalSpent

/-- The handler of `getTotalSpent`, for the current user `user`; `now` is the time value
of `new Date()`. -/
def getTotalSpent (st : Store) (user : Id) (now : Int) : ℚ :=
  let currentYear := getFullYear now
  let startOfYear := monthStartTime currentYear 0
  let expenses := st.expensesFrom startOfYear
  let userExpenses := expenses.filter (involvesUser user)
  userExpenses.foldl (totalSpentStep user) 0

/-- The object `monthlyTotals`: its keys, which are time values, in insertion order, each
with its running total. -/
abbrev MonthlyTotals := List (Int × ℚ)

/-- `monthlyTotals[key]`, `none` standing for `undefined`. -/
def MonthlyTotals.get (t : MonthlyTotals) (key : Int) : Option ℚ :=
  (t.find? (fun kv => kv.1 == key)).map (fun kv => kv.2)

/-- `monthlyTotals[key] = v`: an existing key keeps its place, a new key goes last. -/
def MonthlyTotals.set : MonthlyTotals → Int → ℚ → MonthlyTotals
  | [], key, v => [(key, v)]
  | (k, w) :: rest, key, v =>
    if k = key then (k, v) :: rest else (k, w) :: MonthlyTotals.set rest key v

/-- The object `monthlyTotals` after the loop `for (let i = 0; i < 12; i++)`. -/
def initMonthlyTotals (currentYear : Int) : MonthlyTotals :=
  (List.range 12).foldl
    (fun monthlyTotals i => monthlyTotals.set (monthStartTime currentYear i) 0) []

/-- One iteration of `userExpenses.forEach` of `getMonthlySpending`. -/
def monthlyStep (user : Id) (monthlyTotals : MonthlyTotals) (expense : Expense) :
    MonthlyTotals :=
  let date := toTimeValue expense.date
  let monthStart := monthStartTime (getFullYear date) (getMonth date)
  match expense.splits.find? (fun split => split.userId == user) with
  | some userSplit =>
    monthlyTotals.set monthStart (orZero (monthlyTotals.get monthStart) + userSplit.amount)
  | none => monthlyTotals

/-- A key that is an array index (an integer from 0 to 2^32 - 2): `Object.entries` lists
such keys first, in ascending order. -/
def isArrayIndex (key : Int) : Bool :=
  decide (0 ≤ key) && decide (key < 4294967295)

/-- `Object.entries(monthlyTotals)`: the array-index keys in ascending order, then the
other keys in insertion order. -/
def objectEntries (t : MonthlyTotals) : List (Int × ℚ) :=
  (t.filter (fun kv => isArrayIndex kv.1)).insertionSort (fun a b => a.1 ≤ b.1)
    ++ t.filter (fun kv => !isArrayIndex kv.1)

/-- One element of the result of `getMonthlySpending`. -/
structure MonthTotal where
  month : Int
  total : ℚ
deriving DecidableEq, Repr

/-- The object `monthlyTotals` of `getMonthlySpending` when its loops are done. -/
def monthlyTotals (st : Store) (user : Id) (now : Int) : MonthlyTotals :=
  let currentYear := getFullYear now
  let startOfYear := monthStartTime currentYear 0
  let allExpenses := st.expensesFrom startOfYear
  let userExpenses := allExpenses.filter (involvesUser user)
  userExpenses.foldl (monthlyStep user) (initMonthlyTotals currentYear)

/-- The handler of `getMonthlySpending`, for the current user `user`; `now` is the time
value of `new Date()`. -/
def getMonthlySpending (st : Store) (user : Id) (now : Int) : List MonthTotal :=
  let result := (objectEntries (monthlyTotals st user now)).map
    (fun kv => (⟨kv.1, kv.2⟩ : MonthTotal))
  result.insertionSort (fun a b => a.month ≤ b.month)

/-- An ungrouped expense of 20 paid by user 2 and dated 15 March 2026, with an unpaid
share of 10 for user 1. -/
def marchDinner : Expense := { dinner with _id := 10, date := 1773532800000 }

/-- An ungrouped expense of 20 paid by user 2 and dated 10 February 2027, with an unpaid
share of 10 for user 1. -/
def nextYearDinner : Expense := { dinner with _id := 11, date := 1802217600000 }

/-- The store with `marchDinner` and nothing else. -/
def marchStore : Store :=
  { users := sampleUsers, groups := [], expenses := [marchDinner], settlements := [],
    nextId := 11 }

/-- The store with `marchDinner` and `nextYearDinner`. -/
def plannedStore : Store :=
  { users := sampleUsers, groups := [], expenses := [marchDinner, nextYearDinner],
    settlements := [], nextId := 12 }

/-- The time value of 5 November 2026, 00:00 UTC. -/
def november2026 : Int := 1793836800000

/-- The draft of `nextYearDinner`, as user 2 submits it. -/
def nextYearArgs : ExpenseArgs := { dinnerArgs with date := 1802217600000 }

/-! ## Double-precision numbers

A JavaScript `number` is an IEEE-754 double. The second embedding below keeps the
rounding of every addition and subtraction: a finite double is the rational it stands
for, and a sum is rounded to 53 significant bits, to nearest, ties to even. The bounds
on the exponent are left out for the finite values (sums are taken to stay in the range
of the finite doubles; an addition of doubles is exact in the subnormal range). -/

/-- The number `n` without its factors of two (`fuel` bounds the halvings). -/
def oddPartAux : Nat → Nat → Nat
  | 0, n => n
  | fuel + 1, n => if n ≠ 0 ∧ n % 2 = 0 then oddPartAux fuel (n / 2) else n

/-- The odd part of `n`: `n` without its factors of two. -/
def oddPart (n : Nat) : Nat := oddPartAux n n

/-- The number of binary digits of `n` (`fuel` bounds the halvings). -/
def bitLengthAux : Nat → Nat → Nat
  | 0, _ => 0
  | fuel + 1, n => if n = 0 then 0 else bitLengthAux fuel (n / 2) + 1

/-- The number of binary digits of `n`. -/
def bitLength (n : Nat) : Nat := bitLengthAux n n

/-- The rational is a double: a dyadic number whose significand fits in 53 bits. -/
def isDouble (q : ℚ) : Bool :=
  oddPart q.den == 1 && decide (oddPart q.num.natAbs < 2 ^ 53)

/-- The power `2 ^ e` for an integer exponent. -/
def pow2 (e : Int) : ℚ :=
  if 0 ≤ e then ((2 ^ e.toNat : Nat) : ℚ) else 1 / ((2 ^ (-e).toNat : Nat) : ℚ)

/-- A positive rational rounded to 53 significant bits, to nearest, ties to even. -/
def roundPos (q : ℚ) : ℚ :=
  let l : Int := (bitLength q.num.natAbs : Int) - (bitLength q.den : Int)
  let e : Int := (if pow2 l ≤ q then l else l - 1) - 52
  let scaled := q / pow2 e
  let lo : Int := ⌊scaled⌋
  let frac := scaled - lo
  let significand : Int :=
    if frac < 1 / 2 then lo
    else if 1 / 2 < frac then lo + 1
    else if lo % 2 = 0 then lo else lo + 1
  significand * pow2 e

/-- The double nearest to a rational, ties to even: what a numeric literal denotes and
what an exact sum becomes. -/
def roundDouble (q : ℚ) : ℚ :=
  if isDouble q then q else if q < 0 then - roundPos (-q) else roundPos q

/-- `a + b` on doubles. -/
def dadd (a b : ℚ) : ℚ := roundDouble (a + b)

/-- `a - b` on doubles. -/
def dsub (a b : ℚ) : ℚ := roundDouble (a - b)

/-- The sum of the magnitudes of the split amounts of an expense. -/
def Expense.volume (e : Expense) : ℚ :=
  (e.splits.map (fun s => |s.amount|)).sum

/-- The magnitude of the amount of a settlement. -/
def Settlement.volume (s : Settlement) : ℚ := |s.amount|

/-- The sum of the magnitudes of all split amounts and settlement amounts of a store. -/
def Store.volume (st : Store) : ℚ :=
  (st.expenses.map Expense.volume).sum + (st.settlements.map Settlement.volume).sum

/-- Every sum of stored amounts is exact in doubles: each split amount and each
settlement amount is an integer, and their magnitudes add up to 2^53 at most. -/
def Store.exactSums (st : Store) : Prop :=
  (∀ e ∈ st.expenses, ∀ s ∈ e.splits, s.amount.den = 1) ∧
    (∀ s ∈ st.settlements, s.amount.den = 1) ∧ st.volume ≤ 2 ^ 53

instance (st : Store) : Decidable st.exactSums := by
  unfold Store.exactSums
  infer_instance

/-! ## `getExpensesBetweenUsers` in doubles -/

/-- The loop over `expenses` of step 4 of `getExpensesBetweenUsers`, with `+=` and `-=`
on doubles. -/
def balanceFromExpensesFp (me userId : Id) (balance : ℚ) (expenses : List Expense) : ℚ :=
  expenses.foldl
    (fun balance e =>
      if e.paidByUserId = me then
        match findUnpaidSplit e.splits userId with
        | some split => dadd balance split.amount
        | none => balance
      else
        match findUnpaidSplit e.splits me with
        | some split => dsub balance split.amount
        | none => balance)
    balance

/-- The loop over `settlements` of step 4 of `getExpensesBetweenUsers`, on doubles. -/
def balanceFromSettlementsFp (me : Id) (balance : ℚ) (settlements : List Settlement) : ℚ :=
  settlements.foldl
    (fun balance s => if s.paidByUserId = me then dadd balance s.amount
      else dsub balance s.amount)
    balance

/-- The value of `balance` at the end of step 4 of `getExpensesBetweenUsers`, on
doubles: the additions run in the order of the sorted lists. -/
def pairBalanceFp (st : Store) (me userId : Id) : ℚ :=
  balanceFromSettlementsFp me (balanceFromExpensesFp me userId 0 (pairExpenses st me userId))
    (pairSettlements st me userId)

/-- The handler of `getExpensesBetweenUsers` with its balance computed on doubles. -/
def getExpensesBetweenUsersFp (st : Store) (me userId : Id) : Except String PairView :=
  if me = userId then .error "Cannot query yourself"
  else
    let expenses := pairExpenses st me userId
    let settlements := pairSettlements st me userId
    let balance := pairBalanceFp st me userId
    match st.getUser userId with
    | none => .error "User not found"
    | some other =>
      .ok { expenses := expenses, settlements := settlements, otherUser := other,
            balance := balance }

/-- An ungrouped expense paid by `payer` on date 1 whose only split is an unpaid share
of `amount` for `debtor`. -/
def share (id payer debtor : Id) (amount : ℚ) : Expense :=
  { _id := id, description := "share", amount := amount, category := "Other", date := 1,
    paidByUserId := payer, splitType := "exact", splits := [⟨debtor, amount, false⟩],
    groupId := none, createdBy := payer }

/-- The double 0.1. -/
def tenth : ℚ := roundDouble (1 / 10)

/-- The double 0.2. -/
def fifth : ℚ := roundDouble (2 / 10)

/-- The double 0.3. -/
def threeTenths : ℚ := roundDouble (3 / 10)

/-- Three expenses of the same date: user 1 paid 0.1 and 0.2 for user 2, and user 2 paid
0.3 for user 1. -/
def evenStore : Store :=
  { users := sampleUsers, groups := [],
    expenses := [share 10 1 2 tenth, share 11 1 2 fifth, share 12 2 1 threeTenths],
    settlements := [], nextId := 13 }

/-- Three expenses of the same date that user 1 paid for user 2: 0.1, 0.2 and 0.3. -/
def risingStore : Store :=
  { users := sampleUsers, groups := [],
    expenses := [share 10 1 2 tenth, share 11 1 2 fifth, share 12 1 2 threeTenths],
    settlements := [], nextId := 13 }

/-- The expenses of `risingStore` stored in the opposite order. -/
def fallingStore : Store :=
  { users := sampleUsers, groups := [],
    expenses := [share 12 1 2 threeTenths, share 11 1 2 fifth, share 10 1 2 tenth],
    settlements := [], nextId := 13 }

/-- The draft of `share`, as its payer submits it. -/
def shareArgs (payer debtor : Id) (amount : ℚ) : ExpenseArgs :=
  { description := "share", amount := amount, category := none, date := 1,
    paidByUserId := payer, splitType := "exact", splits := [⟨debtor, amount, false⟩],
    groupId := none }

/-- A store with `dinner` stored before an ungrouped share of 7 that user 1 paid for
user 2. -/
def intStoreA : Store :=
  { users := sampleUsers, groups := [], expenses := [dinner, share 12 1 2 7],
    settlements := [], nextId := 13 }

/-- The store `intStoreA` with its two expenses in the opposite order. -/
def intStoreB : Store :=
  { users := sampleUsers, groups := [], expenses := [share 12 1 2 7, dinner],
    settlements := [], nextId := 13 }

/-! ## `getUserBalances` in doubles -/

/-- The double 0.01, the constant of `Math.abs(net) < 0.01` and of
`availableToSettle + 0.01`. -/
def hundredth : ℚ := roundDouble (1 / 100)

/-- `balanceByUser[uid] = (balanceByUser[uid] || 0) + amount` on doubles. -/
def Tally.creditFp (t : Tally) (uid : Id) (amount : ℚ) : Tally :=
  t.set uid (dadd (orZero (t.get uid)) amount)

/-- `balanceByUser[uid] = (balanceByUser[uid] || 0) - amount` on doubles. -/
def Tally.debitFp (t : Tally) (uid : Id) (amount : ℚ) : Tally :=
  t.set uid (dsub (orZero (t.get uid)) amount)

/-- One iteration of the loop `for (const e of expenses)` of `getUserBalances`, on
doubles. -/
def tallyExpenseFp (user : Id) (balanceByUser : Tally) (e : Expense) : Tally :=
  let isPayer := e.paidByUserId == user
  let mySplit := e.splits.find? (fun s => s.userId == user)
  if isPayer then
    e.splits.foldl
      (fun t s => if s.userId == user || s.paid then t else t.creditFp s.userId s.amount)
      balanceByUser
  else
    match mySplit with
    | some ms =>
      if !ms.paid then balanceByUser.debitFp e.paidByUserId ms.amount else balanceByUser
    | none => balanceByUser

/-- One iteration of the loop `for (const s of settlements)` of `getUserBalances`, on
doubles. -/
def tallySettlementFp (user : Id) (balanceByUser : Tally) (s : Settlement) : Tally :=
  if s.paidByUserId = user then balanceByUser.creditFp s.receivedByUserId s.amount
  else balanceByUser.debitFp s.paidByUserId s.amount

/-- The object `balanceByUser` when both loops of `getUserBalances` are done, on doubles:
the additions run in the order in which the rows were created. -/
def balanceByUserFp (st : Store) (user : Id) : Tally :=
  let expenses := st.expenses.filter (involvesUngrouped user)
  let afterExpenses := expenses.foldl (tallyExpenseFp user) []
  let settlements := st.settlements.filter (settlesUngrouped user)
  settlements.foldl (tallySettlementFp user) afterExpenses

/-- One iteration of the loop over `Object.entries(balanceByUser)`, on doubles. -/
def classifyFp (st : Store) (acc : Totals) (entry : Id × ℚ) : Totals :=
  let net := entry.2
  if |net| < hundredth then acc
  else
    let base := baseEntry st entry
    if net > 0 then
      { acc with youAreOwed := dadd acc.youAreOwed net
                 youAreOwedByList := acc.youAreOwedByList ++ [base] }
    else
      { acc with youOwe := dadd acc.youOwe (-net)
                 youOweList := acc.youOweList ++ [base] }

/-- The handler of `getUserBalances` on doubles, for the current user `user`. -/
def getUserBalancesFp (st : Store) (user : Id) : UserBalances :=
  let acc := (balanceByUserFp st user).foldl (classifyFp st) ⟨0, 0, [], []⟩
  { youOwe := acc.youOwe
    youAreOwed := acc.youAreOwed
    totalBalance := dsub acc.youAreOwed acc.youOwe
    youOweList := sortByAmount acc.youOweList
    youAreOwedByList := sortByAmount acc.youAreOwedByList }

/-- A tally whose values are integers with magnitudes adding up to `b` at most. -/
def Tally.exactWithin (t : Tally) (b : ℚ) : Prop :=
  (∀ kv ∈ t, ∃ n : ℤ, kv.2 = n) ∧ (t.map (fun kv => |kv.2|)).sum ≤ b

/-- Three expenses that user 1 paid for user 2, 0.1 on date 1, 0.2 on date 2 and 0.3 on
date 3, stored in that order. -/
def datedStore : Store :=
  { users := sampleUsers, groups := [],
    expenses := [share 10 1 2 tenth, { share 11 1 2 fifth with date := 2 },
      { share 12 1 2 threeTenths with date := 3 }],
    settlements := [], nextId := 13 }

/-- The double 0.6. -/
def sixTenths : ℚ := roundDouble (6 / 10)

/-- An ungrouped expense of 0.6 paid by user 1, with the unpaid shares 0.1, 0.2 and 0.3
of the users 2, 3 and 4. -/
def round : Expense :=
  { _id := 10, description := "round", amount := sixTenths, category := "Other", date := 1,
    paidByUserId := 1, splitType := "exact",
    splits := [⟨2, tenth, false⟩, ⟨3, fifth, false⟩, ⟨4, threeTenths, false⟩],
    groupId := none, createdBy := 1 }

/-- The store with four users and the expense `round`. -/
def roundStore : Store :=
  { users := sampleUsers ++ [⟨4, "C", "c@example.com", none⟩], groups := [],
    expenses := [round], settlements := [], nextId := 11 }

/-- The draft of `round`, as user 1 submits it. -/
def roundArgs : ExpenseArgs :=
  { description := "round", amount := sixTenths, category := none, date := 1,
    paidByUserId := 1, splitType := "exact",
    splits := [⟨2, tenth, false⟩, ⟨3, fifth, false⟩, ⟨4, threeTenths, false⟩],
    groupId := none }

/-! ## `createSettlement` in doubles -/

/-- A number as `v.number()` admits it: a finite double, an infinity, or NaN. -/
inductive JsNumber where
  | nan
  | posInf
  | negInf
  | num (value : ℚ)
deriving DecidableEq, Repr

/-- `a <= b`: false when either side is NaN. -/
def JsNumber.le : JsNumber → JsNumber → Bool
  | .nan, _ => false
  | _, .nan => false
  | .negInf, _ => true
  | _, .posInf => true
  | .posInf, _ => false
  | _, .negInf => false
  | .num a, .num b => decide (a ≤ b)

/-- `a > b`: false when either side is NaN. -/
def JsNumber.gt : JsNumber → JsNumber → Bool
  | .nan, _ => false
  | _, .nan => false
  | _, .posInf => false
  | .negInf, _ => false
  | .posInf, _ => true
  | _, .negInf => true
  | .num a, .num b => decide (a > b)

/-- The arguments of `createSettlement`, the amount being any number that `v.number()`
admits. -/
structure SettlementDraft where
  amount : JsNumber
  note : Option String
  paidByUserId : Id
  receivedByUserId : Id
  groupId : Option Id
  relatedExpenseIds : Option (List Id)
deriving DecidableEq, Repr

/-- The first loop of `createSettlement`, with `+=` and `-=` on doubles. -/
def netFromExpensesFp (payer receiver : Id) (expenses : List Expense) : ℚ :=
  expenses.foldl
    (fun net exp =>
      if exp.paidByUserId = payer then
        match findUnpaidSplit exp.splits receiver with
        | some split => dadd net split.amount
        | none => net
      else if exp.paidByUserId = receiver then
        match findUnpaidSplit exp.splits payer with
        | some split => dsub net split.amount
        | none => net
      else net)
    0

/-- The second loop of `createSettlement`, on doubles. -/
def applyPriorSettlementsFp (payer : Id) (net : ℚ) (priorSettlements : List Settlement) : ℚ :=
  priorSettlements.foldl
    (fun net st => if st.paidByUserId = payer then dsub net st.amount else dadd net st.amount)
    net

/-- The value of `net` when `createSettlement` reaches `Math.abs(net)`, on doubles: the
payer's expenses are added first, then the receiver's. -/
def settlementNetFp (st : Store) (payer receiver : Id) : ℚ :=
  let expenses := st.expensesPaidBy payer ++ st.expensesPaidBy receiver
  applyPriorSettlementsFp payer (netFromExpensesFp payer receiver expenses)
    (priorSettlements st payer receiver)

/-- The block `if (!isGroup) { ... }` of `createSettlement` on doubles: the message it
throws, if any. -/
def outstandingCheckFp (st : Store) (args : SettlementDraft) : Option String :=
  let isGroup := args.groupId.isSome
  if !isGroup then
    let availableToSettle := |settlementNetFp st args.paidByUserId args.receivedByUserId|
    if availableToSettle ≤ 0 then some "No outstanding balance to settle"
    else if args.amount.gt (.num (dadd availableToSettle hundredth)) then
      some "Settlement amount exceeds outstanding balance"
    else none
  else none

/-- The block `if (args.groupId) { ... }` of `createSettlement`, for a draft. -/
def draftGroupCheck (st : Store) (args : SettlementDraft) : Option String :=
  match args.groupId with
  | none => none
  | some gid =>
    match st.getGroup gid with
    | none => some "Group not found"
    | some group =>
      let isMember := fun (uid : Id) => group.members.any (fun m => m.userId == uid)
      if !isMember args.paidByUserId || !isMember args.receivedByUserId then
        some "Both parties must be members of the group"
      else none

/-- The checks of `createSettlement` on doubles, for the current user `caller`: the
message of the error the handler raises, or `none` when it reaches `ctx.db.insert`. -/
def createSettlementError (st : Store) (caller : Id) (args : SettlementDraft) :
    Option String :=
  if args.amount.le (.num 0) then some "Amount must be positive"
  else if args.paidByUserId = args.receivedByUserId then
    some "Payer and receiver cannot be the same user"
  else if caller ≠ args.paidByUserId ∧ caller ≠ args.receivedByUserId then
    some "You must be either the payer or the receiver"
  else
    match outstandingCheckFp st args with
    | some msg => some msg
    | none => draftGroupCheck st args

/-- The draft with payer and receiver exchanged. -/
def SettlementDraft.reversed (args : SettlementDraft) : SettlementDraft :=
  { args with paidByUserId := args.receivedByUserId, receivedByUserId := args.paidByUserId }

/-- User 1 paid 0.1, 0.2 and 0.3 for user 2, and user 2 paid 0.6 for user 1. -/
def squareStore : Store :=
  { users := sampleUsers, groups := [],
    expenses := [share 10 1 2 tenth, share 11 1 2 fifth, share 12 1 2 threeTenths,
      share 13 2 1 sixTenths],
    settlements := [], nextId := 14 }

/-- User 1 pays user 2 the amount 0.01, ungrouped. -/
def cent : SettlementDraft :=
  { amount := .num hundredth, note := none, paidByUserId := 1, receivedByUserId := 2,
    groupId := none, relatedExpenseIds := none }

/-- User 1 pays user 2 an amount that is NaN, ungrouped. -/
def nanPayment : SettlementDraft :=
  { amount := .nan, note := none, paidByUserId := 1, receivedByUserId := 2,
    groupId := none, relatedExpenseIds := none }

/-- User 1 pays user 2 the amount 10, ungrouped. -/
def tenPayment : SettlementDraft :=
  { amount := .num 10, note := none, paidByUserId := 1, receivedByUserId := 2,
    groupId := none, relatedExpenseIds := none }

/-! ## `createExpense` in doubles -/

/-- The number a rounded sum becomes: a finite double, or an infinity once its magnitude
reaches 2^1024. -/
def JsNumber.ofRounded (q : ℚ) : JsNumber :=
  if (2 : ℚ) ^ 1024 ≤ q then .posInf
  else if q ≤ - (2 : ℚ) ^ 1024 then .negInf
  else .num q

/-- `-a`. -/
def JsNumber.neg : JsNumber → JsNumber
  | .nan => .nan
  | .posInf => .negInf
  | .negInf => .posInf
  | .num a => .num (-a)

/-- `a + b` on doubles: NaN absorbs, opposite infinities give NaN. -/
def JsNumber.add : JsNumber → JsNumber → JsNumber
  | .nan, _ => .nan
  | _, .nan => .nan
  | .posInf, .negInf => .nan
  | .negInf, .posInf => .nan
  | .posInf, _ => .posInf
  | _, .posInf => .posInf
  | .negInf, _ => .negInf
  | _, .negInf => .negInf
  | .num a, .num b => JsNumber.ofRounded (dadd a b)

/-- `a - b` on doubles. -/
def JsNumber.sub (a b : JsNumber) : JsNumber := a.add b.neg

/-- `Math.abs(a)`. -/
def JsNumber.abs : JsNumber → JsNumber
  | .nan => .nan
  | .posInf => .posInf
  | .negInf => .posInf
  | .num a => .num |a|

/-- One entry of `args.splits`, its amount being any number that `v.number()` admits. -/
structure SplitDraft where
  userId : Id
  amount : JsNumber
  paid : Bool
deriving DecidableEq, Repr

/-- The arguments of `createExpense`, the amounts being any numbers that `v.number()`
admits. -/
structure ExpenseDraft where
  description : String
  amount : JsNumber
  category : Option String
  date : ℚ
  paidByUserId : Id
  splitType : String
  splits : List SplitDraft
  groupId : Option Id
deriving DecidableEq, Repr

/-- The block `if (args.groupId) { ... }` of `createExpense`, for a draft: the message of
the first membership check that throws, if any. -/
def draftMembershipCheck (st : Store) (user : Id) (args : ExpenseDraft) : Option String :=
  match args.groupId with
  | none => none
  | some gid =>
    match st.getGroup gid with
    | none => some "Group not found"
    | some group =>
      let memberIds := group.members.map (fun m => m.userId)
      if !memberIds.contains user then some "You are not a member of this group"
      else if !memberIds.contains args.paidByUserId then
        some "Payer must be a member of the group"
      else if args.splits.any (fun s => !memberIds.contains s.userId) then
        some "All split participants must be group members"
      else none

/-- `args.splits.reduce((sum, split) => sum + split.amount, 0)` on doubles. -/
def totalSplitAmountFp (splits : List SplitDraft) : JsNumber :=
  splits.foldl (fun sum split => sum.add split.amount) (.num 0)

/-- The checks of `createExpense` on doubles, for the current user `user`: the message
of the error the handler raises, or `none` when it reaches `ctx.db.insert`. -/
def createExpenseError (st : Store) (user : Id) (args : ExpenseDraft) : Option String :=
  if args.amount.le (.num 0) then some "Amount must be greater than zero"
  else if !(["equal", "percentage", "exact"].contains args.splitType) then
    some "Invalid split type"
  else if args.splits.any (fun s => s.amount.le (.num 0)) then
    some "Each split amount must be greater than zero"
  else
    match draftMembershipCheck st user args with
    | some msg => some msg
    | none =>
      let callerIsPayer := args.paidByUserId == user
      let callerInSplits := args.splits.any (fun s => s.userId == user)
      if !callerIsPayer && !callerInSplits then
        some "You must be the payer or included in the splits"
      else if ((totalSplitAmountFp args.splits).sub args.amount).abs.gt (.num hundredth) then
        some "Split amounts must add up to the total expense amount"
      else none

/-- A draft whose amounts are finite numbers. -/
def ExpenseArgs.toDraft (args : ExpenseArgs) : ExpenseDraft :=
  { description := args.description
    amount := .num args.amount
    category := args.category
    date := args.date
    paidByUserId := args.paidByUserId
    splitType := args.splitType
    splits := args.splits.map (fun s => ⟨s.userId, .num s.amount, s.paid⟩)
    groupId := args.groupId }

/-- A draft of user 1 whose amount and whose only split amount are NaN. -/
def nanDraft : ExpenseDraft :=
  { description := "nan", amount := .nan, category := none, date := 1, paidByUserId := 1,
    splitType := "equal", splits := [⟨2, .nan, false⟩], groupId := none }

/-- A draft of user 1 of 0.15 with the splits 0.02 and 0.12. -/
def shortArgs : ExpenseArgs :=
  { description := "short", amount := roundDouble (15 / 100), category := none, date := 1,
    paidByUserId := 1, splitType := "exact",
    splits := [⟨2, roundDouble (2 / 100), false⟩, ⟨3, roundDouble (12 / 100), false⟩],
    groupId := none }

/-- A draft of user 1 of 1e16 with the splits 1e16 and 1. -/
def largeArgs : ExpenseArgs :=
  { description := "large", amount := 10000000000000000, category := none, date := 1,
    paidByUserId := 1, splitType := "exact",
    splits := [⟨2, 10000000000000000, false⟩, ⟨3, 1, false⟩], groupId := none }

/-! ## Sample data: a participant listed in two splits of a group expense -/

/-- The store with the group `trio` and no expense yet. -/
def trioStore : Store :=
  { users := sampleUsers, groups := [trio], expenses := [], settlements := [], nextId := 10 }

/-- A draft in the group `trio`: 30 paid by user 2, in which user 1 has two splits, the
first of 10 marked paid, the second of 5 unpaid. -/
def twoSharesArgs : ExpenseArgs :=
  { description := "tickets", amount := 30, category := some "Fun", date := 1,
    paidByUserId := 2, splitType := "exact",
    splits := [⟨1, 10, true⟩, ⟨1, 5, false⟩, ⟨2, 15, true⟩], groupId := some 100 }

/-- The store after user 2 created the expense of `twoSharesArgs`. -/
def twoSharesStore : Store := (createExpense trioStore 2 twoSharesArgs).store

/-! ## `getSettlementData` with `ctx.db.get` over every table

The argument `entityId` of `getSettlementData` is declared `v.string()`, and
`ctx.db.get(args.entityId)` returns the row that the id names in whichever table.
`getSettlementData` above reads the id in the table that the branch expects;
`getSettlementDataDoc` reads it as the source does. -/

/-- A document as `ctx.db.get` returns it. -/
inductive Doc where
  | user (u : User)
  | group (g : Group)
  | expense (e : Expense)
  | settlement (s : Settlement)
deriving DecidableEq, Repr

/-- `ctx.db.get(id)` for an id of whichever table: the row with that id, if any. The ids
of a database are unique across its tables; the tables are searched in a fixed order. -/
def Store.getDoc (st : Store) (id : Id) : Option Doc :=
  match st.getUser id with
  | some u => some (.user u)
  | none =>
    match st.getGroup id with
    | some g => some (.group g)
    | none =>
      match st.expenses.find? (fun e => e._id == id) with
      | some e => some (.expense e)
      | none => (st.settlements.find? (fun s => s._id == id)).map Doc.settlement

/-- The field `counterpart` of the result of the 'user' branch; a field that the document
read does not have is `undefined`. -/
structure Counterpart where
  userId : Id
  name : Option String
  email : Option String
  imageUrl : Option String
deriving DecidableEq, Repr

/-- The object `{ userId: other._id, name: other.name, email: other.email, imageUrl:
other.imageUrl }` for the document `other`: a user has these fields, a group has a name,
an expense and a settlement have none of the three. -/
def Doc.counterpart : Doc → Counterpart
  | .user u => ⟨u._id, some u.name, some u.email, u.imageUrl⟩
  | .group g => ⟨g._id, some g.name, none, none⟩
  | .expense e => ⟨e._id, none, none, none⟩
  | .settlement s => ⟨s._id, none, none, none⟩

/-- The result of `getSettlementData`, the counterpart being the object built from the
document read. -/
inductive SettlementResult where
  | user (counterpart : Counterpart) (youAreOwed youOwe netBalance : ℚ)
  | group (group : GroupInfo) (balances : List MemberBalance)
deriving DecidableEq, Repr

/-- The handler of `getSettlementData`, for the current user `me`, with `ctx.db.get` over
every table. In the 'group' branch a document that is not a group has no `members`, and
`group.members.some(...)` throws a TypeError. -/
def getSettlementDataDoc (st : Store) (me : Id) (entityType : String) (entityId : Id) :
    Except String SettlementResult :=
  if entityType = "user" then
    match st.getDoc entityId with
    | none => .error "User not found"
    | some other =>
      let counterpart := other.counterpart
      let netBalance := userModeNet st me counterpart.userId
      .ok (.user counterpart (max 0 netBalance) (max 0 (-netBalance)) netBalance)
  else if entityType = "group" then
    match st.getDoc entityId with
    | none => .error "Group not found"
    | some (.group group) =>
      let isMember := group.members.any (fun m => m.userId == me)
      if !isMember then .error "You are not a member of this group"
      else
        let list := (groupBalances st me group).map (memberRecord st)
        .ok (.group ⟨group._id, group.name, group.description⟩ list)
    | some _ => .error "TypeError: Cannot read properties of undefined (reading 'some')"
  else .error "Invalid entityType; expected 'user' or 'group'"

/-- The list `balances` of a 'group' result. -/
def SettlementResult.balances? : SettlementResult → Option (List MemberBalance)
  | .user _ _ _ _ => none
  | .group _ balances => some balances

/-! ## The read handlers as effects on the database and the clock

A handler runs against a world, the database and the clock, and either throws or returns
a value together with the world it leaves behind. The functions above give the value of a
read as a function of the store; here the body of each read handler is written again
with every `ctx.db` call as an effect, so that what the handler reads and what it leaves
behind is part of the model. The `debugLog` trace of `getUserBalances` and the
`console.log` lines of `getExpensesBetweenUsers` are left out. -/

/-- What a handler runs against: the database and the clock (`Date.now()`). -/
structure World where
  store : Store
  now : Int
deriving DecidableEq, Repr

/-- The body of a handler: run in a world, it throws a message or returns a value and the
world after the run. -/
def Effect (α : Type) : Type := World → Except String (α × World)

/-- A value returned without touching the world. -/
def Effect.ret {α : Type} (a : α) : Effect α := fun w => .ok (a, w)

/-- `await` one effect, then run the rest in the world it leaves. -/
def Effect.andThen {α β : Type} (m : Effect α) (f : α → Effect β) : Effect β :=
  fun w =>
    match m w with
    | .error msg => .error msg
    | .ok (a, w') => f a w'

instance : Monad Effect where
  pure := Effect.ret
  bind := Effect.andThen

/-- `throw new Error(msg)`. -/
def Effect.raise {α : Type} (msg : String) : Effect α := fun _ => .error msg

/-- A loop `for (const x of list)` whose body awaits effects and updates `acc`. -/
def Effect.forEach {α β : Type} (f : β → α → Effect β) : List α → β → Effect β
  | [], acc => pure acc
  | x :: rest, acc => do
    let acc' ← f acc x
    Effect.forEach f rest acc'

/-- `Promise.all(list.map(f))`: the results in the order of the list. -/
def Effect.all {α β : Type} (f : α → Effect β) : List α → Effect (List β)
  | [] => pure []
  | x :: rest => do
    let y ← f x
    let ys ← Effect.all f rest
    pure (y :: ys)

/-- `ctx.db.query("expenses").collect()`. -/
def Db.expenses : Effect (List Expense) := fun w => .ok (w.store.expenses, w)

/-- `ctx.db.query("settlements").collect()`. -/
def Db.settlements : Effect (List Settlement) := fun w => .ok (w.store.settlements, w)

/-- `ctx.db.query("groups").collect()`. -/
def Db.groups : Effect (List Group) := fun w => .ok (w.store.groups, w)

/-- `ctx.db.query("expenses").withIndex("by_user_and_group", (q) =>
q.eq("paidByUserId", uid).eq("groupId", undefined)).collect()`. -/
def Db.expensesPaidBy (uid : Id) : Effect (List Expense) :=
  fun w => .ok (w.store.expensesPaidBy uid, w)

/-- `ctx.db.query("settlements").withIndex("by_user_and_group", (q) =>
q.eq("paidByUserId", uid).eq("groupId", undefined)).collect()`. -/
def Db.settlementsPaidBy (uid : Id) : Effect (List Settlement) :=
  fun w => .ok (w.store.settlementsPaidBy uid, w)

/-- `ctx.db.query("expenses").withIndex("by_group", (q) => q.eq("groupId", gid))
.collect()`. -/
def Db.expensesOfGroup (gid : Id) : Effect (List Expense) :=
  fun w => .ok (w.store.expensesOfGroup gid, w)

/-- `ctx.db.query("settlements").filter(p).collect()`. -/
def Db.settlementsWhere (p : Settlement → Bool) : Effect (List Settlement) :=
  fun w => .ok (w.store.settlements.filter p, w)

/-- `ctx.db.query("expenses").withIndex("by_date").order("desc").take(50)`. -/
def Db.takeRecentExpenses : Effect (List Expense) :=
  fun w => .ok (w.store.expensesByDateDesc.take 50, w)

/-- `ctx.db.query("expenses").withIndex("by_date", (q) => q.gte("date", start))
.collect()`. -/
def Db.expensesFrom (start : Int) : Effect (List Expense) :=
  fun w => .ok (w.store.expensesFrom start, w)

/-- `ctx.db.get(id)` for the id of a user. -/
def Db.getUser (uid : Id) : Effect (Option User) := fun w => .ok (w.store.getUser uid, w)

/-- `ctx.db.get(id)` for the id of a group. -/
def Db.getGroup (gid : Id) : Effect (Option Group) := fun w => .ok (w.store.getGroup gid, w)

/-- `ctx.db.get(id)` for an id of whichever table. -/
def Db.get (id : Id) : Effect (Option Doc) := fun w => .ok (w.store.getDoc id, w)

/-- `ctx.db.insert("expenses", doc)`: the one effect below that changes the database. -/
def Db.insertExpense (doc : Id → Expense) : Effect Id :=
  fun w => .ok ((w.store.insertExpense doc).1, { w with store := (w.store.insertExpense doc).2 })

/-- `new Date()`, `Date.now()`: the time value of the clock. -/
def Clock.now : Effect Int := fun w => .ok (w.now, w)

/-- One iteration of the loop over `Object.entries(balanceByUser)` of `getUserBalances`,
with its `await ctx.db.get(uid)`. -/
def classifyH (acc : Totals) (entry : Id × ℚ) : Effect Totals :=
  let net := entry.2
  if |net| < 1 / 100 then pure acc
  else do
    let counterpart ← Db.getUser entry.1
    let base : OweEntry :=
      { userId := entry.1
        name := (counterpart.map (fun u => u.name)).getD "Unknown"
        imageUrl := counterpart.bind (fun u => u.imageUrl)
        amount := |net| }
    if net > 0 then
      pure { acc with youAreOwed := acc.youAreOwed + net
                      youAreOwedByList := acc.youAreOwedByList ++ [base] }
    else
      pure { acc with youOwe := acc.youOwe + -net
                      youOweList := acc.youOweList ++ [base] }

/-- The body of the handler of `getUserBalances`, for the current user `user`. -/
def getUserBalancesH (user : Id) : Effect UserBalances := do
  let expenses := (← Db.expenses).filter (involvesUngrouped user)
  let afterExpenses := expenses.foldl (tallyExpense user) []
  let settlements := (← Db.settlements).filter (settlesUngrouped user)
  let balanceByUser := settlements.foldl (tallySettlement user) afterExpenses
  let acc ← Effect.forEach classifyH balanceByUser ⟨0, 0, [], []⟩
  pure
    { youOwe := acc.youOwe
      youAreOwed := acc.youAreOwed
      totalBalance := acc.youAreOwed - acc.youOwe
      youOweList := sortByAmount acc.youOweList
      youAreOwedByList := sortByAmount acc.youAreOwedByList }

/-- The body of the handler of `getExpensesBetweenUsers`, for the current user `me`. -/
def getExpensesBetweenUsersH (me userId : Id) : Effect PairView :=
  if me = userId then Effect.raise "Cannot query yourself"
  else do
    let myPaid ← Db.expensesPaidBy me
    let theirPaid ← Db.expensesPaidBy userId
    let candidateExpenses := myPaid ++ theirPaid
    let expenses := sortExpensesByDate (candidateExpenses.filter (bothInvolved me userId))
    let found ← Db.settlementsWhere (fun s =>
      s.groupId.isNone &&
        ((s.paidByUserId == me && s.receivedByUserId == userId) ||
          (s.paidByUserId == userId && s.receivedByUserId == me)))
    let settlements := sortSettlementsByDate found
    let balance :=
      balanceFromSettlements me (balanceFromExpenses me userId 0 expenses) settlements
    match ← Db.getUser userId with
    | none => Effect.raise "User not found"
    | some other =>
      pure { expenses := expenses, settlements := settlements, otherUser := other,
             balance := balance }

/-- `members.find((u) => u && u._id === uid)` on the documents that `Promise.all`
returned. -/
def findMember (members : List (Option User)) (uid : Id) : Option User :=
  members.findSome? (fun u =>
    match u with
    | some u => if u._id == uid then some u else none
    | none => none)

/-- The record built for one key of `balances` from the document `m` found for it. -/
def memberRecordOf (m : Option User) (entry : Id × ℚ) : MemberBalance :=
  let net := entry.2
  { userId := entry.1
    name := match m with
      | some u => if u.name = "" then "Unknown" else u.name
      | none => "Unknown"
    imageUrl := m.bind (fun u => u.imageUrl)
    youAreOwed := max 0 net
    youOwe := max 0 (-net)
    netBalance := net }

/-- The 'user' branch of `getSettlementData`, after the document `other` was read. -/
def userBranchH (me : Id) (other : Doc) : Effect SettlementResult := do
  let counterpart := other.counterpart
  let myExpenses ← Db.expensesPaidBy me
  let otherUserExpenses ← Db.expensesPaidBy counterpart.userId
  let expenses := myExpenses ++ otherUserExpenses
  let afterExpenses := expenses.foldl (userModeExpenseStep me counterpart.userId) 0
  let mySettlements ← Db.settlementsPaidBy me
  let otherUserSettlements ← Db.settlementsPaidBy counterpart.userId
  let settlements := mySettlements ++ otherUserSettlements
  let netBalance := settlements.foldl (userModeSettlementStep me) afterExpenses
  pure (.user counterpart (max 0 netBalance) (max 0 (-netBalance)) netBalance)

/-- The 'group' branch of `getSettlementData`, after the group was read and the caller
found among its members. -/
def groupBranchH (me : Id) (group : Group) : Effect SettlementResult := do
  let expenses ← Db.expensesOfGroup group._id
  let balances := initBalances me group.members
  let afterExpenses := expenses.foldl (groupExpenseStep me) balances
  let settlements ← Db.settlementsWhere (fun s => s.groupId == some group._id)
  let balances := settlements.foldl (groupSettlementStep me) afterExpenses
  let members ← Effect.all Db.getUser (balances.map Prod.fst)
  let list := balances.map (fun entry => memberRecordOf (findMember members entry.1) entry)
  pure (.group ⟨group._id, group.name, group.description⟩ list)

/-- The body of the handler of `getSettlementData`, for the current user `me`. -/
def getSettlementDataH (me : Id) (entityType : String) (entityId : Id) :
    Effect SettlementResult :=
  if entityType = "user" then do
    match ← Db.get entityId with
    | none => Effect.raise "User not found"
    | some other => userBranchH me other
  else if entityType = "group" then do
    match ← Db.get entityId with
    | none => Effect.raise "Group not found"
    | some (.group group) =>
      let isMember := group.members.any (fun m => m.userId == me)
      if !isMember then Effect.raise "You are not a member of this group"
      else groupBranchH me group
    | some _ => Effect.raise "TypeError: Cannot read properties of undefined (reading 'some')"
  else Effect.raise "Invalid entityType; expected 'user' or 'group'"

/-- The callback of `groups.map(async (group) => ...)` of `getUserGroups`. -/
def groupSummaryH (user : Id) (group : Group) : Effect GroupSummary := do
  let expenses ← Db.expensesOfGroup group._id
  let afterExpenses := expenses.foldl (groupScalarExpenseStep user) 0
  let settlements ← Db.settlementsWhere (fun s =>
    s.groupId == some group._id && (s.paidByUserId == user || s.receivedByUserId == user))
  let balance := settlements.foldl (groupScalarSettlementStep user) afterExpenses
  pure ⟨group, group._id, balance⟩

/-- The body of the handler of `getUserGroups`, for the current user `user`. -/
def getUserGroupsH (user : Id) : Effect (List GroupSummary) := do
  let allGroups ← Db.groups
  let groups := allGroups.filter (fun group => group.members.any (fun m => m.userId == user))
  Effect.all (groupSummaryH user) groups

/-- The callback of `activities.map(async (activity) => ...)` of `getRecentActivity`. -/
def enhanceH (activity : Expense) : Effect Activity := do
  let payer ← Db.getUser activity.paidByUserId
  let groupName ←
    match activity.groupId with
    | some gid => do
      let group ← Db.getGroup gid
      pure (group.map (fun group => group.name))
    | none => pure none
  pure
    { expense := activity
      payerName := match payer with
        | some p => if p.name = "" then "Unknown" else p.name
        | none => "Unknown"
      groupName := groupName }

/-- The body of the handler of `getRecentActivity`, for the current user `user`. -/
def getRecentActivityH (user : Id) : Effect (List Activity) := do
  let recentExpenses ← Db.takeRecentExpenses
  let activities := (recentExpenses.filter (involvesUser user)).take 20
  Effect.all enhanceH activities

/-- The body of the handler of `getTotalSpent`, for the current user `user`: a read that
looks at the clock. -/
def getTotalSpentH (user : Id) : Effect ℚ := do
  let now ← Clock.now
  let currentYear := getFullYear now
  let startOfYear := monthStartTime currentYear 0
  let expenses ← Db.expensesFrom startOfYear
  let userExpenses := expenses.filter (involvesUser user)
  pure (userExpenses.foldl (totalSpentStep user) 0)

/-! # Theorems -/


/-! ## Sums and folds -/

theorem foldl_add_eq_sum {α : Type} (f : α → ℚ) (l : List α) (init : ℚ) :
    l.foldl (fun acc x => acc + f x) init = init + (l.map f).sum := by
  induction l generalizing init with
  | nil => simp
  | cons x xs ih => simp [ih, add_assoc]

theorem totalSplitAmount_eq_sum (splits : List Split) :
    totalSplitAmount splits = (splits.map (fun s => s.amount)).sum := by
  simp [totalSplitAmount, foldl_add_eq_sum]

/-! ## `createExpense` -/

/-- The membership block of `createExpense` lets a draft through exactly when it has no
group, or its group exists and holds the caller, the payer and every split participant. -/
theorem expenseGroupCheck_eq_none (st : Store) (user : Id) (args : ExpenseArgs) :
    expenseGroupCheck st user args = none ↔
      ∀ gid, args.groupId = some gid →
        ∃ g, st.getGroup gid = some g ∧ (∃ m ∈ g.members, m.userId = user) ∧
          (∃ m ∈ g.members, m.userId = args.paidByUserId) ∧
          ∀ s ∈ args.splits, ∃ m ∈ g.members, m.userId = s.userId := by
  unfold expenseGroupCheck
  cases hg : args.groupId with
  | none => simp
  | some gid =>
    cases hgrp : st.getGroup gid with
    | none => simp [hgrp]
    | some g =>
      simp only [hgrp, Option.some.injEq, forall_eq', exists_eq_left']
      split_ifs with h1 h2 h3 <;> simp_all
theorem createExpense_of_passes (st : Store) (user : Id) (args : ExpenseArgs)
    (h : args.passes st user) :
    createExpense st user args =
      ⟨.ok st.nextId, (st.insertExpense (expenseDoc user args)).2⟩ := by
  obtain ⟨h1, h2, h3, h4, h5, h6⟩ := h
  unfold createExpense
  rw [if_neg (not_le.mpr h1), if_neg (by simp only [List.mem_cons, List.mem_singleton, List.not_mem_nil, or_false] at h2; simp; tauto),
    if_neg (by simpa using h3)]
  simp only [h4]
  rw [if_neg (by simp only [Bool.and_eq_true, Bool.not_eq_true', beq_eq_false_iff_ne,
    List.any_eq_false, not_and, ne_eq]; intro hp hs; rcases h5 with h5 | ⟨s, hs1, hs2⟩
                 · exact hp h5
                 · exact hs s hs1 (by simpa using hs2)),
    if_neg (not_lt.mpr h6)]
  rfl

theorem createExpense_of_not_passes (st : Store) (user : Id) (args : ExpenseArgs)
    (h : ¬ args.passes st user) :
    ∃ msg, createExpense st user args = ⟨.error msg, st⟩ := by
  unfold createExpense
  by_cases h1 : args.amount ≤ 0
  · exact ⟨_, if_pos h1⟩
  rw [if_neg h1]
  by_cases h2 : (!(["equal", "percentage", "exact"].contains args.splitType)) = true
  · exact ⟨_, if_pos h2⟩
  rw [if_neg h2]
  by_cases h3 : args.splits.any (fun s => decide (s.amount ≤ 0)) = true
  · exact ⟨_, if_pos h3⟩
  rw [if_neg h3]
  cases h4 : expenseGroupCheck st user args with
  | some msg => exact ⟨msg, rfl⟩
  | none =>
    dsimp only
    by_cases h5 : (!(args.paidByUserId == user) && !(args.splits.any fun s => s.userId == user)) = true
    · exact ⟨_, if_pos h5⟩
    rw [if_neg h5]
    by_cases h6 : |totalSplitAmount args.splits - args.amount| > tolerance
    · exact ⟨_, if_pos h6⟩
    refine absurd ⟨not_le.mp h1, by simp at h2 ⊢; tauto, by simpa using h3, h4, ?_, not_lt.mp h6⟩ h
    simp only [Bool.and_eq_true, Bool.not_eq_true', beq_eq_false_iff_ne,
      List.any_eq_false, not_and, ne_eq] at h5
    by_contra hc
    push_neg at hc
    exact h5 hc.1 (fun s hs => by simpa using hc.2 s hs)

/-- C8 (as stated, refuted): a draft without a category is admitted, and the stored
record carries the category "Other", which is not the draft's category. -/
theorem createExpense_category_not_verbatim :
    (createExpense emptyStore 2 plainArgs).result = .ok 10 ∧
    ∀ e ∈ (createExpense emptyStore 2 plainArgs).store.expenses,
      e.category = "Other" ∧ some e.category ≠ plainArgs.category := by
  decide!

/-- C8 (amended): an admitted draft leaves the store with exactly one more expense, added
last, whose fields are the draft's, except that an absent or empty category is stored as
"Other", and whose `createdBy` is the caller; users, groups and settlements are unchanged. -/
theorem createExpense_inserts_one (st : Store) (user : Id) (args : ExpenseArgs) (id : Id)
    (h : (createExpense st user args).result = .ok id) :
    (createExpense st user args).store.expenses = st.expenses ++
      [{ _id := id
         description := args.description
         amount := args.amount
         category := match args.category with
           | none => "Other"
           | some c => if c = "" then "Other" else c
         date := args.date
         paidByUserId := args.paidByUserId
         splitType := args.splitType
         splits := args.splits
         groupId := args.groupId
         createdBy := user }] ∧
    (createExpense st user args).store.settlements = st.settlements ∧
    (createExpense st user args).store.groups = st.groups ∧
    (createExpense st user args).store.users = st.users := by
  by_cases hp : args.passes st user
  · rw [createExpense_of_passes st user args hp] at h ⊢
    have hid : st.nextId = id := by simpa using h
    subst hid
    exact ⟨rfl, rfl, rfl, rfl⟩
  · obtain ⟨msg, hm⟩ := createExpense_of_not_passes st user args hp
    simp [hm] at h

theorem createExpense_inserts_one_witness :
    (createExpense emptyStore 2 plainArgs).result = .ok 10 ∧
    (createExpense emptyStore 2 plainArgs).store.expenses = emptyStore.expenses ++
      [{ _id := 10
         description := plainArgs.description
         amount := plainArgs.amount
         category := match plainArgs.category with
           | none => "Other"
           | some c => if c = "" then "Other" else c
         date := plainArgs.date
         paidByUserId := plainArgs.paidByUserId
         splitType := plainArgs.splitType
         splits := plainArgs.splits
         groupId := plainArgs.groupId
         createdBy := 2 }] ∧
    (createExpense emptyStore 2 plainArgs).store.settlements = emptyStore.settlements ∧
    (createExpense emptyStore 2 plainArgs).store.groups = emptyStore.groups ∧
    (createExpense emptyStore 2 plainArgs).store.users = emptyStore.users :=
  ⟨by decide!, createExpense_inserts_one emptyStore 2 plainArgs 10 (by decide!)⟩

/-! ## `createSettlement` -/

theorem createSettlement_error_or_insert (st : Store) (caller : Id) (now : ℚ)
    (args : SettlementArgs) :
    (∃ msg, createSettlement st caller now args = ⟨.error msg, st⟩) ∨
      createSettlement st caller now args =
        ⟨.ok st.nextId, (st.insertSettlement (settlementDoc caller now args)).2⟩ := by
  unfold createSettlement
  by_cases h1 : args.amount ≤ 0
  · exact Or.inl ⟨_, if_pos h1⟩
  rw [if_neg h1]
  by_cases h2 : args.paidByUserId = args.receivedByUserId
  · exact Or.inl ⟨_, if_pos h2⟩
  rw [if_neg h2]
  by_cases h3 : caller ≠ args.paidByUserId ∧ caller ≠ args.receivedByUserId
  · exact Or.inl ⟨_, if_pos h3⟩
  rw [if_neg h3]
  cases h4 : outstandingCheck st args with
  | some msg => exact Or.inl ⟨msg, rfl⟩
  | none =>
    cases h5 : settlementGroupCheck st args with
    | some msg => exact Or.inl ⟨msg, rfl⟩
    | none => exact Or.inr rfl

theorem createSettlement_ungrouped (st : Store) (caller : Id) (now : ℚ)
    (args : SettlementArgs) (hg : args.groupId = none) (hpos : 0 < args.amount)
    (hne : args.paidByUserId ≠ args.receivedByUserId)
    (hc : caller = args.paidByUserId ∨ caller = args.receivedByUserId) :
    createSettlement st caller now args =
      if settlementNet st args.paidByUserId args.receivedByUserId = 0 then
        ⟨.error "No outstanding balance to settle", st⟩
      else if args.amount > |settlementNet st args.paidByUserId args.receivedByUserId| + 1 / 100
      then ⟨.error "Settlement amount exceeds outstanding balance", st⟩
      else ⟨.ok st.nextId, (st.insertSettlement (settlementDoc caller now args)).2⟩ := by
  unfold createSettlement
  rw [if_neg (not_le.mpr hpos), if_neg hne, if_neg (by tauto)]
  unfold outstandingCheck settlementGroupCheck
  simp only [hg, Option.isSome_none, Bool.not_false, if_true, abs_nonpos_iff]
  split_ifs <;> rfl

/-- C3: for an ungrouped draft that passes the basic checks, `createSettlement` raises
'No outstanding balance to settle' exactly when its replayed net is 0, raises 'Settlement
amount exceeds outstanding balance' exactly when the net is not 0 and the amount exceeds
|net| + 0.01, and inserts the settlement in every other case; in particular an amount of 15
against a net of magnitude 10 is rejected. -/
theorem createSettlement_ungrouped_decision (st : Store) (caller : Id) (now : ℚ)
    (args : SettlementArgs) (hg : args.groupId = none) (hpos : 0 < args.amount)
    (hne : args.paidByUserId ≠ args.receivedByUserId)
    (hc : caller = args.paidByUserId ∨ caller = args.receivedByUserId) :
    ((createSettlement st caller now args).result = .error "No outstanding balance to settle" ↔
      settlementNet st args.paidByUserId args.receivedByUserId = 0) ∧
    ((createSettlement st caller now args).result =
        .error "Settlement amount exceeds outstanding balance" ↔
      settlementNet st args.paidByUserId args.receivedByUserId ≠ 0 ∧
        args.amount > |settlementNet st args.paidByUserId args.receivedByUserId| + 1 / 100) ∧
    (((createSettlement st caller now args).result = .ok st.nextId ∧
        (createSettlement st caller now args).store.settlements =
          st.settlements ++ [settlementDoc caller now args st.nextId]) ↔
      settlementNet st args.paidByUserId args.receivedByUserId ≠ 0 ∧
        args.amount ≤ |settlementNet st args.paidByUserId args.receivedByUserId| + 1 / 100) ∧
    (|settlementNet st args.paidByUserId args.receivedByUserId| = 10 → args.amount = 15 →
      (createSettlement st caller now args).result =
        .error "Settlement amount exceeds outstanding balance") := by
  rw [createSettlement_ungrouped st caller now args hg hpos hne hc]
  by_cases h0 : settlementNet st args.paidByUserId args.receivedByUserId = 0
  · rw [if_pos h0]
    refine ⟨⟨fun _ => h0, fun _ => rfl⟩, ⟨fun h => by simp at h, fun h => absurd h0 h.1⟩,
      ⟨fun h => by simp at h, fun h => absurd h0 h.1⟩, ?_⟩
    intro h10
    rw [h0] at h10
    norm_num at h10
  · rw [if_neg h0]
    by_cases h1 :
        args.amount > |settlementNet st args.paidByUserId args.receivedByUserId| + 1 / 100
    · rw [if_pos h1]
      exact ⟨⟨fun h => by simp at h, fun h => absurd h h0⟩, ⟨fun _ => ⟨h0, h1⟩, fun _ => rfl⟩,
        ⟨fun h => by simp at h, fun h => absurd h.2 (not_le.mpr h1)⟩, fun _ _ => rfl⟩
    · rw [if_neg h1]
      refine ⟨⟨fun h => by simp at h, fun h => absurd h h0⟩,
        ⟨fun h => by simp at h, fun h => absurd h.2 h1⟩,
        ⟨fun _ => ⟨h0, not_lt.mp h1⟩, fun _ => ⟨rfl, rfl⟩⟩, ?_⟩
      intro h10 h15
      rw [h10, h15] at h1
      norm_num at h1

theorem createSettlement_ungrouped_decision_witness :
    settlementNet dinnerStore repay15.paidByUserId repay15.receivedByUserId = -10 ∧
    repay15.amount = 15 ∧
    (createSettlement dinnerStore 1 2 repay15).result =
      .error "Settlement amount exceeds outstanding balance" :=
  ⟨by decide!, by decide!,
   (createSettlement_ungrouped_decision dinnerStore 1 2 repay15 (by decide) (by decide!)
      (by decide) (by decide)).2.2.2 (by decide!) (by decide!)⟩

/-- C7: when `createExpense` or `createSettlement` raises an error, the store it leaves
behind is the store it was called on. -/
theorem failed_write_leaves_store (st : Store) (caller : Id) (now : ℚ)
    (eargs : ExpenseArgs) (sargs : SettlementArgs) :
    (∀ msg, (createExpense st caller eargs).result = .error msg →
      (createExpense st caller eargs).store = st) ∧
    (∀ msg, (createSettlement st caller now sargs).result = .error msg →
      (createSettlement st caller now sargs).store = st) := by
  constructor
  · intro msg h
    by_cases hp : eargs.passes st caller
    · rw [createExpense_of_passes st caller eargs hp] at h
      simp at h
    · obtain ⟨m, hm⟩ := createExpense_of_not_passes st caller eargs hp
      rw [hm]
  · intro msg h
    rcases createSettlement_error_or_insert st caller now sargs with ⟨m, hm⟩ | hok
    · rw [hm]
    · rw [hok] at h
      simp at h

theorem failed_write_leaves_store_witness :
    (createExpense dinnerStore 2 zeroArgs).result = .error "Amount must be greater than zero" ∧
    (createExpense dinnerStore 2 zeroArgs).store = dinnerStore ∧
    (createSettlement dinnerStore 1 2 repay15).result =
      .error "Settlement amount exceeds outstanding balance" ∧
    (createSettlement dinnerStore 1 2 repay15).store = dinnerStore :=
  ⟨by decide!,
   (failed_write_leaves_store dinnerStore 2 2 zeroArgs repay15).1
     "Amount must be greater than zero" (by decide!),
   by decide!,
   (failed_write_leaves_store dinnerStore 1 2 zeroArgs repay15).2
     "Settlement amount exceeds outstanding balance" (by decide!)⟩

/-- C1 (the code at the failing input): after user 1 has repaid user 2 in full, the
pairwise view reports a balance of 0, yet `createSettlement` admits a further ungrouped
payment of 20 from user 1 to user 2, far above |0| + 0.01. -/
theorem createSettlement_admits_above_pair_balance :
    settledStore = (createSettlement dinnerStore 1 2 repay10).store ∧
    (createSettlement dinnerStore 1 2 repay10).result = .ok 11 ∧
    (getExpensesBetweenUsers settledStore 1 2).map (fun v => v.balance) = .ok 0 ∧
    (createSettlement settledStore 1 3 repay20).result = .ok 12 ∧
    ¬ (repay20.amount ≤ |pairBalance settledStore 1 2| + 1 / 100) := by
  decide!

/-- C2 (the code at the failing input): on the store where user 1 has repaid user 2 in
full, the net replayed by `createSettlement` for payer 1 and receiver 2 is -20 while
`getExpensesBetweenUsers` returns the balance 0 for current user 1 and other user 2. -/
theorem settlementNet_differs_from_pair_balance :
    settlementNet settledStore 1 2 = -20 ∧
    (getExpensesBetweenUsers settledStore 1 2).map (fun v => v.balance) = .ok 0 ∧
    netFromExpenses 1 2 (settledStore.expensesPaidBy 1 ++ settledStore.expensesPaidBy 2) = -10 ∧
    balanceFromExpenses 1 2 0 (pairExpenses settledStore 1 2) = -10 := by
  decide!


/-! ## The pairwise balance and the validator's net as sums over the store -/

theorem foldl_eq_add_sum {α : Type} (g : ℚ → α → ℚ) (f : α → ℚ)
    (h : ∀ b x, g b x = b + f x) (l : List α) (b : ℚ) :
    l.foldl g b = b + (l.map f).sum := by
  induction l generalizing b with
  | nil => simp
  | cons x xs ih => simp [ih, h, add_assoc]

theorem sum_map_filter {α : Type} (p : α → Bool) (f : α → ℚ) (l : List α) :
    ((l.filter p).map f).sum = (l.map (fun x => if p x then f x else 0)).sum := by
  induction l with
  | nil => simp
  | cons x xs ih =>
    by_cases hp : p x <;> simp [List.filter_cons, hp, ih]

theorem owedBy_eq_zero (splits : List Split) (uid : Id)
    (h : splits.any (fun s => s.userId == uid) = false) : owedBy splits uid = 0 := by
  unfold owedBy findUnpaidSplit
  have : splits.find? (fun s => s.userId == uid && !s.paid) = none := by
    rw [List.find?_eq_none]
    intro s hs
    have := (List.any_eq_false.mp h) s hs
    simp_all
  rw [this]

theorem balanceFromExpenses_eq (me userId : Id) (b : ℚ) (l : List Expense) :
    balanceFromExpenses me userId b l =
      b + (l.map (fun e => if e.paidByUserId = me then owedBy e.splits userId
                           else - owedBy e.splits me)).sum := by
  unfold balanceFromExpenses
  apply foldl_eq_add_sum
  intro b e
  unfold owedBy
  split_ifs <;> split <;> simp [*, sub_eq_add_neg]

theorem balanceFromSettlements_eq (me : Id) (b : ℚ) (l : List Settlement) :
    balanceFromSettlements me b l =
      b + (l.map (fun s => if s.paidByUserId = me then s.amount else - s.amount)).sum := by
  unfold balanceFromSettlements
  apply foldl_eq_add_sum
  intro b s
  split_ifs <;> simp [sub_eq_add_neg]

theorem pairShare_eq_filtered (me userId : Id) (h : me ≠ userId) (e : Expense) :
    ((if (e.paidByUserId == me && e.groupId.isNone) = true then
        if bothInvolved me userId e = true then
          if e.paidByUserId = me then owedBy e.splits userId else - owedBy e.splits me
        else 0
      else 0) +
      if (e.paidByUserId == userId && e.groupId.isNone) = true then
        if bothInvolved me userId e = true then
          if e.paidByUserId = me then owedBy e.splits userId else - owedBy e.splits me
        else 0
      else 0) = pairShare me userId e := by
  unfold pairShare
  have h' : userId ≠ me := Ne.symm h
  cases hg : e.groupId with
  | some g => simp
  | none =>
    by_cases h1 : e.paidByUserId = me
    · have h2 : e.paidByUserId ≠ userId := fun h2 => h (h1 ▸ h2)
      by_cases hb : bothInvolved me userId e = true
      · simp [h1, hb, h]
      · have : e.splits.any (fun s => s.userId == userId) = false := by
          simp only [bothInvolved, h1, beq_self_eq_true, Bool.true_or, Bool.true_and,
            Bool.or_eq_true, not_or, Bool.not_eq_true] at hb
          exact hb.2
        simp [h1, hb, h, owedBy_eq_zero _ _ this]
    · by_cases h2 : e.paidByUserId = userId
      · by_cases hb : bothInvolved me userId e = true
        · simp [h1, h2, hb, h']
        · have : e.splits.any (fun s => s.userId == me) = false := by
            simp only [bothInvolved, h2, beq_self_eq_true, Bool.true_or, Bool.and_true,
              Bool.or_eq_true, not_or, Bool.not_eq_true] at hb
            exact hb.2
          simp [h1, h2, hb, h', owedBy_eq_zero _ _ this]
      · simp [h1, h2]

theorem pairPaid_eq_filtered (me userId : Id) (h : me ≠ userId) (s : Settlement) :
    (if (s.groupId.isNone &&
          ((s.paidByUserId == me && s.receivedByUserId == userId) ||
            (s.paidByUserId == userId && s.receivedByUserId == me))) = true then
        if s.paidByUserId = me then s.amount else - s.amount
      else 0) = pairPaid me userId s := by
  unfold pairPaid
  have h' : userId ≠ me := Ne.symm h
  cases hg : s.groupId with
  | some g => simp
  | none =>
    by_cases h1 : s.paidByUserId = me
    · have h2 : s.paidByUserId ≠ userId := fun h2 => h (h1 ▸ h2)
      by_cases h3 : s.receivedByUserId = userId <;> simp [h1, h3, h]
    · by_cases h2 : s.paidByUserId = userId
      · by_cases h3 : s.receivedByUserId = me <;> simp [h2, h3, h']
      · simp [h1, h2]

theorem pairBalance_eq_sums (st : Store) (me userId : Id) (h : me ≠ userId) :
    pairBalance st me userId =
      (st.expenses.map (pairShare me userId)).sum +
        (st.settlements.map (pairPaid me userId)).sum := by
  unfold pairBalance
  rw [balanceFromSettlements_eq, balanceFromExpenses_eq, zero_add]
  congr 1
  · unfold pairExpenses sortExpensesByDate
    rw [((List.perm_insertionSort _ _).map _).sum_eq]
    simp only [Store.expensesPaidBy, List.filter_append, List.map_append, List.sum_append,
      sum_map_filter, ← List.sum_map_add]
    congr 1
    apply List.map_congr_left
    intro e _
    exact pairShare_eq_filtered me userId h e
  · unfold pairSettlements sortSettlementsByDate
    rw [((List.perm_insertionSort _ _).map _).sum_eq, sum_map_filter]
    congr 1
    apply List.map_congr_left
    intro s _
    exact pairPaid_eq_filtered me userId h s

theorem netFromExpenses_eq (payer receiver : Id) (l : List Expense) :
    netFromExpenses payer receiver l =
      (l.map (fun e => if e.paidByUserId = payer then owedBy e.splits receiver
                       else if e.paidByUserId = receiver then - owedBy e.splits payer
                       else 0)).sum := by
  unfold netFromExpenses
  rw [foldl_eq_add_sum _ (fun e => if e.paidByUserId = payer then owedBy e.splits receiver
                       else if e.paidByUserId = receiver then - owedBy e.splits payer
                       else 0), zero_add]
  intro b e
  unfold owedBy
  split_ifs <;> first | split <;> simp [*, sub_eq_add_neg] | simp

theorem applyPriorSettlements_eq (payer : Id) (b : ℚ) (l : List Settlement) :
    applyPriorSettlements payer b l =
      b - (l.map (fun s => if s.paidByUserId = payer then s.amount else - s.amount)).sum := by
  unfold applyPriorSettlements
  rw [foldl_eq_add_sum _ (fun s => - (if s.paidByUserId = payer then s.amount else - s.amount)),
    sub_eq_add_neg]
  · congr 1
    induction l with
    | nil => simp
    | cons x xs ih => simp only [List.map_cons, List.sum_cons, ih]; ring
  · intro b s
    split_ifs <;> simp [sub_eq_add_neg]

theorem settlementNet_eq_sums (st : Store) (payer receiver : Id) (h : payer ≠ receiver) :
    settlementNet st payer receiver =
      (st.expenses.map (pairShare payer receiver)).sum -
        (st.settlements.map (pairPaid payer receiver)).sum := by
  have h' : receiver ≠ payer := Ne.symm h
  unfold settlementNet
  rw [applyPriorSettlements_eq, netFromExpenses_eq]
  congr 1
  · simp only [Store.expensesPaidBy, List.map_append, List.sum_append,
      sum_map_filter, ← List.sum_map_add]
    congr 1
    apply List.map_congr_left
    intro e _
    unfold pairShare
    cases hg : e.groupId with
    | some g => simp
    | none =>
      by_cases h1 : e.paidByUserId = payer
      · simp [h1, h]
      · by_cases h2 : e.paidByUserId = receiver <;> simp [h1, h2, h']
  · simp only [priorSettlements, Store.settlementsPaidBy, List.map_append, List.sum_append,
      sum_map_filter, ← List.sum_map_add]
    congr 1
    apply List.map_congr_left
    intro s _
    unfold pairPaid
    cases hg : s.groupId with
    | some g => simp
    | none =>
      by_cases h1 : s.paidByUserId = payer
      · by_cases h3 : s.receivedByUserId = receiver <;> simp [h1, h3, h]
      · by_cases h2 : s.paidByUserId = receiver
        · by_cases h3 : s.receivedByUserId = payer <;> simp [h2, h3, h']
        · simp [h1, h2]
theorem getExpensesBetweenUsers_ok (st : Store) (me userId : Id) (h : me ≠ userId)
    (other : User) (hu : st.getUser userId = some other) :
    getExpensesBetweenUsers st me userId =
      .ok { expenses := pairExpenses st me userId, settlements := pairSettlements st me userId,
            otherUser := other, balance := pairBalance st me userId } := by
  unfold getExpensesBetweenUsers
  rw [if_neg h]
  simp only [hu]

theorem sum_map_neg {α : Type} (f g : α → ℚ) (l : List α) (h : ∀ x, f x = - g x) :
    (l.map f).sum = - (l.map g).sum := by
  induction l with
  | nil => simp
  | cons x xs ih => simp only [List.map_cons, List.sum_cons, ih, h x]; ring

theorem pairShare_swap (a b : Id) (h : a ≠ b) (e : Expense) :
    pairShare a b e = - pairShare b a e := by
  unfold pairShare
  by_cases hg : e.groupId = none
  · by_cases h1 : e.paidByUserId = a
    · have h2 : e.paidByUserId ≠ b := fun h2 => h (h1 ▸ h2)
      simp [hg, h1, h2, h]
    · by_cases h2 : e.paidByUserId = b <;> simp [hg, h1, h2, Ne.symm h]
  · simp [hg]

theorem pairPaid_swap (a b : Id) (h : a ≠ b) (s : Settlement) :
    pairPaid a b s = - pairPaid b a s := by
  unfold pairPaid
  by_cases hg : s.groupId = none
  · by_cases h1 : s.paidByUserId = a ∧ s.receivedByUserId = b
    · have h2 : ¬ (s.paidByUserId = b ∧ s.receivedByUserId = a) :=
        fun h2 => h (h1.1.symm.trans h2.1)
      rw [if_pos hg, if_pos hg, if_pos h1, if_neg h2, if_pos h1, neg_neg]
    · by_cases h2 : s.paidByUserId = b ∧ s.receivedByUserId = a
      · rw [if_pos hg, if_pos hg, if_neg h1, if_pos h2, if_pos h2]
      · rw [if_pos hg, if_pos hg, if_neg h1, if_neg h2, if_neg h2, if_neg h1, neg_zero]
  · simp [hg]

theorem pairBalance_swap (st : Store) (a b : Id) (h : a ≠ b) :
    pairBalance st a b = - pairBalance st b a := by
  rw [pairBalance_eq_sums st a b h, pairBalance_eq_sums st b a (Ne.symm h),
    sum_map_neg _ _ _ (pairShare_swap a b h), sum_map_neg _ _ _ (pairPaid_swap a b h)]
  ring

/-! ## The effect of an admitted settlement on the pairwise balance -/

theorem pairBalance_insertSettlement (st : Store) (caller : Id) (now : ℚ)
    (args : SettlementArgs) (hg : args.groupId = none)
    (hne : args.paidByUserId ≠ args.receivedByUserId) :
    pairBalance (st.insertSettlement (settlementDoc caller now args)).2
        args.paidByUserId args.receivedByUserId =
      pairBalance st args.paidByUserId args.receivedByUserId + args.amount := by
  rw [pairBalance_eq_sums _ _ _ hne, pairBalance_eq_sums _ _ _ hne]
  simp [Store.insertSettlement, settlementDoc, pairPaid, hg, add_assoc]

theorem sum_map_eq_zero {α : Type} (f : α → ℚ) (l : List α) (h : ∀ x ∈ l, f x = 0) :
    (l.map f).sum = 0 := by
  induction l with
  | nil => simp
  | cons x xs ih =>
    simp only [List.map_cons, List.sum_cons, h x (List.mem_cons_self _ _), zero_add]
    exact ih (fun y hy => h y (List.mem_cons_of_mem _ hy))

/-- C4 (as stated, refuted): user 2 is owed 10 by user 1 and pays user 1 another 10; the
draft is admitted and the pairwise balance grows from 10 to 20. -/
theorem admitted_settlement_can_raise_debt :
    (createSettlement dinnerStore 2 2 wrongWay10).result = .ok 11 ∧
    (getExpensesBetweenUsers dinnerStore 2 1).map (fun v => v.balance) = .ok 10 ∧
    (getExpensesBetweenUsers (createSettlement dinnerStore 2 2 wrongWay10).store 2 1).map
      (fun v => v.balance) = .ok 20 ∧
    ¬ (|pairBalance (createSettlement dinnerStore 2 2 wrongWay10).store 2 1| ≤
        |pairBalance dinnerStore 2 1| + 1 / 100) := by
  decide!

theorem getExpensesBetweenUsers_inv (st : Store) (me userId : Id) (v : PairView)
    (h : getExpensesBetweenUsers st me userId = .ok v) :
    me ≠ userId ∧ st.getUser userId = some v.otherUser ∧
      v.balance = pairBalance st me userId := by
  unfold getExpensesBetweenUsers at h
  by_cases hne : me = userId
  · rw [if_pos hne] at h
    simp at h
  · rw [if_neg hne] at h
    cases hu : st.getUser userId with
    | none => simp [hu] at h
    | some other =>
      simp only [hu, Except.ok.injEq] at h
      subst h
      exact ⟨hne, rfl, rfl⟩

/-- C4 (amended): on a store with no earlier ungrouped settlement between payer and
receiver, when the payer is the one in debt (the pairwise balance reported for payer
against receiver is negative), an admitted ungrouped draft raises that balance by its
amount and the absolute balance after the insert is at most the absolute balance before it
plus 0.01. -/
theorem admitted_settlement_reduces_debt (st : Store) (caller : Id) (now : ℚ)
    (args : SettlementArgs) (id : Id) (v : PairView)
    (hg : args.groupId = none)
    (hadm : (createSettlement st caller now args).result = .ok id)
    (hprior : ∀ s ∈ st.settlements, s.groupId = none →
      ¬ (s.paidByUserId = args.paidByUserId ∧ s.receivedByUserId = args.receivedByUserId) ∧
      ¬ (s.paidByUserId = args.receivedByUserId ∧ s.receivedByUserId = args.paidByUserId))
    (hv : getExpensesBetweenUsers st args.paidByUserId args.receivedByUserId = .ok v)
    (hdebt : v.balance < 0) :
    ∃ w, getExpensesBetweenUsers (createSettlement st caller now args).store
        args.paidByUserId args.receivedByUserId = .ok w ∧
      w.balance = v.balance + args.amount ∧
      |w.balance| ≤ |v.balance| + 1 / 100 := by
  obtain ⟨hne, hu, hbal⟩ := getExpensesBetweenUsers_inv st _ _ v hv
  have hpos : 0 < args.amount := by
    by_contra hc
    unfold createSettlement at hadm
    rw [if_pos (not_lt.mp hc)] at hadm
    simp at hadm
  have hcaller : caller = args.paidByUserId ∨ caller = args.receivedByUserId := by
    by_contra hc
    unfold createSettlement at hadm
    rw [if_neg (not_le.mpr hpos), if_neg hne, if_pos (by tauto)] at hadm
    simp at hadm
  have hS : (st.settlements.map (pairPaid args.paidByUserId args.receivedByUserId)).sum = 0 := by
    apply sum_map_eq_zero
    intro s hs
    unfold pairPaid
    by_cases hsg : s.groupId = none
    · simp [hsg, (hprior s hs hsg).1, (hprior s hs hsg).2]
    · simp [hsg]
  have hnet : settlementNet st args.paidByUserId args.receivedByUserId =
      pairBalance st args.paidByUserId args.receivedByUserId := by
    rw [settlementNet_eq_sums _ _ _ hne, pairBalance_eq_sums _ _ _ hne, hS]
    ring
  rw [createSettlement_ungrouped st caller now args hg hpos hne hcaller, hnet] at hadm ⊢
  by_cases h0 : pairBalance st args.paidByUserId args.receivedByUserId = 0
  · rw [if_pos h0] at hadm
    simp at hadm
  rw [if_neg h0] at hadm ⊢
  by_cases h1 : args.amount > |pairBalance st args.paidByUserId args.receivedByUserId| + 1 / 100
  · rw [if_pos h1] at hadm
    simp at hadm
  rw [if_neg h1]
  have hu' : (st.insertSettlement (settlementDoc caller now args)).2.getUser
      args.receivedByUserId = some v.otherUser := hu
  rw [getExpensesBetweenUsers_ok _ _ _ hne v.otherUser hu']
  refine ⟨_, rfl, ?_, ?_⟩
  · rw [hbal]
    exact pairBalance_insertSettlement st caller now args hg hne
  · show |pairBalance (st.insertSettlement (settlementDoc caller now args)).2 _ _| ≤
      |v.balance| + 1 / 100
    rw [pairBalance_insertSettlement st caller now args hg hne, ← hbal]
    have h1' := not_lt.mp h1
    rw [← hbal, abs_of_neg hdebt] at h1'
    rw [abs_of_neg hdebt, abs_le]
    constructor <;> linarith

theorem admitted_settlement_reduces_debt_witness :
    (createSettlement dinnerStore 1 2 repay10).result = .ok 11 ∧
    getExpensesBetweenUsers dinnerStore 1 2 =
      .ok ⟨[dinner], [], ⟨2, "A", "a@example.com", none⟩, -10⟩ ∧
    ∃ w, getExpensesBetweenUsers (createSettlement dinnerStore 1 2 repay10).store
        repay10.paidByUserId repay10.receivedByUserId = .ok w ∧
      w.balance = -10 + repay10.amount ∧ |w.balance| ≤ |(-10 : ℚ)| + 1 / 100 :=
  ⟨by decide!, by decide!,
   admitted_settlement_reduces_debt dinnerStore 1 2 repay10 11
    ⟨[dinner], [], ⟨2, "A", "a@example.com", none⟩, -10⟩
    (by decide) (by decide!) (by decide) (by decide!) (by decide!)⟩


/-! ## The tally `balanceByUser` -/

theorem Tally.get_set (t : Tally) (k : Id) (v : ℚ) (c : Id) :
    (t.set k v).get c = if c = k then some v else t.get c := by
  induction t with
  | nil =>
    by_cases h : c = k
    · simp [Tally.set, Tally.get, h]
    · simp [Tally.set, Tally.get, h, Ne.symm h]
  | cons kv rest ih =>
    obtain ⟨k', w⟩ := kv
    unfold Tally.get at ih ⊢
    by_cases hk : k' = k
    · by_cases h : c = k
      · simp [Tally.set, hk, h]
      · simp [Tally.set, hk, h, Ne.symm h]
    · by_cases h : c = k
      · subst h
        simpa [Tally.set, hk, List.find?_cons] using ih
      · by_cases h' : k' = c
        · simp [Tally.set, hk, h, h', List.find?_cons]
        · simpa [Tally.set, hk, h, h', List.find?_cons] using ih

theorem Tally.keys_set (t : Tally) (k : Id) (v : ℚ) :
    (t.set k v).map Prod.fst =
      if k ∈ t.map Prod.fst then t.map Prod.fst else t.map Prod.fst ++ [k] := by
  induction t with
  | nil => simp [Tally.set]
  | cons kv rest ih =>
    obtain ⟨k', w⟩ := kv
    by_cases hk : k' = k
    · simp [Tally.set, hk]
    · simp only [Tally.set, hk, if_false, List.map_cons, ih, List.mem_cons, Ne.symm hk, false_or]
      split_ifs <;> simp

theorem Tally.nodup_set (t : Tally) (k : Id) (v : ℚ) (h : (t.map Prod.fst).Nodup) :
    ((t.set k v).map Prod.fst).Nodup := by
  rw [Tally.keys_set]
  split_ifs with hk
  · exact h
  · exact List.Nodup.append h (List.nodup_singleton k) (by simpa using hk)

theorem orZero_some (v : ℚ) : orZero (some v) = v := by
  show (if v = 0 then 0 else v) = v
  split_ifs with h <;> simp [h]

theorem Tally.net_credit (t : Tally) (k : Id) (d : ℚ) (c : Id) :
    (t.credit k d).net c = t.net c + if c = k then d else 0 := by
  unfold Tally.net Tally.credit
  rw [Tally.get_set]
  by_cases h : c = k
  · simp [h, orZero_some]
  · simp [h]

theorem Tally.net_debit (t : Tally) (k : Id) (d : ℚ) (c : Id) :
    (t.debit k d).net c = t.net c + if c = k then - d else 0 := by
  unfold Tally.net Tally.debit
  rw [Tally.get_set]
  by_cases h : c = k
  · simp [h, orZero_some, sub_eq_add_neg]
  · simp [h]
theorem Tally.nodup_credit (t : Tally) (k : Id) (d : ℚ) (h : (t.map Prod.fst).Nodup) :
    ((t.credit k d).map Prod.fst).Nodup := Tally.nodup_set t k _ h

theorem Tally.nodup_debit (t : Tally) (k : Id) (d : ℚ) (h : (t.map Prod.fst).Nodup) :
    ((t.debit k d).map Prod.fst).Nodup := Tally.nodup_set t k _ h

theorem tallyExpense_nodup (user : Id) (t : Tally) (e : Expense)
    (h : (t.map Prod.fst).Nodup) : ((tallyExpense user t e).map Prod.fst).Nodup := by
  unfold tallyExpense
  dsimp only
  split_ifs with hp
  · generalize e.splits = l
    induction l generalizing t with
    | nil => simpa using h
    | cons s rest ih =>
      rw [List.foldl_cons]
      apply ih
      split_ifs
      · exact h
      · exact Tally.nodup_credit _ _ _ h
  · split
    · split_ifs
      · exact Tally.nodup_debit _ _ _ h
      · exact h
    · exact h

theorem tallySettlement_nodup (user : Id) (t : Tally) (s : Settlement)
    (h : (t.map Prod.fst).Nodup) : ((tallySettlement user t s).map Prod.fst).Nodup := by
  unfold tallySettlement
  split_ifs
  · exact Tally.nodup_credit _ _ _ h
  · exact Tally.nodup_debit _ _ _ h

theorem foldl_invariant {α β : Type} (P : β → Prop) (f : β → α → β)
    (hf : ∀ b x, P b → P (f b x)) (l : List α) (b : β) (hb : P b) : P (l.foldl f b) := by
  induction l generalizing b with
  | nil => exact hb
  | cons x xs ih => exact ih _ (hf b x hb)

theorem balanceByUser_nodup (st : Store) (user : Id) :
    ((balanceByUser st user).map Prod.fst).Nodup := by
  unfold balanceByUser
  apply foldl_invariant (fun t : Tally => (t.map Prod.fst).Nodup)
  · exact fun t s h => tallySettlement_nodup user t s h
  · apply foldl_invariant (fun t : Tally => (t.map Prod.fst).Nodup)
    · exact fun t e h => tallyExpense_nodup user t e h
    · exact List.nodup_nil

theorem foldl_net_eq {α : Type} (step : Tally → α → Tally) (gain : α → ℚ) (c : Id)
    (h : ∀ t x, (step t x).net c = t.net c + gain x) (l : List α) (t : Tally) :
    (l.foldl step t).net c = t.net c + (l.map gain).sum := by
  induction l generalizing t with
  | nil => simp
  | cons x xs ih => simp [ih, h, add_assoc]

theorem tallyExpense_net (user c : Id) (t : Tally) (e : Expense) :
    (tallyExpense user t e).net c = t.net c + dashShare user c e := by
  unfold tallyExpense dashShare
  dsimp only
  by_cases hp : e.paidByUserId = user
  · simp only [hp, beq_self_eq_true, if_true]
    apply foldl_net_eq
    intro t s
    by_cases h1 : s.userId = user
    · simp [h1]
    · by_cases h2 : s.paid = true
      · simp [h2]
      · by_cases h3 : s.userId = c
        · subst h3
          simp [h1, h2, Tally.net_credit]
        · simp [h1, h2, h3, Tally.net_credit, Ne.symm h3]
  · simp only [hp, beq_iff_eq, if_false]
    split
    · next ms _ =>
      by_cases h2 : ms.paid = true
      · simp [h2]
      · by_cases h3 : e.paidByUserId = c
        · subst h3
          simp [h2, Tally.net_debit]
        · simp [h2, h3, Tally.net_debit, Ne.symm h3]
    · simp

theorem tallySettlement_net (user c : Id) (t : Tally) (s : Settlement) :
    (tallySettlement user t s).net c = t.net c + dashPaid user c s := by
  unfold tallySettlement dashPaid
  split_ifs <;> simp_all [Tally.net_credit, Tally.net_debit, eq_comm]

theorem balanceByUser_net (st : Store) (user c : Id) :
    (balanceByUser st user).net c =
      (st.expenses.map (fun e => if involvesUngrouped user e then dashShare user c e else 0)).sum +
        (st.settlements.map
          (fun s => if settlesUngrouped user s then dashPaid user c s else 0)).sum := by
  unfold balanceByUser
  dsimp only
  rw [foldl_net_eq _ _ c (tallySettlement_net user c), foldl_net_eq _ _ c (tallyExpense_net user c),
    sum_map_filter, sum_map_filter]
  simp [Tally.net, Tally.get, orZero]
/-! ## The dashboard terms against the pairwise terms -/

theorem any_userId_false_of_not_mem (l : List Split) (uid : Id)
    (h : uid ∉ l.map (fun s => s.userId)) : l.any (fun s => s.userId == uid) = false := by
  rw [List.any_eq_false]
  intro s hs
  simp only [beq_iff_eq]
  intro hc
  exact h (List.mem_map.mpr ⟨s, hs, hc⟩)

theorem owedBy_cons (s : Split) (rest : List Split) (uid : Id) :
    owedBy (s :: rest) uid =
      if s.userId = uid ∧ s.paid = false then s.amount else owedBy rest uid := by
  unfold owedBy findUnpaidSplit
  by_cases h : s.userId = uid ∧ s.paid = false
  · simp [List.find?_cons, h.1, h.2]
  · rw [if_neg h, List.find?_cons]
    have : (s.userId == uid && !s.paid) = false := by
      by_cases h1 : s.userId = uid
      · have h2 : s.paid = true := by simpa [h1] using h
        simp [h1, h2]
      · simp [h1]
    rw [this]

theorem owedBy_eq_first_split (l : List Split) (uid : Id)
    (hnd : (l.map (fun s => s.userId)).Nodup) :
    owedBy l uid =
      match l.find? (fun s => s.userId == uid) with
      | some ms => if ms.paid = false then ms.amount else 0
      | none => 0 := by
  induction l with
  | nil => rfl
  | cons s rest ih =>
    rw [List.map_cons, List.nodup_cons] at hnd
    rw [owedBy_cons, List.find?_cons]
    by_cases h1 : s.userId = uid
    · have hz : owedBy rest uid = 0 :=
        owedBy_eq_zero rest uid (any_userId_false_of_not_mem rest uid (h1 ▸ hnd.1))
      by_cases h2 : s.paid = false <;> simp [h1, h2, hz]
    · have hb : (s.userId == uid) = false := by simpa using h1
      simp only [h1, false_and, if_false, hb]
      exact ih hnd.2

theorem sum_unpaid_eq_owedBy (l : List Split) (user c : Id) (h : user ≠ c)
    (hnd : (l.map (fun s => s.userId)).Nodup) :
    (l.map (fun s =>
      if s.userId = user ∨ s.paid = true then 0
      else if s.userId = c then s.amount else 0)).sum = owedBy l c := by
  induction l with
  | nil => rfl
  | cons s rest ih =>
    rw [List.map_cons, List.nodup_cons] at hnd
    rw [owedBy_cons, List.map_cons, List.sum_cons, ih hnd.2]
    by_cases h1 : s.userId = c
    · have hz : owedBy rest c = 0 :=
        owedBy_eq_zero rest c (any_userId_false_of_not_mem rest c (h1 ▸ hnd.1))
      have h3 : ¬ c = user := Ne.symm h
      by_cases h2 : s.paid = true <;> simp [h1, h2, hz, h3]
    · by_cases h2 : s.userId = user
      · simp [h2, h]
      · simp [h1, h2]

theorem dashShare_eq_pairShare (user c : Id) (h : user ≠ c) (e : Expense)
    (hnd : e.groupId = none → (e.splits.map (fun s => s.userId)).Nodup) :
    (if involvesUngrouped user e then dashShare user c e else 0) = pairShare user c e := by
  unfold pairShare involvesUngrouped
  cases hg : e.groupId with
  | some g => simp
  | none =>
    have hnd' := hnd hg
    by_cases hp : e.paidByUserId = user
    · simp only [hp, Option.isNone_none, beq_self_eq_true, Bool.true_or, Bool.and_self, if_true]
      unfold dashShare
      rw [if_pos hp]
      exact sum_unpaid_eq_owedBy e.splits user c h hnd'
    · simp only [hp, Option.isNone_none, Bool.true_and, if_true, if_false]
      unfold dashShare
      rw [if_neg hp, owedBy_eq_first_split e.splits user hnd']
      cases hf : e.splits.find? (fun s => s.userId == user) with
      | none =>
        have : e.splits.any (fun s => s.userId == user) = false := by
          rw [List.find?_eq_none] at hf
          rw [List.any_eq_false]
          exact hf
        simp [hp, this]
      | some ms =>
        have : e.splits.any (fun s => s.userId == user) = true := by
          rw [List.any_eq_true]
          exact ⟨ms, List.mem_of_find?_eq_some hf, @List.find?_some _ (fun s : Split => s.userId == user) _ _ hf⟩
        by_cases h2 : ms.paid = false <;> by_cases h3 : e.paidByUserId = c <;>
          simp [hp, this, h2, h3]

theorem dashPaid_eq_pairPaid (user c : Id) (h : user ≠ c) (s : Settlement) :
    (if settlesUngrouped user s then dashPaid user c s else 0) = pairPaid user c s := by
  unfold pairPaid settlesUngrouped dashPaid
  have h' : ¬ c = user := Ne.symm h
  cases hg : s.groupId with
  | some g => simp
  | none =>
    by_cases h1 : s.paidByUserId = user
    · by_cases h2 : s.receivedByUserId = c <;> simp [h1, h2, h]
    · by_cases h2 : s.paidByUserId = c
      · by_cases h3 : s.receivedByUserId = user <;> simp [h2, h3, h']
      · simp [h1, h2]

theorem balanceByUser_net_eq_pairBalance (st : Store) (user c : Id) (h : user ≠ c)
    (hnd : ∀ e ∈ st.expenses, e.groupId = none → (e.splits.map (fun s => s.userId)).Nodup) :
    (balanceByUser st user).net c = pairBalance st user c := by
  rw [balanceByUser_net, pairBalance_eq_sums st user c h]
  congr 1
  · congr 1
    apply List.map_congr_left
    intro e he
    exact dashShare_eq_pairShare user c h e (hnd e he)
  · congr 1
    apply List.map_congr_left
    intro s _
    exact dashPaid_eq_pairPaid user c h s
/-! ## The lists of `getUserBalances` -/

theorem classify_foldl (st : Store) (t : Tally) (acc : Totals) :
    (t.foldl (classify st) acc).youAreOwedByList =
        acc.youAreOwedByList ++ (t.filter isOwedEntry).map (baseEntry st) ∧
    (t.foldl (classify st) acc).youOweList =
        acc.youOweList ++ (t.filter isOweEntry).map (baseEntry st) ∧
    (t.foldl (classify st) acc).youAreOwed =
        acc.youAreOwed + ((t.filter isOwedEntry).map (fun kv => kv.2)).sum ∧
    (t.foldl (classify st) acc).youOwe =
        acc.youOwe + ((t.filter isOweEntry).map (fun kv => - kv.2)).sum := by
  induction t generalizing acc with
  | nil => simp
  | cons kv rest ih =>
    rw [List.foldl_cons]
    obtain ⟨i1, i2, i3, i4⟩ := ih (classify st acc kv)
    rw [i1, i2, i3, i4]
    by_cases h1 : |kv.2| < 1 / 100
    · have hc : classify st acc kv = acc := by
        unfold classify
        exact if_pos h1
      have ho : isOwedEntry kv = false := by
        unfold isOwedEntry
        rw [decide_eq_true h1]
        rfl
      have hw : isOweEntry kv = false := by
        unfold isOweEntry
        rw [decide_eq_true h1]
        rfl
      rw [hc]
      simp [List.filter_cons, ho, hw]
    · by_cases h2 : kv.2 > 0
      · have hc : classify st acc kv =
            { acc with youAreOwed := acc.youAreOwed + kv.2
                       youAreOwedByList := acc.youAreOwedByList ++ [baseEntry st kv] } := by
          unfold classify
          dsimp only
          rw [if_neg h1, if_pos h2]
        have ho : isOwedEntry kv = true := by
          unfold isOwedEntry
          rw [decide_eq_false h1, decide_eq_true h2]
          rfl
        have hw : isOweEntry kv = false := by
          unfold isOweEntry
          rw [decide_eq_false h1, decide_eq_true h2]
          rfl
        rw [hc]
        simp [List.filter_cons, ho, hw, add_assoc]
      · have hc : classify st acc kv =
            { acc with youOwe := acc.youOwe + -kv.2
                       youOweList := acc.youOweList ++ [baseEntry st kv] } := by
          unfold classify
          dsimp only
          rw [if_neg h1, if_neg h2]
        have ho : isOwedEntry kv = false := by
          unfold isOwedEntry
          rw [decide_eq_false h1, decide_eq_false h2]
          rfl
        have hw : isOweEntry kv = true := by
          unfold isOweEntry
          rw [decide_eq_false h1, decide_eq_false h2]
          rfl
        rw [hc]
        simp [List.filter_cons, ho, hw, add_assoc]

theorem getUserBalances_lists (st : Store) (user : Id) :
    (getUserBalances st user).youAreOwedByList =
        sortByAmount (((balanceByUser st user).filter isOwedEntry).map (baseEntry st)) ∧
    (getUserBalances st user).youOweList =
        sortByAmount (((balanceByUser st user).filter isOweEntry).map (baseEntry st)) := by
  unfold getUserBalances
  obtain ⟨i1, i2, -, -⟩ := classify_foldl st (balanceByUser st user) ⟨0, 0, [], []⟩
  dsimp only
  rw [i1, i2]
  simp

theorem find?_userId_of_mem (l : List OweEntry) (hnd : (l.map (fun b => b.userId)).Nodup)
    (b : OweEntry) (hb : b ∈ l) : l.find? (fun x => x.userId == b.userId) = some b := by
  induction l with
  | nil => simp at hb
  | cons x rest ih =>
    rw [List.map_cons, List.nodup_cons] at hnd
    rw [List.find?_cons]
    rcases List.mem_cons.mp hb with hx | hr
    · subst hx
      simp
    · have hne : x.userId ≠ b.userId := by
        intro hc
        exact hnd.1 (hc ▸ List.mem_map.mpr ⟨b, hr, rfl⟩)
      have hb' : (x.userId == b.userId) = false := by simpa using hne
      rw [hb']
      exact ih hnd.2 hr

theorem sorted_entries_find? (st : Store) (t : Tally) (hnd : (t.map Prod.fst).Nodup)
    (p : Id × ℚ → Bool) (c : Id) :
    (sortByAmount ((t.filter p).map (baseEntry st))).find? (fun b => b.userId == c) =
      match t.get c with
      | some v => if p (c, v) then some (baseEntry st (c, v)) else none
      | none => none := by
  have hperm : (sortByAmount ((t.filter p).map (baseEntry st))).Perm
      ((t.filter p).map (baseEntry st)) := List.perm_insertionSort _ _
  have hkeys : ((sortByAmount ((t.filter p).map (baseEntry st))).map (fun b => b.userId)).Nodup := by
    rw [(hperm.map _).nodup_iff, List.map_map]
    exact (hnd.sublist ((List.filter_sublist t).map Prod.fst))
  have hmem : ∀ b, b ∈ sortByAmount ((t.filter p).map (baseEntry st)) ↔
      ∃ kv ∈ t, p kv = true ∧ baseEntry st kv = b := by
    intro b
    rw [hperm.mem_iff]
    simp [List.mem_map, List.mem_filter, and_assoc]
  unfold Tally.get
  cases hf : t.find? (fun kv => kv.1 == c) with
  | none =>
    rw [List.find?_eq_none] at hf
    simp only [Option.map_none']
    rw [List.find?_eq_none]
    intro b hb
    obtain ⟨kv, hkv, -, rfl⟩ := (hmem b).mp hb
    simpa [baseEntry] using hf kv hkv
  | some kv =>
    have hkv : kv ∈ t := List.mem_of_find?_eq_some hf
    have hk : kv.1 = c := by
      simpa using @List.find?_some _ (fun kv : Id × ℚ => kv.1 == c) _ _ hf
    obtain ⟨k, v⟩ := kv
    simp only at hk
    subst hk
    simp only [Option.map_some']
    by_cases hp : p (k, v) = true
    · rw [if_pos hp]
      have := find?_userId_of_mem _ hkeys (baseEntry st (k, v))
        ((hmem _).mpr ⟨(k, v), hkv, hp, rfl⟩)
      simpa [baseEntry] using this
    · rw [if_neg hp, List.find?_eq_none]
      intro b hb
      obtain ⟨kv', hkv', hp', rfl⟩ := (hmem b).mp hb
      simp only [baseEntry, beq_iff_eq]
      intro hc
      have : kv' = (k, v) := List.inj_on_of_nodup_map hnd hkv' hkv hc
      exact hp (this ▸ hp')

theorem Tally.net_eq (t : Tally) (c : Id) :
    t.net c = match t.get c with
      | some v => v
      | none => 0 := by
  unfold Tally.net
  cases t.get c with
  | none => rfl
  | some v => exact orZero_some v

theorem reported_eq (st : Store) (user c : Id) :
    (getUserBalances st user).reported c =
      if |(balanceByUser st user).net c| < 1 / 100 then none
      else some ((balanceByUser st user).net c) := by
  unfold UserBalances.reported
  obtain ⟨h1, h2⟩ := getUserBalances_lists st user
  rw [h1, h2, sorted_entries_find? st _ (balanceByUser_nodup st user),
    sorted_entries_find? st _ (balanceByUser_nodup st user), Tally.net_eq]
  cases (balanceByUser st user).get c with
  | none => simp
  | some v =>
    dsimp only
    by_cases ha : |v| < 1 / 100
    · have ho : isOwedEntry (c, v) = false := by
        unfold isOwedEntry
        rw [decide_eq_true ha]
        rfl
      have hw : isOweEntry (c, v) = false := by
        unfold isOweEntry
        rw [decide_eq_true ha]
        rfl
      rw [ho, hw, if_pos ha]
      rfl
    · by_cases hpos : v > 0
      · have ho : isOwedEntry (c, v) = true := by
          unfold isOwedEntry
          rw [decide_eq_false ha, decide_eq_true hpos]
          rfl
        rw [ho, if_neg ha]
        show some |v| = some v
        rw [abs_of_pos hpos]
      · have ho : isOwedEntry (c, v) = false := by
          unfold isOwedEntry
          rw [decide_eq_false ha, decide_eq_false hpos]
          rfl
        have hw : isOweEntry (c, v) = true := by
          unfold isOweEntry
          rw [decide_eq_false ha, decide_eq_false hpos]
          rfl
        rw [ho, hw, if_neg ha]
        show some (- |v|) = some v
        rw [abs_of_nonpos (not_lt.mp hpos), neg_neg]
/-- C10 (as stated, refuted): user 1 paid an ungrouped expense whose only split is an
unpaid 1/200 of user 2; `getExpensesBetweenUsers` returns the balance 1/200, while
`getUserBalances` lists user 2 in neither list. -/
theorem dashboard_drops_small_balance :
    (createExpense emptyStore 1 gumArgs).store = gumStore ∧
    (∀ e ∈ gumStore.expenses, e.groupId = none) ∧
    (getExpensesBetweenUsers gumStore 1 2).map (fun v => v.balance) = .ok (1 / 200) ∧
    (getUserBalances gumStore 1).reported 2 = none ∧
    (getUserBalances gumStore 1).youAreOwedByList = [] ∧
    (getUserBalances gumStore 1).youOweList = [] := by
  decide!

/-- An expense that lists a participant in two unpaid splits: the dashboard counts both
splits (30), the pairwise view only the first (10). -/
theorem repeated_participant_views_differ :
    (getUserBalances twiceStore 1).reported 2 = some 30 ∧
    (getExpensesBetweenUsers twiceStore 1 2).map (fun v => v.balance) = .ok 10 := by
  decide!

/-! ## `getSettlementData`, 'group' branch: errors and record shape -/

theorem getSettlementData_group (st : Store) (me : Id) (gid : Id) :
    getSettlementData st me "group" gid =
      match st.getGroup gid with
      | none => .error "Group not found"
      | some group =>
        if group.members.any (fun m => m.userId == me) = true then
          .ok (.group ⟨group._id, group.name, group.description⟩
            ((groupBalances st me group).map (memberRecord st)))
        else .error "You are not a member of this group" := by
  unfold getSettlementData
  rw [if_neg (by decide), if_pos rfl]
  cases st.getGroup gid with
  | none => rfl
  | some group =>
    dsimp only
    by_cases h : group.members.any (fun m => m.userId == me) = true
    · simp [h]
    · simp [h]

/-- C20: in 'group' mode `getSettlementData` raises 'Group not found' when the group does
not exist, raises 'You are not a member of this group' when the group exists and the
caller is not among its members, and returns a 'group' result in every other case. -/
theorem getSettlementData_group_errors (st : Store) (me : Id) (gid : Id) :
    (st.getGroup gid = none →
      getSettlementData st me "group" gid = .error "Group not found") ∧
    (∀ group, st.getGroup gid = some group → (∀ m ∈ group.members, m.userId ≠ me) →
      getSettlementData st me "group" gid = .error "You are not a member of this group") ∧
    (∀ group, st.getGroup gid = some group → (∃ m ∈ group.members, m.userId = me) →
      ∃ info list, getSettlementData st me "group" gid = .ok (.group info list)) := by
  rw [getSettlementData_group]
  refine ⟨fun h => by rw [h], fun group h hm => ?_, fun group h hm => ?_⟩
  · rw [h]
    have : ¬ group.members.any (fun m => m.userId == me) = true := by
      simpa using hm
    dsimp only
    rw [if_neg this]
  · rw [h]
    have : group.members.any (fun m => m.userId == me) = true := by
      simpa using hm
    dsimp only
    rw [if_pos this]
    exact ⟨_, _, rfl⟩

theorem getSettlementData_group_errors_witness :
    getSettlementData emptyStore 1 "group" 100 = .error "Group not found" ∧
    getSettlementData { hotelStore with groups := [{ trio with members := [⟨2, "admin"⟩] }] }
      1 "group" 100 = .error "You are not a member of this group" ∧
    ∃ info list, getSettlementData hotelStore 1 "group" 100 = .ok (.group info list) :=
  ⟨(getSettlementData_group_errors emptyStore 1 100).1 (by decide),
   (getSettlementData_group_errors
      { hotelStore with groups := [{ trio with members := [⟨2, "admin"⟩] }] } 1 100).2.1
      { trio with members := [⟨2, "admin"⟩] } (by decide) (by decide),
   (getSettlementData_group_errors hotelStore 1 100).2.2 trio (by decide) (by decide)⟩

/-- C18: every record of the 'group' list of `getSettlementData` has
`youAreOwed = max(0, netBalance)` and `youOwe = max(0, -netBalance)`; both are
non-negative, at least one of them is 0, and their difference is `netBalance`. -/
theorem group_record_shape (st : Store) (me : Id) (gid : Id) (info : GroupInfo)
    (list : List MemberBalance)
    (h : getSettlementData st me "group" gid = .ok (.group info list)) :
    ∀ r ∈ list, r.youAreOwed = max 0 r.netBalance ∧ r.youOwe = max 0 (- r.netBalance) ∧
      0 ≤ r.youAreOwed ∧ 0 ≤ r.youOwe ∧ (r.youAreOwed = 0 ∨ r.youOwe = 0) ∧
      r.youAreOwed - r.youOwe = r.netBalance := by
  rw [getSettlementData_group] at h
  cases hg : st.getGroup gid with
  | none => simp [hg] at h
  | some group =>
    simp only [hg] at h
    split_ifs at h with hm
    simp only [Except.ok.injEq, SettlementData.group.injEq] at h
    obtain ⟨-, rfl⟩ := h
    intro r hr
    obtain ⟨kv, -, rfl⟩ := List.mem_map.mp hr
    show max 0 kv.2 = max 0 kv.2 ∧ max 0 (-kv.2) = max 0 (-kv.2) ∧ 0 ≤ max 0 kv.2 ∧
      0 ≤ max 0 (-kv.2) ∧ (max 0 kv.2 = 0 ∨ max 0 (-kv.2) = 0) ∧
      max 0 kv.2 - max 0 (-kv.2) = kv.2
    refine ⟨rfl, rfl, le_max_left _ _, le_max_left _ _, ?_, ?_⟩
    · rcases le_total kv.2 0 with h0 | h0
      · exact Or.inl (max_eq_left h0)
      · exact Or.inr (max_eq_left (by linarith))
    · rcases le_total kv.2 0 with h0 | h0
      · rw [max_eq_left h0, max_eq_right (by linarith : (0 : ℚ) ≤ -kv.2)]
        ring
      · rw [max_eq_right h0, max_eq_left (by linarith : -kv.2 ≤ (0 : ℚ))]
        ring

theorem group_record_shape_witness :
    getSettlementData hotelStore 1 "group" 100 =
      .ok (.group ⟨100, "trio", none⟩
        [⟨2, "A", none, 20, 0, 20⟩, ⟨3, "B", none, 20, 0, 20⟩]) ∧
    ((⟨2, "A", none, 20, 0, 20⟩ : MemberBalance).youAreOwed =
        max 0 (⟨2, "A", none, 20, 0, 20⟩ : MemberBalance).netBalance ∧
      (⟨2, "A", none, 20, 0, 20⟩ : MemberBalance).youOwe =
        max 0 (- (⟨2, "A", none, 20, 0, 20⟩ : MemberBalance).netBalance) ∧
      0 ≤ (⟨2, "A", none, 20, 0, 20⟩ : MemberBalance).youAreOwed ∧
      0 ≤ (⟨2, "A", none, 20, 0, 20⟩ : MemberBalance).youOwe ∧
      ((⟨2, "A", none, 20, 0, 20⟩ : MemberBalance).youAreOwed = 0 ∨
        (⟨2, "A", none, 20, 0, 20⟩ : MemberBalance).youOwe = 0) ∧
      (⟨2, "A", none, 20, 0, 20⟩ : MemberBalance).youAreOwed -
        (⟨2, "A", none, 20, 0, 20⟩ : MemberBalance).youOwe =
        (⟨2, "A", none, 20, 0, 20⟩ : MemberBalance).netBalance) :=
  ⟨by decide!,
   group_record_shape hotelStore 1 100 ⟨100, "trio", none⟩
     [⟨2, "A", none, 20, 0, 20⟩, ⟨3, "B", none, 20, 0, 20⟩] (by decide!)
     ⟨2, "A", none, 20, 0, 20⟩ (by decide)⟩

/-! ## The lists and totals of `getUserBalances` -/

theorem isOwedEntry_iff (kv : Id × ℚ) : isOwedEntry kv = true ↔ 1 / 100 ≤ kv.2 := by
  simp only [isOwedEntry, Bool.and_eq_true, Bool.not_eq_true', decide_eq_false_iff_not,
    decide_eq_true_eq, not_lt, gt_iff_lt]
  constructor
  · rintro ⟨h1, h2⟩
    rwa [abs_of_pos h2] at h1
  · intro h
    have hpos : 0 < kv.2 := lt_of_lt_of_le (by norm_num) h
    exact ⟨by rwa [abs_of_pos hpos], hpos⟩

theorem isOweEntry_iff (kv : Id × ℚ) : isOweEntry kv = true ↔ kv.2 ≤ - (1 / 100) := by
  simp only [isOweEntry, Bool.and_eq_true, Bool.not_eq_true', decide_eq_false_iff_not,
    not_lt, gt_iff_lt]
  constructor
  · rintro ⟨h1, h2⟩
    rw [abs_of_nonpos h2] at h1
    linarith
  · intro h
    have hneg : kv.2 ≤ 0 := le_trans h (by norm_num)
    refine ⟨?_, hneg⟩
    rw [abs_of_nonpos hneg]
    linarith

theorem mem_sorted_entries (st : Store) (t : Tally) (p : Id × ℚ → Bool) (b : OweEntry) :
    b ∈ sortByAmount ((t.filter p).map (baseEntry st)) ↔
      ∃ kv ∈ t, p kv = true ∧ baseEntry st kv = b := by
  unfold sortByAmount
  rw [(List.perm_insertionSort _ _).mem_iff]
  simp [List.mem_map, List.mem_filter, and_assoc]

theorem Tally.get_of_mem (t : Tally) (hnd : (t.map Prod.fst).Nodup) (c : Id) (v : ℚ)
    (h : (c, v) ∈ t) : t.get c = some v := by
  unfold Tally.get
  cases hf : t.find? (fun kv => kv.1 == c) with
  | none =>
    rw [List.find?_eq_none] at hf
    exact absurd (by simp) (hf (c, v) h)
  | some kv =>
    have hkv : kv ∈ t := List.mem_of_find?_eq_some hf
    have hk : kv.1 = c := by
      simpa using @List.find?_some _ (fun kv : Id × ℚ => kv.1 == c) _ _ hf
    have : kv = (c, v) := List.inj_on_of_nodup_map hnd hkv h hk
    rw [this]
    rfl

theorem Tally.mem_of_get (t : Tally) (c : Id) (v : ℚ) (h : t.get c = some v) :
    (c, v) ∈ t := by
  unfold Tally.get at h
  cases hf : t.find? (fun kv => kv.1 == c) with
  | none => simp [hf] at h
  | some kv =>
    have hkv : kv ∈ t := List.mem_of_find?_eq_some hf
    have hk : kv.1 = c := by
      simpa using @List.find?_some _ (fun kv : Id × ℚ => kv.1 == c) _ _ hf
    rw [hf] at h
    simp only [Option.map_some', Option.some.injEq] at h
    obtain ⟨k, w⟩ := kv
    simp only at hk h
    subst hk h
    exact hkv

theorem Tally.net_of_mem (t : Tally) (hnd : (t.map Prod.fst).Nodup) (c : Id) (v : ℚ)
    (h : (c, v) ∈ t) : t.net c = v := by
  rw [Tally.net_eq, Tally.get_of_mem t hnd c v h]

theorem Tally.mem_of_net_ne_zero (t : Tally) (c : Id) (h : t.net c ≠ 0) :
    (c, t.net c) ∈ t := by
  rw [Tally.net_eq] at h ⊢
  cases hg : t.get c with
  | none => simp [hg] at h
  | some v => exact Tally.mem_of_get t c v hg

theorem sorted_entries_keys_nodup (st : Store) (t : Tally) (hnd : (t.map Prod.fst).Nodup)
    (p : Id × ℚ → Bool) :
    ((sortByAmount ((t.filter p).map (baseEntry st))).map (fun b => b.userId)).Nodup := by
  unfold sortByAmount
  rw [((List.perm_insertionSort _ _).map _).nodup_iff, List.map_map]
  exact hnd.sublist ((List.filter_sublist t).map Prod.fst)

/-- C14: with t the tally of a counterparty in `balanceByUser`, the counterparty is in
`youAreOwedBy` exactly when t >= 0.01 and then with amount t, is in `youOwe` exactly when
t <= -0.01 and then with amount -t, and is in neither list when |t| < 0.01; no user id
occurs twice in a list or in both lists, and every listed amount is at least 0.01. -/
theorem getUserBalances_partition (st : Store) (user : Id) :
    (∀ c,
      ((∃ b ∈ (getUserBalances st user).youAreOwedByList, b.userId = c) ↔
        1 / 100 ≤ (balanceByUser st user).net c) ∧
      (∀ b ∈ (getUserBalances st user).youAreOwedByList, b.userId = c →
        b.amount = (balanceByUser st user).net c) ∧
      ((∃ b ∈ (getUserBalances st user).youOweList, b.userId = c) ↔
        (balanceByUser st user).net c ≤ - (1 / 100)) ∧
      (∀ b ∈ (getUserBalances st user).youOweList, b.userId = c →
        b.amount = - (balanceByUser st user).net c) ∧
      (|(balanceByUser st user).net c| < 1 / 100 →
        (∀ b ∈ (getUserBalances st user).youAreOwedByList, b.userId ≠ c) ∧
        (∀ b ∈ (getUserBalances st user).youOweList, b.userId ≠ c))) ∧
    ((getUserBalances st user).youAreOwedByList.map (fun b => b.userId)).Nodup ∧
    ((getUserBalances st user).youOweList.map (fun b => b.userId)).Nodup ∧
    (∀ b ∈ (getUserBalances st user).youAreOwedByList,
      ∀ b' ∈ (getUserBalances st user).youOweList, b.userId ≠ b'.userId) ∧
    (∀ b ∈ (getUserBalances st user).youAreOwedByList, 1 / 100 ≤ b.amount) ∧
    (∀ b ∈ (getUserBalances st user).youOweList, 1 / 100 ≤ b.amount) := by
  obtain ⟨h1, h2⟩ := getUserBalances_lists st user
  have hnd := balanceByUser_nodup st user
  rw [h1, h2]
  have owed : ∀ b, b ∈ sortByAmount (((balanceByUser st user).filter isOwedEntry).map
      (baseEntry st)) → 1 / 100 ≤ (balanceByUser st user).net b.userId ∧
      b.amount = (balanceByUser st user).net b.userId := by
    intro b hb
    obtain ⟨kv, hkv, hp, rfl⟩ := (mem_sorted_entries st _ _ b).mp hb
    obtain ⟨k, v⟩ := kv
    have hv := (isOwedEntry_iff (k, v)).mp hp
    have hpos : 0 < v := lt_of_lt_of_le (by norm_num) hv
    show 1 / 100 ≤ (balanceByUser st user).net k ∧ |v| = (balanceByUser st user).net k
    rw [Tally.net_of_mem _ hnd k v hkv, abs_of_pos hpos]
    exact ⟨hv, rfl⟩
  have owe : ∀ b, b ∈ sortByAmount (((balanceByUser st user).filter isOweEntry).map
      (baseEntry st)) → (balanceByUser st user).net b.userId ≤ - (1 / 100) ∧
      b.amount = - (balanceByUser st user).net b.userId := by
    intro b hb
    obtain ⟨kv, hkv, hp, rfl⟩ := (mem_sorted_entries st _ _ b).mp hb
    obtain ⟨k, v⟩ := kv
    have hv := (isOweEntry_iff (k, v)).mp hp
    have hneg : v ≤ 0 := le_trans hv (by norm_num)
    show (balanceByUser st user).net k ≤ - (1 / 100) ∧ |v| = - (balanceByUser st user).net k
    rw [Tally.net_of_mem _ hnd k v hkv, abs_of_nonpos hneg]
    exact ⟨hv, rfl⟩
  refine ⟨fun c => ⟨⟨?_, ?_⟩, ?_, ⟨?_, ?_⟩, ?_, ?_⟩, sorted_entries_keys_nodup st _ hnd _,
    sorted_entries_keys_nodup st _ hnd _, ?_, ?_, ?_⟩
  · rintro ⟨b, hb, rfl⟩
    exact (owed b hb).1
  · intro hc
    have hne : (balanceByUser st user).net c ≠ 0 := by
      intro h0
      rw [h0] at hc
      norm_num at hc
    exact ⟨baseEntry st (c, (balanceByUser st user).net c),
      (mem_sorted_entries st _ _ _).mpr ⟨_, Tally.mem_of_net_ne_zero _ c hne,
        (isOwedEntry_iff _).mpr hc, rfl⟩, rfl⟩
  · rintro b hb rfl
    exact (owed b hb).2
  · rintro ⟨b, hb, rfl⟩
    exact (owe b hb).1
  · intro hc
    have hne : (balanceByUser st user).net c ≠ 0 := by
      intro h0
      rw [h0] at hc
      norm_num at hc
    exact ⟨baseEntry st (c, (balanceByUser st user).net c),
      (mem_sorted_entries st _ _ _).mpr ⟨_, Tally.mem_of_net_ne_zero _ c hne,
        (isOweEntry_iff _).mpr hc, rfl⟩, rfl⟩
  · rintro b hb rfl
    exact (owe b hb).2
  · intro hsmall
    rw [abs_lt] at hsmall
    constructor
    · rintro b hb rfl
      have := (owed b hb).1
      linarith [hsmall.2]
    · rintro b hb rfl
      have := (owe b hb).1
      linarith [hsmall.1]
  · intro b hb b' hb' hc
    have h1 := (owed b hb).1
    have h2 := (owe b' hb').1
    rw [hc] at h1
    linarith
  · intro b hb
    have := owed b hb
    linarith [this.1, this.2]
  · intro b hb
    have := owe b hb
    linarith [this.1, this.2]

theorem sum_map_congr_mem {α : Type} (f g : α → ℚ) (l : List α) (h : ∀ x ∈ l, f x = g x) :
    (l.map f).sum = (l.map g).sum := by
  rw [List.map_congr_left h]

theorem sum_map_nonneg {α : Type} (f : α → ℚ) (l : List α) (h : ∀ x ∈ l, 0 ≤ f x) :
    0 ≤ (l.map f).sum := by
  induction l with
  | nil => simp
  | cons x xs ih =>
    rw [List.map_cons, List.sum_cons]
    exact add_nonneg (h x (List.mem_cons_self _ _))
      (ih (fun y hy => h y (List.mem_cons_of_mem _ hy)))

theorem getUserBalances_totals (st : Store) (user : Id) :
    (getUserBalances st user).youAreOwed =
        (((balanceByUser st user).filter isOwedEntry).map (fun kv => kv.2)).sum ∧
    (getUserBalances st user).youOwe =
        (((balanceByUser st user).filter isOweEntry).map (fun kv => - kv.2)).sum ∧
    (getUserBalances st user).totalBalance =
        (getUserBalances st user).youAreOwed - (getUserBalances st user).youOwe := by
  unfold getUserBalances
  obtain ⟨-, -, i3, i4⟩ := classify_foldl st (balanceByUser st user) ⟨0, 0, [], []⟩
  dsimp only
  rw [i3, i4]
  simp

/-- In exact arithmetic: `youAreOwed` is the sum of the amounts of `youAreOwedBy`,
`youOwe` is the sum of the amounts of `youOwe`, both are non-negative, and `totalBalance`
is their difference, the sum of the tallies of absolute value at least 0.01. -/
theorem getUserBalances_sums_exact (st : Store) (user : Id) :
    (getUserBalances st user).youAreOwed =
      ((getUserBalances st user).youAreOwedByList.map (fun b => b.amount)).sum ∧
    (getUserBalances st user).youOwe =
      ((getUserBalances st user).youOweList.map (fun b => b.amount)).sum ∧
    0 ≤ (getUserBalances st user).youAreOwed ∧
    0 ≤ (getUserBalances st user).youOwe ∧
    (getUserBalances st user).totalBalance =
      (getUserBalances st user).youAreOwed - (getUserBalances st user).youOwe ∧
    (getUserBalances st user).totalBalance =
      (((balanceByUser st user).filter (fun kv => decide (1 / 100 ≤ |kv.2|))).map
        (fun kv => kv.2)).sum := by
  obtain ⟨l1, l2⟩ := getUserBalances_lists st user
  obtain ⟨t1, t2, t3⟩ := getUserBalances_totals st user
  have owedPos : ∀ kv ∈ (balanceByUser st user).filter isOwedEntry, |kv.2| = kv.2 := by
    intro kv hkv
    have hv := (isOwedEntry_iff kv).mp (List.mem_filter.mp hkv).2
    exact abs_of_pos (lt_of_lt_of_le (by norm_num) hv)
  have oweNeg : ∀ kv ∈ (balanceByUser st user).filter isOweEntry, |kv.2| = - kv.2 := by
    intro kv hkv
    have hv := (isOweEntry_iff kv).mp (List.mem_filter.mp hkv).2
    exact abs_of_nonpos (le_trans hv (by norm_num))
  have s1 : ((getUserBalances st user).youAreOwedByList.map (fun b => b.amount)).sum =
      (((balanceByUser st user).filter isOwedEntry).map (fun kv => kv.2)).sum := by
    rw [l1]
    unfold sortByAmount
    rw [((List.perm_insertionSort _ _).map _).sum_eq, List.map_map]
    exact sum_map_congr_mem _ _ _ owedPos
  have s2 : ((getUserBalances st user).youOweList.map (fun b => b.amount)).sum =
      (((balanceByUser st user).filter isOweEntry).map (fun kv => - kv.2)).sum := by
    rw [l2]
    unfold sortByAmount
    rw [((List.perm_insertionSort _ _).map _).sum_eq, List.map_map]
    exact sum_map_congr_mem _ _ _ oweNeg
  refine ⟨by rw [s1, t1], by rw [s2, t2], ?_, ?_, t3, ?_⟩
  · rw [t1]
    apply sum_map_nonneg
    intro kv hkv
    rw [← owedPos kv hkv]
    exact abs_nonneg _
  · rw [t2]
    apply sum_map_nonneg
    intro kv hkv
    rw [← oweNeg kv hkv]
    exact abs_nonneg _
  · rw [t3, t1, t2, sum_map_filter, sum_map_filter, sum_map_filter, sub_eq_add_neg,
      ← sum_map_neg (fun x : Id × ℚ => - (if isOweEntry x = true then - x.2 else 0)) _ _
        (fun _ => rfl), ← List.sum_map_add]
    apply sum_map_congr_mem
    intro kv _
    dsimp only
    by_cases ho : isOwedEntry kv = true
    · have hv := (isOwedEntry_iff kv).mp ho
      have hpos : 0 < kv.2 := lt_of_lt_of_le (by norm_num) hv
      have hw : ¬ isOweEntry kv = true := by
        rw [isOweEntry_iff]
        intro hc
        linarith
      have hbig : decide (1 / 100 ≤ |kv.2|) = true := by
        rw [decide_eq_true_eq, abs_of_pos hpos]
        exact hv
      rw [if_pos ho, if_neg hw, if_pos hbig]
      ring
    · by_cases hw : isOweEntry kv = true
      · have hv := (isOweEntry_iff kv).mp hw
        have hneg : kv.2 ≤ 0 := le_trans hv (by norm_num)
        have hbig : decide (1 / 100 ≤ |kv.2|) = true := by
          rw [decide_eq_true_eq, abs_of_nonpos hneg]
          linarith
        rw [if_neg ho, if_pos hw, if_pos hbig]
        ring
      · have hsmall : ¬ decide (1 / 100 ≤ |kv.2|) = true := by
          rw [decide_eq_true_eq]
          intro hc
          rcases le_or_lt kv.2 0 with hneg | hpos
          · apply hw
            rw [isOweEntry_iff]
            rw [abs_of_nonpos hneg] at hc
            linarith
          · apply ho
            rw [isOwedEntry_iff]
            rwa [abs_of_pos hpos] at hc
        rw [if_neg ho, if_neg hw, if_neg hsmall]
        ring

/-- C16: both lists returned by `getUserBalances` are sorted by non-increasing amount, and
each is a permutation of the entries that the loop over `balanceByUser` pushed to it. -/
theorem getUserBalances_sorted (st : Store) (user : Id) :
    (getUserBalances st user).youOweList.Sorted (fun a b => b.amount ≤ a.amount) ∧
    (getUserBalances st user).youAreOwedByList.Sorted (fun a b => b.amount ≤ a.amount) ∧
    (getUserBalances st user).youOweList.Perm
      ((balanceByUser st user).foldl (classify st) ⟨0, 0, [], []⟩).youOweList ∧
    (getUserBalances st user).youAreOwedByList.Perm
      ((balanceByUser st user).foldl (classify st) ⟨0, 0, [], []⟩).youAreOwedByList := by
  haveI : IsTotal OweEntry (fun a b => b.amount ≤ a.amount) := ⟨fun a b => le_total _ _⟩
  haveI : IsTrans OweEntry (fun a b => b.amount ≤ a.amount) :=
    ⟨fun a b c hab hbc => le_trans hbc hab⟩
  unfold getUserBalances sortByAmount
  exact ⟨List.sorted_insertionSort _ _, List.sorted_insertionSort _ _,
    List.perm_insertionSort _ _, List.perm_insertionSort _ _⟩

/-! ## The tally of `getUserBalances` in closed form -/

theorem sum_map_sub_eq {α : Type} (f g : α → ℚ) (l : List α) :
    (l.map (fun x => f x - g x)).sum = (l.map f).sum - (l.map g).sum := by
  induction l with
  | nil => simp
  | cons x xs ih => simp only [List.map_cons, List.sum_cons, ih]; ring

theorem dashShare_closed (user c : Id) (h : c ≠ user) (e : Expense) :
    (if involvesUngrouped user e then dashShare user c e else 0) =
      (if (e.groupId.isNone && e.paidByUserId == user) = true then
        ((e.splits.filter (fun s => s.userId == c && !s.paid)).map (fun s => s.amount)).sum
       else 0) -
      (if (e.groupId.isNone && e.paidByUserId == c) = true then
        (match e.splits.find? (fun s => s.userId == user) with
         | some ms => if ms.paid = false then ms.amount else 0
         | none => 0)
       else 0) := by
  unfold involvesUngrouped dashShare
  cases hg : e.groupId with
  | some g => simp
  | none =>
    by_cases hp : e.paidByUserId = user
    · have hpc : ¬ e.paidByUserId = c := fun hc => h (hc.symm.trans hp)
      simp only [hp, Option.isNone_none, beq_self_eq_true, Bool.true_or, Bool.and_self,
        if_true, Bool.true_and, sum_map_filter]
      have hcu : ¬ user = c := fun hc => h hc.symm
      simp only [beq_iff_eq, hcu, if_false, sub_zero]
      apply sum_map_congr_mem
      intro s _
      by_cases h1 : s.userId = c
      · by_cases h2 : s.paid = true
        · simp [h1, h2]
        · simp [h1, h2, h]
      · by_cases h2 : s.userId = user
        · simp [h2, hcu]
        · simp [h1, h2]
    · simp only [hp, Option.isNone_none, Bool.true_and, beq_iff_eq, if_false, Bool.false_or,
        zero_sub]
      cases hf : e.splits.find? (fun s => s.userId == user) with
      | none =>
        have : e.splits.any (fun s => s.userId == user) = false := by
          rw [List.find?_eq_none] at hf
          rw [List.any_eq_false]
          exact hf
        simp [this]
      | some ms =>
        have : e.splits.any (fun s => s.userId == user) = true := by
          rw [List.any_eq_true]
          exact ⟨ms, List.mem_of_find?_eq_some hf,
            @List.find?_some _ (fun s : Split => s.userId == user) _ _ hf⟩
        by_cases h2 : ms.paid = false <;> by_cases h3 : e.paidByUserId = c <;>
          simp [this, h2, h3]

theorem dashPaid_closed (user c : Id) (h : c ≠ user) (s : Settlement) :
    (if settlesUngrouped user s then dashPaid user c s else 0) =
      (if (s.groupId.isNone && s.paidByUserId == user && s.receivedByUserId == c) = true
        then s.amount else 0) -
      (if (s.groupId.isNone && s.paidByUserId == c && s.receivedByUserId == user) = true
        then s.amount else 0) := by
  unfold settlesUngrouped dashPaid
  have hcu : ¬ user = c := fun hc => h hc.symm
  cases hg : s.groupId with
  | some g => simp
  | none =>
    by_cases h1 : s.paidByUserId = user
    · by_cases h2 : s.receivedByUserId = c <;> simp [h1, h2, hcu]
    · by_cases h2 : s.paidByUserId = c
      · by_cases h3 : s.receivedByUserId = user <;> simp [h2, h3, h]
      · simp [h1, h2]

/-- C13: in `getUserBalances(U)` the tally of a counterparty C is the sum, over the
ungrouped expenses paid by U, of every unpaid split of C, minus the sum, over the ungrouped
expenses paid by C, of U's own split when it is unpaid, plus the ungrouped settlements paid
by U to C, minus the ungrouped settlements paid by C to U. In the scenario of the claim U
is owed 20, by A and B 10 each, and after A pays U 10 U is owed 10, by B alone. -/
theorem balanceByUser_formula (st : Store) (user c : Id) (h : c ≠ user) :
    (balanceByUser st user).net c =
      ((st.expenses.filter (fun e => e.groupId.isNone && e.paidByUserId == user)).map
        (fun e =>
          ((e.splits.filter (fun s => s.userId == c && !s.paid)).map (fun s => s.amount)).sum)).sum
      - ((st.expenses.filter (fun e => e.groupId.isNone && e.paidByUserId == c)).map
        (fun e =>
          match e.splits.find? (fun s => s.userId == user) with
          | some ms => if ms.paid = false then ms.amount else 0
          | none => 0)).sum
      + ((st.settlements.filter (fun s =>
          s.groupId.isNone && s.paidByUserId == user && s.receivedByUserId == c)).map
        (fun s => s.amount)).sum
      - ((st.settlements.filter (fun s =>
          s.groupId.isNone && s.paidByUserId == c && s.receivedByUserId == user)).map
        (fun s => s.amount)).sum ∧
    getUserBalances picnicStore 1 =
      ⟨0, 20, 20, [], [⟨2, "A", none, 10⟩, ⟨3, "B", none, 10⟩]⟩ ∧
    (createSettlement picnicStore 2 2 aPays10).result = .ok 11 ∧
    getUserBalances (createSettlement picnicStore 2 2 aPays10).store 1 =
      ⟨0, 10, 10, [], [⟨3, "B", none, 10⟩]⟩ := by
  refine ⟨?_, by decide!, by decide!, by decide!⟩
  rw [balanceByUser_net, sum_map_filter, sum_map_filter, sum_map_filter, sum_map_filter,
    add_sub_assoc, ← sum_map_sub_eq, ← sum_map_sub_eq]
  congr 1
  · exact sum_map_congr_mem _ _ _ (fun e _ => dashShare_closed user c h e)
  · exact sum_map_congr_mem _ _ _ (fun s _ => dashPaid_closed user c h s)

theorem balanceByUser_formula_witness :
    (balanceByUser picnicStore 1).net 2 = 10 - 0 + 0 - 0 :=
  (balanceByUser_formula picnicStore 1 2 (by decide)).1.trans (by decide!)

/-- C11 (the code at the failing input): user 1 owed user 3 the amount 10 and repaid it;
users 1 and 2 share no expense and no settlement. `getExpensesBetweenUsers` returns the
balance 0 for users 1 and 2, the 'user' branch of `getSettlementData` returns
`netBalance = 10`, counting the settlement that user 1 paid to user 3. -/
theorem user_mode_counts_third_party_settlement :
    taxiPaidStore = (createSettlement taxiStore 1 2 repayTaxi).store ∧
    (createSettlement taxiStore 1 2 repayTaxi).result = .ok 11 ∧
    taxiPaidStore.settlements = [⟨11, 10, none, 2, 1, 3, none, none, 1⟩] ∧
    (getExpensesBetweenUsers taxiPaidStore 1 2).map (fun v => v.balance) = .ok 0 ∧
    getSettlementData taxiPaidStore 1 "user" 2 =
      .ok (.user ⟨2, "A", "a@example.com", none⟩ 10 0 10) := by
  decide!

/-! ## Weighted sums of a tally -/

theorem Tally.isSome_get_iff (t : Tally) (k : Id) :
    (t.get k).isSome = true ↔ k ∈ t.map Prod.fst := by
  unfold Tally.get
  rw [Option.isSome_map', List.find?_isSome]
  simp

theorem Tally.keys_set_of_mem (t : Tally) (k : Id) (v : ℚ) (h : k ∈ t.map Prod.fst) :
    (t.set k v).map Prod.fst = t.map Prod.fst := by
  rw [Tally.keys_set, if_pos h]

theorem Tally.weighted_set (w : Id → ℚ) (t : Tally) (k : Id) (v x : ℚ)
    (h : t.get k = some v) :
    (t.set k x).weighted w = t.weighted w - w k * v + w k * x := by
  induction t with
  | nil => simp [Tally.get] at h
  | cons kv rest ih =>
    obtain ⟨k', v'⟩ := kv
    by_cases hk : k' = k
    · subst hk
      have hv : v' = v := by simpa [Tally.get] using h
      subst hv
      simp only [Tally.set, if_true, Tally.weighted, List.map_cons, List.sum_cons]
      ring
    · have hr : Tally.get rest k = some v := by
        simpa [Tally.get, List.find?_cons, hk] using h
      have := ih hr
      simp only [Tally.weighted] at this
      simp only [Tally.set, hk, if_false, Tally.weighted, List.map_cons, List.sum_cons, this]
      ring

theorem Tally.increase_keys (t : Tally) (k : Id) (d : ℚ) :
    (t.increase k d).map Prod.fst = t.map Prod.fst := by
  unfold Tally.increase
  cases h : t.get k with
  | none => rfl
  | some v =>
    exact Tally.keys_set_of_mem t k _ ((Tally.isSome_get_iff t k).mp (by rw [h]; rfl))

theorem Tally.decrease_keys (t : Tally) (k : Id) (d : ℚ) :
    (t.decrease k d).map Prod.fst = t.map Prod.fst := by
  unfold Tally.decrease
  cases h : t.get k with
  | none => rfl
  | some v =>
    exact Tally.keys_set_of_mem t k _ ((Tally.isSome_get_iff t k).mp (by rw [h]; rfl))

theorem Tally.weighted_increase (w : Id → ℚ) (t : Tally) (k : Id) (d : ℚ) :
    (t.increase k d).weighted w =
      t.weighted w + if k ∈ t.map Prod.fst then w k * d else 0 := by
  unfold Tally.increase
  cases h : t.get k with
  | none =>
    have : ¬ k ∈ t.map Prod.fst := by
      rw [← Tally.isSome_get_iff, h]
      simp
    simp only [this, if_false, add_zero]
  | some v =>
    have : k ∈ t.map Prod.fst := (Tally.isSome_get_iff t k).mp (by rw [h]; rfl)
    simp only [this, if_true]
    rw [Tally.weighted_set w t k v _ h]
    ring

theorem Tally.weighted_decrease (w : Id → ℚ) (t : Tally) (k : Id) (d : ℚ) :
    (t.decrease k d).weighted w =
      t.weighted w + if k ∈ t.map Prod.fst then - (w k * d) else 0 := by
  unfold Tally.decrease
  cases h : t.get k with
  | none =>
    have : ¬ k ∈ t.map Prod.fst := by
      rw [← Tally.isSome_get_iff, h]
      simp
    simp only [this, if_false, add_zero]
  | some v =>
    have : k ∈ t.map Prod.fst := (Tally.isSome_get_iff t k).mp (by rw [h]; rfl)
    simp only [this, if_true]
    rw [Tally.weighted_set w t k v _ h]
    ring

theorem foldl_weighted {α : Type} (step : Tally → α → Tally) (gain : α → ℚ) (w : Id → ℚ)
    (ks : List Id)
    (h : ∀ t x, t.map Prod.fst = ks →
      (step t x).map Prod.fst = ks ∧ (step t x).weighted w = t.weighted w + gain x)
    (l : List α) (t : Tally) (ht : t.map Prod.fst = ks) :
    (l.foldl step t).map Prod.fst = ks ∧
      (l.foldl step t).weighted w = t.weighted w + (l.map gain).sum := by
  induction l generalizing t with
  | nil => simp [ht]
  | cons x xs ih =>
    obtain ⟨h1, h2⟩ := h t x ht
    obtain ⟨i1, i2⟩ := ih (step t x) h1
    rw [List.foldl_cons, List.map_cons, List.sum_cons]
    exact ⟨i1, by rw [i2, h2, add_assoc]⟩

theorem groupExpenseStep_spec (me : Id) (w : Id → ℚ) (ks : List Id) (t : Tally) (e : Expense)
    (ht : t.map Prod.fst = ks) :
    (groupExpenseStep me t e).map Prod.fst = ks ∧
      (groupExpenseStep me t e).weighted w = t.weighted w + groupShare me ks w e := by
  unfold groupExpenseStep groupShare
  by_cases hp : e.paidByUserId = me
  · rw [if_pos hp, if_pos hp]
    apply foldl_weighted _ _ w ks _ _ t ht
    intro b s hb
    by_cases hc : s.userId ≠ me ∧ s.paid = false
    · by_cases hk : s.userId ∈ ks
      · have hs : (b.get s.userId).isSome = true := (Tally.isSome_get_iff b _).mpr (hb ▸ hk)
        rw [if_pos hc, if_pos hs, if_pos ⟨hc, hk⟩, Tally.increase_keys,
          Tally.weighted_increase, if_pos (hb ▸ hk)]
        exact ⟨hb, rfl⟩
      · have hs : ¬ (b.get s.userId).isSome = true := by
          rw [Tally.isSome_get_iff, hb]
          exact hk
        rw [if_pos hc, if_neg hs, if_neg (fun h => hk h.2), add_zero]
        exact ⟨hb, rfl⟩
    · rw [if_neg hc, if_neg (fun h => hc h.1), add_zero]
      exact ⟨hb, rfl⟩
  · rw [if_neg hp, if_neg hp]
    by_cases hk : e.paidByUserId ∈ ks
    · have hs : (t.get e.paidByUserId).isSome = true :=
        (Tally.isSome_get_iff t _).mpr (ht ▸ hk)
      rw [if_pos hs, if_pos hk]
      unfold owedBy
      cases findUnpaidSplit e.splits me with
      | none => simp [ht]
      | some split =>
        dsimp only
        rw [Tally.decrease_keys, Tally.weighted_decrease, if_pos (ht ▸ hk)]
        exact ⟨ht, rfl⟩
    · have hs : ¬ (t.get e.paidByUserId).isSome = true := by
        rw [Tally.isSome_get_iff, ht]
        exact hk
      rw [if_neg hs, if_neg hk, add_zero]
      exact ⟨ht, rfl⟩

theorem groupSettlementStep_spec (me : Id) (w : Id → ℚ) (ks : List Id) (t : Tally)
    (s : Settlement) (ht : t.map Prod.fst = ks) :
    (groupSettlementStep me t s).map Prod.fst = ks ∧
      (groupSettlementStep me t s).weighted w = t.weighted w + groupPaid me ks w s := by
  have h1 : ∀ b : Tally, b.map Prod.fst = ks →
      ((if s.paidByUserId = me ∧ (b.get s.receivedByUserId).isSome = true then
          b.increase s.receivedByUserId s.amount else b).map Prod.fst = ks) ∧
      (if s.paidByUserId = me ∧ (b.get s.receivedByUserId).isSome = true then
          b.increase s.receivedByUserId s.amount else b).weighted w =
        b.weighted w + (if s.paidByUserId = me ∧ s.receivedByUserId ∈ ks then
          w s.receivedByUserId * s.amount else 0) := by
    intro b hb
    have hiff : (b.get s.receivedByUserId).isSome = true ↔ s.receivedByUserId ∈ ks := by
      rw [Tally.isSome_get_iff, hb]
    by_cases hc : s.paidByUserId = me ∧ s.receivedByUserId ∈ ks
    · rw [if_pos ⟨hc.1, hiff.mpr hc.2⟩, if_pos hc, Tally.increase_keys,
        Tally.weighted_increase, if_pos (hb ▸ hc.2)]
      exact ⟨hb, rfl⟩
    · rw [if_neg (fun h => hc ⟨h.1, hiff.mp h.2⟩), if_neg hc, add_zero]
      exact ⟨hb, rfl⟩
  have h2 : ∀ b : Tally, b.map Prod.fst = ks →
      ((if s.receivedByUserId = me ∧ (b.get s.paidByUserId).isSome = true then
          b.decrease s.paidByUserId s.amount else b).map Prod.fst = ks) ∧
      (if s.receivedByUserId = me ∧ (b.get s.paidByUserId).isSome = true then
          b.decrease s.paidByUserId s.amount else b).weighted w =
        b.weighted w + - (if s.receivedByUserId = me ∧ s.paidByUserId ∈ ks then
          w s.paidByUserId * s.amount else 0) := by
    intro b hb
    have hiff : (b.get s.paidByUserId).isSome = true ↔ s.paidByUserId ∈ ks := by
      rw [Tally.isSome_get_iff, hb]
    by_cases hc : s.receivedByUserId = me ∧ s.paidByUserId ∈ ks
    · rw [if_pos ⟨hc.1, hiff.mpr hc.2⟩, if_pos hc, Tally.decrease_keys,
        Tally.weighted_decrease, if_pos (hb ▸ hc.2)]
      exact ⟨hb, rfl⟩
    · rw [if_neg (fun h => hc ⟨h.1, hiff.mp h.2⟩), if_neg hc, neg_zero, add_zero]
      exact ⟨hb, rfl⟩
  unfold groupSettlementStep groupPaid
  dsimp only
  obtain ⟨k1, w1⟩ := h1 t ht
  obtain ⟨k2, w2⟩ := h2 _ k1
  refine ⟨k2, ?_⟩
  rw [w2, w1]
  ring

theorem Tally.mem_set (t : Tally) (k : Id) (v : ℚ) (kv : Id × ℚ) (h : kv ∈ t.set k v) :
    kv ∈ t ∨ kv = (k, v) := by
  induction t with
  | nil =>
    right
    simpa [Tally.set] using h
  | cons x rest ih =>
    obtain ⟨k', w⟩ := x
    by_cases hk : k' = k
    · simp only [Tally.set, hk, if_true, List.mem_cons] at h
      rcases h with h | h
      · exact Or.inr h
      · exact Or.inl (List.mem_cons_of_mem _ h)
    · simp only [Tally.set, hk, if_false, List.mem_cons] at h
      rcases h with h | h
      · exact Or.inl (h ▸ List.mem_cons_self _ _)
      · rcases ih h with h' | h'
        · exact Or.inl (List.mem_cons_of_mem _ h')
        · exact Or.inr h'

theorem initBalances_fold (me : Id) (members : List Member) (acc : Tally)
    (hnd : (acc.map Prod.fst).Nodup) (hz : ∀ kv ∈ acc, kv.2 = 0) :
    ((members.foldl (fun balances m =>
        if m.userId ≠ me then Tally.set balances m.userId 0 else balances) acc).map
      Prod.fst).Nodup ∧
    (∀ kv ∈ members.foldl (fun balances m =>
        if m.userId ≠ me then Tally.set balances m.userId 0 else balances) acc, kv.2 = 0) ∧
    (∀ k, k ∈ (members.foldl (fun balances m =>
        if m.userId ≠ me then Tally.set balances m.userId 0 else balances) acc).map Prod.fst ↔
      k ∈ acc.map Prod.fst ∨ (k ≠ me ∧ ∃ m ∈ members, m.userId = k)) := by
  induction members generalizing acc with
  | nil => exact ⟨hnd, hz, fun k => by simp⟩
  | cons m rest ih =>
    rw [List.foldl_cons]
    by_cases hm : m.userId ≠ me
    · rw [if_pos hm]
      have hnd' := Tally.nodup_set acc m.userId 0 hnd
      have hz' : ∀ kv ∈ Tally.set acc m.userId 0, kv.2 = 0 := by
        intro kv hkv
        rcases Tally.mem_set acc m.userId 0 kv hkv with h | h
        · exact hz kv h
        · rw [h]
      obtain ⟨i1, i2, i3⟩ := ih (Tally.set acc m.userId 0) hnd' hz'
      refine ⟨i1, i2, fun k => ?_⟩
      rw [i3 k, Tally.keys_set]
      by_cases hin : m.userId ∈ acc.map Prod.fst
      · rw [if_pos hin]
        constructor
        · rintro (h | ⟨h1, m', hm', h2⟩)
          · exact Or.inl h
          · exact Or.inr ⟨h1, m', List.mem_cons_of_mem _ hm', h2⟩
        · rintro (h | ⟨h1, m', hm', h2⟩)
          · exact Or.inl h
          · rcases List.mem_cons.mp hm' with h3 | h3
            · subst h3
              exact Or.inl (h2 ▸ hin)
            · exact Or.inr ⟨h1, m', h3, h2⟩
      · rw [if_neg hin]
        constructor
        · rintro (h | ⟨h1, m', hm', h2⟩)
          · rcases List.mem_append.mp h with h | h
            · exact Or.inl h
            · have hk : k = m.userId := by simpa using h
              exact Or.inr ⟨hk ▸ hm, m, List.mem_cons_self _ _, hk.symm⟩
          · exact Or.inr ⟨h1, m', List.mem_cons_of_mem _ hm', h2⟩
        · rintro (h | ⟨h1, m', hm', h2⟩)
          · exact Or.inl (List.mem_append_left _ h)
          · rcases List.mem_cons.mp hm' with h3 | h3
            · subst h3
              exact Or.inl (List.mem_append_right _ (by simp [h2]))
            · exact Or.inr ⟨h1, m', h3, h2⟩
    · rw [if_neg hm]
      obtain ⟨i1, i2, i3⟩ := ih acc hnd hz
      refine ⟨i1, i2, fun k => ?_⟩
      rw [i3 k]
      have hme : m.userId = me := not_not.mp hm
      constructor
      · rintro (h | ⟨h1, m', hm', h2⟩)
        · exact Or.inl h
        · exact Or.inr ⟨h1, m', List.mem_cons_of_mem _ hm', h2⟩
      · rintro (h | ⟨h1, m', hm', h2⟩)
        · exact Or.inl h
        · rcases List.mem_cons.mp hm' with h3 | h3
          · subst h3
            exact absurd (h2.symm.trans hme) h1
          · exact Or.inr ⟨h1, m', h3, h2⟩

theorem initBalances_spec (me : Id) (members : List Member) :
    ((initBalances me members).map Prod.fst).Nodup ∧
    (∀ kv ∈ initBalances me members, kv.2 = 0) ∧
    (∀ k, k ∈ (initBalances me members).map Prod.fst ↔
      (k ≠ me ∧ ∃ m ∈ members, m.userId = k)) := by
  obtain ⟨i1, i2, i3⟩ := initBalances_fold me members [] List.nodup_nil (by simp)
  refine ⟨i1, i2, fun k => ?_⟩
  have := i3 k
  unfold initBalances
  rw [this]
  simp

theorem groupBalances_spec (st : Store) (me : Id) (group : Group) (w : Id → ℚ) :
    (groupBalances st me group).map Prod.fst = (initBalances me group.members).map Prod.fst ∧
    (groupBalances st me group).weighted w =
      ((st.expensesOfGroup group._id).map
        (groupShare me ((initBalances me group.members).map Prod.fst) w)).sum +
      ((st.settlementsOfGroup group._id).map
        (groupPaid me ((initBalances me group.members).map Prod.fst) w)).sum := by
  unfold groupBalances
  dsimp only
  obtain ⟨e1, e2⟩ := foldl_weighted (groupExpenseStep me)
    (groupShare me ((initBalances me group.members).map Prod.fst) w) w _
    (fun t x ht => groupExpenseStep_spec me w _ t x ht)
    (st.expensesOfGroup group._id) (initBalances me group.members) rfl
  obtain ⟨s1, s2⟩ := foldl_weighted (groupSettlementStep me)
    (groupPaid me ((initBalances me group.members).map Prod.fst) w) w _
    (fun t x ht => groupSettlementStep_spec me w _ t x ht)
    (st.settlementsOfGroup group._id) _ e1
  refine ⟨s1, ?_⟩
  rw [s2, e2]
  have hz : (initBalances me group.members).weighted w = 0 := by
    unfold Tally.weighted
    apply sum_map_eq_zero
    intro kv hkv
    rw [(initBalances_spec me group.members).2.1 kv hkv, mul_zero]
  rw [hz, zero_add]

theorem Tally.net_eq_weighted (t : Tally) (hnd : (t.map Prod.fst).Nodup) (c : Id) :
    t.net c = t.weighted (fun k => if k = c then 1 else 0) := by
  induction t with
  | nil => rfl
  | cons kv rest ih =>
    obtain ⟨k, v⟩ := kv
    rw [List.map_cons, List.nodup_cons] at hnd
    have hw : Tally.weighted (fun k => if k = c then 1 else 0) ((k, v) :: rest) =
        (if k = c then 1 else 0) * v + Tally.weighted (fun k => if k = c then 1 else 0) rest := by
      simp [Tally.weighted]
    rw [hw]
    by_cases hk : k = c
    · subst hk
      have hrest : Tally.weighted (fun k' => if k' = k then 1 else 0) rest = 0 := by
        unfold Tally.weighted
        apply sum_map_eq_zero
        intro kv hkv
        have : kv.1 ≠ k := fun hc => hnd.1 (hc ▸ List.mem_map.mpr ⟨kv, hkv, rfl⟩)
        simp [this]
      rw [hrest, Tally.net_of_mem _ (by simpa using hnd) k v (List.mem_cons_self _ _)]
      simp
    · rw [← ih hnd.2]
      have : Tally.net ((k, v) :: rest) c = Tally.net rest c := by
        simp [Tally.net, Tally.get, List.find?_cons, hk]
      rw [this]
      simp [hk]

/-! ## The 'group' list of `getSettlementData` -/

theorem getGroup_id (st : Store) (gid : Id) (group : Group) (h : st.getGroup gid = some group) :
    group._id = gid ∧ group ∈ st.groups := by
  unfold Store.getGroup at h
  exact ⟨by simpa using @List.find?_some _ (fun g : Group => g._id == gid) _ _ h,
    List.mem_of_find?_eq_some h⟩

theorem getSettlementData_group_ok (st : Store) (me gid : Id) (group : Group)
    (hg : st.getGroup gid = some group) (hm : ∃ m ∈ group.members, m.userId = me) :
    getSettlementData st me "group" gid =
      .ok (.group ⟨group._id, group.name, group.description⟩
        ((groupBalances st me group).map (memberRecord st))) := by
  rw [getSettlementData_group, hg]
  have : group.members.any (fun m => m.userId == me) = true := by
    simpa using hm
  dsimp only
  rw [if_pos this]

theorem groupBalances_nodup (st : Store) (me : Id) (group : Group) :
    ((groupBalances st me group).map Prod.fst).Nodup := by
  rw [(groupBalances_spec st me group (fun _ => 1)).1]
  exact (initBalances_spec me group.members).1

theorem groupBalances_keys (st : Store) (me : Id) (group : Group) (k : Id) :
    k ∈ (groupBalances st me group).map Prod.fst ↔
      (k ≠ me ∧ ∃ m ∈ group.members, m.userId = k) := by
  rw [(groupBalances_spec st me group (fun _ => 1)).1]
  exact (initBalances_spec me group.members).2.2 k

theorem groupShare_member (me : Id) (ks : List Id) (c : Id) (hc : c ∈ ks) (hne : c ≠ me)
    (e : Expense) :
    groupShare me ks (fun k => if k = c then 1 else 0) e =
      (if e.paidByUserId = me then
        ((e.splits.filter (fun s => s.userId == c && !s.paid)).map (fun s => s.amount)).sum
       else 0) -
      (if e.paidByUserId = c then owedBy e.splits me else 0) := by
  unfold groupShare
  by_cases hp : e.paidByUserId = me
  · have hpc : ¬ e.paidByUserId = c := fun h => hne (h.symm.trans hp)
    rw [if_pos hp, if_pos hp, if_neg hpc, sub_zero, sum_map_filter]
    apply sum_map_congr_mem
    intro s _
    by_cases h1 : s.userId = c
    · have h1' : s.userId ≠ me := h1 ▸ hne
      have h1k : s.userId ∈ ks := h1 ▸ hc
      by_cases h2 : s.paid = false
      · simp [h1, h2, hne, hc]
      · simp [h1, h2]
    · by_cases h3 : (s.userId ≠ me ∧ s.paid = false) ∧ s.userId ∈ ks
      · simp [h3, h1]
      · rw [if_neg h3]
        simp [h1]
  · rw [if_neg hp, if_neg hp, zero_sub]
    by_cases hk : e.paidByUserId ∈ ks
    · rw [if_pos hk]
      by_cases hpc : e.paidByUserId = c <;> simp [hpc]
    · have hpc : ¬ e.paidByUserId = c := fun h => hk (h ▸ hc)
      rw [if_neg hk, if_neg hpc, neg_zero]

theorem groupPaid_member (me : Id) (ks : List Id) (c : Id) (hc : c ∈ ks) (s : Settlement) :
    groupPaid me ks (fun k => if k = c then 1 else 0) s =
      (if s.paidByUserId = me ∧ s.receivedByUserId = c then s.amount else 0) -
      (if s.paidByUserId = c ∧ s.receivedByUserId = me then s.amount else 0) := by
  unfold groupPaid
  congr 1
  · by_cases h1 : s.paidByUserId = me
    · by_cases h2 : s.receivedByUserId = c
      · simp [h1, h2, hc]
      · simp [h1, h2]
    · simp [h1]
  · by_cases h1 : s.receivedByUserId = me
    · by_cases h2 : s.paidByUserId = c
      · simp [h1, h2, hc]
      · simp [h1, h2]
    · simp [h1]

theorem groupBalances_net (st : Store) (me : Id) (group : Group) (c : Id) (hne : c ≠ me)
    (hc : ∃ m ∈ group.members, m.userId = c) :
    (groupBalances st me group).net c =
      ((st.expensesOfGroup group._id).map (fun e =>
        (if e.paidByUserId = me then
          ((e.splits.filter (fun s => s.userId == c && !s.paid)).map (fun s => s.amount)).sum
         else 0) -
        (if e.paidByUserId = c then owedBy e.splits me else 0))).sum +
      ((st.settlementsOfGroup group._id).map (fun s =>
        (if s.paidByUserId = me ∧ s.receivedByUserId = c then s.amount else 0) -
        (if s.paidByUserId = c ∧ s.receivedByUserId = me then s.amount else 0))).sum := by
  have hk : c ∈ (initBalances me group.members).map Prod.fst :=
    ((initBalances_spec me group.members).2.2 c).mpr ⟨hne, hc⟩
  rw [Tally.net_eq_weighted _ (groupBalances_nodup st me group),
    (groupBalances_spec st me group _).2]
  congr 1
  · exact sum_map_congr_mem _ _ _ (fun e _ => groupShare_member me _ c hk hne e)
  · exact sum_map_congr_mem _ _ _ (fun s _ => groupPaid_member me _ c hk s)

theorem mem_group_list (st : Store) (me : Id) (group : Group) (r : MemberBalance)
    (hr : r ∈ (groupBalances st me group).map (memberRecord st)) :
    (r.userId ≠ me ∧ ∃ m ∈ group.members, m.userId = r.userId) ∧
      r.netBalance = (groupBalances st me group).net r.userId := by
  obtain ⟨kv, hkv, rfl⟩ := List.mem_map.mp hr
  obtain ⟨k, v⟩ := kv
  refine ⟨(groupBalances_keys st me group k).mp (List.mem_map.mpr ⟨(k, v), hkv, rfl⟩), ?_⟩
  exact (Tally.net_of_mem _ (groupBalances_nodup st me group) k v hkv).symm

theorem groupBalances_net_closed (st : Store) (me : Id) (group : Group) (c : Id)
    (hne : c ≠ me) (hc : ∃ m ∈ group.members, m.userId = c) :
    (groupBalances st me group).net c =
      ((st.expenses.filter (fun e => e.groupId == some group._id && e.paidByUserId == me)).map
        (fun e =>
          ((e.splits.filter (fun s => s.userId == c && !s.paid)).map (fun s => s.amount)).sum)).sum
      - ((st.expenses.filter (fun e => e.groupId == some group._id && e.paidByUserId == c)).map
        (fun e =>
          match e.splits.find? (fun s => s.userId == me && !s.paid) with
          | some split => split.amount
          | none => 0)).sum
      + ((st.settlements.filter (fun s =>
          s.groupId == some group._id && s.paidByUserId == me && s.receivedByUserId == c)).map
        (fun s => s.amount)).sum
      - ((st.settlements.filter (fun s =>
          s.groupId == some group._id && s.paidByUserId == c && s.receivedByUserId == me)).map
        (fun s => s.amount)).sum := by
  rw [groupBalances_net st me group c hne hc]
  unfold Store.expensesOfGroup Store.settlementsOfGroup
  rw [sum_map_filter, sum_map_filter, sum_map_filter, sum_map_filter, sum_map_filter,
    sum_map_filter, add_sub_assoc, ← sum_map_sub_eq, ← sum_map_sub_eq]
  congr 1
  · apply sum_map_congr_mem
    intro e _
    by_cases hg : e.groupId = some group._id
    · by_cases h1 : e.paidByUserId = me <;> by_cases h2 : e.paidByUserId = c <;>
        simp [hg, h1, h2, owedBy, findUnpaidSplit]
    · simp [hg]
  · apply sum_map_congr_mem
    intro s _
    by_cases hg : s.groupId = some group._id
    · by_cases h1 : s.paidByUserId = me <;> by_cases h2 : s.receivedByUserId = c <;>
        by_cases h3 : s.paidByUserId = c <;> by_cases h4 : s.receivedByUserId = me <;>
        simp [hg, h1, h2, h3, h4]
    · simp [hg]

/-- C17: in 'group' mode `getSettlementData` lists every member M other than the caller
with `netBalance` equal to the sum, over the group's expenses paid by the caller, of M's
unpaid splits, minus the sum, over the group's expenses paid by M, of the caller's first
unpaid split, plus the group's settlements paid by the caller to M, minus the group's
settlements paid by M to the caller. In the scenario of the claim A and B are each listed
with `youAreOwed = 20` and `youOwe = 0`. -/
theorem group_net_formula (st : Store) (me gid : Id) (group : Group) (c : Id)
    (hg : st.getGroup gid = some group) (hm : ∃ m ∈ group.members, m.userId = me)
    (hne : c ≠ me) (hc : ∃ m ∈ group.members, m.userId = c) :
    (∃ info list, getSettlementData st me "group" gid = .ok (.group info list) ∧
      (∃ r ∈ list, r.userId = c) ∧
      ∀ r ∈ list, r.userId = c →
        r.netBalance =
          ((st.expenses.filter (fun e => e.groupId == some gid && e.paidByUserId == me)).map
            (fun e =>
              ((e.splits.filter (fun s => s.userId == c && !s.paid)).map
                (fun s => s.amount)).sum)).sum
          - ((st.expenses.filter (fun e => e.groupId == some gid && e.paidByUserId == c)).map
            (fun e =>
              match e.splits.find? (fun s => s.userId == me && !s.paid) with
              | some split => split.amount
              | none => 0)).sum
          + ((st.settlements.filter (fun s =>
              s.groupId == some gid && s.paidByUserId == me && s.receivedByUserId == c)).map
            (fun s => s.amount)).sum
          - ((st.settlements.filter (fun s =>
              s.groupId == some gid && s.paidByUserId == c && s.receivedByUserId == me)).map
            (fun s => s.amount)).sum) ∧
    getSettlementData hotelStore 1 "group" 100 =
      .ok (.group ⟨100, "trio", none⟩
        [⟨2, "A", none, 20, 0, 20⟩, ⟨3, "B", none, 20, 0, 20⟩]) := by
  refine ⟨?_, by decide!⟩
  obtain ⟨hid, -⟩ := getGroup_id st gid group hg
  refine ⟨_, _, getSettlementData_group_ok st me gid group hg hm, ?_, ?_⟩
  · obtain ⟨kv, hkv, hk⟩ := List.mem_map.mp
      ((groupBalances_keys st me group c).mpr ⟨hne, hc⟩)
    exact ⟨memberRecord st kv, List.mem_map.mpr ⟨kv, hkv, rfl⟩, hk⟩
  · intro r hr hrc
    rw [(mem_group_list st me group r hr).2, hrc,
      groupBalances_net_closed st me group c hne hc, hid]

theorem group_net_formula_witness :
    ∃ info list, getSettlementData hotelStore 1 "group" 100 = .ok (.group info list) ∧
      (∃ r ∈ list, r.userId = 2) ∧ ∀ r ∈ list, r.userId = 2 → r.netBalance = 20 - 0 + 0 - 0 := by
  obtain ⟨info, list, h1, h2, h3⟩ :=
    (group_net_formula hotelStore 1 100 trio 2 (by decide) (by decide) (by decide)
      (by decide)).1
  refine ⟨info, list, h1, h2, fun r hr hc => (h3 r hr hc).trans (by decide!)⟩

/-- C19: for a group that holds the caller, the 'group' list of `getSettlementData` has
exactly one record for every member other than the caller, no record for the caller and
none for a non-member; a member who shares no expense of the group with the caller (one of
them the payer, the other in the splits) and no settlement of the group with the caller
has `netBalance` 0. -/
theorem group_list_members (st : Store) (me gid : Id) (group : Group)
    (hg : st.getGroup gid = some group) (hm : ∃ m ∈ group.members, m.userId = me) :
    ∃ info list, getSettlementData st me "group" gid = .ok (.group info list) ∧
      (list.map (fun r => r.userId)).Nodup ∧
      (∀ uid, uid ∈ list.map (fun r => r.userId) ↔
        (uid ≠ me ∧ ∃ m ∈ group.members, m.userId = uid)) ∧
      ∀ r ∈ list,
        (∀ e ∈ st.expenses, e.groupId = some gid →
          ¬ (e.paidByUserId = me ∧ ∃ s ∈ e.splits, s.userId = r.userId) ∧
          ¬ (e.paidByUserId = r.userId ∧ ∃ s ∈ e.splits, s.userId = me)) →
        (∀ s ∈ st.settlements, s.groupId = some gid →
          ¬ (s.paidByUserId = me ∧ s.receivedByUserId = r.userId) ∧
          ¬ (s.paidByUserId = r.userId ∧ s.receivedByUserId = me)) →
        r.netBalance = 0 := by
  obtain ⟨hid, -⟩ := getGroup_id st gid group hg
  have hkeys : ((groupBalances st me group).map (memberRecord st)).map (fun r => r.userId) =
      (groupBalances st me group).map Prod.fst := by
    rw [List.map_map]
    rfl
  refine ⟨_, _, getSettlementData_group_ok st me gid group hg hm, ?_, ?_, ?_⟩
  · rw [hkeys]
    exact groupBalances_nodup st me group
  · intro uid
    rw [hkeys]
    exact groupBalances_keys st me group uid
  · intro r hr hE hS
    obtain ⟨⟨hne, hmem⟩, hnet⟩ := mem_group_list st me group r hr
    rw [hnet, groupBalances_net st me group r.userId hne hmem]
    have e0 : ((st.expensesOfGroup group._id).map (fun e =>
        (if e.paidByUserId = me then
          ((e.splits.filter (fun s => s.userId == r.userId && !s.paid)).map
            (fun s => s.amount)).sum
         else 0) -
        (if e.paidByUserId = r.userId then owedBy e.splits me else 0))).sum = 0 := by
      apply sum_map_eq_zero
      intro e he
      obtain ⟨he1, he2⟩ := List.mem_filter.mp he
      have hge : e.groupId = some gid := by
        rw [← hid]
        simpa using he2
      obtain ⟨n1, n2⟩ := hE e he1 hge
      have a0 : (if e.paidByUserId = me then
          ((e.splits.filter (fun s => s.userId == r.userId && !s.paid)).map
            (fun s => s.amount)).sum
         else 0) = 0 := by
        by_cases hp : e.paidByUserId = me
        · rw [if_pos hp]
          have : e.splits.filter (fun s => s.userId == r.userId && !s.paid) = [] := by
            rw [List.filter_eq_nil_iff]
            intro s hs hc
            simp only [Bool.and_eq_true, beq_iff_eq] at hc
            exact n1 ⟨hp, s, hs, hc.1⟩
          rw [this]
          rfl
        · rw [if_neg hp]
      have b0 : (if e.paidByUserId = r.userId then owedBy e.splits me else 0) = 0 := by
        by_cases hp : e.paidByUserId = r.userId
        · rw [if_pos hp]
          apply owedBy_eq_zero
          rw [List.any_eq_false]
          intro s hs hc
          exact n2 ⟨hp, s, hs, by simpa using hc⟩
        · rw [if_neg hp]
      rw [a0, b0, sub_zero]
    have s0 : ((st.settlementsOfGroup group._id).map (fun s =>
        (if s.paidByUserId = me ∧ s.receivedByUserId = r.userId then s.amount else 0) -
        (if s.paidByUserId = r.userId ∧ s.receivedByUserId = me then s.amount else 0))).sum
        = 0 := by
      apply sum_map_eq_zero
      intro s hs
      obtain ⟨hs1, hs2⟩ := List.mem_filter.mp hs
      have hgs : s.groupId = some gid := by
        rw [← hid]
        simpa using hs2
      obtain ⟨n1, n2⟩ := hS s hs1 hgs
      rw [if_neg n1, if_neg n2, sub_zero]
    rw [e0, s0, add_zero]

theorem group_list_members_witness :
    ∃ info list, getSettlementData hotelStore 2 "group" 100 = .ok (.group info list) ∧
      (list.map (fun r => r.userId)).Nodup ∧
      (∀ uid, uid ∈ list.map (fun r => r.userId) ↔
        (uid ≠ 2 ∧ ∃ m ∈ trio.members, m.userId = uid)) ∧
      ∀ r ∈ list,
        (∀ e ∈ hotelStore.expenses, e.groupId = some 100 →
          ¬ (e.paidByUserId = 2 ∧ ∃ s ∈ e.splits, s.userId = r.userId) ∧
          ¬ (e.paidByUserId = r.userId ∧ ∃ s ∈ e.splits, s.userId = 2)) →
        (∀ s ∈ hotelStore.settlements, s.groupId = some 100 →
          ¬ (s.paidByUserId = 2 ∧ s.receivedByUserId = r.userId) ∧
          ¬ (s.paidByUserId = r.userId ∧ s.receivedByUserId = 2)) →
        r.netBalance = 0 :=
  group_list_members hotelStore 2 100 trio (by decide) (by decide)

/-! ## The scalar of `getUserGroups` against the 'group' list -/

theorem groupScalarBalance_eq (st : Store) (user : Id) (group : Group) :
    groupScalarBalance st user group =
      ((st.expensesOfGroup group._id).map (fun e =>
        if e.paidByUserId = user then
          (e.splits.map (fun s =>
            if s.userId ≠ user ∧ s.paid = false then s.amount else 0)).sum
        else
          match e.splits.find? (fun s => s.userId == user) with
          | some us => if us.paid = false then - us.amount else 0
          | none => 0)).sum +
      ((st.settlements.filter (fun s =>
          s.groupId == some group._id &&
            (s.paidByUserId == user || s.receivedByUserId == user))).map
        (fun s => if s.paidByUserId = user then s.amount else - s.amount)).sum := by
  unfold groupScalarBalance
  dsimp only
  rw [foldl_eq_add_sum (groupScalarSettlementStep user)
      (fun s => if s.paidByUserId = user then s.amount else - s.amount),
    foldl_eq_add_sum (groupScalarExpenseStep user)
      (fun e =>
        if e.paidByUserId = user then
          (e.splits.map (fun s =>
            if s.userId ≠ user ∧ s.paid = false then s.amount else 0)).sum
        else
          match e.splits.find? (fun s => s.userId == user) with
          | some us => if us.paid = false then - us.amount else 0
          | none => 0), zero_add]
  · intro b e
    unfold groupScalarExpenseStep
    by_cases hp : e.paidByUserId = user
    · rw [if_pos hp, if_pos hp]
      apply foldl_eq_add_sum
      intro b s
      split_ifs <;> simp
    · rw [if_neg hp, if_neg hp]
      cases e.splits.find? (fun s => s.userId == user) with
      | none => simp
      | some us =>
        dsimp only
        split_ifs <;> simp [sub_eq_add_neg]
  · intro b s
    unfold groupScalarSettlementStep
    split_ifs <;> simp [sub_eq_add_neg]

theorem group_list_sum (st : Store) (me : Id) (group : Group) :
    (((groupBalances st me group).map (memberRecord st)).map (fun r => r.netBalance)).sum =
      ((st.expensesOfGroup group._id).map
        (groupShare me ((initBalances me group.members).map Prod.fst) (fun _ => 1))).sum +
      ((st.settlementsOfGroup group._id).map
        (groupPaid me ((initBalances me group.members).map Prod.fst) (fun _ => 1))).sum := by
  rw [← (groupBalances_spec st me group (fun _ => 1)).2, List.map_map]
  unfold Tally.weighted
  apply sum_map_congr_mem
  intro kv _
  simp [memberRecord]

/-- In exact arithmetic, the two group views agree where no participant is repeated: when
the payer and every split participant of every expense of group G is a member of G, no
such expense lists a participant in two splits, and every settlement of G is between two
distinct members of G, the balance that `getUserGroups` computes for G and a member U is
the sum of the `netBalance` fields of the 'group' list that `getSettlementData` returns
for G and U. -/
theorem group_scalar_matches_list (st : Store) (user gid : Id) (group : Group)
    (hg : st.getGroup gid = some group) (hm : ∃ m ∈ group.members, m.userId = user)
    (hE : ∀ e ∈ st.expenses, e.groupId = some gid →
      (∃ m ∈ group.members, m.userId = e.paidByUserId) ∧
      (∀ s ∈ e.splits, ∃ m ∈ group.members, m.userId = s.userId) ∧
      (e.splits.map (fun s => s.userId)).Nodup)
    (hS : ∀ s ∈ st.settlements, s.groupId = some gid →
      s.paidByUserId ≠ s.receivedByUserId ∧
      (∃ m ∈ group.members, m.userId = s.paidByUserId) ∧
      (∃ m ∈ group.members, m.userId = s.receivedByUserId)) :
    ∃ info list, getSettlementData st user "group" gid = .ok (.group info list) ∧
      (∃ entry ∈ getUserGroups st user, entry.group = group) ∧
      ∀ entry ∈ getUserGroups st user, entry.group = group →
        entry.balance = (list.map (fun r => r.netBalance)).sum := by
  obtain ⟨hid, hmem⟩ := getGroup_id st gid group hg
  have hany : group.members.any (fun m => m.userId == user) = true := by
    simpa using hm
  have hks : ∀ k, k ∈ (initBalances user group.members).map Prod.fst ↔
      (k ≠ user ∧ ∃ m ∈ group.members, m.userId = k) :=
    (initBalances_spec user group.members).2.2
  refine ⟨_, _, getSettlementData_group_ok st user gid group hg hm, ?_, ?_⟩
  · refine ⟨⟨group, group._id, groupScalarBalance st user group⟩, ?_, rfl⟩
    unfold getUserGroups
    exact List.mem_map.mpr ⟨group, List.mem_filter.mpr ⟨hmem, hany⟩, rfl⟩
  · intro entry hentry hgroup
    unfold getUserGroups at hentry
    obtain ⟨g', -, rfl⟩ := List.mem_map.mp hentry
    simp only at hgroup
    subst hgroup
    show groupScalarBalance st user g' = _
    rw [groupScalarBalance_eq, group_list_sum]
    congr 1
    · apply sum_map_congr_mem
      intro e he
      obtain ⟨he1, he2⟩ := List.mem_filter.mp he
      have hge : e.groupId = some gid := by
        rw [← hid]
        simpa using he2
      obtain ⟨hp, hs, hnd⟩ := hE e he1 hge
      unfold groupShare
      by_cases hpu : e.paidByUserId = user
      · rw [if_pos hpu, if_pos hpu]
        apply sum_map_congr_mem
        intro s hsm
        by_cases hc : s.userId ≠ user ∧ s.paid = false
        · rw [if_pos hc, if_pos ⟨hc, (hks s.userId).mpr ⟨hc.1, hs s hsm⟩⟩, one_mul]
        · rw [if_neg hc, if_neg (fun h => hc h.1)]
      · rw [if_neg hpu, if_neg hpu, if_pos ((hks _).mpr ⟨hpu, hp⟩), one_mul,
          owedBy_eq_first_split e.splits user hnd]
        cases e.splits.find? (fun s => s.userId == user) with
        | none => simp
        | some us =>
          dsimp only
          split_ifs <;> simp
    · unfold Store.settlementsOfGroup
      rw [sum_map_filter, sum_map_filter]
      apply sum_map_congr_mem
      intro s hs
      unfold groupPaid
      by_cases hgs : s.groupId = some g'._id
      · obtain ⟨hne, hp, hr⟩ := hS s hs (hid ▸ hgs)
        by_cases h1 : s.paidByUserId = user
        · have h2 : s.receivedByUserId ≠ user := fun h => hne (h1.trans h.symm)
          have hk : s.receivedByUserId ∈ (initBalances user g'.members).map Prod.fst :=
            (hks _).mpr ⟨h2, hr⟩
          simp [hgs, h1, h2, hk]
        · by_cases h2 : s.receivedByUserId = user
          · have hk : s.paidByUserId ∈ (initBalances user g'.members).map Prod.fst :=
              (hks _).mpr ⟨h1, hp⟩
            simp [hgs, h1, h2, hk]
          · simp [hgs, h1, h2]
      · simp [hgs]

theorem group_scalar_matches_list_witness :
    ∃ info list, getSettlementData hotelStore 1 "group" 100 = .ok (.group info list) ∧
      (∃ entry ∈ getUserGroups hotelStore 1, entry.group = trio) ∧
      ∀ entry ∈ getUserGroups hotelStore 1, entry.group = trio →
        entry.balance = (list.map (fun r => r.netBalance)).sum :=
  group_scalar_matches_list hotelStore 1 100 trio (by decide) (by decide) (by decide)
    (by decide)

/-! ## `deleteExpense` -/

theorem deleteExpense_eq (st : Store) (user expenseId : Id) :
    deleteExpense st user expenseId =
      match st.getExpense expenseId with
      | none => ⟨.error "Expense not found", st⟩
      | some expense =>
        if expense.createdBy ≠ user ∧ expense.paidByUserId ≠ user then
          ⟨.error "You don't have permission to delete this expense", st⟩
        else
          ⟨.ok true,
            (((st.settlements.filter (refersTo expenseId)).foldl (cascadeStep expenseId)
              st).deleteExpenseDoc expenseId)⟩ := rfl

/-- C21: `deleteExpense` raises 'Expense not found' when the expense does not exist,
raises the permission error exactly when the expense exists and the caller is neither its
creator nor its payer, leaves the store as it was in both cases, and succeeds when the
caller is the creator or the payer. -/
theorem deleteExpense_authorization (st : Store) (user expenseId : Id) :
    (st.getExpense expenseId = none →
      (deleteExpense st user expenseId).result = .error "Expense not found" ∧
      (deleteExpense st user expenseId).store = st) ∧
    ((deleteExpense st user expenseId).result =
        .error "You don't have permission to delete this expense" ↔
      ∃ expense, st.getExpense expenseId = some expense ∧
        expense.createdBy ≠ user ∧ expense.paidByUserId ≠ user) ∧
    ((deleteExpense st user expenseId).result =
        .error "You don't have permission to delete this expense" →
      (deleteExpense st user expenseId).store = st) ∧
    (∀ expense, st.getExpense expenseId = some expense →
      (expense.createdBy = user ∨ expense.paidByUserId = user) →
      (deleteExpense st user expenseId).result = .ok true) := by
  rw [deleteExpense_eq]
  cases hg : st.getExpense expenseId with
  | none =>
    refine ⟨fun _ => ⟨rfl, rfl⟩, ⟨fun h => ?_, fun ⟨x, hx, _⟩ => by simp at hx⟩,
      fun _ => rfl, fun x hx => by simp at hx⟩
    simp at h
  | some expense =>
    dsimp only
    by_cases hp : expense.createdBy ≠ user ∧ expense.paidByUserId ≠ user
    · rw [if_pos hp]
      refine ⟨fun h => by simp at h, ⟨fun _ => ⟨expense, rfl, hp⟩, fun _ => rfl⟩,
        fun _ => rfl, fun x hx hc => ?_⟩
      simp only [Option.some.injEq] at hx
      subst hx
      rcases hc with hc | hc
      · exact absurd hc hp.1
      · exact absurd hc hp.2
    · rw [if_neg hp]
      refine ⟨fun h => by simp at h, ⟨fun h => by simp at h, fun ⟨x, hx, hx2⟩ => ?_⟩,
        fun h => by simp at h, fun _ _ _ => rfl⟩
      simp only [Option.some.injEq] at hx
      subst hx
      exact absurd hx2 hp

theorem deleteExpense_authorization_witness :
    (deleteExpense cascadeStore 3 11).result = .error "Expense not found" ∧
    (deleteExpense cascadeStore 3 11).store = cascadeStore ∧
    (deleteExpense cascadeStore 3 10).result =
      .error "You don't have permission to delete this expense" ∧
    (deleteExpense cascadeStore 3 10).store = cascadeStore ∧
    (deleteExpense cascadeStore 2 10).result = .ok true :=
  ⟨((deleteExpense_authorization cascadeStore 3 11).1 (by decide)).1,
   ((deleteExpense_authorization cascadeStore 3 11).1 (by decide)).2,
   (deleteExpense_authorization cascadeStore 3 10).2.1.mpr ⟨dinner, by decide, by decide⟩,
   (deleteExpense_authorization cascadeStore 3 10).2.2.1 (by decide!),
   (deleteExpense_authorization cascadeStore 2 10).2.2.2 dinner (by decide) (by decide)⟩

theorem cascadeStep_settlements (e : Id) (st : Store) (r : Settlement) :
    (cascadeStep e st r).settlements =
      st.settlements.filterMap (fun s =>
        if s._id = r._id then
          if (updatedRelatedExpenseIds e r).length = 0 then none
          else some { s with relatedExpenseIds := some (updatedRelatedExpenseIds e r) }
        else some s) ∧
    (cascadeStep e st r).expenses = st.expenses ∧
    (cascadeStep e st r).users = st.users ∧ (cascadeStep e st r).groups = st.groups ∧
    (cascadeStep e st r).nextId = st.nextId := by
  unfold cascadeStep
  by_cases h : (updatedRelatedExpenseIds e r).length = 0
  · rw [if_pos h]
    refine ⟨?_, rfl, rfl, rfl, rfl⟩
    show st.settlements.filter (fun s => s._id != r._id) = _
    induction st.settlements with
    | nil => rfl
    | cons s rest ih =>
      by_cases hs : s._id = r._id
      · simp [List.filter_cons, List.filterMap_cons, hs, h, ih]
      · simp [List.filter_cons, List.filterMap_cons, hs, ih]
  · rw [if_neg h]
    refine ⟨?_, rfl, rfl, rfl, rfl⟩
    show st.settlements.map (fun s =>
      if s._id = r._id then
        { s with relatedExpenseIds := some (updatedRelatedExpenseIds e r) } else s) = _
    induction st.settlements with
    | nil => rfl
    | cons s rest ih =>
      by_cases hs : s._id = r._id
      · simp only [List.map_cons, List.filterMap_cons, hs, if_true, h, if_false, ih]
      · simp only [List.map_cons, List.filterMap_cons, hs, if_false, ih]

theorem cascade_fold (e : Id) (rel : List Settlement) (st : Store)
    (hnd : (rel.map (fun s => s._id)).Nodup)
    (hinv : ∀ r ∈ rel, ∀ s ∈ st.settlements, s._id = r._id → s = r) :
    (rel.foldl (cascadeStep e) st).settlements =
      st.settlements.filterMap (fun s =>
        if s._id ∈ rel.map (fun s => s._id) then cascadeDoc e s else some s) ∧
    (rel.foldl (cascadeStep e) st).expenses = st.expenses ∧
    (rel.foldl (cascadeStep e) st).users = st.users ∧
    (rel.foldl (cascadeStep e) st).groups = st.groups ∧
    (rel.foldl (cascadeStep e) st).nextId = st.nextId := by
  induction rel generalizing st with
  | nil => simp
  | cons r rest ih =>
    rw [List.map_cons, List.nodup_cons] at hnd
    obtain ⟨s1, s2, s3, s4, s5⟩ := cascadeStep_settlements e st r
    have hinv' : ∀ r' ∈ rest, ∀ s ∈ (cascadeStep e st r).settlements, s._id = r'._id → s = r' := by
      intro r' hr' s hs hid
      rw [s1, List.mem_filterMap] at hs
      obtain ⟨s0, hs0, hmap⟩ := hs
      have hne : r'._id ≠ r._id := fun hc => hnd.1 (hc ▸ List.mem_map.mpr ⟨r', hr', rfl⟩)
      by_cases h0 : s0._id = r._id
      · rw [if_pos h0] at hmap
        by_cases hl : (updatedRelatedExpenseIds e r).length = 0
        · rw [if_pos hl] at hmap
          simp at hmap
        · rw [if_neg hl] at hmap
          simp only [Option.some.injEq] at hmap
          subst hmap
          exact absurd (hid.symm.trans h0) hne
      · rw [if_neg h0] at hmap
        simp only [Option.some.injEq] at hmap
        subst hmap
        exact hinv r' (List.mem_cons_of_mem _ hr') s0 hs0 hid
    obtain ⟨i1, i2, i3, i4, i5⟩ := ih (cascadeStep e st r) hnd.2 hinv'
    rw [List.foldl_cons]
    refine ⟨?_, i2.trans s2, i3.trans s3, i4.trans s4, i5.trans s5⟩
    rw [i1, s1, List.filterMap_filterMap]
    apply List.filterMap_congr
    intro s hs
    by_cases h0 : s._id = r._id
    · have hsr : s = r := hinv r (List.mem_cons_self _ _) s hs h0
      subst hsr
      have hnot : ¬ s._id ∈ rest.map (fun s => s._id) := hnd.1
      have hmem : s._id ∈ (s :: rest).map (fun s => s._id) := by simp
      rw [if_pos hmem]
      unfold cascadeDoc
      by_cases hl : (updatedRelatedExpenseIds e s).length = 0
      · rw [if_pos rfl, if_pos hl]
        rfl
      · rw [if_pos rfl, if_neg hl, Option.some_bind]
        dsimp only
        rw [if_neg hnot]
    · have hiff : s._id ∈ (r :: rest).map (fun s => s._id) ↔
          s._id ∈ rest.map (fun s => s._id) := by
        simp [h0]
      rw [if_neg h0, Option.some_bind]
      by_cases hin : s._id ∈ rest.map (fun s => s._id)
      · rw [if_pos hin, if_pos (hiff.mpr hin)]
      · rw [if_neg hin, if_neg (fun h => hin (hiff.mp h))]

theorem mem_ids_filter_refersTo (e : Id) (l : List Settlement)
    (hnd : (l.map (fun s => s._id)).Nodup) (s : Settlement) (hs : s ∈ l) :
    s._id ∈ (l.filter (refersTo e)).map (fun s => s._id) ↔ refersTo e s = true := by
  constructor
  · intro h
    obtain ⟨r, hr, hid⟩ := List.mem_map.mp h
    obtain ⟨hr1, hr2⟩ := List.mem_filter.mp hr
    have : r = s := List.inj_on_of_nodup_map hnd hr1 hs hid
    exact this ▸ hr2
  · intro h
    exact List.mem_map.mpr ⟨s, List.mem_filter.mpr ⟨hs, h⟩, rfl⟩

theorem deleteExpense_store (st : Store) (user e : Id)
    (hok : (deleteExpense st user e).result = .ok true)
    (hnd : (st.settlements.map (fun s => s._id)).Nodup) :
    (deleteExpense st user e).store.settlements =
      st.settlements.filterMap (fun s => if refersTo e s then cascadeDoc e s else some s) ∧
    (deleteExpense st user e).store.expenses = st.expenses.filter (fun x => x._id != e) ∧
    (deleteExpense st user e).store.users = st.users ∧
    (deleteExpense st user e).store.groups = st.groups := by
  rw [deleteExpense_eq] at hok ⊢
  cases hg : st.getExpense e with
  | none => simp [hg] at hok
  | some expense =>
    simp only [hg] at hok ⊢
    by_cases hp : expense.createdBy ≠ user ∧ expense.paidByUserId ≠ user
    · rw [if_pos hp] at hok
      simp at hok
    · rw [if_neg hp]
      obtain ⟨c1, c2, c3, c4, -⟩ := cascade_fold e (st.settlements.filter (refersTo e)) st
        (hnd.sublist ((List.filter_sublist _).map _))
        (fun r hr s hs hid =>
          List.inj_on_of_nodup_map hnd hs (List.mem_filter.mp hr).1 hid)
      refine ⟨?_, ?_, c3, c4⟩
      · show ((st.settlements.filter (refersTo e)).foldl (cascadeStep e) st).settlements = _
        rw [c1]
        apply List.filterMap_congr
        intro s hs
        by_cases hr : refersTo e s = true
        · rw [if_pos hr, if_pos ((mem_ids_filter_refersTo e _ hnd s hs).mpr hr)]
        · rw [if_neg hr, if_neg (fun h => hr ((mem_ids_filter_refersTo e _ hnd s hs).mp h))]
      · show (((st.settlements.filter (refersTo e)).foldl (cascadeStep e) st).expenses).filter
          (fun x => x._id != e) = _
        rw [c2]

/-- C22: after a successful `deleteExpense(e)` on a store whose settlements have distinct
ids, no expense with the id e is left, every settlement whose `relatedExpenseIds` held
only e is gone, every settlement whose `relatedExpenseIds` held e and another id is kept
with e filtered out of the list, and no settlement left refers to e. -/
theorem deleteExpense_cascade (st : Store) (user e : Id)
    (hok : (deleteExpense st user e).result = .ok true)
    (hnd : (st.settlements.map (fun s => s._id)).Nodup) :
    (∀ x ∈ (deleteExpense st user e).store.expenses, x._id ≠ e) ∧
    (∀ s ∈ st.settlements, ∀ ids, s.relatedExpenseIds = some ids → e ∈ ids →
      (∀ i ∈ ids, i = e) →
      ∀ s' ∈ (deleteExpense st user e).store.settlements, s'._id ≠ s._id) ∧
    (∀ s ∈ st.settlements, ∀ ids, s.relatedExpenseIds = some ids → e ∈ ids →
      (∃ i ∈ ids, i ≠ e) →
      { s with relatedExpenseIds := some (ids.filter (fun i => i != e)) } ∈
        (deleteExpense st user e).store.settlements) ∧
    (∀ s' ∈ (deleteExpense st user e).store.settlements, ∀ ids,
      s'.relatedExpenseIds = some ids → e ∉ ids) := by
  obtain ⟨hs, he, -, -⟩ := deleteExpense_store st user e hok hnd
  rw [hs, he]
  refine ⟨?_, ?_, ?_, ?_⟩
  · intro x hx
    simpa using (List.mem_filter.mp hx).2
  · intro s hsm ids hids hin hall s' hs' hid
    obtain ⟨s0, hs0, hmap⟩ := List.mem_filterMap.mp hs'
    have hupd : updatedRelatedExpenseIds e s = [] := by
      unfold updatedRelatedExpenseIds
      rw [hids, Option.getD_some, List.filter_eq_nil_iff]
      intro i hi
      simp [hall i hi]
    have href : refersTo e s = true := by
      unfold refersTo
      rw [hids]
      simpa using hin
    have hid0 : s0._id = s'._id := by
      by_cases hr : refersTo e s0 = true
      · rw [if_pos hr] at hmap
        unfold cascadeDoc at hmap
        split_ifs at hmap
        simp only [Option.some.injEq] at hmap
        rw [← hmap]
      · rw [if_neg hr] at hmap
        simp only [Option.some.injEq] at hmap
        rw [hmap]
    have h0 : s0 = s := List.inj_on_of_nodup_map hnd hs0 hsm (hid0.trans hid)
    subst h0
    rw [if_pos href] at hmap
    unfold cascadeDoc at hmap
    rw [hupd] at hmap
    simp at hmap
  · intro s hsm ids hids hin hother
    have href : refersTo e s = true := by
      unfold refersTo
      rw [hids]
      simpa using hin
    have hupd : updatedRelatedExpenseIds e s = ids.filter (fun i => i != e) := by
      unfold updatedRelatedExpenseIds
      rw [hids, Option.getD_some]
    have hne : ¬ (updatedRelatedExpenseIds e s).length = 0 := by
      rw [hupd, List.length_eq_zero, List.filter_eq_nil_iff]
      obtain ⟨i, hi, hie⟩ := hother
      intro hc
      exact hc i hi (by simpa using hie)
    refine List.mem_filterMap.mpr ⟨s, hsm, ?_⟩
    rw [if_pos href]
    unfold cascadeDoc
    rw [if_neg hne, hupd]
  · intro s' hs' ids hids hin
    obtain ⟨s0, hs0, hmap⟩ := List.mem_filterMap.mp hs'
    by_cases hr : refersTo e s0 = true
    · rw [if_pos hr] at hmap
      unfold cascadeDoc at hmap
      split_ifs at hmap
      simp only [Option.some.injEq] at hmap
      rw [← hmap] at hids
      simp only [Option.some.injEq] at hids
      rw [← hids] at hin
      unfold updatedRelatedExpenseIds at hin
      simpa using (List.mem_filter.mp hin).2
    · rw [if_neg hr] at hmap
      simp only [Option.some.injEq] at hmap
      subst hmap
      unfold refersTo at hr
      rw [hids] at hr
      exact hr (by simpa using hin)

theorem deleteExpense_cascade_witness :
    (deleteExpense cascadeStore 2 10).result = .ok true ∧
    (deleteExpense cascadeStore 2 10).store.expenses = [] ∧
    (deleteExpense cascadeStore 2 10).store.settlements =
      [{ twoMeals with relatedExpenseIds := some [11] }, looseChange] ∧
    { twoMeals with relatedExpenseIds := some ([10, 11].filter (fun i => i != 10)) } ∈
      (deleteExpense cascadeStore 2 10).store.settlements :=
  ⟨by decide!, by decide!, by decide!,
   (deleteExpense_cascade cascadeStore 2 10 (by decide!) (by decide)).2.2.1 twoMeals
     (by decide) [10, 11] (by decide) (by decide) ⟨11, by decide, by decide⟩⟩

/-! ## `createSettlement`: basic checks and grouped drafts -/

theorem createSettlement_basic (st : Store) (caller : Id) (now : ℚ) (args : SettlementArgs)
    (hpos : 0 < args.amount) (hne : args.paidByUserId ≠ args.receivedByUserId)
    (hc : caller = args.paidByUserId ∨ caller = args.receivedByUserId) :
    createSettlement st caller now args =
      match outstandingCheck st args with
      | some msg => ⟨.error msg, st⟩
      | none =>
        match settlementGroupCheck st args with
        | some msg => ⟨.error msg, st⟩
        | none => ⟨.ok st.nextId, (st.insertSettlement (settlementDoc caller now args)).2⟩ := by
  unfold createSettlement
  rw [if_neg (not_le.mpr hpos), if_neg hne, if_neg (by tauto)]
  rfl

theorem settlementGroupCheck_eq_none (st : Store) (args : SettlementArgs) (gid : Id)
    (hg : args.groupId = some gid) :
    settlementGroupCheck st args = none ↔
      ∃ g, st.getGroup gid = some g ∧ (∃ m ∈ g.members, m.userId = args.paidByUserId) ∧
        (∃ m ∈ g.members, m.userId = args.receivedByUserId) := by
  unfold settlementGroupCheck
  simp only [hg]
  cases hgrp : st.getGroup gid with
  | none => simp
  | some g =>
    simp only [Option.some.injEq, exists_eq_left']
    split_ifs with h
    · simp only [Bool.or_eq_true, Bool.not_eq_true', List.any_eq_false, beq_iff_eq] at h
      simp only [reduceCtorEq, false_iff]
      rintro ⟨⟨m1, hm1, h1⟩, ⟨m2, hm2, h2⟩⟩
      rcases h with h | h
      · exact h m1 hm1 h1
      · exact h m2 hm2 h2
    · simp only [Bool.or_eq_true, Bool.not_eq_true', List.any_eq_false, beq_iff_eq,
        not_or, not_forall, not_not] at h
      simp only [true_iff]
      obtain ⟨⟨m1, hm1, h1⟩, ⟨m2, hm2, h2⟩⟩ := h
      exact ⟨⟨m1, hm1, h1⟩, ⟨m2, hm2, h2⟩⟩

/-- C27: a draft with a groupId that passes the basic checks is admitted exactly when the
group exists and holds both the payer and the receiver; the decision is the same on every
store with the same groups, whatever its expenses and settlements, and whatever the
amount. -/
theorem grouped_settlement_admission (st : Store) (caller : Id) (now : ℚ)
    (args : SettlementArgs) (gid : Id) (hg : args.groupId = some gid)
    (hpos : 0 < args.amount) (hne : args.paidByUserId ≠ args.receivedByUserId)
    (hc : caller = args.paidByUserId ∨ caller = args.receivedByUserId) :
    ((∃ id, (createSettlement st caller now args).result = .ok id) ↔
      ∃ g, st.getGroup gid = some g ∧ (∃ m ∈ g.members, m.userId = args.paidByUserId) ∧
        (∃ m ∈ g.members, m.userId = args.receivedByUserId)) ∧
    (∀ (st2 : Store) (amount : ℚ), st2.groups = st.groups → 0 < amount →
      ((∃ id, (createSettlement st2 caller now { args with amount := amount }).result = .ok id) ↔
        ∃ id, (createSettlement st caller now args).result = .ok id)) := by
  have key : ∀ (s : Store) (a : SettlementArgs), a.groupId = some gid → 0 < a.amount →
      a.paidByUserId ≠ a.receivedByUserId →
      (caller = a.paidByUserId ∨ caller = a.receivedByUserId) →
      ((∃ id, (createSettlement s caller now a).result = .ok id) ↔
        ∃ g, s.getGroup gid = some g ∧ (∃ m ∈ g.members, m.userId = a.paidByUserId) ∧
          (∃ m ∈ g.members, m.userId = a.receivedByUserId)) := by
    intro s a hga hpa hna hca
    rw [createSettlement_basic s caller now a hpa hna hca,
      ← settlementGroupCheck_eq_none s a gid hga]
    have ho : outstandingCheck s a = none := by
      unfold outstandingCheck
      simp [hga]
    rw [ho]
    cases hgc : settlementGroupCheck s a with
    | none => exact ⟨fun _ => rfl, fun _ => ⟨_, rfl⟩⟩
    | some msg => exact ⟨fun ⟨id, hid⟩ => by simp at hid, fun h => by simp at h⟩
  refine ⟨key st args hg hpos hne hc, fun st2 amount hgroups hamount => ?_⟩
  rw [key st args hg hpos hne hc,
    key st2 { args with amount := amount } hg hamount hne hc]
  unfold Store.getGroup
  rw [hgroups]

theorem grouped_settlement_admission_witness :
    (∃ id, (createSettlement hotelStore 1 5 groupPay).result = .ok id) ↔
      ∃ g, hotelStore.getGroup 100 = some g ∧
        (∃ m ∈ g.members, m.userId = groupPay.paidByUserId) ∧
        (∃ m ∈ g.members, m.userId = groupPay.receivedByUserId) :=
  (grouped_settlement_admission hotelStore 1 5 groupPay 100 (by decide) (by decide!)
    (by decide) (by decide)).1

/-! ## `getRecentActivity` -/

theorem expensesByDateDesc_sorted (st : Store) :
    st.expensesByDateDesc.Sorted (fun a b => b.date ≤ a.date) := by
  haveI : IsTotal Expense (fun a b => b.date ≤ a.date) := ⟨fun a b => le_total _ _⟩
  haveI : IsTrans Expense (fun a b => b.date ≤ a.date) :=
    ⟨fun a b c hab hbc => le_trans hbc hab⟩
  exact List.sorted_insertionSort _ _

theorem getRecentActivity_expenses (st : Store) (user : Id) :
    (getRecentActivity st user).map (fun a => a.expense) =
      ((st.expensesByDateDesc.take 50).filter (involvesUser user)).take 20 := by
  have hmap : ∀ l : List Expense, (l.map (enhance st)).map (fun a => a.expense) = l := by
    intro l
    induction l with
    | nil => rfl
    | cons x xs ih =>
      rw [List.map_cons, List.map_cons, ih]
      rfl
  unfold getRecentActivity recentExpenses
  exact hmap _

/-- C23: the expenses that `getRecentActivity` returns are the first 20 of the list got by
taking the first 50 expenses of the store in descending date order and keeping those that
involve the user. So there are at most 20 items, each involves the user, they are in
non-increasing date order, each is among those 50 expenses, and no expense outside the 50
is later than one of them. -/
theorem getRecentActivity_spec (st : Store) (user : Id) :
    (getRecentActivity st user).map (fun a => a.expense) =
      ((st.expensesByDateDesc.take 50).filter (fun e =>
        e.paidByUserId == user || e.splits.any (fun s => s.userId == user))).take 20 ∧
    st.expensesByDateDesc.Perm st.expenses ∧
    st.expensesByDateDesc.Sorted (fun a b => b.date ≤ a.date) ∧
    (getRecentActivity st user).length ≤ 20 ∧
    (∀ a ∈ getRecentActivity st user,
      a.expense.paidByUserId = user ∨ ∃ s ∈ a.expense.splits, s.userId = user) ∧
    ((getRecentActivity st user).map (fun a => a.expense)).Sorted
      (fun a b => b.date ≤ a.date) ∧
    (∀ a ∈ getRecentActivity st user, a.expense ∈ st.expensesByDateDesc.take 50) ∧
    (∀ x ∈ st.expensesByDateDesc.take 50, ∀ y ∈ st.expensesByDateDesc.drop 50,
      y.date ≤ x.date) := by
  have hE := getRecentActivity_expenses st user
  have hmem : ∀ a ∈ getRecentActivity st user,
      a.expense ∈ (st.expensesByDateDesc.take 50).filter (involvesUser user) := by
    intro a ha
    have : a.expense ∈ (getRecentActivity st user).map (fun a => a.expense) :=
      List.mem_map.mpr ⟨a, ha, rfl⟩
    rw [hE] at this
    exact List.mem_of_mem_take this
  refine ⟨hE, ?_, expensesByDateDesc_sorted st, ?_, ?_, ?_, ?_, ?_⟩
  · unfold Store.expensesByDateDesc
    exact (List.perm_insertionSort _ _).trans (List.reverse_perm _)
  · have := congrArg List.length hE
    rw [List.length_map] at this
    rw [this, List.length_take]
    exact min_le_left _ _
  · intro a ha
    have := (List.mem_filter.mp (hmem a ha)).2
    simpa [involvesUser] using this
  · rw [hE]
    exact ((expensesByDateDesc_sorted st).sublist (List.take_sublist _ _)).sublist
      ((List.take_sublist _ _).trans (List.filter_sublist _))
  · intro a ha
    exact (List.mem_filter.mp (hmem a ha)).1
  · have hs := expensesByDateDesc_sorted st
    rw [← List.take_append_drop 50 st.expensesByDateDesc] at hs
    exact (List.pairwise_append.mp hs).2.2

/-! ## `getExpensesBetweenUsers`: order of the stored records, and the two lists -/

theorem pairBalance_perm (st1 st2 : Store) (me userId : Id) (h : me ≠ userId)
    (he : st1.expenses.Perm st2.expenses) (hs : st1.settlements.Perm st2.settlements) :
    pairBalance st1 me userId = pairBalance st2 me userId := by
  rw [pairBalance_eq_sums st1 me userId h, pairBalance_eq_sums st2 me userId h,
    (he.map _).sum_eq, (hs.map _).sum_eq]

theorem filter_append_perm {α : Type} (p q : α → Bool) (l : List α)
    (hdisj : ∀ x ∈ l, ¬ (p x = true ∧ q x = true)) :
    (l.filter p ++ l.filter q).Perm (l.filter (fun x => p x || q x)) := by
  induction l with
  | nil => simp
  | cons x xs ih =>
    have ih' := ih (fun y hy => hdisj y (List.mem_cons_of_mem _ hy))
    have hx := hdisj x (List.mem_cons_self _ _)
    cases hp : p x <;> cases hq : q x
    · simpa [List.filter_cons, hp, hq] using ih'
    · simp only [List.filter_cons, hp, hq, Bool.false_or, if_true, if_false, Bool.false_eq_true]
      exact List.perm_middle.trans (ih'.cons x)
    · simp only [List.filter_cons, hp, hq, Bool.or_false, if_true, if_false,
        Bool.false_eq_true, List.cons_append]
      exact ih'.cons x
    · exact absurd ⟨hp, hq⟩ hx

/-- C25: `getExpensesBetweenUsers` raises 'Cannot query yourself' when the other user is
the current user. For another, existing user its `expenses` are exactly the ungrouped
expenses paid by one of the two in which both are involved, its `settlements` are exactly
the ungrouped settlements between the two in either direction, and both lists are sorted
by non-increasing date. -/
theorem getExpensesBetweenUsers_lists (st : Store) (me userId : Id) :
    (me = userId → getExpensesBetweenUsers st me userId = .error "Cannot query yourself") ∧
    (∀ other, me ≠ userId → st.getUser userId = some other →
      ∃ v, getExpensesBetweenUsers st me userId = .ok v ∧
        v.expenses.Perm (st.expenses.filter (fun e =>
          (e.groupId.isNone && (e.paidByUserId == me || e.paidByUserId == userId)) &&
            ((e.paidByUserId == me || e.splits.any (fun s => s.userId == me)) &&
              (e.paidByUserId == userId || e.splits.any (fun s => s.userId == userId))))) ∧
        v.settlements.Perm (st.settlements.filter (fun s =>
          s.groupId.isNone &&
            ((s.paidByUserId == me && s.receivedByUserId == userId) ||
              (s.paidByUserId == userId && s.receivedByUserId == me)))) ∧
        v.expenses.Sorted (fun a b => b.date ≤ a.date) ∧
        v.settlements.Sorted (fun a b => b.date ≤ a.date)) := by
  haveI : IsTotal Expense (fun a b => b.date ≤ a.date) := ⟨fun a b => le_total _ _⟩
  haveI : IsTrans Expense (fun a b => b.date ≤ a.date) :=
    ⟨fun a b c hab hbc => le_trans hbc hab⟩
  haveI : IsTotal Settlement (fun a b => b.date ≤ a.date) := ⟨fun a b => le_total _ _⟩
  haveI : IsTrans Settlement (fun a b => b.date ≤ a.date) :=
    ⟨fun a b c hab hbc => le_trans hbc hab⟩
  constructor
  · intro h
    unfold getExpensesBetweenUsers
    rw [if_pos h]
  · intro other h hu
    refine ⟨_, getExpensesBetweenUsers_ok st me userId h other hu, ?_, ?_, ?_, ?_⟩
    · show (pairExpenses st me userId).Perm _
      unfold pairExpenses sortExpensesByDate Store.expensesPaidBy
      refine (List.perm_insertionSort _ _).trans ?_
      have hdisj : ∀ x ∈ st.expenses,
          ¬ ((x.paidByUserId == me && x.groupId.isNone) = true ∧
            (x.paidByUserId == userId && x.groupId.isNone) = true) := by
        intro x _ hc
        simp only [Bool.and_eq_true, beq_iff_eq] at hc
        exact h (hc.1.1.symm.trans hc.2.1)
      refine ((filter_append_perm _ _ st.expenses hdisj).filter _).trans ?_
      rw [List.filter_filter]
      apply List.Perm.of_eq
      apply List.filter_congr
      intro e _
      unfold bothInvolved
      cases e.groupId.isNone <;> cases (e.paidByUserId == me) <;>
        cases (e.paidByUserId == userId) <;> simp
    · show (pairSettlements st me userId).Perm _
      unfold pairSettlements sortSettlementsByDate
      exact List.perm_insertionSort _ _
    · show (pairExpenses st me userId).Sorted _
      unfold pairExpenses sortExpensesByDate
      exact List.sorted_insertionSort _ _
    · show (pairSettlements st me userId).Sorted _
      unfold pairSettlements sortSettlementsByDate
      exact List.sorted_insertionSort _ _

theorem getExpensesBetweenUsers_lists_witness :
    getExpensesBetweenUsers dinnerStore 1 1 = .error "Cannot query yourself" ∧
    ∃ v, getExpensesBetweenUsers dinnerStore 1 2 = .ok v ∧
      v.expenses.Perm (dinnerStore.expenses.filter (fun e =>
        (e.groupId.isNone && (e.paidByUserId == 1 || e.paidByUserId == 2)) &&
          ((e.paidByUserId == 1 || e.splits.any (fun s => s.userId == 1)) &&
            (e.paidByUserId == 2 || e.splits.any (fun s => s.userId == 2))))) ∧
      v.settlements.Perm (dinnerStore.settlements.filter (fun s =>
        s.groupId.isNone &&
          ((s.paidByUserId == 1 && s.receivedByUserId == 2) ||
            (s.paidByUserId == 2 && s.receivedByUserId == 1)))) ∧
      v.expenses.Sorted (fun a b => b.date ≤ a.date) ∧
      v.settlements.Sorted (fun a b => b.date ≤ a.date) :=
  ⟨(getExpensesBetweenUsers_lists dinnerStore 1 1).1 rfl,
   (getExpensesBetweenUsers_lists dinnerStore 1 2).2 ⟨2, "A", "a@example.com", none⟩
     (by decide) (by decide)⟩

/-! ## An expense whose splits are all paid -/

theorem foldl_filter_append_skip {α β : Type} (f : β → α → β) (p : α → Bool) (l : List α)
    (e : α) (h : ∀ b, f b e = b) (b : β) :
    ((l ++ [e]).filter p).foldl f b = (l.filter p).foldl f b := by
  rw [List.filter_append, List.foldl_append]
  by_cases hp : p e = true
  · simp [List.filter_cons, hp, h]
  · simp [List.filter_cons, hp]

theorem foldl_two_filters_append_skip {α β : Type} (f : β → α → β) (p q : α → Bool)
    (l : List α) (e : α) (h : ∀ b, f b e = b) (b : β) :
    ((l ++ [e]).filter p ++ (l ++ [e]).filter q).foldl f b =
      (l.filter p ++ l.filter q).foldl f b := by
  rw [List.foldl_append, List.foldl_append, foldl_filter_append_skip f p l e h,
    foldl_filter_append_skip f q l e h]

theorem findUnpaidSplit_all_paid (splits : List Split) (uid : Id)
    (h : ∀ s ∈ splits, s.paid = true) : findUnpaidSplit splits uid = none := by
  unfold findUnpaidSplit
  rw [List.find?_eq_none]
  intro s hs
  simp [h s hs]

theorem foldl_const {α β : Type} (f : β → α → β) (l : List α) (b : β)
    (h : ∀ b, ∀ x ∈ l, f b x = b) : l.foldl f b = b := by
  induction l generalizing b with
  | nil => rfl
  | cons x xs ih =>
    rw [List.foldl_cons, h b x (List.mem_cons_self _ _)]
    exact ih b (fun b y hy => h b y (List.mem_cons_of_mem _ hy))

theorem tallyExpense_all_paid (user : Id) (t : Tally) (e : Expense)
    (h : ∀ s ∈ e.splits, s.paid = true) : tallyExpense user t e = t := by
  unfold tallyExpense
  dsimp only
  split_ifs
  · apply foldl_const
    intro b s hs
    simp [h s hs]
  · cases hf : e.splits.find? (fun s => s.userId == user) with
    | none => rfl
    | some ms =>
      have := h ms (List.mem_of_find?_eq_some hf)
      simp [this]

theorem groupExpenseStep_all_paid (me : Id) (b : Tally) (e : Expense)
    (h : ∀ s ∈ e.splits, s.paid = true) : groupExpenseStep me b e = b := by
  unfold groupExpenseStep
  rw [findUnpaidSplit_all_paid e.splits me h]
  split_ifs
  · apply foldl_const
    intro b s hs
    simp [h s hs]
  · rfl
  · rfl

theorem groupScalarExpenseStep_all_paid (user : Id) (b : ℚ) (e : Expense)
    (h : ∀ s ∈ e.splits, s.paid = true) : groupScalarExpenseStep user b e = b := by
  unfold groupScalarExpenseStep
  split_ifs
  · apply foldl_const
    intro b s hs
    simp [h s hs]
  · cases hf : e.splits.find? (fun s => s.userId == user) with
    | none => rfl
    | some us =>
      have := h us (List.mem_of_find?_eq_some hf)
      simp [this]

theorem userModeExpenseStep_all_paid (me other : Id) (b : ℚ) (e : Expense)
    (h : ∀ s ∈ e.splits, s.paid = true) : userModeExpenseStep me other b e = b := by
  unfold userModeExpenseStep
  simp [findUnpaidSplit_all_paid e.splits _ h]

theorem pairShare_all_paid (me userId : Id) (e : Expense)
    (h : ∀ s ∈ e.splits, s.paid = true) : pairShare me userId e = 0 := by
  unfold pairShare owedBy
  simp [findUnpaidSplit_all_paid e.splits _ h]

theorem balanceByUser_add_paid (st : Store) (e : Expense) (n : Id) (user : Id)
    (h : ∀ s ∈ e.splits, s.paid = true) :
    balanceByUser { st with expenses := st.expenses ++ [e], nextId := n } user =
      balanceByUser st user := by
  unfold balanceByUser
  dsimp only
  rw [foldl_filter_append_skip (tallyExpense user) _ _ e
    (fun b => tallyExpense_all_paid user b e h)]

theorem groupBalances_add_paid (st : Store) (e : Expense) (n : Id) (me : Id) (g : Group)
    (h : ∀ s ∈ e.splits, s.paid = true) :
    groupBalances { st with expenses := st.expenses ++ [e], nextId := n } me g =
      groupBalances st me g := by
  unfold groupBalances Store.expensesOfGroup Store.settlementsOfGroup
  dsimp only
  rw [foldl_filter_append_skip (groupExpenseStep me) _ _ e
    (fun b => groupExpenseStep_all_paid me b e h)]

theorem userModeNet_add_paid (st : Store) (e : Expense) (n : Id) (me other : Id)
    (h : ∀ s ∈ e.splits, s.paid = true) :
    userModeNet { st with expenses := st.expenses ++ [e], nextId := n } me other =
      userModeNet st me other := by
  unfold userModeNet Store.expensesPaidBy Store.settlementsPaidBy
  dsimp only
  rw [foldl_two_filters_append_skip (userModeExpenseStep me other) _ _ _ e
    (fun b => userModeExpenseStep_all_paid me other b e h)]

theorem groupScalarBalance_add_paid (st : Store) (e : Expense) (n : Id) (user : Id)
    (g : Group) (h : ∀ s ∈ e.splits, s.paid = true) :
    groupScalarBalance { st with expenses := st.expenses ++ [e], nextId := n } user g =
      groupScalarBalance st user g := by
  unfold groupScalarBalance Store.expensesOfGroup
  dsimp only
  rw [foldl_filter_append_skip (groupScalarExpenseStep user) _ _ e
    (fun b => groupScalarExpenseStep_all_paid user b e h)]

theorem settlementNet_add_paid (st : Store) (e : Expense) (n : Id) (payer receiver : Id)
    (h : ∀ s ∈ e.splits, s.paid = true) :
    settlementNet { st with expenses := st.expenses ++ [e], nextId := n } payer receiver =
      settlementNet st payer receiver := by
  unfold settlementNet netFromExpenses Store.expensesPaidBy priorSettlements
    Store.settlementsPaidBy
  dsimp only
  rw [foldl_two_filters_append_skip _ _ _ _ e]
  intro b
  simp [findUnpaidSplit_all_paid e.splits _ h]

/-- C26: adding to a store an expense all of whose splits are marked paid changes nothing
in the results of `getUserBalances`, `getSettlementData` (both modes) and `getUserGroups`,
leaves the balance of `getExpensesBetweenUsers` as it was, and leaves the net that
`createSettlement` replays as it was. -/
theorem paid_expense_changes_no_balance (st : Store) (e : Expense) (n : Id)
    (h : ∀ s ∈ e.splits, s.paid = true) :
    (∀ user, getUserBalances { st with expenses := st.expenses ++ [e], nextId := n } user =
      getUserBalances st user) ∧
    (∀ me userId,
      (getExpensesBetweenUsers { st with expenses := st.expenses ++ [e], nextId := n }
        me userId).map (fun v => v.balance) =
      (getExpensesBetweenUsers st me userId).map (fun v => v.balance)) ∧
    (∀ me entityType entityId,
      getSettlementData { st with expenses := st.expenses ++ [e], nextId := n }
        me entityType entityId =
      getSettlementData st me entityType entityId) ∧
    (∀ user, getUserGroups { st with expenses := st.expenses ++ [e], nextId := n } user =
      getUserGroups st user) ∧
    (∀ payer receiver,
      settlementNet { st with expenses := st.expenses ++ [e], nextId := n } payer receiver =
        settlementNet st payer receiver) := by
  refine ⟨fun user => ?_, fun me userId => ?_, fun me entityType entityId => ?_,
    fun user => ?_, fun payer receiver => settlementNet_add_paid st e n payer receiver h⟩
  · unfold getUserBalances
    rw [balanceByUser_add_paid st e n user h]
    rfl
  · by_cases hne : me = userId
    · unfold getExpensesBetweenUsers
      rw [if_pos hne, if_pos hne]
    · cases hg : st.getUser userId with
      | none =>
        unfold getExpensesBetweenUsers
        rw [if_neg hne, if_neg hne]
        have : Store.getUser { st with expenses := st.expenses ++ [e], nextId := n } userId =
            none := hg
        simp only [this, hg]
      | some other =>
        have hg2 : Store.getUser { st with expenses := st.expenses ++ [e], nextId := n }
            userId = some other := hg
        rw [getExpensesBetweenUsers_ok st me userId hne other hg,
          getExpensesBetweenUsers_ok _ me userId hne other hg2]
        show Except.ok (pairBalance _ me userId) = Except.ok (pairBalance st me userId)
        rw [pairBalance_eq_sums _ me userId hne, pairBalance_eq_sums st me userId hne]
        simp [pairShare_all_paid me userId e h]
  · unfold getSettlementData
    split_ifs
    · cases hg : st.getUser entityId with
      | none =>
        have : Store.getUser { st with expenses := st.expenses ++ [e], nextId := n } entityId =
            none := hg
        simp only [this]
      | some other =>
        have : Store.getUser { st with expenses := st.expenses ++ [e], nextId := n } entityId =
            some other := hg
        simp only [this, userModeNet_add_paid st e n me _ h]
    · cases hg : st.getGroup entityId with
      | none =>
        have : Store.getGroup { st with expenses := st.expenses ++ [e], nextId := n } entityId =
            none := hg
        simp only [this]
      | some group =>
        have : Store.getGroup { st with expenses := st.expenses ++ [e], nextId := n } entityId =
            some group := hg
        simp only [this, groupBalances_add_paid st e n me _ h]
        rfl
    · rfl
  · unfold getUserGroups
    dsimp only
    apply List.map_congr_left
    intro g _
    rw [groupScalarBalance_add_paid st e n user g h]

theorem paid_expense_changes_no_balance_witness :
    getUserBalances { dinnerStore with expenses := dinnerStore.expenses ++ [paidLunch],
                                       nextId := 12 } 1 =
      getUserBalances dinnerStore 1 :=
  (paid_expense_changes_no_balance dinnerStore paidLunch 12 (by decide)).1 1

/-! ## What the reads depend on -/

theorem getUserBalances_congr (st1 st2 : Store) (user : Id) (hu : st1.users = st2.users)
    (he : st1.expenses.filter (involvesUngrouped user) =
      st2.expenses.filter (involvesUngrouped user))
    (hs : st1.settlements.filter (settlesUngrouped user) =
      st2.settlements.filter (settlesUngrouped user)) :
    getUserBalances st1 user = getUserBalances st2 user := by
  have hb : balanceByUser st1 user = balanceByUser st2 user := by
    unfold balanceByUser
    dsimp only
    rw [he, hs]
  have hc : classify st1 = classify st2 := by
    funext acc entry
    unfold classify baseEntry Store.getUser
    rw [hu]
  unfold getUserBalances
  rw [hb, hc]

/-- C30: putting an expense or a settlement that has a groupId into the store, at any
position, or taking it out, leaves the whole result of `getUserBalances(U)` as it was. -/
theorem grouped_records_leave_dashboard (st : Store) (user : Id) (e : Expense)
    (s : Settlement) (l1 l2 : List Expense) (m1 m2 : List Settlement) (n : Id)
    (he : e.groupId.isSome = true) (hs : s.groupId.isSome = true)
    (hl : st.expenses = l1 ++ l2) (hm : st.settlements = m1 ++ m2) :
    getUserBalances { st with expenses := l1 ++ e :: l2, nextId := n } user =
      getUserBalances st user ∧
    getUserBalances { st with settlements := m1 ++ s :: m2, nextId := n } user =
      getUserBalances st user := by
  have hfe : involvesUngrouped user e = false := by
    unfold involvesUngrouped
    cases hge : e.groupId with
    | none => simp [hge] at he
    | some g => rfl
  have hfs : settlesUngrouped user s = false := by
    unfold settlesUngrouped
    cases hgs : s.groupId with
    | none => simp [hgs] at hs
    | some g => rfl
  constructor
  · refine getUserBalances_congr
      { st with expenses := l1 ++ e :: l2, nextId := n } st user rfl ?_ rfl
    show (l1 ++ e :: l2).filter _ = st.expenses.filter _
    rw [hl, List.filter_append, List.filter_append, List.filter_cons, hfe]
    rfl
  · refine getUserBalances_congr
      { st with settlements := m1 ++ s :: m2, nextId := n } st user rfl rfl ?_
    show (m1 ++ s :: m2).filter _ = st.settlements.filter _
    rw [hm, List.filter_append, List.filter_append, List.filter_cons, hfs]
    rfl

theorem grouped_records_leave_dashboard_witness :
    getUserBalances { dinnerStore with expenses := [] ++ hotel :: [dinner], nextId := 12 } 1 =
      getUserBalances dinnerStore 1 ∧
    getUserBalances
      { dinnerStore with
        settlements := [] ++ { onlyDinner with groupId := some 100 } :: [], nextId := 12 } 1 =
      getUserBalances dinnerStore 1 :=
  grouped_records_leave_dashboard dinnerStore 1 hotel { onlyDinner with groupId := some 100 }
    [] [dinner] [] [] 12 rfl rfl rfl rfl

theorem expenseGroupCheck_eq_first (st : Store) (user : Id) (args : ExpenseArgs) :
    expenseGroupCheck st user args =
      if draftGroupExists st args = false then some "Group not found"
      else if inDraftGroup st args user = false then some "You are not a member of this group"
      else if inDraftGroup st args args.paidByUserId = false then
        some "Payer must be a member of the group"
      else if args.splits.all (fun s => inDraftGroup st args s.userId) = false then
        some "All split participants must be group members"
      else none := by
  unfold expenseGroupCheck draftGroupExists inDraftGroup
  cases hg : args.groupId with
  | none => simp
  | some gid =>
    cases hgr : st.getGroup gid with
    | none => simp [hgr]
    | some group => simp [hgr]

/-- C31: when a draft fails several checks of `createExpense`, the error raised is the
message of the first failing check in the order amount, split type, split amounts, group
existence, membership of the caller, of the payer, of the split participants, caller
involved, split sum; a draft that fails none is admitted. -/
theorem createExpense_first_failing_check (st : Store) (user : Id) (args : ExpenseArgs) :
    (createExpense st user args).result =
      match firstFailure st user args with
      | some msg => .error msg
      | none => .ok st.nextId := by
  unfold createExpense firstFailure checksInOrder
  rw [expenseGroupCheck_eq_first, totalSplitAmount_eq_sum]
  by_cases h1 : args.amount ≤ 0
  · have : ¬ 0 < args.amount := not_lt.mpr h1
    simp [h1, this, List.find?]
  have h1p : 0 < args.amount := not_le.mp h1
  by_cases h2 : args.splitType = "equal" ∨ args.splitType = "percentage" ∨
      args.splitType = "exact"
  swap
  · simp [h1, h1p, h2, List.find?]
  by_cases h3 : args.splits.any (fun s => decide (s.amount ≤ 0)) = true
  · have h3b : args.splits.all (fun s => decide (0 < s.amount)) = false := by
      rw [List.any_eq_true] at h3
      obtain ⟨s, hs, h⟩ := h3
      rw [List.all_eq_false]
      exact ⟨s, hs, by simpa using h⟩
    simp [h1, h1p, h2, h3, h3b, List.find?]
  have h3b : args.splits.all (fun s => decide (0 < s.amount)) = true := by
    rw [List.all_eq_true]
    intro s hs
    by_contra hc
    apply h3
    rw [List.any_eq_true]
    exact ⟨s, hs, by simpa using hc⟩
  have h2b : ¬ ((!(["equal", "percentage", "exact"].contains args.splitType)) = true) := by
    rcases h2 with h | h | h <;> rw [h] <;> decide
  rw [if_neg h1, if_neg h2b, if_neg h3]
  simp only [h1p, h2, h3b, decide_True, List.find?, Bool.not_true]
  cases h4 : draftGroupExists st args
  · simp
  cases h5 : inDraftGroup st args user
  · simp
  cases h6 : inDraftGroup st args args.paidByUserId
  · simp
  cases h7 : args.splits.all (fun s => inDraftGroup st args s.userId)
  · simp
  cases h8 : (args.paidByUserId == user || args.splits.any (fun s => s.userId == user))
  · have h8b : (!(args.paidByUserId == user) && !(args.splits.any (fun s => s.userId == user)))
        = true := by
      rw [← Bool.not_or, h8]; rfl
    simp [h8b]
  have h8b : ¬ ((!(args.paidByUserId == user) && !(args.splits.any (fun s => s.userId == user)))
        = true) := by
    rw [← Bool.not_or, h8]; simp
  by_cases h9 : |(args.splits.map (fun s => s.amount)).sum - args.amount| > tolerance
  · have h9b : ¬ |(args.splits.map (fun s => s.amount)).sum - args.amount| ≤ 1 / 100 := by
      unfold tolerance at h9; exact not_le.mpr h9
    simp only [if_true, if_false, if_neg h8b, if_pos h9, h9b, decide_False, Bool.not_false,
      Bool.not_true, Option.map_some', reduceCtorEq]
  · have h9b : |(args.splits.map (fun s => s.amount)).sum - args.amount| ≤ 1 / 100 := by
      unfold tolerance at h9; exact not_lt.mp h9
    simp only [if_true, if_false, if_neg h8b, if_neg h9, h9b, decide_True, Bool.not_false,
      Bool.not_true, Option.map_none', reduceCtorEq]
    rfl

/-- A draft that fails eight of the nine checks at once: the first one decides. -/
theorem hopeless_draft_first_failure :
    (checksInOrder emptyStore 1 hopelessArgs).map (fun c => c.1) =
      [false, false, false, false, false, false, false, false, true] ∧
    firstFailure emptyStore 1 hopelessArgs = some "Amount must be greater than zero" ∧
    (createExpense emptyStore 1 hopelessArgs).result =
      .error "Amount must be greater than zero" := by
  decide!

theorem figures_sortByAmount (l : List OweEntry) :
    (sortByAmount l).map OweEntry.figures =
      (l.map OweEntry.figures).insertionSort (fun a b => b.2 ≤ a.2) := by
  unfold sortByAmount
  exact List.map_insertionSort _ _ OweEntry.figures l (fun a _ b _ => Iff.rfl)

theorem figures_baseEntry (st : Store) (t : Tally) :
    (t.map (baseEntry st)).map OweEntry.figures = t.map (fun kv => (kv.1, |kv.2|)) := by
  rw [List.map_map]
  rfl

theorem figures_memberRecord (st : Store) (t : Tally) :
    (t.map (memberRecord st)).map MemberBalance.figures =
      t.map (fun kv => (kv.1, max 0 kv.2, max 0 (-kv.2), kv.2)) := by
  rw [List.map_map]
  rfl

theorem balanceByUser_withUsers (st : Store) (users : List User) (user : Id) :
    balanceByUser (st.withUsers users) user = balanceByUser st user := rfl

theorem groupBalances_withUsers (st : Store) (users : List User) (me : Id) (group : Group) :
    groupBalances (st.withUsers users) me group = groupBalances st me group := rfl

theorem filter_sublist_filterMap {α : Type} (p : α → Bool) (f : α → Option α)
    (h : ∀ x, p x = true → f x = some x) (l : List α) :
    (l.filter p).Sublist (l.filterMap f) := by
  induction l with
  | nil => simp
  | cons x rest ih =>
    by_cases hp : p x = true
    · rw [List.filter_cons_of_pos hp, List.filterMap_cons_some (h x hp)]
      exact ih.cons₂ x
    · rw [List.filter_cons_of_neg hp]
      cases hf : f x with
      | none => rw [List.filterMap_cons_none hf]; exact ih
      | some b => rw [List.filterMap_cons_some hf]; exact ih.cons b

/-- C33: a successful `deleteExpense` of the expense `e`, in a store whose settlement ids
are distinct, changes nothing but what the cascade requires: the users and the groups are
as before, the expenses are the former ones without `e`, in the former order, every
settlement that does not refer to `e` is kept as it was and in the former order, and every
other settlement that remains is a former settlement that referred to `e` with only its
`relatedExpenseIds` changed, to the former ids without `e` in their former order. -/
theorem deleteExpense_frame (st : Store) (user e : Id)
    (hok : (deleteExpense st user e).result = .ok true)
    (hnd : (st.settlements.map (fun s => s._id)).Nodup) :
    (deleteExpense st user e).store.users = st.users ∧
    (deleteExpense st user e).store.groups = st.groups ∧
    (deleteExpense st user e).store.expenses = st.expenses.filter (fun x => x._id != e) ∧
    (∀ x ∈ st.expenses, x._id ≠ e → x ∈ (deleteExpense st user e).store.expenses) ∧
    (∀ s ∈ st.settlements,
      (s.relatedExpenseIds = none ∨ ∃ ids, s.relatedExpenseIds = some ids ∧ e ∉ ids) →
      s ∈ (deleteExpense st user e).store.settlements) ∧
    (st.settlements.filter (fun s => !refersTo e s)).Sublist
      (deleteExpense st user e).store.settlements ∧
    (∀ s' ∈ (deleteExpense st user e).store.settlements,
      (s' ∈ st.settlements ∧ refersTo e s' = false) ∨
      ∃ s ∈ st.settlements, ∃ ids, s.relatedExpenseIds = some ids ∧ e ∈ ids ∧
        s' = { s with relatedExpenseIds := some (ids.filter (fun i => i != e)) } ∧
        (ids.filter (fun i => i != e)).Sublist ids) := by
  obtain ⟨h1, h2, h3, h4⟩ := deleteExpense_store st user e hok hnd
  refine ⟨h3, h4, h2, ?_, ?_, ?_, ?_⟩
  · intro x hx hne
    rw [h2, List.mem_filter]
    exact ⟨hx, by simpa using hne⟩
  · intro s hs hfree
    have hr : refersTo e s = false := by
      unfold refersTo
      rcases hfree with h | ⟨ids, h, hni⟩
      · rw [h]
      · rw [h]
        simpa using hni
    rw [h1, List.mem_filterMap]
    exact ⟨s, hs, by rw [hr]; rfl⟩
  · rw [h1]
    apply filter_sublist_filterMap
    intro s hs
    have hr : refersTo e s = false := by simpa using hs
    rw [hr]
    rfl
  · intro s' hs'
    rw [h1, List.mem_filterMap] at hs'
    obtain ⟨s, hs, hmap⟩ := hs'
    cases hr : refersTo e s with
    | false =>
      rw [hr] at hmap
      have : s = s' := by simpa using hmap
      subst this
      exact Or.inl ⟨hs, hr⟩
    | true =>
      rw [hr] at hmap
      right
      unfold refersTo at hr
      cases hrel : s.relatedExpenseIds with
      | none => rw [hrel] at hr; simp at hr
      | some ids =>
        rw [hrel] at hr
        have hmem : e ∈ ids := by simpa using hr
        refine ⟨s, hs, ids, hrel, hmem, ?_, List.filter_sublist _⟩
        unfold cascadeDoc updatedRelatedExpenseIds at hmap
        rw [hrel] at hmap
        simp only [Option.getD_some] at hmap
        by_cases hl : (ids.filter (fun id => id != e)).length = 0
        · simp [hl] at hmap
        · simp only [hl, if_true, if_false] at hmap
          exact (Option.some.inj hmap).symm

theorem deleteExpense_frame_witness :
    (deleteExpense cascadeStore 2 10).result = .ok true ∧
    (deleteExpense cascadeStore 2 10).store.expenses = [] ∧
    (deleteExpense cascadeStore 2 10).store.settlements =
      [{ twoMeals with relatedExpenseIds := some [11] }, looseChange] ∧
    looseChange ∈ (deleteExpense cascadeStore 2 10).store.settlements :=
  ⟨by decide!, by decide!, by decide!,
    (deleteExpense_frame cascadeStore 2 10 (by decide!) (by decide!)).2.2.2.2.1 looseChange
      (by decide!) (Or.inl rfl)⟩

/-! ## The two dashboards of a pair of users -/

theorem mem_youAreOwedBy_iff (st : Store) (user c : Id) (x : ℚ) :
    (∃ b ∈ (getUserBalances st user).youAreOwedByList, b.userId = c ∧ b.amount = x) ↔
      1 / 100 ≤ (balanceByUser st user).net c ∧ x = (balanceByUser st user).net c := by
  obtain ⟨h1, -⟩ := getUserBalances_lists st user
  have hnd := balanceByUser_nodup st user
  rw [h1]
  constructor
  · rintro ⟨b, hb, rfl, rfl⟩
    obtain ⟨kv, hkv, hp, rfl⟩ := (mem_sorted_entries st _ _ b).mp hb
    obtain ⟨k, v⟩ := kv
    have hv := (isOwedEntry_iff (k, v)).mp hp
    have hpos : 0 < v := lt_of_lt_of_le (by norm_num) hv
    show 1 / 100 ≤ (balanceByUser st user).net k ∧ |v| = (balanceByUser st user).net k
    rw [Tally.net_of_mem _ hnd k v hkv, abs_of_pos hpos]
    exact ⟨hv, rfl⟩
  · rintro ⟨hge, rfl⟩
    have hpos : 0 < (balanceByUser st user).net c := lt_of_lt_of_le (by norm_num) hge
    have hmem := Tally.mem_of_net_ne_zero _ c (ne_of_gt hpos)
    refine ⟨baseEntry st (c, (balanceByUser st user).net c), ?_, rfl, ?_⟩
    · exact (mem_sorted_entries st _ _ _).mpr ⟨_, hmem, (isOwedEntry_iff _).mpr hge, rfl⟩
    · show |(balanceByUser st user).net c| = (balanceByUser st user).net c
      exact abs_of_pos hpos

theorem mem_youOwe_iff (st : Store) (user c : Id) (x : ℚ) :
    (∃ b ∈ (getUserBalances st user).youOweList, b.userId = c ∧ b.amount = x) ↔
      (balanceByUser st user).net c ≤ - (1 / 100) ∧ x = - (balanceByUser st user).net c := by
  obtain ⟨-, h2⟩ := getUserBalances_lists st user
  have hnd := balanceByUser_nodup st user
  rw [h2]
  constructor
  · rintro ⟨b, hb, rfl, rfl⟩
    obtain ⟨kv, hkv, hp, rfl⟩ := (mem_sorted_entries st _ _ b).mp hb
    obtain ⟨k, v⟩ := kv
    have hv := (isOweEntry_iff (k, v)).mp hp
    have hneg : v < 0 := lt_of_le_of_lt hv (by norm_num)
    show (balanceByUser st user).net k ≤ - (1 / 100) ∧ |v| = - (balanceByUser st user).net k
    rw [Tally.net_of_mem _ hnd k v hkv, abs_of_neg hneg]
    exact ⟨hv, rfl⟩
  · rintro ⟨hle, rfl⟩
    have hneg : (balanceByUser st user).net c < 0 := lt_of_le_of_lt hle (by norm_num)
    have hmem := Tally.mem_of_net_ne_zero _ c (ne_of_lt hneg)
    refine ⟨baseEntry st (c, (balanceByUser st user).net c), ?_, rfl, ?_⟩
    · exact (mem_sorted_entries st _ _ _).mpr ⟨_, hmem, (isOweEntry_iff _).mpr hle, rfl⟩
    · show |(balanceByUser st user).net c| = - (balanceByUser st user).net c
      exact abs_of_neg hneg

/-- C34: in a store where no expense lists the same participant in more than one split,
for distinct users `u` and `c`, `c` is in the `youAreOwedBy` list of `getUserBalances` for
`u` with the amount `x` if and only if `u` is in the `youOwe` list of `getUserBalances`
for `c` with the amount `x`. -/
theorem dashboards_mirror (st : Store) (u c : Id) (x : ℚ) (h : u ≠ c)
    (hnd : ∀ e ∈ st.expenses, (e.splits.map (fun s => s.userId)).Nodup) :
    (∃ b ∈ (getUserBalances st u).youAreOwedByList, b.userId = c ∧ b.amount = x) ↔
      (∃ b ∈ (getUserBalances st c).youOweList, b.userId = u ∧ b.amount = x) := by
  rw [mem_youAreOwedBy_iff, mem_youOwe_iff,
    balanceByUser_net_eq_pairBalance st u c h (fun e he _ => hnd e he),
    balanceByUser_net_eq_pairBalance st c u (Ne.symm h) (fun e he _ => hnd e he),
    pairBalance_swap st c u (Ne.symm h), neg_neg, neg_le_neg_iff]

theorem dashboards_mirror_witness :
    (∀ e ∈ dinnerStore.expenses, (e.splits.map (fun s => s.userId)).Nodup) ∧
    (getUserBalances dinnerStore 2).youAreOwedByList = [⟨1, "U", none, 10⟩] ∧
    (getUserBalances dinnerStore 1).youOweList = [⟨2, "A", none, 10⟩] ∧
    ((∃ b ∈ (getUserBalances dinnerStore 2).youAreOwedByList, b.userId = 1 ∧ b.amount = 10) ↔
      (∃ b ∈ (getUserBalances dinnerStore 1).youOweList, b.userId = 2 ∧ b.amount = 10)) :=
  ⟨by decide!, by decide!, by decide!,
    dashboards_mirror dinnerStore 2 1 10 (by decide) (by decide!)⟩

/-! ## The direction of an ungrouped settlement -/

theorem settlementNet_swap (st : Store) (p r : Id) (h : p ≠ r) :
    settlementNet st r p = - settlementNet st p r := by
  rw [settlementNet_eq_sums st r p (Ne.symm h), settlementNet_eq_sums st p r h,
    sum_map_neg (pairShare r p) (pairShare p r) st.expenses (pairShare_swap r p (Ne.symm h)),
    sum_map_neg (pairPaid r p) (pairPaid p r) st.settlements (pairPaid_swap r p (Ne.symm h))]
  ring

/-! ## `getTotalSpent` and `getMonthlySpending` -/

theorem MonthlyTotals.month_sum_set (t : MonthlyTotals) (k : Int) (v : ℚ) :
    ((t.set k v).map Prod.snd).sum = (t.map Prod.snd).sum - orZero (t.get k) + v := by
  induction t with
  | nil => simp [MonthlyTotals.set, MonthlyTotals.get, orZero]
  | cons kv rest ih =>
    obtain ⟨k', w⟩ := kv
    by_cases hk : k' = k
    · subst hk
      have hget : MonthlyTotals.get ((k', w) :: rest) k' = some w := by
        simp [MonthlyTotals.get]
      rw [hget, orZero_some]
      simp only [MonthlyTotals.set, if_true, List.map_cons, List.sum_cons]
      ring
    · have hget : MonthlyTotals.get ((k', w) :: rest) k = MonthlyTotals.get rest k := by
        have hb : (k' == k) = false := by simpa using hk
        simp only [MonthlyTotals.get, List.find?, hb]
      rw [hget]
      simp only [MonthlyTotals.set, hk, if_false, List.map_cons, List.sum_cons, ih]
      ring

theorem MonthlyTotals.month_mem_set (t : MonthlyTotals) (k : Int) (v : ℚ) (kv : Int × ℚ)
    (h : kv ∈ t.set k v) : kv ∈ t ∨ kv = (k, v) := by
  induction t with
  | nil =>
    right
    simpa [MonthlyTotals.set] using h
  | cons x rest ih =>
    obtain ⟨k', w⟩ := x
    by_cases hk : k' = k
    · simp only [MonthlyTotals.set, hk, if_true, List.mem_cons] at h
      rcases h with h | h
      · exact Or.inr h
      · exact Or.inl (List.mem_cons_of_mem _ h)
    · simp only [MonthlyTotals.set, hk, if_false, List.mem_cons] at h
      rcases h with h | h
      · exact Or.inl (h ▸ List.mem_cons_self _ _)
      · rcases ih h with h' | h'
        · exact Or.inl (List.mem_cons_of_mem _ h')
        · exact Or.inr h'

theorem initMonthlyTotals_sum (currentYear : Int) :
    ((initMonthlyTotals currentYear).map Prod.snd).sum = 0 := by
  apply sum_map_eq_zero
  unfold initMonthlyTotals
  apply foldl_invariant (fun t : MonthlyTotals => ∀ kv ∈ t, kv.2 = 0)
  · intro t i ht kv hkv
    rcases MonthlyTotals.month_mem_set t _ 0 kv hkv with h | h
    · exact ht kv h
    · rw [h]
  · intro kv hkv
    simp at hkv

theorem monthlyStep_sum (user : Id) (t : MonthlyTotals) (e : Expense) :
    ((monthlyStep user t e).map Prod.snd).sum =
      totalSpentStep user ((t.map Prod.snd).sum) e := by
  unfold monthlyStep totalSpentStep
  cases e.splits.find? (fun split => split.userId == user) with
  | none => rfl
  | some userSplit =>
    dsimp only
    rw [MonthlyTotals.month_sum_set]
    ring

theorem monthlyTotals_sum (st : Store) (user : Id) (now : Int) :
    ((monthlyTotals st user now).map Prod.snd).sum = getTotalSpent st user now := by
  unfold monthlyTotals getTotalSpent
  dsimp only
  generalize (st.expensesFrom (monthStartTime (getFullYear now) 0)).filter (involvesUser user)
    = l
  have key : ∀ (t : MonthlyTotals) (b : ℚ), (t.map Prod.snd).sum = b →
      ((l.foldl (monthlyStep user) t).map Prod.snd).sum = l.foldl (totalSpentStep user) b := by
    induction l with
    | nil => intro t b h; exact h
    | cons e rest ih =>
      intro t b h
      rw [List.foldl_cons, List.foldl_cons]
      apply ih
      rw [monthlyStep_sum, h]
  exact key _ _ (initMonthlyTotals_sum _)

theorem objectEntries_perm (t : MonthlyTotals) : (objectEntries t).Perm t := by
  unfold objectEntries
  exact ((List.perm_insertionSort _ _).append_right _).trans (List.filter_append_perm _ t)

theorem getMonthlySpending_perm (st : Store) (user : Id) (now : Int) :
    (getMonthlySpending st user now).Perm
      ((monthlyTotals st user now).map (fun kv => (⟨kv.1, kv.2⟩ : MonthTotal))) := by
  unfold getMonthlySpending
  exact (List.perm_insertionSort _ _).trans ((objectEntries_perm _).map _)

/-- The sum of the `total` fields of `getMonthlySpending` is the value of `getTotalSpent`,
in every store, for every user and at every time. -/
theorem getMonthlySpending_sum (st : Store) (user : Id) (now : Int) :
    ((getMonthlySpending st user now).map (fun r => r.total)).sum =
      getTotalSpent st user now := by
  rw [((getMonthlySpending_perm st user now).map _).sum_eq, List.map_map,
    ← monthlyTotals_sum]
  rfl

/-- The list of `getMonthlySpending` is sorted by ascending month, in every store. -/
theorem getMonthlySpending_sorted (st : Store) (user : Id) (now : Int) :
    (getMonthlySpending st user now).Sorted (fun a b => a.month ≤ b.month) := by
  haveI : IsTotal MonthTotal (fun a b => a.month ≤ b.month) := ⟨fun a b => le_total _ _⟩
  haveI : IsTrans MonthTotal (fun a b => a.month ≤ b.month) :=
    ⟨fun a b c hab hbc => le_trans hab hbc⟩
  unfold getMonthlySpending
  exact List.sorted_insertionSort _ _

/-! ## The months of one year -/

/-- The calendar on known dates: 1 January and 1 December 2026, 1 January 2027,
5 November 2026, the last second of 2026, 29 February and 1 March 2024, 29 February 2000,
1 March 1900, the last millisecond of 1969, and the two-digit year 70. -/
theorem calendar_examples :
    monthStartTime 2026 0 = 1767225600000 ∧ monthStartTime 2026 11 = 1796083200000 ∧
    monthStartTime 2027 0 = 1798761600000 ∧ monthStartTime 2026 12 = 1798761600000 ∧
    getFullYear 1793836800000 = 2026 ∧ getMonth 1793836800000 = 10 ∧
    getFullYear 1798761599000 = 2026 ∧ getMonth 1798761599000 = 11 ∧
    getFullYear 1798761600000 = 2027 ∧ getMonth 1798761600000 = 0 ∧
    getFullYear 1709164800000 = 2024 ∧ getMonth 1709164800000 = 1 ∧
    getMonth 1709251200000 = 2 ∧ getMonth 951782400000 = 1 ∧
    getFullYear (-2203891200000) = 1900 ∧ getMonth (-2203891200000) = 2 ∧
    getFullYear (-1) = 1969 ∧ getMonth (-1) = 11 ∧ getFullYear 0 = 1970 ∧
    monthStartTime 70 0 = 0 ∧ toTimeValue (-1 / 2) = 0 ∧ toTimeValue (3 / 2) = 1 := by
  decide!

theorem dayFromYear_mono (a b : Int) (h : a ≤ b) : dayFromYear a ≤ dayFromYear b := by
  unfold dayFromYear
  omega

theorem yearFromDay_spec (d : Int) :
    dayFromYear (yearFromDay d) ≤ d ∧ d < dayFromYear (yearFromDay d + 1) := by
  unfold yearFromDay
  dsimp only
  split_ifs with h1 h2
  · refine ⟨h1, ?_⟩
    unfold dayFromYear at *
    omega
  · exact ⟨h2, not_le.mp h1⟩
  · refine ⟨?_, ?_⟩
    · unfold dayFromYear at *
      omega
    · rw [sub_add_cancel]
      exact not_le.mp h2

theorem yearFromDay_unique (d y : Int) (h1 : dayFromYear y ≤ d)
    (h2 : d < dayFromYear (y + 1)) : yearFromDay d = y := by
  obtain ⟨s1, s2⟩ := yearFromDay_spec d
  rcases lt_trichotomy (yearFromDay d) y with h | h | h
  · have := dayFromYear_mono (yearFromDay d + 1) y (by omega)
    omega
  · exact h
  · have := dayFromYear_mono (y + 1) (yearFromDay d) (by omega)
    omega

theorem getFullYear_of_bounds (t y : Int) (h1 : msPerDay * dayFromYear y ≤ t)
    (h2 : t < msPerDay * dayFromYear (y + 1)) : getFullYear t = y := by
  unfold getFullYear
  apply yearFromDay_unique
  · unfold day msPerDay at *
    omega
  · unfold day msPerDay at *
    omega

theorem getMonth_lt (t : Int) : getMonth t < 12 := by
  unfold getMonth
  dsimp only
  generalize day t - dayFromYear (getFullYear t) = d
  generalize inLeapYear (getFullYear t) = leap
  generalize daysBeforeMonth leap 1 = a1
  generalize daysBeforeMonth leap 2 = a2
  generalize daysBeforeMonth leap 3 = a3
  generalize daysBeforeMonth leap 4 = a4
  generalize daysBeforeMonth leap 5 = a5
  generalize daysBeforeMonth leap 6 = a6
  generalize daysBeforeMonth leap 7 = a7
  generalize daysBeforeMonth leap 8 = a8
  generalize daysBeforeMonth leap 9 = a9
  generalize daysBeforeMonth leap 10 = a10
  generalize daysBeforeMonth leap 11 = a11
  by_cases c1 : d < a1
  · rw [if_pos c1]; decide
  rw [if_neg c1]
  by_cases c2 : d < a2
  · rw [if_pos c2]; decide
  rw [if_neg c2]
  by_cases c3 : d < a3
  · rw [if_pos c3]; decide
  rw [if_neg c3]
  by_cases c4 : d < a4
  · rw [if_pos c4]; decide
  rw [if_neg c4]
  by_cases c5 : d < a5
  · rw [if_pos c5]; decide
  rw [if_neg c5]
  by_cases c6 : d < a6
  · rw [if_pos c6]; decide
  rw [if_neg c6]
  by_cases c7 : d < a7
  · rw [if_pos c7]; decide
  rw [if_neg c7]
  by_cases c8 : d < a8
  · rw [if_pos c8]; decide
  rw [if_neg c8]
  by_cases c9 : d < a9
  · rw [if_pos c9]; decide
  rw [if_neg c9]
  by_cases c10 : d < a10
  · rw [if_pos c10]; decide
  rw [if_neg c10]
  by_cases c11 : d < a11
  · rw [if_pos c11]; decide
  rw [if_neg c11]
  decide

theorem fullYear_fullYear (y : Int) : fullYear (fullYear y) = fullYear y := by
  unfold fullYear
  split_ifs <;> omega

theorem monthStartTime_of_lt (y : Int) (m : Nat) (h : m < 12) :
    monthStartTime y m =
      msPerDay * (dayFromYear (fullYear y) + daysBeforeMonth (inLeapYear (fullYear y)) m) := by
  unfold monthStartTime
  have h1 : m / 12 = 0 := Nat.div_eq_of_lt h
  have h2 : m % 12 = m := Nat.mod_eq_of_lt h
  simp only [h1, h2, Nat.cast_zero, add_zero]

theorem monthStartTime_twelve (y : Int) :
    monthStartTime y 12 = msPerDay * dayFromYear (fullYear y + 1) := by
  unfold monthStartTime
  simp [daysBeforeMonth]

theorem monthStartTime_in_year (currentYear t : Int)
    (h1 : monthStartTime currentYear 0 ≤ t) (h2 : t < monthStartTime currentYear 12) :
    monthStartTime (getFullYear t) (getMonth t) = monthStartTime currentYear (getMonth t) := by
  rw [monthStartTime_of_lt _ 0 (by norm_num)] at h1
  rw [monthStartTime_twelve] at h2
  have h0 : daysBeforeMonth (inLeapYear (fullYear currentYear)) 0 = 0 := rfl
  rw [h0, add_zero] at h1
  have hy := getFullYear_of_bounds t (fullYear currentYear) h1 h2
  rw [monthStartTime_of_lt _ _ (getMonth_lt t), monthStartTime_of_lt _ _ (getMonth_lt t), hy,
    fullYear_fullYear]

theorem monthStarts_increasing (y : Int) :
    ((List.range 12).map (monthStartTime y)).Pairwise (fun a b => a < b) := by
  have hr : List.range 12 = [0, 1, 2, 3, 4, 5, 6, 7, 8, 9, 10, 11] := by decide
  rw [hr]
  simp only [List.map_cons, List.map_nil]
  rw [monthStartTime_of_lt y 0 (by norm_num), monthStartTime_of_lt y 1 (by norm_num),
    monthStartTime_of_lt y 2 (by norm_num), monthStartTime_of_lt y 3 (by norm_num),
    monthStartTime_of_lt y 4 (by norm_num), monthStartTime_of_lt y 5 (by norm_num),
    monthStartTime_of_lt y 6 (by norm_num), monthStartTime_of_lt y 7 (by norm_num),
    monthStartTime_of_lt y 8 (by norm_num), monthStartTime_of_lt y 9 (by norm_num),
    monthStartTime_of_lt y 10 (by norm_num), monthStartTime_of_lt y 11 (by norm_num)]
  generalize dayFromYear (fullYear y) = d
  cases inLeapYear (fullYear y) <;>
    simp only [daysBeforeMonth, msPerDay, List.pairwise_cons, List.mem_cons,
      List.mem_singleton, List.not_mem_nil, forall_eq_or_imp, forall_eq, List.Pairwise.nil,
      if_true, if_false, Bool.false_eq_true, IsEmpty.forall_iff, implies_true, and_true] <;>
    omega

theorem MonthlyTotals.month_keys_set (t : MonthlyTotals) (k : Int) (v : ℚ) :
    (t.set k v).map Prod.fst =
      if k ∈ t.map Prod.fst then t.map Prod.fst else t.map Prod.fst ++ [k] := by
  induction t with
  | nil => simp [MonthlyTotals.set]
  | cons kv rest ih =>
    obtain ⟨k', w⟩ := kv
    by_cases hk : k' = k
    · simp [MonthlyTotals.set, hk]
    · simp only [MonthlyTotals.set, hk, if_false, List.map_cons, ih, List.mem_cons, Ne.symm hk,
        false_or]
      split_ifs <;> simp

theorem foldl_set_keys (ks : List Int) (hnd : ks.Nodup) (t : MonthlyTotals)
    (ht : ∀ k ∈ ks, k ∉ t.map Prod.fst) :
    (ks.foldl (fun acc k => MonthlyTotals.set acc k 0) t).map Prod.fst =
      t.map Prod.fst ++ ks := by
  induction ks generalizing t with
  | nil => simp
  | cons k rest ih =>
    rw [List.nodup_cons] at hnd
    rw [List.foldl_cons, ih hnd.2, MonthlyTotals.month_keys_set,
      if_neg (ht k (List.mem_cons_self _ _)), List.append_assoc]
    · rfl
    · intro k' hk'
      rw [MonthlyTotals.month_keys_set, if_neg (ht k (List.mem_cons_self _ _)), List.mem_append,
        List.mem_singleton]
      rintro (h | h)
      · exact ht k' (List.mem_cons_of_mem _ hk') h
      · exact hnd.1 (h ▸ hk')

theorem initMonthlyTotals_keys (currentYear : Int) :
    (initMonthlyTotals currentYear).map Prod.fst =
      (List.range 12).map (monthStartTime currentYear) := by
  unfold initMonthlyTotals
  have h := foldl_set_keys ((List.range 12).map (monthStartTime currentYear))
    ((monthStarts_increasing currentYear).imp (fun h => ne_of_lt h)) [] (by simp)
  rw [List.foldl_map] at h
  simpa using h

theorem le_toTimeValue (start : Int) (value : ℚ) (h : (start : ℚ) ≤ value) :
    start ≤ toTimeValue value := by
  unfold toTimeValue
  split_ifs
  · exact Int.le_floor.mpr h
  · exact Int.cast_le.mp (le_trans h (Int.le_ceil value))

theorem monthlyStep_keys (user : Id) (currentYear : Int) (t : MonthlyTotals) (e : Expense)
    (ht : t.map Prod.fst = (List.range 12).map (monthStartTime currentYear))
    (h1 : (monthStartTime currentYear 0 : ℚ) ≤ e.date)
    (h2 : toTimeValue e.date < monthStartTime currentYear 12) :
    (monthlyStep user t e).map Prod.fst = (List.range 12).map (monthStartTime currentYear) := by
  unfold monthlyStep
  cases e.splits.find? (fun split => split.userId == user) with
  | none => exact ht
  | some userSplit =>
    dsimp only
    rw [MonthlyTotals.month_keys_set, if_pos, ht]
    rw [ht, monthStartTime_in_year currentYear _ (le_toTimeValue _ _ h1) h2]
    exact List.mem_map.mpr ⟨_, List.mem_range.mpr (getMonth_lt _), rfl⟩

theorem monthlyTotals_keys (st : Store) (user : Id) (now : Int)
    (h : ∀ e ∈ st.expenses, involvesUser user e = true →
      toTimeValue e.date < monthStartTime (getFullYear now) 12) :
    (monthlyTotals st user now).map Prod.fst =
      (List.range 12).map (monthStartTime (getFullYear now)) := by
  unfold monthlyTotals
  dsimp only
  have hl : ∀ e ∈ (st.expensesFrom (monthStartTime (getFullYear now) 0)).filter
      (involvesUser user),
      ((monthStartTime (getFullYear now) 0 : Int) : ℚ) ≤ e.date ∧
        toTimeValue e.date < monthStartTime (getFullYear now) 12 := by
    intro e he
    rw [List.mem_filter] at he
    obtain ⟨he1, he2⟩ := he
    unfold Store.expensesFrom at he1
    rw [List.mem_filter, (List.perm_insertionSort _ _).mem_iff] at he1
    exact ⟨by simpa using he1.2, h e he1.1 he2⟩
  generalize (st.expensesFrom (monthStartTime (getFullYear now) 0)).filter (involvesUser user)
    = l at hl
  have key : ∀ t : MonthlyTotals,
      t.map Prod.fst = (List.range 12).map (monthStartTime (getFullYear now)) →
      (l.foldl (monthlyStep user) t).map Prod.fst =
        (List.range 12).map (monthStartTime (getFullYear now)) := by
    induction l with
    | nil => intro t ht; exact ht
    | cons e rest ih =>
      intro t ht
      rw [List.foldl_cons]
      apply ih (fun x hx => hl x (List.mem_cons_of_mem _ hx))
      exact monthlyStep_keys user _ t e ht (hl e (List.mem_cons_self _ _)).1
        (hl e (List.mem_cons_self _ _)).2
  exact key _ (initMonthlyTotals_keys _)

/-- When no expense that involves the user is dated after the current year, the months
of `getMonthlySpending` are the starts of the 12 months of the current year, January
first. -/
theorem getMonthlySpending_months (st : Store) (user : Id) (now : Int)
    (h : ∀ e ∈ st.expenses, involvesUser user e = true →
      toTimeValue e.date < monthStartTime (getFullYear now) 12) :
    (getMonthlySpending st user now).map (fun r => r.month) =
      (List.range 12).map (monthStartTime (getFullYear now)) := by
  have hs : ((getMonthlySpending st user now).map (fun r => r.month)).Sorted
      (fun a b => a ≤ b) :=
    List.pairwise_map.mpr (getMonthlySpending_sorted st user now)
  have hp : ((getMonthlySpending st user now).map (fun r => r.month)).Perm
      ((List.range 12).map (monthStartTime (getFullYear now))) := by
    rw [← monthlyTotals_keys st user now h]
    have := (getMonthlySpending_perm st user now).map (fun r => r.month)
    rwa [List.map_map] at this
  exact List.eq_of_perm_of_sorted hp hs
    ((monthStarts_increasing (getFullYear now)).imp (fun h => le_of_lt h))

theorem getMonthlySpending_months_witness :
    (∀ e ∈ marchStore.expenses, involvesUser 1 e = true →
      toTimeValue e.date < monthStartTime (getFullYear november2026) 12) ∧
    (getMonthlySpending marchStore 1 november2026).map (fun r => r.month) =
      (List.range 12).map (monthStartTime (getFullYear november2026)) ∧
    (getMonthlySpending marchStore 1 november2026).map (fun r => r.total) =
      [0, 0, 10, 0, 0, 0, 0, 0, 0, 0, 0, 0] :=
  ⟨by decide!, getMonthlySpending_months marchStore 1 november2026 (by decide!), by decide!⟩

/-- C36: on 5 November 2026, in the store that `createExpense` leaves after user 2 adds
a dinner dated 10 February 2027 to one dated 15 March 2026, `getMonthlySpending` for
user 1 returns 13 entries, the twelve months of 2026 and February 2027, and
`getTotalSpent` returns 20, of which only 10 belong to an expense of 2026: the index
range `date >= startOfYear` has no upper end. -/
theorem spending_counts_later_years :
    (createExpense marchStore 2 nextYearArgs).store = plannedStore ∧
    getFullYear november2026 = 2026 ∧
    plannedStore.expenses.map (fun e => getFullYear (toTimeValue e.date)) = [2026, 2027] ∧
    (getMonthlySpending plannedStore 1 november2026).length = 13 ∧
    (getMonthlySpending plannedStore 1 november2026).map (fun r => r.month) =
      (List.range 12).map (monthStartTime 2026) ++ [monthStartTime 2027 1] ∧
    (getMonthlySpending plannedStore 1 november2026).map (fun r => r.total) =
      [0, 0, 10, 0, 0, 0, 0, 0, 0, 0, 0, 0, 10] ∧
    getTotalSpent plannedStore 1 november2026 = 20 ∧
    getTotalSpent marchStore 1 november2026 = 10 := by
  decide!

/-! ## Double-precision numbers -/

/-- The rounding on known doubles: 0.1, 0.2, 0.3, 0.1 + 0.2, 0.01, and sums around
2^53. -/
theorem double_examples :
    roundDouble (1 / 10) = 3602879701896397 / 36028797018963968 ∧
    roundDouble (2 / 10) = 3602879701896397 / 18014398509481984 ∧
    roundDouble (3 / 10) = 5404319552844595 / 18014398509481984 ∧
    dadd (roundDouble (1 / 10)) (roundDouble (2 / 10)) =
      5404319552844596 / 18014398509481984 ∧
    dadd (roundDouble (1 / 10)) (roundDouble (2 / 10)) ≠ roundDouble (3 / 10) ∧
    roundDouble (1 / 100) = 5764607523034235 / 576460752303423488 ∧
    dadd 10000000000000000 1 = 10000000000000000 ∧
    dadd 9007199254740992 1 = 9007199254740992 ∧
    dadd 9007199254740993 2 = 9007199254740996 ∧
    roundDouble (-1 / 10) = - roundDouble (1 / 10) ∧
    isDouble 9007199254740992 = true ∧ isDouble 9007199254740993 = false ∧
    isDouble (1 / 4) = true ∧ isDouble (1 / 10) = false := by
  decide!

theorem isDouble_neg (q : ℚ) : isDouble (-q) = isDouble q := by
  unfold isDouble
  rw [Rat.neg_den, Rat.neg_num, Int.natAbs_neg]

theorem roundDouble_neg (q : ℚ) : roundDouble (-q) = - roundDouble q := by
  unfold roundDouble
  rw [isDouble_neg, neg_neg]
  by_cases hd : isDouble q = true
  · rw [if_pos hd, if_pos hd]
  · rw [if_neg hd, if_neg hd]
    have h0 : q ≠ 0 := by
      rintro rfl
      exact hd (by decide)
    rcases lt_or_gt_of_ne h0 with h | h
    · rw [if_neg (not_lt.mpr (le_of_lt (neg_pos.mpr h |> fun x => by simpa using x))), if_pos h,
        neg_neg]
    · rw [if_pos (neg_neg_of_pos h), if_neg (not_lt.mpr (le_of_lt h))]

theorem roundDouble_of_isDouble (q : ℚ) (h : isDouble q = true) : roundDouble q = q := by
  unfold roundDouble
  rw [if_pos h]

theorem oddPartAux_le (fuel n : Nat) : oddPartAux fuel n ≤ n := by
  induction fuel generalizing n with
  | zero => exact le_refl _
  | succ f ih =>
    unfold oddPartAux
    split_ifs with h
    · exact le_trans (ih (n / 2)) (Nat.div_le_self n 2)
    · exact le_refl _

theorem oddPart_le (n : Nat) : oddPart n ≤ n := oddPartAux_le n n

/-- An integer of magnitude at most 2^53 is a double. -/
theorem isDouble_intCast (n : Int) (h : |n| ≤ 2 ^ 53) : isDouble (n : ℚ) = true := by
  unfold isDouble
  rw [Rat.intCast_den, Rat.intCast_num]
  have h1 : oddPart 1 = 1 := by decide
  rw [h1]
  simp only [beq_self_eq_true, Bool.true_and, decide_eq_true_eq]
  have hn : n.natAbs ≤ 2 ^ 53 := by
    have : ((n.natAbs : Int)) ≤ 2 ^ 53 := by rw [Int.natCast_natAbs]; exact h
    exact_mod_cast this
  rcases Nat.lt_or_ge n.natAbs (2 ^ 53) with hlt | hge
  · exact lt_of_le_of_lt (oddPart_le _) hlt
  · have : n.natAbs = 2 ^ 53 := le_antisymm hn hge
    rw [this]
    decide
/-- The pairwise balance on doubles in the sample stores. -/
theorem fp_pair_examples :
    pairBalanceFp evenStore 1 2 = 1 / 18014398509481984 ∧
    pairBalanceFp evenStore 2 1 = - (1 / 36028797018963968) ∧
    pairBalanceFp risingStore 1 2 = 1351079888211149 / 2251799813685248 ∧
    pairBalanceFp fallingStore 1 2 = 5404319552844595 / 9007199254740992 := by
  decide!

/-! ## Sums that are exact in doubles -/

theorem exists_int_of_den (q : ℚ) (h : q.den = 1) : ∃ n : ℤ, q = n :=
  ⟨q.num, (Rat.coe_int_num_of_den_eq_one h).symm⟩

theorem dadd_exact (x t : ℚ) (hx : ∃ n : ℤ, x = n) (ht : ∃ m : ℤ, t = m)
    (h : |x| + |t| ≤ 2 ^ 53) : dadd x t = x + t := by
  obtain ⟨n, rfl⟩ := hx
  obtain ⟨m, rfl⟩ := ht
  unfold dadd
  apply roundDouble_of_isDouble
  have hb : |((n + m : ℤ) : ℚ)| ≤ 2 ^ 53 := by
    push_cast
    exact le_trans (abs_add _ _) h
  have hb' : |n + m| ≤ 2 ^ 53 := by exact_mod_cast hb
  have := isDouble_intCast (n + m) hb'
  rwa [Int.cast_add] at this

theorem dsub_exact (x t : ℚ) (hx : ∃ n : ℤ, x = n) (ht : ∃ m : ℤ, t = m)
    (h : |x| + |t| ≤ 2 ^ 53) : dsub x t = x - t := by
  obtain ⟨m, rfl⟩ := ht
  have := dadd_exact x (-(m : ℚ)) hx ⟨-m, by push_cast; rfl⟩ (by rwa [abs_neg])
  unfold dadd at this
  unfold dsub
  rw [sub_eq_add_neg]
  exact this

/-- A loop that adds or subtracts one term per element runs the same on doubles as in
exact arithmetic while the magnitudes of the terms add up to 2^53 at most. -/
theorem foldl_exact {α : Type} (stepFp step : ℚ → α → ℚ) (w : α → ℚ) (l : List α)
    (hw : ∀ x ∈ l, 0 ≤ w x)
    (hstep : ∀ x ∈ l, ∀ acc : ℚ, (∃ n : ℤ, acc = n) → |acc| + w x ≤ 2 ^ 53 →
      stepFp acc x = step acc x ∧ (∃ n : ℤ, step acc x = n) ∧ |step acc x| ≤ |acc| + w x)
    (acc : ℚ) (hint : ∃ n : ℤ, acc = n) (hb : |acc| + (l.map w).sum ≤ 2 ^ 53) :
    l.foldl stepFp acc = l.foldl step acc ∧ (∃ n : ℤ, l.foldl step acc = n) ∧
      |l.foldl step acc| ≤ |acc| + (l.map w).sum := by
  induction l generalizing acc with
  | nil => simpa using hint
  | cons x rest ih =>
    rw [List.map_cons, List.sum_cons] at hb ⊢
    have hrest : 0 ≤ (rest.map w).sum :=
      List.sum_nonneg (by
        intro y hy
        obtain ⟨z, hz, rfl⟩ := List.mem_map.mp hy
        exact hw z (List.mem_cons_of_mem _ hz))
    obtain ⟨s1, s2, s3⟩ := hstep x (List.mem_cons_self _ _) acc hint (by linarith)
    obtain ⟨r1, r2, r3⟩ := ih (fun y hy => hw y (List.mem_cons_of_mem _ hy))
      (fun y hy => hstep y (List.mem_cons_of_mem _ hy)) (step acc x) s2 (by linarith)
    rw [List.foldl_cons, List.foldl_cons, s1]
    exact ⟨r1, r2, by linarith⟩

theorem sum_map_le {α : Type} (f g : α → ℚ) (l : List α) (h : ∀ x ∈ l, f x ≤ g x) :
    (l.map f).sum ≤ (l.map g).sum := by
  induction l with
  | nil => simp
  | cons x xs ih =>
    rw [List.map_cons, List.sum_cons, List.map_cons, List.sum_cons]
    exact add_le_add (h x (List.mem_cons_self _ _))
      (ih (fun y hy => h y (List.mem_cons_of_mem _ hy)))

theorem sum_map_add_eq {α : Type} (f g : α → ℚ) (l : List α) :
    (l.map (fun x => f x + g x)).sum = (l.map f).sum + (l.map g).sum := by
  induction l with
  | nil => simp
  | cons x xs ih => simp only [List.map_cons, List.sum_cons, ih]; ring

theorem term_le_sum_map {α : Type} (f : α → ℚ) (l : List α) (h : ∀ x ∈ l, 0 ≤ f x)
    (a : α) (ha : a ∈ l) : f a ≤ (l.map f).sum := by
  induction l with
  | nil => simp at ha
  | cons x xs ih =>
    rw [List.map_cons, List.sum_cons]
    have hx := h x (List.mem_cons_self _ _)
    have hxs := sum_map_nonneg f xs (fun y hy => h y (List.mem_cons_of_mem _ hy))
    rcases List.mem_cons.mp ha with rfl | hmem
    · linarith
    · have := ih (fun y hy => h y (List.mem_cons_of_mem _ hy)) hmem
      linarith

theorem sum_map_filter_le {α : Type} (p : α → Bool) (f : α → ℚ) (l : List α)
    (h : ∀ x ∈ l, 0 ≤ f x) : ((l.filter p).map f).sum ≤ (l.map f).sum := by
  rw [sum_map_filter]
  apply sum_map_le
  intro x hx
  split_ifs
  · exact le_refl _
  · exact h x hx

theorem sum_two_filters_le {α : Type} (p q : α → Bool) (f : α → ℚ) (l : List α)
    (h : ∀ x ∈ l, 0 ≤ f x) (hdisj : ∀ x ∈ l, ¬ (p x = true ∧ q x = true)) :
    ((l.filter p ++ l.filter q).map f).sum ≤ (l.map f).sum := by
  rw [List.map_append, List.sum_append, sum_map_filter, sum_map_filter, ← sum_map_add_eq]
  apply sum_map_le
  intro x hx
  have h0 := h x hx
  have hd := hdisj x hx
  cases hp : p x <;> cases hq : q x <;> simp_all

theorem Expense.volume_nonneg (e : Expense) : 0 ≤ e.volume :=
  sum_map_nonneg _ _ (fun _ _ => abs_nonneg _)

theorem abs_amount_le_volume (e : Expense) (s : Split) (hs : s ∈ e.splits) :
    |s.amount| ≤ e.volume := by
  unfold Expense.volume
  exact term_le_sum_map (fun s : Split => |s.amount|) e.splits (fun _ _ => abs_nonneg _) s hs

theorem findUnpaidSplit_mem (splits : List Split) (uid : Id) (s : Split)
    (h : findUnpaidSplit splits uid = some s) : s ∈ splits :=
  List.mem_of_find?_eq_some h

theorem balanceFromExpensesFp_exact (me userId : Id) (b : ℚ) (l : List Expense)
    (hint : ∀ e ∈ l, ∀ s ∈ e.splits, s.amount.den = 1) (hb : ∃ n : ℤ, b = n)
    (hvol : |b| + (l.map Expense.volume).sum ≤ 2 ^ 53) :
    balanceFromExpensesFp me userId b l = balanceFromExpenses me userId b l ∧
      (∃ n : ℤ, balanceFromExpenses me userId b l = n) ∧
      |balanceFromExpenses me userId b l| ≤ |b| + (l.map Expense.volume).sum := by
  unfold balanceFromExpensesFp balanceFromExpenses
  apply foldl_exact _ _ Expense.volume l (fun e _ => e.volume_nonneg) _ b hb hvol
  intro e he acc hacc hbound
  have key : ∀ (uid : Id) (split : Split), findUnpaidSplit e.splits uid = some split →
      (∃ m : ℤ, split.amount = m) ∧ |acc| + |split.amount| ≤ 2 ^ 53 ∧
        |split.amount| ≤ e.volume := by
    intro uid split hf
    have hm := findUnpaidSplit_mem _ _ _ hf
    have hv := abs_amount_le_volume e split hm
    exact ⟨exists_int_of_den _ (hint e he split hm), by linarith, hv⟩
  by_cases hp : e.paidByUserId = me
  · rw [if_pos hp, if_pos hp]
    cases hf : findUnpaidSplit e.splits userId with
    | none => exact ⟨rfl, hacc, by linarith [e.volume_nonneg]⟩
    | some split =>
      obtain ⟨k1, k2, k3⟩ := key _ _ hf
      dsimp only
      rw [dadd_exact acc split.amount hacc k1 k2]
      obtain ⟨n, hn⟩ := hacc
      obtain ⟨m, hm⟩ := k1
      refine ⟨rfl, ⟨n + m, ?_⟩, le_trans (abs_add _ _) (by linarith)⟩
      rw [hn, hm, Int.cast_add]
  · rw [if_neg hp, if_neg hp]
    cases hf : findUnpaidSplit e.splits me with
    | none => exact ⟨rfl, hacc, by linarith [e.volume_nonneg]⟩
    | some split =>
      obtain ⟨k1, k2, k3⟩ := key _ _ hf
      dsimp only
      rw [dsub_exact acc split.amount hacc k1 k2]
      obtain ⟨n, hn⟩ := hacc
      obtain ⟨m, hm⟩ := k1
      refine ⟨rfl, ⟨n - m, ?_⟩, le_trans (abs_sub _ _) (by linarith)⟩
      rw [hn, hm, Int.cast_sub]

theorem balanceFromSettlementsFp_exact (me : Id) (b : ℚ) (l : List Settlement)
    (hint : ∀ s ∈ l, s.amount.den = 1) (hb : ∃ n : ℤ, b = n)
    (hvol : |b| + (l.map Settlement.volume).sum ≤ 2 ^ 53) :
    balanceFromSettlementsFp me b l = balanceFromSettlements me b l ∧
      (∃ n : ℤ, balanceFromSettlements me b l = n) ∧
      |balanceFromSettlements me b l| ≤ |b| + (l.map Settlement.volume).sum := by
  unfold balanceFromSettlementsFp balanceFromSettlements
  apply foldl_exact _ _ Settlement.volume l (fun _ _ => abs_nonneg _) _ b hb hvol
  intro s hs acc hacc hbound
  have k1 := exists_int_of_den _ (hint s hs)
  unfold Settlement.volume at hbound ⊢
  obtain ⟨n, hn⟩ := hacc
  obtain ⟨m, hm⟩ := k1
  by_cases hp : s.paidByUserId = me
  · rw [if_pos hp, if_pos hp, dadd_exact acc s.amount ⟨n, hn⟩ ⟨m, hm⟩ hbound]
    refine ⟨rfl, ⟨n + m, ?_⟩, abs_add _ _⟩
    rw [hn, hm, Int.cast_add]
  · rw [if_neg hp, if_neg hp, dsub_exact acc s.amount ⟨n, hn⟩ ⟨m, hm⟩ hbound]
    refine ⟨rfl, ⟨n - m, ?_⟩, abs_sub _ _⟩
    rw [hn, hm, Int.cast_sub]

theorem pairExpenses_volume_le (st : Store) (me userId : Id) (h : me ≠ userId) :
    ((pairExpenses st me userId).map Expense.volume).sum ≤
      (st.expenses.map Expense.volume).sum := by
  unfold pairExpenses sortExpensesByDate
  rw [((List.perm_insertionSort _ _).map _).sum_eq]
  refine le_trans (sum_map_filter_le _ _ _ (fun e _ => e.volume_nonneg)) ?_
  unfold Store.expensesPaidBy
  apply sum_two_filters_le _ _ _ _ (fun e _ => e.volume_nonneg)
  intro e _ hpq
  simp only [Bool.and_eq_true, beq_iff_eq] at hpq
  exact h (hpq.1.1.symm.trans hpq.2.1)

theorem pairSettlements_volume_le (st : Store) (me userId : Id) :
    ((pairSettlements st me userId).map Settlement.volume).sum ≤
      (st.settlements.map Settlement.volume).sum := by
  unfold pairSettlements sortSettlementsByDate
  rw [((List.perm_insertionSort _ _).map _).sum_eq]
  exact sum_map_filter_le _ _ _ (fun s _ => abs_nonneg _)

theorem mem_expenses_of_mem_pairExpenses (st : Store) (me userId : Id) (e : Expense)
    (he : e ∈ pairExpenses st me userId) : e ∈ st.expenses := by
  unfold pairExpenses sortExpensesByDate at he
  rw [(List.perm_insertionSort _ _).mem_iff, List.mem_filter, List.mem_append] at he
  unfold Store.expensesPaidBy at he
  rcases he.1 with h | h <;> exact (List.mem_filter.mp h).1

theorem mem_settlements_of_mem_pairSettlements (st : Store) (me userId : Id) (s : Settlement)
    (hs : s ∈ pairSettlements st me userId) : s ∈ st.settlements := by
  unfold pairSettlements sortSettlementsByDate at hs
  rw [(List.perm_insertionSort _ _).mem_iff, List.mem_filter] at hs
  exact hs.1

/-- In a store whose sums are exact, the pairwise balance on doubles is the balance of
exact arithmetic. -/
theorem pairBalanceFp_exact (st : Store) (me userId : Id) (h : me ≠ userId)
    (hx : st.exactSums) : pairBalanceFp st me userId = pairBalance st me userId := by
  obtain ⟨x1, x2, x3⟩ := hx
  unfold Store.volume at x3
  have v1 := pairExpenses_volume_le st me userId h
  have v2 := pairSettlements_volume_le st me userId
  have n2 : 0 ≤ ((pairSettlements st me userId).map Settlement.volume).sum :=
    sum_map_nonneg _ _ (fun s _ => abs_nonneg _)
  have n3 : 0 ≤ (st.settlements.map Settlement.volume).sum :=
    sum_map_nonneg _ _ (fun s _ => abs_nonneg _)
  obtain ⟨e1, e2, e3⟩ := balanceFromExpensesFp_exact me userId 0 (pairExpenses st me userId)
    (fun e he => x1 e (mem_expenses_of_mem_pairExpenses st me userId e he))
    ⟨0, by simp⟩ (by rw [abs_zero, zero_add]; linarith)
  rw [abs_zero, zero_add] at e3
  obtain ⟨s1, -, -⟩ := balanceFromSettlementsFp_exact me
    (balanceFromExpenses me userId 0 (pairExpenses st me userId)) (pairSettlements st me userId)
    (fun s hs => x2 s (mem_settlements_of_mem_pairSettlements st me userId s hs))
    e2 (by linarith)
  unfold pairBalanceFp pairBalance
  rw [e1, s1]

theorem getExpensesBetweenUsersFp_ok (st : Store) (me userId : Id) (h : me ≠ userId)
    (other : User) (hu : st.getUser userId = some other) :
    getExpensesBetweenUsersFp st me userId =
      .ok { expenses := pairExpenses st me userId, settlements := pairSettlements st me userId,
            otherUser := other, balance := pairBalanceFp st me userId } := by
  unfold getExpensesBetweenUsersFp
  rw [if_neg h]
  simp only [hu]

theorem exactSums_of_perm (st1 st2 : Store) (he : st1.expenses.Perm st2.expenses)
    (hs : st1.settlements.Perm st2.settlements) (hx : st1.exactSums) : st2.exactSums := by
  obtain ⟨x1, x2, x3⟩ := hx
  refine ⟨fun e h => x1 e (he.mem_iff.mpr h), fun s h => x2 s (hs.mem_iff.mpr h), ?_⟩
  unfold Store.volume at x3 ⊢
  rw [← (he.map _).sum_eq, ← (hs.map _).sum_eq]
  exact x3

/-- C9 as stated fails on doubles: with three expenses of one date, 0.1 and 0.2 paid by
user 1 for user 2 and 0.3 paid by user 2 for user 1, each admitted by `createExpense`,
the balance of user 1 against user 2 is 2^-54 and the balance of user 2 against user 1
is -2^-55. -/
theorem pair_balance_swap_rounds :
    (createExpense (createExpense (createExpense emptyStore 1 (shareArgs 1 2 tenth)).store 1
      (shareArgs 1 2 fifth)).store 2 (shareArgs 2 1 threeTenths)).store = evenStore ∧
    (getExpensesBetweenUsersFp evenStore 1 2).map (fun v => v.balance) =
      .ok (1 / 18014398509481984) ∧
    (getExpensesBetweenUsersFp evenStore 2 1).map (fun v => v.balance) =
      .ok (- (1 / 36028797018963968)) ∧
    ¬ ∃ v w, getExpensesBetweenUsersFp evenStore 1 2 = .ok v ∧
      getExpensesBetweenUsersFp evenStore 2 1 = .ok w ∧ v.balance = - w.balance := by
  refine ⟨by decide!, by decide!, by decide!, ?_⟩
  rintro ⟨v, w, hv, hw, hvw⟩
  have h1 : (getExpensesBetweenUsersFp evenStore 1 2).map (fun v => v.balance) =
      .ok (1 / 18014398509481984) := by decide!
  have h2 : (getExpensesBetweenUsersFp evenStore 2 1).map (fun v => v.balance) =
      .ok (- (1 / 36028797018963968)) := by decide!
  rw [hv] at h1
  rw [hw] at h2
  have e1 : v.balance = 1 / 18014398509481984 := Except.ok.inj h1
  have e2 : w.balance = - (1 / 36028797018963968) := Except.ok.inj h2
  rw [e1, e2] at hvw
  norm_num at hvw

/-- C9 (amended): in every store whose sums are exact in doubles (every split amount and
every settlement amount an integer, their magnitudes adding up to 2^53 at most), for
distinct existing users `a` and `b`, the balance that `getExpensesBetweenUsers` computes
in doubles for `a` against `b` is the negation of the one it computes for `b` against
`a`. -/
theorem pair_balance_negates_when_exact (st : Store) (a b : Id) (ua ub : User) (h : a ≠ b)
    (ha : st.getUser a = some ua) (hb : st.getUser b = some ub) (hx : st.exactSums) :
    ∃ v w, getExpensesBetweenUsersFp st a b = .ok v ∧
      getExpensesBetweenUsersFp st b a = .ok w ∧ v.balance = - w.balance := by
  refine ⟨_, _, getExpensesBetweenUsersFp_ok st a b h ub hb,
    getExpensesBetweenUsersFp_ok st b a (Ne.symm h) ua ha, ?_⟩
  show pairBalanceFp st a b = - pairBalanceFp st b a
  rw [pairBalanceFp_exact st a b h hx, pairBalanceFp_exact st b a (Ne.symm h) hx]
  exact pairBalance_swap st a b h

theorem pair_balance_negates_when_exact_witness :
    dinnerStore.exactSums ∧
    ∃ v w, getExpensesBetweenUsersFp dinnerStore 1 2 = .ok v ∧
      getExpensesBetweenUsersFp dinnerStore 2 1 = .ok w ∧ v.balance = - w.balance :=
  ⟨by decide!, pair_balance_negates_when_exact dinnerStore 1 2 ⟨1, "U", "u@example.com", none⟩
    ⟨2, "A", "a@example.com", none⟩ (by decide) (by decide!) (by decide!) (by decide!)⟩

/-- C24 as stated fails on doubles: 0.1, 0.2 and 0.3, paid by user 1 for user 2 on one
date, give the balance 0.6000000000000001 when stored in that order and 0.6 when stored
in the opposite order. -/
theorem pair_balance_depends_on_order :
    risingStore.users = fallingStore.users ∧
    risingStore.expenses.Perm fallingStore.expenses ∧
    risingStore.settlements.Perm fallingStore.settlements ∧
    (getExpensesBetweenUsersFp risingStore 1 2).map (fun v => v.balance) =
      .ok (1351079888211149 / 2251799813685248) ∧
    (getExpensesBetweenUsersFp fallingStore 1 2).map (fun v => v.balance) =
      .ok (5404319552844595 / 9007199254740992) ∧
    (getExpensesBetweenUsersFp risingStore 1 2).map (fun v => v.balance) ≠
      (getExpensesBetweenUsersFp fallingStore 1 2).map (fun v => v.balance) := by
  refine ⟨rfl, ?_, List.Perm.refl _, by decide!, by decide!, by decide!⟩
  show [share 10 1 2 tenth, share 11 1 2 fifth, share 12 1 2 threeTenths].Perm
    [share 12 1 2 threeTenths, share 11 1 2 fifth, share 10 1 2 tenth]
  exact ((List.reverse_perm _).symm : _)

/-- C24 (amended): on two stores with the same users whose expense lists and settlement lists are
permutations of each other and whose sums are exact in doubles, `getExpensesBetweenUsers`
computes the same balance in doubles for a given pair of users (and fails alike when it
fails). -/
theorem pair_balance_order_free_when_exact (st1 st2 : Store) (me userId : Id)
    (hu : st1.users = st2.users) (he : st1.expenses.Perm st2.expenses)
    (hs : st1.settlements.Perm st2.settlements) (hx : st1.exactSums) :
    (getExpensesBetweenUsersFp st1 me userId).map (fun v => v.balance) =
      (getExpensesBetweenUsersFp st2 me userId).map (fun v => v.balance) := by
  by_cases h : me = userId
  · unfold getExpensesBetweenUsersFp
    rw [if_pos h, if_pos h]
  · have hget : st1.getUser userId = st2.getUser userId := by
      unfold Store.getUser
      rw [hu]
    cases hg : st2.getUser userId with
    | none =>
      unfold getExpensesBetweenUsersFp
      rw [if_neg h, if_neg h]
      simp only [hget, hg]
    | some other =>
      rw [getExpensesBetweenUsersFp_ok st1 me userId h other (hget.trans hg),
        getExpensesBetweenUsersFp_ok st2 me userId h other hg]
      show Except.ok (pairBalanceFp st1 me userId) = Except.ok (pairBalanceFp st2 me userId)
      rw [pairBalanceFp_exact st1 me userId h hx,
        pairBalanceFp_exact st2 me userId h (exactSums_of_perm st1 st2 he hs hx),
        pairBalance_perm st1 st2 me userId h he hs]

theorem pair_balance_order_free_when_exact_witness :
    intStoreA.exactSums ∧ intStoreA.expenses.Perm intStoreB.expenses ∧
    (getExpensesBetweenUsersFp intStoreA 1 2).map (fun v => v.balance) =
      (getExpensesBetweenUsersFp intStoreB 1 2).map (fun v => v.balance) :=
  ⟨by decide!, List.Perm.swap _ _ [],
    pair_balance_order_free_when_exact intStoreA intStoreB 1 2 rfl
      (List.Perm.swap _ _ []) (List.Perm.refl _) (by decide!)⟩

/-! ## `getUserBalances` on doubles -/

theorem Tally.sum_abs_set (t : Tally) (k : Id) (v : ℚ) :
    ((t.set k v).map (fun kv => |kv.2|)).sum =
      (t.map (fun kv => |kv.2|)).sum - |orZero (t.get k)| + |v| := by
  induction t with
  | nil => simp [Tally.set, Tally.get, orZero]
  | cons kv rest ih =>
    obtain ⟨k', w⟩ := kv
    by_cases hk : k' = k
    · subst hk
      have hget : Tally.get ((k', w) :: rest) k' = some w := by
        simp [Tally.get]
      rw [hget, orZero_some]
      simp only [Tally.set, if_true, List.map_cons, List.sum_cons]
      ring
    · have hget : Tally.get ((k', w) :: rest) k = Tally.get rest k := by
        have hb : (k' == k) = false := by simpa using hk
        simp only [Tally.get, List.find?, hb]
      rw [hget]
      simp only [Tally.set, hk, if_false, List.map_cons, List.sum_cons, ih]
      ring

theorem Tally.exactWithin_mono (t : Tally) (b b' : ℚ) (h : t.exactWithin b) (hb : b ≤ b') :
    t.exactWithin b' :=
  ⟨h.1, le_trans h.2 hb⟩

theorem Tally.orZero_get_exact (t : Tally) (b : ℚ) (h : t.exactWithin b) (k : Id) :
    (∃ n : ℤ, orZero (t.get k) = n) ∧ |orZero (t.get k)| ≤ (t.map (fun kv => |kv.2|)).sum := by
  cases hg : t.get k with
  | none =>
    refine ⟨⟨0, by simp [orZero]⟩, ?_⟩
    have : orZero none = 0 := rfl
    rw [this, abs_zero]
    exact sum_map_nonneg _ _ (fun _ _ => abs_nonneg _)
  | some v =>
    rw [orZero_some]
    have hmem := Tally.mem_of_get t k v hg
    exact ⟨h.1 (k, v) hmem,
      term_le_sum_map (fun kv : Id × ℚ => |kv.2|) t (fun _ _ => abs_nonneg _) (k, v) hmem⟩

theorem Tally.set_exactWithin (t : Tally) (b : ℚ) (h : t.exactWithin b) (k : Id) (v a : ℚ)
    (hv : ∃ n : ℤ, v = n) (hva : |v| ≤ |orZero (t.get k)| + a) :
    (t.set k v).exactWithin (b + a) := by
  refine ⟨?_, ?_⟩
  · intro kv hkv
    rcases Tally.mem_set t k v kv hkv with h' | h'
    · exact h.1 kv h'
    · rw [h']; exact hv
  · rw [Tally.sum_abs_set]
    have := h.2
    linarith

theorem Tally.creditFp_exact (t : Tally) (b : ℚ) (h : t.exactWithin b) (k : Id) (a : ℚ)
    (ha : ∃ m : ℤ, a = m) (hb : b + |a| ≤ 2 ^ 53) :
    t.creditFp k a = t.credit k a ∧ (t.credit k a).exactWithin (b + |a|) := by
  obtain ⟨hint, hle⟩ := Tally.orZero_get_exact t b h k
  have hsum := h.2
  unfold Tally.creditFp Tally.credit
  rw [dadd_exact _ a hint ha (by linarith)]
  refine ⟨rfl, Tally.set_exactWithin t b h k _ _ ?_ (abs_add _ _)⟩
  obtain ⟨n, hn⟩ := hint
  obtain ⟨m, hm⟩ := ha
  exact ⟨n + m, by rw [hn, hm, Int.cast_add]⟩

theorem Tally.debitFp_exact (t : Tally) (b : ℚ) (h : t.exactWithin b) (k : Id) (a : ℚ)
    (ha : ∃ m : ℤ, a = m) (hb : b + |a| ≤ 2 ^ 53) :
    t.debitFp k a = t.debit k a ∧ (t.debit k a).exactWithin (b + |a|) := by
  obtain ⟨hint, hle⟩ := Tally.orZero_get_exact t b h k
  have hsum := h.2
  unfold Tally.debitFp Tally.debit
  rw [dsub_exact _ a hint ha (by linarith)]
  refine ⟨rfl, Tally.set_exactWithin t b h k _ _ ?_ (abs_sub _ _)⟩
  obtain ⟨n, hn⟩ := hint
  obtain ⟨m, hm⟩ := ha
  exact ⟨n - m, by rw [hn, hm, Int.cast_sub]⟩

/-- A loop over a tally that credits or debits one term per element runs the same on
doubles as in exact arithmetic while the magnitudes of the terms add up to 2^53 at
most. -/
theorem foldl_tally_exact {α : Type} (stepFp step : Tally → α → Tally) (w : α → ℚ)
    (l : List α) (hw : ∀ x ∈ l, 0 ≤ w x)
    (hstep : ∀ x ∈ l, ∀ (t : Tally) (b : ℚ), t.exactWithin b → b + w x ≤ 2 ^ 53 →
      stepFp t x = step t x ∧ (step t x).exactWithin (b + w x))
    (t : Tally) (b : ℚ) (ht : t.exactWithin b) (hb : b + (l.map w).sum ≤ 2 ^ 53) :
    l.foldl stepFp t = l.foldl step t ∧
      (l.foldl step t).exactWithin (b + (l.map w).sum) := by
  induction l generalizing t b with
  | nil => simpa using ht
  | cons x rest ih =>
    rw [List.map_cons, List.sum_cons] at hb ⊢
    have hrest : 0 ≤ (rest.map w).sum :=
      sum_map_nonneg _ _ (fun y hy => hw y (List.mem_cons_of_mem _ hy))
    obtain ⟨s1, s2⟩ := hstep x (List.mem_cons_self _ _) t b ht (by linarith)
    obtain ⟨r1, r2⟩ := ih (fun y hy => hw y (List.mem_cons_of_mem _ hy))
      (fun y hy => hstep y (List.mem_cons_of_mem _ hy)) (step t x) (b + w x) s2 (by linarith)
    rw [List.foldl_cons, List.foldl_cons, s1]
    exact ⟨r1, by rwa [add_assoc] at r2⟩

theorem tallyExpenseFp_exact (user : Id) (e : Expense)
    (hint : ∀ s ∈ e.splits, s.amount.den = 1) (t : Tally) (b : ℚ)
    (ht : t.exactWithin b) (hb : b + e.volume ≤ 2 ^ 53) :
    tallyExpenseFp user t e = tallyExpense user t e ∧
      (tallyExpense user t e).exactWithin (b + e.volume) := by
  unfold tallyExpenseFp tallyExpense
  dsimp only
  by_cases hp : (e.paidByUserId == user) = true
  · rw [if_pos hp, if_pos hp]
    unfold Expense.volume at hb ⊢
    apply foldl_tally_exact _ _ (fun s : Split => |s.amount|) e.splits
      (fun _ _ => abs_nonneg _) _ t b ht hb
    intro s hs t' b' ht' hb'
    by_cases hskip : (s.userId == user || s.paid) = true
    · rw [if_pos hskip, if_pos hskip]
      exact ⟨rfl, Tally.exactWithin_mono t' b' _ ht' (by linarith [abs_nonneg s.amount])⟩
    · rw [if_neg hskip, if_neg hskip]
      exact Tally.creditFp_exact t' b' ht' s.userId s.amount
        (exists_int_of_den _ (hint s hs)) hb'
  · rw [if_neg hp, if_neg hp]
    cases hf : e.splits.find? (fun s => s.userId == user) with
    | none =>
      exact ⟨rfl, Tally.exactWithin_mono t b _ ht (by linarith [e.volume_nonneg])⟩
    | some ms =>
      dsimp only
      have hm : ms ∈ e.splits := List.mem_of_find?_eq_some hf
      have hv := abs_amount_le_volume e ms hm
      by_cases hpaid : (!ms.paid) = true
      · rw [if_pos hpaid, if_pos hpaid]
        obtain ⟨d1, d2⟩ := Tally.debitFp_exact t b ht e.paidByUserId ms.amount
          (exists_int_of_den _ (hint ms hm)) (by linarith)
        exact ⟨d1, Tally.exactWithin_mono _ _ _ d2 (by linarith)⟩
      · rw [if_neg hpaid, if_neg hpaid]
        exact ⟨rfl, Tally.exactWithin_mono t b _ ht (by linarith [e.volume_nonneg])⟩

theorem tallySettlementFp_exact (user : Id) (s : Settlement) (hint : s.amount.den = 1)
    (t : Tally) (b : ℚ) (ht : t.exactWithin b) (hb : b + s.volume ≤ 2 ^ 53) :
    tallySettlementFp user t s = tallySettlement user t s ∧
      (tallySettlement user t s).exactWithin (b + s.volume) := by
  unfold tallySettlementFp tallySettlement
  unfold Settlement.volume at hb ⊢
  by_cases hp : s.paidByUserId = user
  · rw [if_pos hp, if_pos hp]
    exact Tally.creditFp_exact t b ht _ _ (exists_int_of_den _ hint) hb
  · rw [if_neg hp, if_neg hp]
    exact Tally.debitFp_exact t b ht _ _ (exists_int_of_den _ hint) hb

/-- In a store whose sums are exact, the tallies of `getUserBalances` on doubles are
those of exact arithmetic, and their magnitudes add up to the volume of the store at
most. -/
theorem balanceByUserFp_exact (st : Store) (user : Id) (hx : st.exactSums) :
    balanceByUserFp st user = balanceByUser st user ∧
      (balanceByUser st user).exactWithin st.volume := by
  obtain ⟨x1, x2, x3⟩ := hx
  unfold Store.volume at x3
  have v1 : ((st.expenses.filter (involvesUngrouped user)).map Expense.volume).sum ≤
      (st.expenses.map Expense.volume).sum :=
    sum_map_filter_le _ _ _ (fun e _ => e.volume_nonneg)
  have v2 : ((st.settlements.filter (settlesUngrouped user)).map Settlement.volume).sum ≤
      (st.settlements.map Settlement.volume).sum :=
    sum_map_filter_le _ _ _ (fun s _ => abs_nonneg _)
  have n2 : 0 ≤ ((st.settlements.filter (settlesUngrouped user)).map Settlement.volume).sum :=
    sum_map_nonneg _ _ (fun s _ => abs_nonneg _)
  have n3 : 0 ≤ (st.settlements.map Settlement.volume).sum :=
    sum_map_nonneg _ _ (fun s _ => abs_nonneg _)
  have t0 : Tally.exactWithin [] 0 := ⟨fun kv h => by simp at h, by simp⟩
  obtain ⟨e1, e2⟩ := foldl_tally_exact (tallyExpenseFp user) (tallyExpense user) Expense.volume
    (st.expenses.filter (involvesUngrouped user)) (fun e _ => e.volume_nonneg)
    (fun e he t b ht hb => tallyExpenseFp_exact user e
      (x1 e (List.mem_filter.mp he).1) t b ht hb)
    [] 0 t0 (by linarith)
  obtain ⟨s1, s2⟩ := foldl_tally_exact (tallySettlementFp user) (tallySettlement user)
    Settlement.volume (st.settlements.filter (settlesUngrouped user))
    (fun s _ => abs_nonneg _)
    (fun s hs t b ht hb => tallySettlementFp_exact user s
      (x2 s (List.mem_filter.mp hs).1) t b ht hb)
    _ _ e2 (by linarith)
  unfold balanceByUserFp balanceByUser
  dsimp only
  rw [e1, s1]
  refine ⟨rfl, Tally.exactWithin_mono _ _ _ s2 ?_⟩
  unfold Store.volume
  linarith

theorem hundredth_bounds : 0 < hundredth ∧ hundredth < 1 := by decide!

theorem abs_lt_hundredth_iff (v : ℚ) (hv : ∃ n : ℤ, v = n) :
    |v| < hundredth ↔ |v| < 1 / 100 := by
  obtain ⟨n, rfl⟩ := hv
  obtain ⟨h0, h1⟩ := hundredth_bounds
  have key : ∀ c : ℚ, 0 < c → c < 1 → (|(n : ℚ)| < c ↔ n = 0) := by
    intro c c0 c1
    constructor
    · intro h
      have h2 : |(n : ℚ)| < 1 := lt_trans h c1
      have h3 : |n| < 1 := by exact_mod_cast h2
      have h4 : 0 ≤ |n| := abs_nonneg n
      exact abs_eq_zero.mp (by omega)
    · rintro rfl
      simpa using c0
  rw [key hundredth h0 h1, key (1 / 100) (by norm_num) (by norm_num)]

theorem classifyFp_exact (st : Store) (acc : Totals) (entry : Id × ℚ)
    (h1 : ∃ n : ℤ, acc.youAreOwed = n) (h2 : ∃ n : ℤ, acc.youOwe = n)
    (hv : ∃ n : ℤ, entry.2 = n)
    (hb : |acc.youAreOwed| + |acc.youOwe| + |entry.2| ≤ 2 ^ 53) :
    classifyFp st acc entry = classify st acc entry ∧
      (∃ n : ℤ, (classify st acc entry).youAreOwed = n) ∧
      (∃ n : ℤ, (classify st acc entry).youOwe = n) ∧
      |(classify st acc entry).youAreOwed| + |(classify st acc entry).youOwe| ≤
        |acc.youAreOwed| + |acc.youOwe| + |entry.2| := by
  unfold classifyFp classify
  dsimp only
  have n1 := abs_nonneg acc.youAreOwed
  have n2 := abs_nonneg acc.youOwe
  have n3 := abs_nonneg entry.2
  by_cases hs : |entry.2| < 1 / 100
  · rw [if_pos ((abs_lt_hundredth_iff _ hv).mpr hs), if_pos hs]
    exact ⟨rfl, h1, h2, by linarith⟩
  · rw [if_neg (fun h => hs ((abs_lt_hundredth_iff _ hv).mp h)), if_neg hs]
    by_cases hpos : entry.2 > 0
    · rw [if_pos hpos, if_pos hpos, dadd_exact _ _ h1 hv (by linarith)]
      obtain ⟨n, hn⟩ := h1
      obtain ⟨m, hm⟩ := hv
      refine ⟨rfl, ⟨n + m, by rw [hn, hm, Int.cast_add]⟩, h2, ?_⟩
      show |acc.youAreOwed + entry.2| + |acc.youOwe| ≤ _
      linarith [abs_add acc.youAreOwed entry.2]
    · have hneg : ∃ n : ℤ, -entry.2 = n := by
        obtain ⟨m, hm⟩ := hv
        exact ⟨-m, by rw [hm, Int.cast_neg]⟩
      rw [if_neg hpos, if_neg hpos, dadd_exact _ _ h2 hneg (by rw [abs_neg]; linarith)]
      obtain ⟨n, hn⟩ := h2
      obtain ⟨m, hm⟩ := hneg
      refine ⟨rfl, h1, ⟨n + m, by rw [hn, hm, Int.cast_add]⟩, ?_⟩
      show |acc.youAreOwed| + |acc.youOwe + -entry.2| ≤ _
      have := abs_add acc.youOwe (-entry.2)
      rw [abs_neg] at this
      linarith

theorem classify_foldl_exact (st : Store) (t : Tally) (acc : Totals)
    (h1 : ∃ n : ℤ, acc.youAreOwed = n) (h2 : ∃ n : ℤ, acc.youOwe = n)
    (hint : ∀ kv ∈ t, ∃ n : ℤ, kv.2 = n)
    (hb : |acc.youAreOwed| + |acc.youOwe| + (t.map (fun kv => |kv.2|)).sum ≤ 2 ^ 53) :
    t.foldl (classifyFp st) acc = t.foldl (classify st) acc ∧
      (∃ n : ℤ, (t.foldl (classify st) acc).youAreOwed = n) ∧
      (∃ n : ℤ, (t.foldl (classify st) acc).youOwe = n) ∧
      |(t.foldl (classify st) acc).youAreOwed| + |(t.foldl (classify st) acc).youOwe| ≤
        |acc.youAreOwed| + |acc.youOwe| + (t.map (fun kv => |kv.2|)).sum := by
  induction t generalizing acc with
  | nil => simpa using ⟨h1, h2⟩
  | cons kv rest ih =>
    rw [List.map_cons, List.sum_cons] at hb ⊢
    have hrest : 0 ≤ (rest.map (fun kv : Id × ℚ => |kv.2|)).sum :=
      sum_map_nonneg _ _ (fun _ _ => abs_nonneg _)
    obtain ⟨c1, c2, c3, c4⟩ := classifyFp_exact st acc kv h1 h2
      (hint kv (List.mem_cons_self _ _)) (by linarith)
    obtain ⟨r1, r2, r3, r4⟩ := ih (classify st acc kv) c2 c3
      (fun x hx => hint x (List.mem_cons_of_mem _ hx)) (by linarith)
    rw [List.foldl_cons, List.foldl_cons, c1]
    exact ⟨r1, r2, r3, by linarith⟩

/-- In a store whose sums are exact, `getUserBalances` returns on doubles what it
returns in exact arithmetic. -/
theorem getUserBalancesFp_exact (st : Store) (user : Id) (hx : st.exactSums) :
    getUserBalancesFp st user = getUserBalances st user := by
  obtain ⟨b1, b2⟩ := balanceByUserFp_exact st user hx
  have hvol : st.volume ≤ 2 ^ 53 := hx.2.2
  obtain ⟨c1, c2, c3, c4⟩ := classify_foldl_exact st (balanceByUser st user) ⟨0, 0, [], []⟩
    ⟨0, by simp⟩ ⟨0, by simp⟩ b2.1 (by
      show |(0 : ℚ)| + |(0 : ℚ)| + _ ≤ _
      rw [abs_zero, zero_add, zero_add]
      exact le_trans b2.2 hvol)
  have c5 : |((balanceByUser st user).foldl (classify st) ⟨0, 0, [], []⟩).youAreOwed| +
      |((balanceByUser st user).foldl (classify st) ⟨0, 0, [], []⟩).youOwe| ≤ 2 ^ 53 := by
    refine le_trans c4 ?_
    show |(0 : ℚ)| + |(0 : ℚ)| + _ ≤ _
    rw [abs_zero, zero_add, zero_add]
    exact le_trans b2.2 hvol
  unfold getUserBalancesFp getUserBalances
  dsimp only
  rw [b1, c1, dsub_exact _ _ c2 c3 c5]

theorem getExpensesBetweenUsersFp_inv (st : Store) (me userId : Id) (v : PairView)
    (h : getExpensesBetweenUsersFp st me userId = .ok v) :
    me ≠ userId ∧ st.getUser userId = some v.otherUser ∧
      v.balance = pairBalanceFp st me userId := by
  unfold getExpensesBetweenUsersFp at h
  by_cases hne : me = userId
  · rw [if_pos hne] at h
    simp at h
  · rw [if_neg hne] at h
    cases hg : st.getUser userId with
    | none => simp [hg] at h
    | some other =>
      simp only [hg] at h
      have := Except.ok.inj h
      subst this
      exact ⟨hne, rfl, rfl⟩

theorem Tally.net_exact (t : Tally) (b : ℚ) (h : t.exactWithin b) (c : Id) :
    ∃ n : ℤ, t.net c = n :=
  (Tally.orZero_get_exact t b h c).1

/-- The dashboard and the pairwise view add the same terms in different orders: for 0.1,
0.2 and 0.3 dated 1, 2 and 3 the dashboard reports 0.6000000000000001 and the pairwise
view 0.6. -/
theorem dashboard_rounds_differently :
    (getUserBalancesFp datedStore 1).reported 2 = some (1351079888211149 / 2251799813685248) ∧
    (getExpensesBetweenUsersFp datedStore 1 2).map (fun v => v.balance) =
      .ok (5404319552844595 / 9007199254740992) := by
  decide!

/-- C10 (amended): on a store whose sums are exact in doubles and where no ungrouped
expense lists a participant in two splits, with b the balance `getExpensesBetweenUsers`
computes in doubles for current user U and other user C, `getUserBalances(U)` lists C in
neither list when |b| < 0.01 and otherwise reports for C the signed amount b (amount b in
`youAreOwedBy` when b > 0, amount -b in `youOwe` when b < 0). -/
theorem dashboard_matches_pair_when_exact (st : Store) (user c : Id) (v : PairView)
    (hnd : ∀ e ∈ st.expenses, e.groupId = none → (e.splits.map (fun s => s.userId)).Nodup)
    (hx : st.exactSums)
    (hv : getExpensesBetweenUsersFp st user c = .ok v) :
    (getUserBalancesFp st user).reported c =
      if |v.balance| < hundredth then none else some v.balance := by
  obtain ⟨hne, -, hbal⟩ := getExpensesBetweenUsersFp_inv st user c v hv
  obtain ⟨-, b2⟩ := balanceByUserFp_exact st user hx
  have hint := Tally.net_exact _ _ b2 c
  rw [balanceByUser_net_eq_pairBalance st user c hne hnd] at hint
  rw [getUserBalancesFp_exact st user hx, reported_eq,
    balanceByUser_net_eq_pairBalance st user c hne hnd, hbal,
    pairBalanceFp_exact st user c hne hx]
  by_cases hs : |pairBalance st user c| < 1 / 100
  · rw [if_pos hs, if_pos ((abs_lt_hundredth_iff _ hint).mpr hs)]
  · rw [if_neg hs, if_neg (fun h => hs ((abs_lt_hundredth_iff _ hint).mp h))]

theorem dashboard_matches_pair_when_exact_witness :
    dinnerStore.exactSums ∧
    (getUserBalancesFp dinnerStore 1).reported 2 =
      if |(-10 : ℚ)| < hundredth then none else some (-10) :=
  ⟨by decide!, dashboard_matches_pair_when_exact dinnerStore 1 2
    ⟨[dinner], [], ⟨2, "A", "a@example.com", none⟩, -10⟩ (by decide) (by decide!)
    (by decide!)⟩

/-- C15 as stated fails on doubles: for one expense with the unpaid shares 0.1, 0.2 and
0.3, `youAreOwed` is 0.6000000000000001, added in the order of the tally, while the
amounts of the returned list, 0.3, 0.2 and 0.1, add up to 0.6 in doubles, and to yet
another number in exact arithmetic. -/
theorem dashboard_total_rounds :
    (getUserBalancesFp roundStore 1).youAreOwed = 1351079888211149 / 2251799813685248 ∧
    (getUserBalancesFp roundStore 1).youAreOwedByList.map (fun b => b.amount) =
      [threeTenths, fifth, tenth] ∧
    ((getUserBalancesFp roundStore 1).youAreOwedByList.map (fun b => b.amount)).foldl dadd 0 =
      5404319552844595 / 9007199254740992 ∧
    (getUserBalancesFp roundStore 1).youAreOwed ≠
      ((getUserBalancesFp roundStore 1).youAreOwedByList.map (fun b => b.amount)).foldl dadd 0 ∧
    (getUserBalancesFp roundStore 1).youAreOwed ≠
      ((getUserBalancesFp roundStore 1).youAreOwedByList.map (fun b => b.amount)).sum := by
  decide!

theorem foldl_dadd_exact (l : List ℚ) (hint : ∀ x ∈ l, ∃ n : ℤ, x = n)
    (hb : (l.map (fun x => |x|)).sum ≤ 2 ^ 53) : l.foldl dadd 0 = l.sum := by
  obtain ⟨h1, -, -⟩ := foldl_exact dadd (fun acc x => acc + x) (fun x => |x|) l
    (fun _ _ => abs_nonneg _)
    (fun x hx acc hacc hbound => by
      obtain ⟨n, hn⟩ := hacc
      obtain ⟨m, hm⟩ := hint x hx
      exact ⟨dadd_exact acc x ⟨n, hn⟩ ⟨m, hm⟩ hbound,
        ⟨n + m, by rw [hn, hm, Int.cast_add]⟩, abs_add _ _⟩)
    0 ⟨0, by simp⟩ (by rw [abs_zero, zero_add]; exact hb)
  rw [h1]
  have := foldl_add_eq_sum (fun x : ℚ => x) l 0
  simpa using this

theorem sorted_amounts_exact (st : Store) (t : Tally) (b : ℚ) (ht : t.exactWithin b)
    (p : Id × ℚ → Bool) :
    (∀ x ∈ (sortByAmount ((t.filter p).map (baseEntry st))).map (fun e : OweEntry => e.amount),
        ∃ n : ℤ, x = n) ∧
      (((sortByAmount ((t.filter p).map (baseEntry st))).map
        (fun e : OweEntry => e.amount)).map (fun x => |x|)).sum ≤ b := by
  have hperm : ((sortByAmount ((t.filter p).map (baseEntry st))).map
      (fun e : OweEntry => e.amount)).Perm ((t.filter p).map (fun kv => |kv.2|)) := by
    unfold sortByAmount
    have := (List.perm_insertionSort (fun a b : OweEntry => b.amount ≤ a.amount)
      ((t.filter p).map (baseEntry st))).map (fun e : OweEntry => e.amount)
    rw [List.map_map] at this
    exact this
  refine ⟨?_, ?_⟩
  · intro x hx
    obtain ⟨kv, hkv, rfl⟩ := List.mem_map.mp (hperm.mem_iff.mp hx)
    obtain ⟨n, hn⟩ := ht.1 kv (List.mem_filter.mp hkv).1
    exact ⟨|n|, by rw [hn, Int.cast_abs]⟩
  · rw [(hperm.map _).sum_eq, List.map_map]
    refine le_trans ?_ ht.2
    have : ((t.filter p).map ((fun x : ℚ => |x|) ∘ fun kv : Id × ℚ => |kv.2|)).sum =
        ((t.filter p).map (fun kv : Id × ℚ => |kv.2|)).sum := by
      apply sum_map_congr_mem
      intro kv _
      exact abs_abs _
    rw [this]
    exact sum_map_filter_le _ _ _ (fun _ _ => abs_nonneg _)

/-- C15 (amended): in a store whose sums are exact in doubles, the result of
`getUserBalances` on doubles has `youAreOwed` equal to the sum of the amounts of
`youAreOwedBy` and `youOwe` equal to the sum of the amounts of `youOwe`, whether the
amounts are added exactly or in doubles in the order of the list; both are
non-negative, and `totalBalance` is `youAreOwed - youOwe`, the sum of the tallies of
absolute value at least 0.01. -/
theorem dashboard_totals_when_exact (st : Store) (user : Id) (hx : st.exactSums) :
    (getUserBalancesFp st user).youAreOwed =
      ((getUserBalancesFp st user).youAreOwedByList.map (fun b => b.amount)).sum ∧
    (getUserBalancesFp st user).youAreOwed =
      ((getUserBalancesFp st user).youAreOwedByList.map (fun b => b.amount)).foldl dadd 0 ∧
    (getUserBalancesFp st user).youOwe =
      ((getUserBalancesFp st user).youOweList.map (fun b => b.amount)).sum ∧
    (getUserBalancesFp st user).youOwe =
      ((getUserBalancesFp st user).youOweList.map (fun b => b.amount)).foldl dadd 0 ∧
    0 ≤ (getUserBalancesFp st user).youAreOwed ∧
    0 ≤ (getUserBalancesFp st user).youOwe ∧
    (getUserBalancesFp st user).totalBalance =
      dsub (getUserBalancesFp st user).youAreOwed (getUserBalancesFp st user).youOwe ∧
    (getUserBalancesFp st user).totalBalance =
      (getUserBalancesFp st user).youAreOwed - (getUserBalancesFp st user).youOwe ∧
    (getUserBalancesFp st user).totalBalance =
      (((balanceByUserFp st user).filter (fun kv => decide (hundredth ≤ |kv.2|))).map
        (fun kv => kv.2)).sum := by
  have htot : (getUserBalancesFp st user).totalBalance =
      dsub (getUserBalancesFp st user).youAreOwed (getUserBalancesFp st user).youOwe := rfl
  obtain ⟨b1, b2⟩ := balanceByUserFp_exact st user hx
  have hvol : st.volume ≤ 2 ^ 53 := hx.2.2
  obtain ⟨l1, l2⟩ := getUserBalances_lists st user
  obtain ⟨s1, s2, s3, s4, s5, s6⟩ := getUserBalances_sums_exact st user
  obtain ⟨a1, a2⟩ := sorted_amounts_exact st _ _ b2 isOwedEntry
  obtain ⟨o1, o2⟩ := sorted_amounts_exact st _ _ b2 isOweEntry
  rw [← l1] at a1 a2
  rw [← l2] at o1 o2
  refine ⟨?_, ?_, ?_, ?_, ?_, ?_, htot, ?_, ?_⟩
  · rw [getUserBalancesFp_exact st user hx]; exact s1
  · rw [getUserBalancesFp_exact st user hx, foldl_dadd_exact _ a1 (le_trans a2 hvol)]
    exact s1
  · rw [getUserBalancesFp_exact st user hx]; exact s2
  · rw [getUserBalancesFp_exact st user hx, foldl_dadd_exact _ o1 (le_trans o2 hvol)]
    exact s2
  · rw [getUserBalancesFp_exact st user hx]; exact s3
  · rw [getUserBalancesFp_exact st user hx]; exact s4
  · rw [getUserBalancesFp_exact st user hx]; exact s5
  · rw [getUserBalancesFp_exact st user hx, b1, s6]
    congr 1
    congr 1
    apply List.filter_congr
    intro kv hkv
    have hint := b2.1 kv hkv
    have := abs_lt_hundredth_iff kv.2 hint
    by_cases h : 1 / 100 ≤ |kv.2|
    · have h' : hundredth ≤ |kv.2| := not_lt.mp (fun hc => not_lt.mpr h (this.mp hc))
      rw [decide_eq_true h, decide_eq_true h']
    · have h' : ¬ hundredth ≤ |kv.2| := fun hc => not_lt.mpr hc (this.mpr (not_le.mp h))
      rw [decide_eq_false h, decide_eq_false h']

theorem dashboard_totals_when_exact_witness :
    dinnerStore.exactSums ∧ (getUserBalancesFp dinnerStore 1).youOwe = 10 ∧
    (getUserBalancesFp dinnerStore 1).youOwe =
      ((getUserBalancesFp dinnerStore 1).youOweList.map (fun b => b.amount)).sum :=
  ⟨by decide!, by decide!, (dashboard_totals_when_exact dinnerStore 1 (by decide!)).2.2.1⟩

/-! ## `createSettlement` on doubles -/

/-- The checks of `createSettlement` on doubles in the sample stores. -/
theorem settlement_fp_examples :
    settlementNetFp squareStore 1 2 = 1 / 9007199254740992 ∧
    settlementNetFp squareStore 2 1 = 0 ∧
    createSettlementError squareStore 1 cent = none ∧
    createSettlementError squareStore 1 cent.reversed =
      some "No outstanding balance to settle" ∧
    createSettlementError dinnerStore 1 nanPayment = none ∧
    createSettlementError dinnerStore 1 tenPayment = none := by
  decide!

theorem netFromExpensesFp_exact (payer receiver : Id) (l : List Expense)
    (hint : ∀ e ∈ l, ∀ s ∈ e.splits, s.amount.den = 1)
    (hvol : (l.map Expense.volume).sum ≤ 2 ^ 53) :
    netFromExpensesFp payer receiver l = netFromExpenses payer receiver l ∧
      (∃ n : ℤ, netFromExpenses payer receiver l = n) ∧
      |netFromExpenses payer receiver l| ≤ (l.map Expense.volume).sum := by
  unfold netFromExpensesFp netFromExpenses
  have h := foldl_exact
    (fun net exp =>
      if exp.paidByUserId = payer then
        match findUnpaidSplit exp.splits receiver with
        | some split => dadd net split.amount
        | none => net
      else if exp.paidByUserId = receiver then
        match findUnpaidSplit exp.splits payer with
        | some split => dsub net split.amount
        | none => net
      else net)
    (fun net exp =>
      if exp.paidByUserId = payer then
        match findUnpaidSplit exp.splits receiver with
        | some split => net + split.amount
        | none => net
      else if exp.paidByUserId = receiver then
        match findUnpaidSplit exp.splits payer with
        | some split => net - split.amount
        | none => net
      else net)
    Expense.volume l (fun e _ => e.volume_nonneg) ?_ 0 ⟨0, by simp⟩
    (by rw [abs_zero, zero_add]; exact hvol)
  · rw [abs_zero, zero_add] at h
    exact h
  · intro e he acc hacc hbound
    have key : ∀ (uid : Id) (split : Split), findUnpaidSplit e.splits uid = some split →
        (∃ m : ℤ, split.amount = m) ∧ |acc| + |split.amount| ≤ 2 ^ 53 ∧
          |split.amount| ≤ e.volume := by
      intro uid split hf
      have hm := findUnpaidSplit_mem _ _ _ hf
      have hv := abs_amount_le_volume e split hm
      exact ⟨exists_int_of_den _ (hint e he split hm), by linarith, hv⟩
    dsimp only
    by_cases hp : e.paidByUserId = payer
    · rw [if_pos hp, if_pos hp]
      cases hf : findUnpaidSplit e.splits receiver with
      | none => exact ⟨rfl, hacc, by linarith [e.volume_nonneg]⟩
      | some split =>
        obtain ⟨k1, k2, k3⟩ := key _ _ hf
        dsimp only
        rw [dadd_exact acc split.amount hacc k1 k2]
        obtain ⟨n, hn⟩ := hacc
        obtain ⟨m, hm⟩ := k1
        refine ⟨rfl, ⟨n + m, ?_⟩, le_trans (abs_add _ _) (by linarith)⟩
        rw [hn, hm, Int.cast_add]
    · rw [if_neg hp, if_neg hp]
      by_cases hr : e.paidByUserId = receiver
      · rw [if_pos hr, if_pos hr]
        cases hf : findUnpaidSplit e.splits payer with
        | none => exact ⟨rfl, hacc, by linarith [e.volume_nonneg]⟩
        | some split =>
          obtain ⟨k1, k2, k3⟩ := key _ _ hf
          dsimp only
          rw [dsub_exact acc split.amount hacc k1 k2]
          obtain ⟨n, hn⟩ := hacc
          obtain ⟨m, hm⟩ := k1
          refine ⟨rfl, ⟨n - m, ?_⟩, le_trans (abs_sub _ _) (by linarith)⟩
          rw [hn, hm, Int.cast_sub]
      · rw [if_neg hr, if_neg hr]
        exact ⟨rfl, hacc, by linarith [e.volume_nonneg]⟩

theorem applyPriorSettlementsFp_exact (payer : Id) (b : ℚ) (l : List Settlement)
    (hint : ∀ s ∈ l, s.amount.den = 1) (hb : ∃ n : ℤ, b = n)
    (hvol : |b| + (l.map Settlement.volume).sum ≤ 2 ^ 53) :
    applyPriorSettlementsFp payer b l = applyPriorSettlements payer b l := by
  unfold applyPriorSettlementsFp applyPriorSettlements
  refine (foldl_exact _ _ Settlement.volume l (fun _ _ => abs_nonneg _) ?_ b hb hvol).1
  intro s hs acc hacc hbound
  have k1 := exists_int_of_den _ (hint s hs)
  unfold Settlement.volume at hbound ⊢
  obtain ⟨n, hn⟩ := hacc
  obtain ⟨m, hm⟩ := k1
  by_cases hp : s.paidByUserId = payer
  · rw [if_pos hp, if_pos hp, dsub_exact acc s.amount ⟨n, hn⟩ ⟨m, hm⟩ hbound]
    refine ⟨rfl, ⟨n - m, ?_⟩, abs_sub _ _⟩
    rw [hn, hm, Int.cast_sub]
  · rw [if_neg hp, if_neg hp, dadd_exact acc s.amount ⟨n, hn⟩ ⟨m, hm⟩ hbound]
    refine ⟨rfl, ⟨n + m, ?_⟩, abs_add _ _⟩
    rw [hn, hm, Int.cast_add]

/-- In a store whose sums are exact, the net of `createSettlement` on doubles is the net
of exact arithmetic. -/
theorem settlementNetFp_exact (st : Store) (payer receiver : Id) (h : payer ≠ receiver)
    (hx : st.exactSums) :
    settlementNetFp st payer receiver = settlementNet st payer receiver := by
  obtain ⟨x1, x2, x3⟩ := hx
  unfold Store.volume at x3
  have n3 : 0 ≤ (st.settlements.map Settlement.volume).sum :=
    sum_map_nonneg _ _ (fun s _ => abs_nonneg _)
  have v1 : ((st.expensesPaidBy payer ++ st.expensesPaidBy receiver).map Expense.volume).sum ≤
      (st.expenses.map Expense.volume).sum := by
    unfold Store.expensesPaidBy
    apply sum_two_filters_le _ _ _ _ (fun e _ => e.volume_nonneg)
    intro e _ hpq
    simp only [Bool.and_eq_true, beq_iff_eq] at hpq
    exact h (hpq.1.1.symm.trans hpq.2.1)
  have v2 : ((priorSettlements st payer receiver).map Settlement.volume).sum ≤
      (st.settlements.map Settlement.volume).sum := by
    unfold priorSettlements Store.settlementsPaidBy
    rw [List.filter_filter, List.filter_filter]
    apply sum_two_filters_le _ _ _ _ (fun s _ => abs_nonneg _)
    intro s _ hpq
    simp only [Bool.and_eq_true, beq_iff_eq] at hpq
    exact h (hpq.1.2.1.symm.trans hpq.2.2.1)
  have m1 : ∀ e ∈ st.expensesPaidBy payer ++ st.expensesPaidBy receiver, e ∈ st.expenses := by
    intro e he
    unfold Store.expensesPaidBy at he
    rcases List.mem_append.mp he with h' | h' <;> exact (List.mem_filter.mp h').1
  have m2 : ∀ s ∈ priorSettlements st payer receiver, s ∈ st.settlements := by
    intro s hs
    unfold priorSettlements Store.settlementsPaidBy at hs
    rcases List.mem_append.mp hs with h' | h' <;>
      exact (List.mem_filter.mp (List.mem_filter.mp h').1).1
  obtain ⟨e1, e2, e3⟩ := netFromExpensesFp_exact payer receiver
    (st.expensesPaidBy payer ++ st.expensesPaidBy receiver)
    (fun e he => x1 e (m1 e he)) (by linarith)
  have s1 := applyPriorSettlementsFp_exact payer _ (priorSettlements st payer receiver)
    (fun s hs => x2 s (m2 s hs)) e2 (by linarith)
  unfold settlementNetFp settlementNet
  dsimp only
  rw [e1, s1]

theorem settlementNetFp_swap (st : Store) (p r : Id) (h : p ≠ r) (hx : st.exactSums) :
    settlementNetFp st r p = - settlementNetFp st p r := by
  rw [settlementNetFp_exact st r p (Ne.symm h) hx, settlementNetFp_exact st p r h hx]
  exact settlementNet_swap st p r h

/-- C35 as stated fails on doubles: after user 1 paid 0.1, 0.2 and 0.3 for user 2 and
user 2 paid 0.6 for user 1, each admitted by `createExpense`, the net with payer 1 and
receiver 2 is 2^-53 and a draft of 0.01 reaches the insert, while the net with payer 2
and receiver 1 is 0 and the same amount is refused. -/
theorem settlement_direction_rounds :
    (createExpense (createExpense (createExpense (createExpense emptyStore 1
      (shareArgs 1 2 tenth)).store 1 (shareArgs 1 2 fifth)).store 1
      (shareArgs 1 2 threeTenths)).store 2 (shareArgs 2 1 sixTenths)).store = squareStore ∧
    settlementNetFp squareStore 1 2 = 1 / 9007199254740992 ∧
    settlementNetFp squareStore 2 1 = 0 ∧
    createSettlementError squareStore 1 cent = none ∧
    createSettlementError squareStore 1 cent.reversed =
      some "No outstanding balance to settle" ∧
    ¬ (createSettlementError squareStore 1 cent = none ↔
      createSettlementError squareStore 1 cent.reversed = none) := by
  decide!

/-- C35 (amended): in a store whose sums are exact in doubles, for an ungrouped draft
between distinct users with the caller one of them, the net that `createSettlement`
computes in doubles for payer `r` and receiver `p` is minus the net for payer `p` and
receiver `r`, both drafts meet the same verdict (the same error, or none), and so the one
is admitted if and only if the other is. -/
theorem settlement_direction_free_when_exact (st : Store) (caller : Id)
    (args : SettlementDraft) (hg : args.groupId = none)
    (hne : args.paidByUserId ≠ args.receivedByUserId)
    (hc : caller = args.paidByUserId ∨ caller = args.receivedByUserId)
    (hx : st.exactSums) :
    settlementNetFp st args.receivedByUserId args.paidByUserId =
      - settlementNetFp st args.paidByUserId args.receivedByUserId ∧
    createSettlementError st caller args.reversed = createSettlementError st caller args ∧
    (createSettlementError st caller args = none ↔
      createSettlementError st caller args.reversed = none) := by
  have hswap := settlementNetFp_swap st args.paidByUserId args.receivedByUserId hne hx
  have hres : createSettlementError st caller args.reversed =
      createSettlementError st caller args := by
    have hout : outstandingCheckFp st args.reversed = outstandingCheckFp st args := by
      unfold outstandingCheckFp
      show (if (!args.groupId.isSome) = true then
          (if |settlementNetFp st args.receivedByUserId args.paidByUserId| ≤ 0 then _
            else if args.amount.gt (.num (dadd
              |settlementNetFp st args.receivedByUserId args.paidByUserId| hundredth)) = true
              then _ else _)
          else _) = _
      rw [hswap, abs_neg]
    have hgrp : draftGroupCheck st args.reversed = draftGroupCheck st args := by
      unfold draftGroupCheck
      have : args.reversed.groupId = none := hg
      rw [this, hg]
    unfold createSettlementError
    rw [hout, hgrp]
    show (if args.amount.le (.num 0) = true then _
      else if args.receivedByUserId = args.paidByUserId then _
      else if caller ≠ args.receivedByUserId ∧ caller ≠ args.paidByUserId then _
      else _) = _
    have c1 : ¬ (caller ≠ args.paidByUserId ∧ caller ≠ args.receivedByUserId) := by
      rintro ⟨h1, h2⟩
      rcases hc with h | h
      · exact h1 h
      · exact h2 h
    have c2 : ¬ (caller ≠ args.receivedByUserId ∧ caller ≠ args.paidByUserId) :=
      fun h => c1 ⟨h.2, h.1⟩
    rw [if_neg (Ne.symm hne), if_neg c2, if_neg hne, if_neg c1]
  exact ⟨hswap, hres, by rw [hres]⟩

theorem settlement_direction_free_when_exact_witness :
    dinnerStore.exactSums ∧
    createSettlementError dinnerStore 1 tenPayment = none ∧
    createSettlementError dinnerStore 1 tenPayment.reversed = none ∧
    createSettlementError dinnerStore 1 tenPayment.reversed =
      createSettlementError dinnerStore 1 tenPayment :=
  ⟨by decide!, by decide!, by decide!,
    (settlement_direction_free_when_exact dinnerStore 1 tenPayment rfl (by decide)
      (Or.inl rfl) (by decide!)).2.1⟩

/-- What the basic checks of `createSettlement` do on doubles: an amount that compares
`<= 0`, equal parties and a caller who is neither party are refused, and a draft that
reaches the insert has an amount that does not compare `<= 0`, distinct parties and the
caller among them. -/
theorem createSettlementError_basic (st : Store) (caller : Id) (args : SettlementDraft) :
    (args.amount.le (.num 0) = true ∨ args.paidByUserId = args.receivedByUserId ∨
        (caller ≠ args.paidByUserId ∧ caller ≠ args.receivedByUserId) →
      ∃ msg, createSettlementError st caller args = some msg) ∧
    (createSettlementError st caller args = none →
      args.amount.le (.num 0) = false ∧ args.paidByUserId ≠ args.receivedByUserId ∧
        (caller = args.paidByUserId ∨ caller = args.receivedByUserId)) := by
  unfold createSettlementError
  by_cases h1 : args.amount.le (.num 0) = true
  · rw [if_pos h1]
    exact ⟨fun _ => ⟨_, rfl⟩, fun h => by simp at h⟩
  · rw [if_neg h1]
    by_cases h2 : args.paidByUserId = args.receivedByUserId
    · rw [if_pos h2]
      exact ⟨fun _ => ⟨_, rfl⟩, fun h => by simp at h⟩
    · rw [if_neg h2]
      by_cases h3 : caller ≠ args.paidByUserId ∧ caller ≠ args.receivedByUserId
      · rw [if_pos h3]
        exact ⟨fun _ => ⟨_, rfl⟩, fun h => by simp at h⟩
      · rw [if_neg h3]
        refine ⟨fun h => ?_, fun _ => ⟨by simpa using h1, h2, ?_⟩⟩
        · rcases h with h | h | h
          · exact absurd h h1
          · exact absurd h h2
          · exact absurd h h3
        · by_contra hcon
          push_neg at hcon
          exact h3 hcon

/-- C28: on the store where user 1 owes user 2 the amount 10, the draft of user 1 with
payer 1, receiver 2 and the amount NaN passes every check of `createSettlement`, which
reaches the insert, although NaN is not greater than 0: neither `amount <= 0` nor
`amount > availableToSettle + 0.01` holds of NaN. -/
theorem createSettlement_admits_nan :
    nanPayment.amount = .nan ∧
    nanPayment.amount.le (.num 0) = false ∧
    nanPayment.amount.gt (.num 0) = false ∧
    settlementNetFp dinnerStore 1 2 = -10 ∧
    outstandingCheckFp dinnerStore nanPayment = none ∧
    createSettlementError dinnerStore 1 nanPayment = none := by
  decide!

/-! ## `createExpense` on doubles -/

/-- The checks of `createExpense` on doubles on sample drafts. -/
theorem expense_fp_examples :
    createExpenseError emptyStore 1 nanDraft = none ∧
    createExpenseError emptyStore 1 shortArgs.toDraft =
      some "Split amounts must add up to the total expense amount" ∧
    createExpenseError emptyStore 1 largeArgs.toDraft = none ∧
    createExpenseError emptyStore 2 dinnerArgs.toDraft = none ∧
    totalSplitAmountFp shortArgs.toDraft.splits = .num (5044031582654955 / 36028797018963968) ∧
    ((totalSplitAmountFp shortArgs.toDraft.splits).sub shortArgs.toDraft.amount).abs =
      .num (45035996273705 / 4503599627370496) := by
  decide!

theorem JsNumber.add_num_ne_nan (a : JsNumber) (x : ℚ) (h : a ≠ .nan) :
    a.add (.num x) ≠ .nan := by
  cases a with
  | nan => exact absurd rfl h
  | posInf => simp [JsNumber.add]
  | negInf => simp [JsNumber.add]
  | num v =>
    show JsNumber.ofRounded (dadd v x) ≠ .nan
    unfold JsNumber.ofRounded
    split_ifs <;> simp

theorem totalSplitAmountFp_ne_nan (splits : List Split) (acc : JsNumber) (h : acc ≠ .nan) :
    (splits.map (fun s => (⟨s.userId, .num s.amount, s.paid⟩ : SplitDraft))).foldl
      (fun sum split => sum.add split.amount) acc ≠ .nan := by
  induction splits generalizing acc with
  | nil => exact h
  | cons s rest ih =>
    rw [List.map_cons, List.foldl_cons]
    exact ih _ (JsNumber.add_num_ne_nan acc s.amount h)

theorem JsNumber.abs_ne_nan (a : JsNumber) (h : a ≠ .nan) : a.abs ≠ .nan := by
  cases a <;> simp_all [JsNumber.abs]

theorem JsNumber.gt_num_eq (a : JsNumber) (x : ℚ) (h : a ≠ .nan) :
    a.gt (.num x) = !a.le (.num x) := by
  cases a with
  | nan => exact absurd rfl h
  | posInf => rfl
  | negInf => rfl
  | num v =>
    show decide (v > x) = !decide (v ≤ x)
    by_cases hv : v ≤ x
    · rw [decide_eq_true hv, decide_eq_false (not_lt.mpr hv)]; rfl
    · rw [decide_eq_false hv, decide_eq_true (not_le.mp hv)]; rfl

/-- The difference `Math.abs(totalSplitAmount - args.amount)` of `createExpense` on
doubles, for a draft whose amounts are finite numbers. -/
theorem splitDifference_ne_nan (args : ExpenseArgs) :
    ((totalSplitAmountFp args.toDraft.splits).sub args.toDraft.amount).abs ≠ .nan := by
  apply JsNumber.abs_ne_nan
  unfold JsNumber.sub
  show ((totalSplitAmountFp args.toDraft.splits).add (.num (-args.amount))) ≠ .nan
  apply JsNumber.add_num_ne_nan
  unfold totalSplitAmountFp
  exact totalSplitAmountFp_ne_nan args.splits (.num 0) (by simp)

theorem any_toDraft (splits : List Split) (p : Id → Bool) :
    (splits.map (fun s => (⟨s.userId, .num s.amount, s.paid⟩ : SplitDraft))).any
      (fun s => p s.userId) = splits.any (fun s => p s.userId) := by
  induction splits with
  | nil => rfl
  | cons s rest ih => simp only [List.map_cons, List.any_cons, ih]

theorem draftMembershipCheck_toDraft (st : Store) (user : Id) (args : ExpenseArgs) :
    draftMembershipCheck st user args.toDraft = expenseGroupCheck st user args := by
  unfold draftMembershipCheck expenseGroupCheck
  have e1 : args.toDraft.groupId = args.groupId := rfl
  have e2 : args.toDraft.paidByUserId = args.paidByUserId := rfl
  have e3 : args.toDraft.splits =
      args.splits.map (fun s => (⟨s.userId, .num s.amount, s.paid⟩ : SplitDraft)) := rfl
  rw [e1, e2, e3]
  cases args.groupId with
  | none => rfl
  | some gid =>
    dsimp only
    cases st.getGroup gid with
    | none => rfl
    | some group =>
      dsimp only
      rw [any_toDraft args.splits
        (fun uid => !(group.members.map (fun m => m.userId)).contains uid)]

theorem createExpenseError_toDraft (st : Store) (user : Id) (args : ExpenseArgs) :
    createExpenseError st user args.toDraft =
      if args.amount ≤ 0 then some "Amount must be greater than zero"
      else if (!(["equal", "percentage", "exact"].contains args.splitType)) = true then
        some "Invalid split type"
      else if args.splits.any (fun s => decide (s.amount ≤ 0)) = true then
        some "Each split amount must be greater than zero"
      else
        match expenseGroupCheck st user args with
        | some msg => some msg
        | none =>
          if (!(args.paidByUserId == user) && !(args.splits.any (fun s => s.userId == user)))
              = true then
            some "You must be the payer or included in the splits"
          else if ((totalSplitAmountFp args.toDraft.splits).sub
              args.toDraft.amount).abs.le (.num hundredth) = true then none
          else some "Split amounts must add up to the total expense amount" := by
  unfold createExpenseError
  rw [draftMembershipCheck_toDraft, JsNumber.gt_num_eq _ _ (splitDifference_ne_nan args)]
  have h1 : args.toDraft.amount.le (.num 0) = decide (args.amount ≤ 0) := rfl
  have h2 : args.toDraft.splits.any (fun s => s.amount.le (.num 0)) =
      args.splits.any (fun s => decide (s.amount ≤ 0)) := by
    show (args.splits.map (fun s => (⟨s.userId, .num s.amount, s.paid⟩ : SplitDraft))).any
      (fun s => s.amount.le (.num 0)) = _
    induction args.splits with
    | nil => rfl
    | cons s rest ih =>
      simp only [List.map_cons, List.any_cons, ih]
      rfl
  have h3 : args.toDraft.splits.any (fun s => s.userId == user) =
      args.splits.any (fun s => s.userId == user) :=
    any_toDraft args.splits (fun uid => uid == user)
  have h4 : args.toDraft.paidByUserId = args.paidByUserId := rfl
  have h5 : args.toDraft.splitType = args.splitType := rfl
  rw [h1, h2, h3, h4, h5]
  by_cases c1 : args.amount ≤ 0
  · rw [if_pos (decide_eq_true c1), if_pos c1]
  rw [if_neg (by simpa using c1), if_neg c1]
  by_cases c2 : (!(["equal", "percentage", "exact"].contains args.splitType)) = true
  · rw [if_pos c2, if_pos c2]
  rw [if_neg c2, if_neg c2]
  by_cases c3 : args.splits.any (fun s => decide (s.amount ≤ 0)) = true
  · rw [if_pos c3, if_pos c3]
  rw [if_neg c3, if_neg c3]
  cases expenseGroupCheck st user args with
  | some msg => rfl
  | none =>
    dsimp only
    by_cases c5 : (!(args.paidByUserId == user) && !(args.splits.any (fun s => s.userId == user)))
        = true
    · rw [if_pos c5, if_pos c5]
    rw [if_neg c5, if_neg c5]
    cases ((totalSplitAmountFp args.toDraft.splits).sub args.toDraft.amount).abs.le
      (.num hundredth) <;> simp

/-- C6 as stated fails on doubles: the draft of 0.15 with the splits 0.02 and 0.12 meets
every condition of the claim, the exact sum of its split amounts lying within 0.01 of
its amount, and `createExpense` raises an error for it, because the difference it
computes in doubles is 0.010000000000000009. -/
theorem createExpense_refuses_at_tolerance :
    0 < shortArgs.amount ∧ shortArgs.splitType = "exact" ∧
    (∀ s ∈ shortArgs.splits, 0 < s.amount) ∧ shortArgs.groupId = none ∧
    shortArgs.paidByUserId = 1 ∧
    |(shortArgs.splits.map (fun s => s.amount)).sum - shortArgs.amount| ≤ 1 / 100 ∧
    |(shortArgs.splits.map (fun s => s.amount)).sum - shortArgs.amount| ≤ hundredth ∧
    ((totalSplitAmountFp shortArgs.toDraft.splits).sub shortArgs.toDraft.amount).abs =
      .num (45035996273705 / 4503599627370496) ∧
    hundredth < 45035996273705 / 4503599627370496 ∧
    createExpenseError emptyStore 1 shortArgs.toDraft =
      some "Split amounts must add up to the total expense amount" := by
  decide!

theorem createExpenseError_eq_none_iff (st : Store) (user : Id) (args : ExpenseArgs) :
    createExpenseError st user args.toDraft = none ↔
      (0 < args.amount ∧
        (args.splitType = "equal" ∨ args.splitType = "percentage" ∨ args.splitType = "exact") ∧
        (∀ s ∈ args.splits, 0 < s.amount) ∧
        (∀ gid, args.groupId = some gid →
          ∃ g, st.getGroup gid = some g ∧ (∃ m ∈ g.members, m.userId = user) ∧
            (∃ m ∈ g.members, m.userId = args.paidByUserId) ∧
            ∀ s ∈ args.splits, ∃ m ∈ g.members, m.userId = s.userId) ∧
        (args.paidByUserId = user ∨ ∃ s ∈ args.splits, s.userId = user) ∧
        ((totalSplitAmountFp args.toDraft.splits).sub args.toDraft.amount).abs.le
          (.num hundredth) = true) := by
  rw [createExpenseError_toDraft, ← expenseGroupCheck_eq_none]
  by_cases c1 : args.amount ≤ 0
  · rw [if_pos c1]
    exact ⟨fun h => by simp at h, fun h => absurd h.1 (not_lt.mpr c1)⟩
  rw [if_neg c1]
  have p1 : 0 < args.amount := not_le.mp c1
  by_cases c2 : (!(["equal", "percentage", "exact"].contains args.splitType)) = true
  · rw [if_pos c2]
    refine ⟨fun h => by simp at h, fun h => ?_⟩
    exfalso
    rcases h.2.1 with h | h | h <;> rw [h] at c2 <;> revert c2 <;> decide
  rw [if_neg c2]
  have p2 : args.splitType = "equal" ∨ args.splitType = "percentage" ∨
      args.splitType = "exact" := by
    by_contra hcon
    push_neg at hcon
    apply c2
    simp [hcon.1, hcon.2.1, hcon.2.2]
  by_cases c3 : args.splits.any (fun s => decide (s.amount ≤ 0)) = true
  · rw [if_pos c3]
    refine ⟨fun h => by simp at h, fun h => ?_⟩
    exfalso
    obtain ⟨s, hs, hle⟩ := List.any_eq_true.mp c3
    exact absurd (h.2.2.1 s hs) (not_lt.mpr (by simpa using hle))
  rw [if_neg c3]
  have p3 : ∀ s ∈ args.splits, 0 < s.amount := by
    intro s hs
    by_contra hcon
    exact c3 (List.any_eq_true.mpr ⟨s, hs, by simpa using hcon⟩)
  cases hg : expenseGroupCheck st user args with
  | some msg =>
    exact ⟨fun h => by simp at h, fun h => by simp at h⟩
  | none =>
    dsimp only
    by_cases c5 : (!(args.paidByUserId == user) && !(args.splits.any (fun s => s.userId == user)))
        = true
    · rw [if_pos c5]
      refine ⟨fun h => by simp at h, fun h => ?_⟩
      exfalso
      simp only [Bool.and_eq_true, Bool.not_eq_true', beq_eq_false_iff_ne, ne_eq,
        List.any_eq_false] at c5
      rcases h.2.2.2.2.1 with h5 | ⟨s, hs, h5⟩
      · exact c5.1 h5
      · exact c5.2 s hs (by simpa using h5)
    rw [if_neg c5]
    have p5 : args.paidByUserId = user ∨ ∃ s ∈ args.splits, s.userId = user := by
      by_contra hcon
      push_neg at hcon
      apply c5
      simp only [Bool.and_eq_true, Bool.not_eq_true', beq_eq_false_iff_ne, ne_eq,
        List.any_eq_false]
      exact ⟨hcon.1, fun s hs => by simpa using hcon.2 s hs⟩
    by_cases c6 : ((totalSplitAmountFp args.toDraft.splits).sub
        args.toDraft.amount).abs.le (.num hundredth) = true
    · rw [if_pos c6]
      exact ⟨fun _ => ⟨p1, p2, p3, rfl, p5, c6⟩, fun _ => rfl⟩
    · rw [if_neg c6]
      exact ⟨fun h => by simp at h, fun h => absurd h.2.2.2.2.2 c6⟩

/-- C6 (amended): for a draft whose amounts are finite numbers, `createExpense` reaches
the insert exactly when the amount is positive, the split type is recognised, every
split amount is positive, a given group exists and holds the caller, the payer and every
split participant, the caller is the payer or in the splits, and the difference between
the split amounts, added in doubles in the order of the list, and the amount is at most
0.01 as the handler computes it in doubles; in every other case it raises an error. -/
theorem createExpense_admits_finite_iff (st : Store) (user : Id) (args : ExpenseArgs) :
    (createExpenseError st user args.toDraft = none ↔
      (0 < args.amount ∧
        (args.splitType = "equal" ∨ args.splitType = "percentage" ∨ args.splitType = "exact") ∧
        (∀ s ∈ args.splits, 0 < s.amount) ∧
        (∀ gid, args.groupId = some gid →
          ∃ g, st.getGroup gid = some g ∧ (∃ m ∈ g.members, m.userId = user) ∧
            (∃ m ∈ g.members, m.userId = args.paidByUserId) ∧
            ∀ s ∈ args.splits, ∃ m ∈ g.members, m.userId = s.userId) ∧
        (args.paidByUserId = user ∨ ∃ s ∈ args.splits, s.userId = user) ∧
        ((totalSplitAmountFp args.toDraft.splits).sub args.toDraft.amount).abs.le
          (.num hundredth) = true)) ∧
    (createExpenseError st user args.toDraft ≠ none →
      ∃ msg, createExpenseError st user args.toDraft = some msg) :=
  ⟨createExpenseError_eq_none_iff st user args, fun h => Option.ne_none_iff_exists'.mp h⟩

theorem createExpense_admits_finite_iff_witness :
    createExpenseError emptyStore 2 dinnerArgs.toDraft = none ∧
    ∃ msg, createExpenseError emptyStore 2 zeroArgs.toDraft = some msg :=
  ⟨(createExpense_admits_finite_iff emptyStore 2 dinnerArgs).1.mpr
      ⟨by decide!, Or.inl rfl, by decide!, (fun gid h => nomatch h), Or.inl rfl, by decide!⟩,
    (createExpense_admits_finite_iff emptyStore 2 zeroArgs).2 (by decide!)⟩

theorem JsNumber.abs_le_num (x : JsNumber) (b : ℚ) (h : x.abs.le (.num b) = true) :
    ∃ d : ℚ, x.abs = .num d ∧ 0 ≤ d ∧ d ≤ b := by
  cases x with
  | nan => simp [JsNumber.abs, JsNumber.le] at h
  | posInf => simp [JsNumber.abs, JsNumber.le] at h
  | negInf => simp [JsNumber.abs, JsNumber.le] at h
  | num a =>
    refine ⟨|a|, rfl, abs_nonneg a, ?_⟩
    simpa [JsNumber.abs, JsNumber.le] using h

/-- C5 (amended): when `createExpense` admits a draft whose amounts are finite numbers,
every split amount is greater than 0, and the difference between the sum of the split
amounts and the amount, as the handler computes it in doubles (the amounts added in the
order of the list, each sum rounded), is a number between 0 and the double 0.01. -/
theorem createExpense_admitted_within_tolerance (st : Store) (user : Id) (args : ExpenseArgs)
    (h : createExpenseError st user args.toDraft = none) :
    (∀ s ∈ args.splits, 0 < s.amount) ∧
    ∃ d : ℚ, ((totalSplitAmountFp args.toDraft.splits).sub args.toDraft.amount).abs = .num d ∧
      0 ≤ d ∧ d ≤ hundredth :=
  ⟨((createExpenseError_eq_none_iff st user args).mp h).2.2.1,
    JsNumber.abs_le_num _ _ ((createExpenseError_eq_none_iff st user args).mp h).2.2.2.2.2⟩

theorem createExpense_admitted_within_tolerance_witness :
    createExpenseError emptyStore 2 dinnerArgs.toDraft = none ∧
    (∀ s ∈ dinnerArgs.splits, 0 < s.amount) ∧
    ∃ d : ℚ, ((totalSplitAmountFp dinnerArgs.toDraft.splits).sub
        dinnerArgs.toDraft.amount).abs = .num d ∧ 0 ≤ d ∧ d ≤ hundredth :=
  ⟨by decide!,
    createExpense_admitted_within_tolerance emptyStore 2 dinnerArgs (by decide!)⟩

/-- The checks of `createExpense` let NaN through: the draft of user 1 whose amount and
only split amount are NaN passes every check and reaches the insert, although the split
amount is not greater than 0 and the difference between the split sum and the amount is
NaN, not a number within 0.01: every comparison with NaN is false. -/
theorem createExpense_admits_nan :
    nanDraft.amount = .nan ∧ nanDraft.splits = [⟨2, .nan, false⟩] ∧
    createExpenseError emptyStore 1 nanDraft = none ∧
    (∀ s ∈ nanDraft.splits, s.amount.gt (.num 0) = false) ∧
    ((totalSplitAmountFp nanDraft.splits).sub nanDraft.amount).abs = .nan ∧
    ((totalSplitAmountFp nanDraft.splits).sub nanDraft.amount).abs.le (.num hundredth) =
      false := by
  decide!

/-- C5 as stated fails on doubles: the draft of 1e16 with the splits 1e16 and 1 is
admitted, because the sum of the split amounts computed in doubles is 1e16, while the
split amounts of the expense add up to 1 more than its amount, which is not within
0.01. -/
theorem createExpense_rounds_large_sum :
    createExpenseError emptyStore 1 largeArgs.toDraft = none ∧
    totalSplitAmountFp largeArgs.toDraft.splits = .num 10000000000000000 ∧
    (largeArgs.splits.map (fun s => s.amount)).sum - largeArgs.amount = 1 ∧
    ¬ |(largeArgs.splits.map (fun s => s.amount)).sum - largeArgs.amount| ≤ 1 / 100 := by
  decide!

/-- C12: `createExpense` admits a group expense paid by user 2 in which user 1 has a paid
split of 10 followed by an unpaid split of 5. For user 1, `getUserGroups` looks at the
first split of the caller, finds it paid and reports the balance 0; the 'group' branch of
`getSettlementData` looks at the first unpaid split of the caller and lists user 2 with
`netBalance` -5 and user 3 with 0, which add up to -5. -/
theorem group_scalar_differs_on_repeated_split :
    (createExpense trioStore 2 twoSharesArgs).result = .ok 10 ∧
    createExpenseError trioStore 2 twoSharesArgs.toDraft = none ∧
    twoSharesStore.groups = [trio] ∧
    twoSharesStore.expenses.map (fun e => (e.paidByUserId, e.groupId, e.splits)) =
      [(2, some 100, [⟨1, 10, true⟩, ⟨1, 5, false⟩, ⟨2, 15, true⟩])] ∧
    getUserGroups twoSharesStore 1 = [⟨trio, 100, 0⟩] ∧
    getSettlementData twoSharesStore 1 "group" 100 =
      .ok (.group ⟨100, "trio", none⟩
        [⟨2, "A", none, 0, 5, -5⟩, ⟨3, "B", none, 0, 0, 0⟩]) ∧
    ([(⟨2, "A", none, 0, 5, -5⟩ : MemberBalance), ⟨3, "B", none, 0, 0, 0⟩].map
      (fun r => r.netBalance)).sum = -5 := by
  decide!

/-! ## `getSettlementData` with `ctx.db.get` over every table -/

theorem getDoc_of_getUser (st : Store) (id : Id) (u : User) (h : st.getUser id = some u) :
    st.getDoc id = some (.user u) := by
  unfold Store.getDoc
  rw [h]

theorem getDoc_eq_none_iff (st : Store) (id : Id) :
    st.getDoc id = none ↔
      st.getUser id = none ∧ st.getGroup id = none ∧
        st.expenses.find? (fun e => e._id == id) = none ∧
        st.settlements.find? (fun s => s._id == id) = none := by
  unfold Store.getDoc
  cases st.getUser id with
  | some u => simp
  | none =>
    cases st.getGroup id with
    | some g => simp
    | none =>
      cases st.expenses.find? (fun e => e._id == id) with
      | some e => simp
      | none =>
        cases st.settlements.find? (fun s => s._id == id) with
        | some s => simp
        | none => simp

/-- Where the id names a user, the 'user' branch over every table returns what
`getSettlementData` returns, the counterpart holding the fields of the user. -/
theorem getSettlementDataDoc_user (st : Store) (me id : Id) (u : User)
    (h : st.getUser id = some u) :
    getSettlementDataDoc st me "user" id =
        .ok (.user ⟨u._id, some u.name, some u.email, u.imageUrl⟩
          (max 0 (userModeNet st me u._id)) (max 0 (-(userModeNet st me u._id)))
          (userModeNet st me u._id)) ∧
    getSettlementData st me "user" id =
        .ok (.user u (max 0 (userModeNet st me u._id)) (max 0 (-(userModeNet st me u._id)))
          (userModeNet st me u._id)) := by
  unfold getSettlementDataDoc getSettlementData
  rw [if_pos rfl, if_pos rfl, getDoc_of_getUser st id u h, h]
  exact ⟨rfl, rfl⟩

theorem getSettlementDataDoc_user_error (st : Store) (me id : Id) :
    getSettlementDataDoc st me "user" id = .error "User not found" ↔ st.getDoc id = none := by
  unfold getSettlementDataDoc
  rw [if_pos rfl]
  cases st.getDoc id with
  | none => simp
  | some d => simp

theorem getSettlementDataDoc_group_ok (st : Store) (me gid : Id) (group : Group)
    (hg : st.getDoc gid = some (.group group)) (hm : ∃ m ∈ group.members, m.userId = me) :
    getSettlementDataDoc st me "group" gid =
      .ok (.group ⟨group._id, group.name, group.description⟩
        ((groupBalances st me group).map (memberRecord st))) := by
  unfold getSettlementDataDoc
  rw [if_neg (by decide), if_pos rfl, hg]
  have : group.members.any (fun m => m.userId == me) = true := by
    simpa using hm
  dsimp only
  simp [this]

/-- C32 as stated fails in the 'user' mode of `getSettlementData`: no user has the id 100
in `hotelStore`, and `getExpensesBetweenUsers` raises 'User not found' for it, but the id
names the group `trio`, and the 'user' branch returns a result whose counterpart bears the
name of the group. -/
theorem user_mode_accepts_group_id :
    hotelStore.getUser 100 = none ∧
    getExpensesBetweenUsers hotelStore 1 100 = .error "User not found" ∧
    hotelStore.getDoc 100 = some (.group trio) ∧
    getSettlementDataDoc hotelStore 1 "user" 100 =
      .ok (.user ⟨100, some "trio", none, none⟩ 0 0 0) := by
  decide!

/-- C32 (amended): a counterparty whose user record cannot be resolved does not make the
balance reads fail: whatever the `users` table holds, `getUserBalances` and the 'group'
mode of `getSettlementData` return the same entries with the same amounts, and an entry
of a user without a record bears the name "Unknown"; `getExpensesBetweenUsers` raises
'User not found' for such a user, and the 'user' mode of `getSettlementData` raises
'User not found' exactly when the id names no document of any table. -/
theorem unresolved_counterparty (st : Store) (users : List User) (me c : Id)
    (hme : ((st.withUsers users).getUser me).isSome = true)
    (hc : (st.withUsers users).getUser c = none) :
    ((getUserBalances (st.withUsers users) me).youOweList.map OweEntry.figures =
        (getUserBalances st me).youOweList.map OweEntry.figures ∧
      (getUserBalances (st.withUsers users) me).youAreOwedByList.map OweEntry.figures =
        (getUserBalances st me).youAreOwedByList.map OweEntry.figures ∧
      (getUserBalances (st.withUsers users) me).youOwe = (getUserBalances st me).youOwe ∧
      (getUserBalances (st.withUsers users) me).youAreOwed =
        (getUserBalances st me).youAreOwed ∧
      (getUserBalances (st.withUsers users) me).totalBalance =
        (getUserBalances st me).totalBalance) ∧
    (∀ b, b ∈ (getUserBalances (st.withUsers users) me).youOweList ∨
          b ∈ (getUserBalances (st.withUsers users) me).youAreOwedByList →
        b.userId = c → b.name = "Unknown") ∧
    (∀ gid group, st.getDoc gid = some (.group group) →
      (st.withUsers users).getDoc gid = some (.group group) →
      (∃ m ∈ group.members, m.userId = me) →
      ∃ l l', getSettlementDataDoc st me "group" gid =
            .ok (.group ⟨group._id, group.name, group.description⟩ l) ∧
          getSettlementDataDoc (st.withUsers users) me "group" gid =
            .ok (.group ⟨group._id, group.name, group.description⟩ l') ∧
          l'.map MemberBalance.figures = l.map MemberBalance.figures ∧
          ∀ r ∈ l', r.userId = c → r.name = "Unknown") ∧
    getExpensesBetweenUsers (st.withUsers users) me c = .error "User not found" ∧
    (getSettlementDataDoc (st.withUsers users) me "user" c = .error "User not found" ↔
      (st.withUsers users).getDoc c = none) := by
  have hne : me ≠ c := by
    rintro rfl
    rw [hc] at hme
    simp at hme
  obtain ⟨a1, a2⟩ := getUserBalances_lists (st.withUsers users) me
  obtain ⟨b1, b2⟩ := getUserBalances_lists st me
  obtain ⟨t1, t2, t3⟩ := getUserBalances_totals (st.withUsers users) me
  obtain ⟨u1, u2, u3⟩ := getUserBalances_totals st me
  rw [balanceByUser_withUsers] at a1 a2 t1 t2
  refine ⟨⟨?_, ?_, ?_, ?_, ?_⟩, ?_, ?_, ?_, getSettlementDataDoc_user_error _ me c⟩
  · rw [a2, b2, figures_sortByAmount, figures_sortByAmount, figures_baseEntry,
      figures_baseEntry]
  · rw [a1, b1, figures_sortByAmount, figures_sortByAmount, figures_baseEntry,
      figures_baseEntry]
  · rw [t2, u2]
  · rw [t1, u1]
  · rw [t3, u3, t1, t2, u1, u2]
  · intro b hb hbc
    have key : ∀ p : Id × ℚ → Bool,
        b ∈ sortByAmount (((balanceByUser st me).filter p).map
          (baseEntry (st.withUsers users))) → b.name = "Unknown" := by
      intro p hp
      obtain ⟨kv, -, -, rfl⟩ := (mem_sorted_entries _ _ p b).mp hp
      have hk : kv.1 = c := hbc
      show ((((st.withUsers users).getUser kv.1).map (fun u => u.name)).getD "Unknown") =
        "Unknown"
      rw [hk, hc]
      rfl
    rcases hb with hb | hb
    · rw [a2] at hb
      exact key _ hb
    · rw [a1] at hb
      exact key _ hb
  · intro gid group hg hg2 hm
    refine ⟨_, _, getSettlementDataDoc_group_ok st me gid group hg hm,
      getSettlementDataDoc_group_ok (st.withUsers users) me gid group hg2 hm, ?_, ?_⟩
    · rw [groupBalances_withUsers, figures_memberRecord, figures_memberRecord]
    · intro r hr hrc
      obtain ⟨kv, -, rfl⟩ := List.mem_map.mp hr
      have hk : kv.1 = c := hrc
      show (match (st.withUsers users).getUser kv.1 with
        | some u => if u.name = "" then "Unknown" else u.name
        | none => "Unknown") = "Unknown"
      rw [hk, hc]
  · unfold getExpensesBetweenUsers
    rw [if_neg hne]
    simp only [hc]

theorem unresolved_counterparty_witness :
    ((strangerStore.withUsers strangerStore.users).getUser 1).isSome = true ∧
    (strangerStore.withUsers strangerStore.users).getUser 2 = none ∧
    (strangerStore.withUsers strangerStore.users).getDoc 2 = none ∧
    (getUserBalances strangerStore 1).youOweList = [⟨2, "Unknown", none, 10⟩] ∧
    (getSettlementDataDoc strangerStore 1 "group" 100).map SettlementResult.balances? =
      .ok (some [⟨2, "Unknown", none, 20, 0, 20⟩, ⟨3, "Unknown", none, 20, 0, 20⟩]) ∧
    getExpensesBetweenUsers (strangerStore.withUsers strangerStore.users) 1 2 =
      .error "User not found" ∧
    getSettlementDataDoc (strangerStore.withUsers strangerStore.users) 1 "user" 2 =
      .error "User not found" :=
  ⟨by decide!, by decide!, by decide!, by decide!, by decide!,
    (unresolved_counterparty strangerStore strangerStore.users 1 2 (by decide!)
      (by decide!)).2.2.2.1,
    (unresolved_counterparty strangerStore strangerStore.users 1 2 (by decide!)
      (by decide!)).2.2.2.2.mpr (by decide!)⟩

/-! ## The read handlers as effects -/

theorem Effect.bind_ok {α β : Type} (m : Effect α) (f : α → Effect β) (w w' : World) (a : α)
    (h : m w = .ok (a, w')) : (m >>= f) w = f a w' := by
  show (match m w with
    | Except.error msg => Except.error msg
    | Except.ok (a, w') => f a w') = f a w'
  rw [h]

theorem Effect.forEach_reads {α β : Type} (f : β → α → Effect β) (g : Store → β → α → β)
    (h : ∀ acc x w, f acc x w = .ok (g w.store acc x, w)) (l : List α) (acc : β) (w : World) :
    Effect.forEach f l acc w = .ok (l.foldl (g w.store) acc, w) := by
  induction l generalizing acc with
  | nil => rfl
  | cons x rest ih =>
    show (f acc x >>= fun acc' => Effect.forEach f rest acc') w = _
    rw [Effect.bind_ok _ _ w w _ (h acc x w)]
    exact ih _

theorem Effect.all_reads {α β : Type} (f : α → Effect β) (g : Store → α → β)
    (h : ∀ x w, f x w = .ok (g w.store x, w)) (l : List α) (w : World) :
    Effect.all f l w = .ok (l.map (g w.store), w) := by
  induction l with
  | nil => rfl
  | cons x rest ih =>
    show (f x >>= fun y => Effect.all f rest >>= fun ys => pure (y :: ys)) w = _
    rw [Effect.bind_ok _ _ w w _ (h x w), Effect.bind_ok _ _ w w _ ih]
    rfl

theorem classifyH_reads (acc : Totals) (entry : Id × ℚ) (w : World) :
    classifyH acc entry w = .ok (classify w.store acc entry, w) := by
  unfold classifyH classify
  by_cases h1 : |entry.2| < 1 / 100
  · simp only [if_pos h1]
    rfl
  · simp only [if_neg h1]
    rw [Effect.bind_ok _ _ w w (w.store.getUser entry.1) rfl]
    by_cases h2 : entry.2 > 0
    · simp only [if_pos h2]
      rfl
    · simp only [if_neg h2]
      rfl

theorem getUserBalancesH_run (user : Id) (w : World) :
    getUserBalancesH user w = .ok (getUserBalances w.store user, w) := by
  unfold getUserBalancesH
  rw [Effect.bind_ok _ _ w w w.store.expenses rfl, Effect.bind_ok _ _ w w w.store.settlements rfl,
    Effect.bind_ok _ _ w w _ (Effect.forEach_reads classifyH classify classifyH_reads _ _ w)]
  rfl

theorem getExpensesBetweenUsersH_run (me userId : Id) (w : World) :
    getExpensesBetweenUsersH me userId w =
      (getExpensesBetweenUsers w.store me userId).map (fun r => (r, w)) := by
  unfold getExpensesBetweenUsersH getExpensesBetweenUsers
  by_cases h : me = userId
  · rw [if_pos h, if_pos h]
    rfl
  · rw [if_neg h, if_neg h]
    rw [Effect.bind_ok _ _ w w (w.store.expensesPaidBy me) rfl,
      Effect.bind_ok _ _ w w (w.store.expensesPaidBy userId) rfl,
      Effect.bind_ok _ _ w w _ rfl,
      Effect.bind_ok _ _ w w (w.store.getUser userId) rfl]
    cases w.store.getUser userId with
    | none => rfl
    | some other => rfl

theorem getUser_id (st : Store) (k : Id) (u : User) (h : st.getUser k = some u) :
    u._id = k := by
  have := List.find?_some h
  simpa using this

theorem findMember_map_getUser (st : Store) (uid : Id) (ks : List Id) :
    findMember (ks.map st.getUser) uid = if uid ∈ ks then st.getUser uid else none := by
  unfold findMember
  induction ks with
  | nil => rfl
  | cons k rest ih =>
    rw [List.map_cons, List.findSome?_cons]
    cases hk : st.getUser k with
    | none =>
      dsimp only
      rw [ih]
      by_cases h1 : uid = k
      · subst h1
        simp [hk]
      · simp [h1]
    | some u =>
      have hid := getUser_id st k u hk
      dsimp only
      by_cases h1 : uid = k
      · subst h1
        simp [hid, hk]
      · have h2 : (u._id == uid) = false := by
          rw [hid]
          simpa using fun h => h1 h.symm
        rw [h2]
        simp only [Bool.false_eq_true, if_false]
        rw [ih]
        simp [h1]

theorem groupBranchH_run (me : Id) (group : Group) (w : World) :
    groupBranchH me group w =
      .ok (.group ⟨group._id, group.name, group.description⟩
        ((groupBalances w.store me group).map (memberRecord w.store)), w) := by
  unfold groupBranchH
  rw [Effect.bind_ok _ _ w w (w.store.expensesOfGroup group._id) rfl,
    Effect.bind_ok _ _ w w (w.store.settlementsOfGroup group._id) rfl,
    Effect.bind_ok _ _ w w _ (Effect.all_reads Db.getUser Store.getUser (fun _ _ => rfl) _ w)]
  show Except.ok (SettlementResult.group _
    ((groupBalances w.store me group).map (fun entry =>
      memberRecordOf (findMember (((groupBalances w.store me group).map Prod.fst).map
        w.store.getUser) entry.1) entry)), w) = _
  congr 3
  apply List.map_congr_left
  intro entry hentry
  rw [findMember_map_getUser, if_pos (List.mem_map_of_mem Prod.fst hentry)]
  rfl

theorem getSettlementDataH_run (me : Id) (entityType : String) (entityId : Id) (w : World) :
    getSettlementDataH me entityType entityId w =
      (getSettlementDataDoc w.store me entityType entityId).map (fun r => (r, w)) := by
  unfold getSettlementDataH getSettlementDataDoc
  by_cases h1 : entityType = "user"
  · rw [if_pos h1, if_pos h1, Effect.bind_ok _ _ w w (w.store.getDoc entityId) rfl]
    cases w.store.getDoc entityId with
    | none => rfl
    | some other => rfl
  · rw [if_neg h1, if_neg h1]
    by_cases h2 : entityType = "group"
    · rw [if_pos h2, if_pos h2, Effect.bind_ok _ _ w w (w.store.getDoc entityId) rfl]
      cases w.store.getDoc entityId with
      | none => rfl
      | some other =>
        cases other with
        | user u => rfl
        | expense e => rfl
        | settlement s => rfl
        | group group =>
          dsimp only
          by_cases h3 : (!group.members.any (fun m => m.userId == me)) = true
          · rw [if_pos h3, if_pos h3]
            rfl
          · rw [if_neg h3, if_neg h3, groupBranchH_run]
            rfl
    · rw [if_neg h2, if_neg h2]
      rfl

theorem groupSummaryH_run (user : Id) (group : Group) (w : World) :
    groupSummaryH user group w = .ok (⟨group, group._id, groupScalarBalance w.store user group⟩, w) :=
  rfl

theorem getUserGroupsH_run (user : Id) (w : World) :
    getUserGroupsH user w = .ok (getUserGroups w.store user, w) := by
  unfold getUserGroupsH
  rw [Effect.bind_ok _ _ w w w.store.groups rfl]
  exact Effect.all_reads (groupSummaryH user)
    (fun st group => ⟨group, group._id, groupScalarBalance st user group⟩)
    (groupSummaryH_run user) _ w

theorem enhanceH_run (activity : Expense) (w : World) :
    enhanceH activity w = .ok (enhance w.store activity, w) := by
  unfold enhanceH enhance
  rw [Effect.bind_ok _ _ w w (w.store.getUser activity.paidByUserId) rfl]
  cases activity.groupId with
  | none => rfl
  | some gid => rfl

theorem getRecentActivityH_run (user : Id) (w : World) :
    getRecentActivityH user w = .ok (getRecentActivity w.store user, w) := by
  unfold getRecentActivityH
  rw [Effect.bind_ok _ _ w w (w.store.expensesByDateDesc.take 50) rfl]
  exact Effect.all_reads enhanceH enhance enhanceH_run _ w

theorem getTotalSpentH_run (user : Id) (w : World) :
    getTotalSpentH user w = .ok (getTotalSpent w.store user w.now, w) :=
  rfl

/-- C29: run in two worlds that hold the same store, whatever their clocks show, the
bodies of `getUserBalances`, `getExpensesBetweenUsers`, `getSettlementData`,
`getUserGroups` and `getRecentActivity` return the same result or throw the same error,
which is the value of a function of the store, the caller and the arguments, and each
run that returns leaves its world, the store included, as it found it. -/
theorem reads_same_result_same_store (w w' : World) (h : w.store = w'.store) :
    (∀ user,
      getUserBalancesH user w = .ok (getUserBalances w.store user, w) ∧
      getUserBalancesH user w' = .ok (getUserBalances w.store user, w')) ∧
    (∀ me userId,
      getExpensesBetweenUsersH me userId w =
        (getExpensesBetweenUsers w.store me userId).map (fun r => (r, w)) ∧
      getExpensesBetweenUsersH me userId w' =
        (getExpensesBetweenUsers w.store me userId).map (fun r => (r, w'))) ∧
    (∀ me entityType entityId,
      getSettlementDataH me entityType entityId w =
        (getSettlementDataDoc w.store me entityType entityId).map (fun r => (r, w)) ∧
      getSettlementDataH me entityType entityId w' =
        (getSettlementDataDoc w.store me entityType entityId).map (fun r => (r, w'))) ∧
    (∀ user,
      getUserGroupsH user w = .ok (getUserGroups w.store user, w) ∧
      getUserGroupsH user w' = .ok (getUserGroups w.store user, w')) ∧
    (∀ user,
      getRecentActivityH user w = .ok (getRecentActivity w.store user, w) ∧
      getRecentActivityH user w' = .ok (getRecentActivity w.store user, w')) := by
  refine ⟨fun user => ⟨getUserBalancesH_run user w, ?_⟩,
    fun me userId => ⟨getExpensesBetweenUsersH_run me userId w, ?_⟩,
    fun me entityType entityId => ⟨getSettlementDataH_run me entityType entityId w, ?_⟩,
    fun user => ⟨getUserGroupsH_run user w, ?_⟩,
    fun user => ⟨getRecentActivityH_run user w, ?_⟩⟩
  · rw [h]
    exact getUserBalancesH_run user w'
  · rw [h]
    exact getExpensesBetweenUsersH_run me userId w'
  · rw [h]
    exact getSettlementDataH_run me entityType entityId w'
  · rw [h]
    exact getUserGroupsH_run user w'
  · rw [h]
    exact getRecentActivityH_run user w'

theorem reads_same_result_same_store_witness :
    (⟨hotelStore, 0⟩ : World).store = (⟨hotelStore, november2026⟩ : World).store ∧
    getSettlementDataH 1 "group" 100 ⟨hotelStore, 0⟩ =
      (getSettlementDataDoc hotelStore 1 "group" 100).map
        (fun r => (r, (⟨hotelStore, 0⟩ : World))) ∧
    getSettlementDataH 1 "group" 100 ⟨hotelStore, november2026⟩ =
      (getSettlementDataDoc hotelStore 1 "group" 100).map
        (fun r => (r, (⟨hotelStore, november2026⟩ : World))) ∧
    getSettlementDataDoc hotelStore 1 "group" 100 =
      .ok (.group ⟨100, "trio", none⟩
        [⟨2, "A", none, 20, 0, 20⟩, ⟨3, "B", none, 20, 0, 20⟩]) :=
  ⟨rfl,
    ((reads_same_result_same_store ⟨hotelStore, 0⟩ ⟨hotelStore, november2026⟩ rfl).2.2.1
      1 "group" 100).1,
    ((reads_same_result_same_store ⟨hotelStore, 0⟩ ⟨hotelStore, november2026⟩ rfl).2.2.1
      1 "group" 100).2,
    by decide!⟩

/-- The worlds of the model tell a read from the other handlers: `getTotalSpent` looks at
the clock, and on one store it returns 10 in November 2026 and 0 a year later; the
effect `ctx.db.insert` leaves another store behind. -/
theorem effects_tell_reads_apart :
    getTotalSpentH 1 ⟨marchStore, november2026⟩ = .ok (10, ⟨marchStore, november2026⟩) ∧
    getTotalSpentH 1 ⟨marchStore, november2026 + 365 * msPerDay⟩ =
      .ok (0, ⟨marchStore, november2026 + 365 * msPerDay⟩) ∧
    (Db.insertExpense (expenseDoc 2 dinnerArgs) ⟨emptyStore, 0⟩).map
        (fun r => r.2.store.expenses.length) = .ok 1 ∧
    emptyStore.expenses.length = 0 := by
  decide!

end Splitly
